import Mathlib

/-!
# comlib: framed TCP sockets, worker pool and library lifecycle

A shallow embedding of the `comlib` communication library
(`src/comlib/comlib/*.cpp`) and proofs about its framing codec, its send path,
its handle registries, its worker pool and its start/stop life cycle.

Conventions of the embedding.

* `int` values are `Int`; `DWORD` values are `Nat` reduced modulo `2 ^ 32`;
  a `char` is a `Fin 256`.
* A descriptor, an event handle or an object address is a `Nat`; the invalid
  value (`INVALID_SOCKET`, `WSA_INVALID_EVENT`, a null pointer) is `none`.
* What the platform answers to a call is an input of the embedded function
  (an environment record, or a receive function on a platform state); the
  platform calls a function makes are returned as a list of `PlatformCall`,
  in program order, and the user callbacks it invokes as a list of `Callback`.
* Mutexes are not modelled: every embedded function is one critical section,
  or a callback-free sequence of them, run to completion.
* Destructors, which free the address list and close the event handle once
  the last reference to an object is dropped, are not modelled.
-/

set_option autoImplicit false

namespace Comlib

/-! ## Basic types and constants -/

/-- One `char` of a buffer. -/
abbrev Byte := Fin 256

/-- Return code `CL_ERR_OK`. -/
abbrev CL_ERR_OK : Int := 0
/-- Return code `CL_ERR_BUF_TOO_BIG`. -/
abbrev CL_ERR_BUF_TOO_BIG : Int := -1
/-- Return code `CL_ERR_DATA_STREAM_CORRUPTED`. -/
abbrev CL_ERR_DATA_STREAM_CORRUPTED : Int := -2
/-- Return code `CL_ERR_ILLEGAL_ARG`. -/
abbrev CL_ERR_ILLEGAL_ARG : Int := -3
/-- Return code `CL_ERR_NOT_INITIALIZED`. -/
abbrev CL_ERR_NOT_INITIALIZED : Int := -4
/-- Return code `CL_ERR_SOCKET_NOT_FOUND`. -/
abbrev CL_ERR_SOCKET_NOT_FOUND : Int := -5

/-- The value of `WSAGetLastError()` / `GetLastError()` after a platform call
has reported failure. Windows error codes are positive numbers. -/
abbrev OsErr := { c : Int // 0 < c }

/-- Winsock error `WSAEWOULDBLOCK`. -/
def WSAEWOULDBLOCK : OsErr := ⟨10035, by decide⟩
/-- Winsock error `WSAECONNRESET`. -/
def WSAECONNRESET : OsErr := ⟨10054, by decide⟩
/-- Winsock error `WSAENOTSOCK`. -/
def WSAENOTSOCK : OsErr := ⟨10038, by decide⟩

/-- Network event bit `FD_READ`. -/
abbrev FD_READ : Nat := 1
/-- Network event bit `FD_ACCEPT`. -/
abbrev FD_ACCEPT : Nat := 8
/-- Network event bit `FD_CONNECT`. -/
abbrev FD_CONNECT : Nat := 16
/-- Network event bit `FD_CLOSE`. -/
abbrev FD_CLOSE : Nat := 32

/-- One entry of the linked list that `getaddrinfo` produces. -/
structure AddrInfo where
  /-- A number that identifies the address. -/
  id : Nat
  /-- Field `ai_addrlen`. -/
  ai_addrlen : Nat
  deriving DecidableEq, Repr

/-- A call made to the platform (Winsock / Win32), with the arguments and the
part of the answer that the proofs refer to. -/
inductive PlatformCall where
  /-- Call `WSAStartup(MAKEWORD(2,2), ..)`. -/
  | WSAStartup
  /-- Call `WSACleanup()`. -/
  | WSACleanup
  /-- Call `Sleep(ms)`. -/
  | Sleep (ms : Nat)
  /-- Call `WSACreateEvent()`. -/
  | WSACreateEvent
  /-- Call `getaddrinfo(..)`; `numericOnly` is the `AI_NUMERICHOST` hint. -/
  | getaddrinfo (numericOnly : Bool)
  /-- Call `socket(..)` for a candidate address; `fd` is the descriptor
  returned, `none` for `INVALID_SOCKET`. -/
  | socket (addr : AddrInfo) (fd : Option Nat)
  /-- Call `connect(fd, addr)`. -/
  | connect (fd : Option Nat) (addr : AddrInfo)
  /-- Call `bind(fd, addr)`. -/
  | bind (fd : Option Nat) (addr : AddrInfo)
  /-- Call `listen(fd, backlog)`. -/
  | listen (fd : Option Nat) (backlog : Int)
  /-- Call `accept(fd, ..)`; `accepted` is the descriptor returned. -/
  | accept (fd : Option Nat) (accepted : Option Nat)
  /-- Call `getnameinfo(..)` on the peer address of an accepted connection. -/
  | getnameinfo
  /-- Call `WSAEventSelect(fd, event, networkEvents)`; `event = none` is the
  `NULL` event object. -/
  | WSAEventSelect (fd : Option Nat) (event : Option Nat) (networkEvents : Nat)
  /-- Call `ioctlsocket(fd, FIONBIO, &0)`. -/
  | ioctlsocket (fd : Option Nat)
  /-- Call `send(fd, p, requested, 0)` that returned `accepted.length`, the
  platform having taken the bytes `accepted`. -/
  | send (fd : Option Nat) (requested : Int) (accepted : List Byte)
  /-- Call `send(fd, p, requested, 0)` that returned `SOCKET_ERROR`. -/
  | sendFailed (fd : Option Nat) (requested : Int) (e : OsErr)
  /-- Call `closesocket(fd)`. -/
  | closesocket (fd : Option Nat)
  /-- Call `WSAEnumNetworkEvents(fd, event, ..)`. -/
  | WSAEnumNetworkEvents (fd : Option Nat) (event : Option Nat)
  deriving DecidableEq, Repr

/-- A user callback invoked by a client socket object. The handle and the
opaque user argument, which are the same in every callback of one object, are
left out. -/
inductive Callback where
  /-- Callback `m_conCompletedFn(handle, err, arg)`. -/
  | conCompleted (err : Int)
  /-- Callback `m_dataRecvFn(handle, buf, len, arg)`; `buf` holds the bytes
  from the pointer passed up to the end of the vector it points into. -/
  | dataRecv (buf : List Byte) (len : Int)
  /-- Callback `m_socketClosedFn(handle, err, arg)`. -/
  | socketClosed (err : Int)
  deriving DecidableEq, Repr

/-! ## Client socket object (`socketobj.h`, `socketobj.cpp`) -/

/-- The member data of `SocketObj`. The data-received and closed callbacks
and the user argument are never null after argument validation and never
change; they are not stored. -/
structure SocketObj where
  /-- Whether `m_conCompletedFn` is non-null (asynchronous connect). -/
  m_conCompletedFn : Bool
  /-- The event handle; `none` is `WSA_INVALID_EVENT`. -/
  m_netEvent : Option Nat
  /-- The descriptor; `none` is `INVALID_SOCKET`. -/
  m_socket : Option Nat
  /-- Field `m_closeCalled`. -/
  m_closeCalled : Bool
  /-- The list owned through `m_addrInfo`; `[]` is `NULL`. -/
  m_addrInfo : List AddrInfo
  /-- The list reached from `m_crntAddrInfo`; `[]` is `NULL`. -/
  m_crntAddrInfo : List AddrInfo
  /-- Field `m_resolveAsyncCompleted`. -/
  m_resolveAsyncCompleted : Bool
  /-- Field `m_dataStreamCorrupted`. -/
  m_dataStreamCorrupted : Bool
  /-- Field `m_DataRecvBuf`. -/
  m_DataRecvBuf : List Byte
  /-- Field `m_DataRecvLen`. -/
  m_DataRecvLen : Int
  deriving DecidableEq, Repr

/-- Constant `SocketObj::PREFIX_LEN = sizeof(WORD)`. -/
abbrev PREFIX_LEN : Int := 2

/-- Constant `SocketObj::DATA_MAX_LEN = static_cast<WORD>(~0)`. -/
def DATA_MAX_LEN : Int := (~~~(0 : Int)) % 2 ^ 16

/-- Conversion `static_cast<PrefixType>(len)`: an `int` to a 16-bit `WORD`. -/
def toPrefixType (len : Int) : Nat := (len % 2 ^ 16).toNat

/-- The two bytes that `htons(v)` leaves in memory: high byte first. -/
def htons (v : Nat) : List Byte :=
  [⟨(v / 256) % 256, Nat.mod_lt _ (by decide)⟩, ⟨v % 256, Nat.mod_lt _ (by decide)⟩]

/-- The number `ntohs` reads from the first two bytes of a buffer (a missing
byte reads as 0). -/
def ntohs (buf : List Byte) : Int :=
  (((buf.getD 0 0).val * 256 + (buf.getD 1 0).val : Nat) : Int)

/-- The `k` bytes of memory at `buf + off`. Bytes past the end of the list
stand for whatever follows the caller's buffer and read as 0. -/
def memRead (buf : List Byte) (off k : Nat) : List Byte :=
  (List.range k).map (fun i => buf.getD (off + i) 0)

/-- What one `send` call does. -/
inductive SendOutcome where
  /-- The call returned `n`; the platform never reports more than was asked
  for, so `min n requested` bytes are taken. -/
  | sent (n : Nat)
  /-- The call returned `SOCKET_ERROR` and `WSAGetLastError()` is `e`. -/
  | failed (e : OsErr)
  deriving DecidableEq, Repr

/-- Result of `sendAll`: the return value, the out-parameter `bytesSent`, the
platform calls made and the outcomes not yet used. -/
structure SendAllResult where
  /-- The return value. -/
  err : Int
  /-- The out-parameter `bytesSent`. -/
  bytesSent : Int
  /-- The `send` calls made, in order. -/
  calls : List PlatformCall
  /-- The outcomes the loop did not use. -/
  rest : List SendOutcome
  deriving DecidableEq, Repr

/-- The loop of `SocketObj::sendAll`, entered with `err == CL_ERR_OK`. The
outcomes of the successive `send` calls are read from a list; a call made
after the list is used up fails with `thereafter`. -/
def sendAllLoop (fd : Option Nat) (buf : List Byte) (len : Int) (thereafter : OsErr) :
    List SendOutcome → Int → SendAllResult
  | [], bytesSent =>
    if bytesSent < len then
      ⟨thereafter.val, bytesSent, [.sendFailed fd (len - bytesSent) thereafter], []⟩
    else ⟨CL_ERR_OK, bytesSent, [], []⟩
  | o :: rest, bytesSent =>
    if bytesSent < len then
      match o with
      | .failed e => ⟨e.val, bytesSent, [.sendFailed fd (len - bytesSent) e], rest⟩
      | .sent n =>
        let sendRetVal := min n (len - bytesSent).toNat
        let r := sendAllLoop fd buf len thereafter rest (bytesSent + sendRetVal)
        { r with calls :=
            .send fd (len - bytesSent) (memRead buf bytesSent.toNat sendRetVal) :: r.calls }
    else ⟨CL_ERR_OK, bytesSent, [], o :: rest⟩

/-- Method `SocketObj::sendAll(buf, len, bytesSent)`. -/
def SocketObj.sendAll (self : SocketObj) (buf : List Byte) (len : Int)
    (outcomes : List SendOutcome) (thereafter : OsErr) : SendAllResult :=
  sendAllLoop self.m_socket buf len thereafter outcomes 0

/-- What the platform answers during one `sendData` call. -/
structure SendEnv where
  /-- Answer to `WSAEventSelect(m_socket, NULL, 0)`: `none` is success. -/
  eventSelectOff : Option OsErr
  /-- Answer to `ioctlsocket(m_socket, FIONBIO, ..)`: `none` is success. -/
  ioctl : Option OsErr
  /-- Outcomes of the successive `send` calls. -/
  sends : List SendOutcome
  /-- The error of every `send` call made after `sends` is used up. -/
  thereafter : OsErr
  /-- Answer to the closing `WSAEventSelect(m_socket, m_netEvent, ..)`. -/
  eventSelectOn : Option OsErr

/-- The error code of a platform answer: `CL_ERR_OK` on success. -/
def errOf : Option OsErr → Int
  | none => CL_ERR_OK
  | some e => e.val

/-- Method `SocketObj::SetNonBlockingMode`. -/
def SocketObj.SetNonBlockingMode (self : SocketObj) (answer : Option OsErr) :
    Int × List PlatformCall :=
  let networkEvents := FD_READ ||| FD_CLOSE
  let networkEvents :=
    if self.m_conCompletedFn then networkEvents ||| FD_CONNECT else networkEvents
  (errOf answer, [.WSAEventSelect self.m_socket self.m_netEvent networkEvents])

/-- Method `SocketObj::SetBlockingMode`. -/
def SocketObj.SetBlockingMode (self : SocketObj) (eventSelect ioctl : Option OsErr) :
    Int × List PlatformCall :=
  match eventSelect with
  | none => (errOf ioctl, [.WSAEventSelect self.m_socket none 0, .ioctlsocket self.m_socket])
  | some e => (e.val, [.WSAEventSelect self.m_socket none 0])

/-- Method `SocketObj::sendData(buf, len)`: return value, object afterwards,
platform calls made. -/
def SocketObj.sendData (self : SocketObj) (buf : List Byte) (len : Int) (env : SendEnv) :
    Int × SocketObj × List PlatformCall :=
  if self.m_dataStreamCorrupted then (CL_ERR_DATA_STREAM_CORRUPTED, self, [])
  else
    let (err, calls0) := self.SetBlockingMode env.eventSelectOff env.ioctl
    if err ≠ CL_ERR_OK then (err, self, calls0)
    else
      let pfx := htons (toPrefixType len)
      let r1 := self.sendAll pfx PREFIX_LEN env.sends env.thereafter
      let (err, self1, calls1) :=
        if r1.err = CL_ERR_OK then
          let r2 := self.sendAll buf len r1.rest env.thereafter
          if r2.err ≠ CL_ERR_OK then
            (r2.err, { self with m_dataStreamCorrupted := true }, r1.calls ++ r2.calls)
          else (r2.err, self, r1.calls ++ r2.calls)
        else if r1.bytesSent > 0 then
          (r1.err, { self with m_dataStreamCorrupted := true }, r1.calls)
        else (r1.err, self, r1.calls)
      let (setNonBlockingModeErr, calls2) := self1.SetNonBlockingMode env.eventSelectOn
      let err := if err = CL_ERR_OK then setNonBlockingModeErr else err
      (err, self1, calls0 ++ calls1 ++ calls2)

/-- The bytes the platform took in the `send` calls of a trace, in order. -/
def wireBytes : List PlatformCall → List Byte
  | [] => []
  | .send _ _ accepted :: cs => accepted ++ wireBytes cs
  | _ :: cs => wireBytes cs

/-! ### Receiving -/

/-- What one `recv` call returns. -/
inductive RecvResult where
  /-- The call returned `bs.length` (not `SOCKET_ERROR`) and stored `bs`. -/
  | bytes (bs : List Byte)
  /-- The call returned `SOCKET_ERROR` and `WSAGetLastError()` is `e`. -/
  | error (e : OsErr)
  deriving DecidableEq, Repr

/-- Call `v.resize(n)` on a `std::vector<char>`: truncate, or pad with 0. -/
def resize (v : List Byte) (n : Nat) : List Byte :=
  v.take n ++ List.replicate (n - v.length) 0

/-- The vector after `bs` has been stored at `&v[off]`. -/
def writeAt (v : List Byte) (off : Nat) (bs : List Byte) : List Byte :=
  v.take off ++ bs ++ v.drop (off + bs.length)

/-- One `recv(m_socket, &m_DataRecvBuf[m_DataRecvLen], size - m_DataRecvLen, 0)`
followed by the update of `m_DataRecvLen`; `recv` is the platform, a function
of its state `p` and of the requested size. -/
def SocketObj.recvInto {P : Type} (recv : P → Int → RecvResult × P) (self : SocketObj)
    (p : P) : SocketObj × P :=
  match recv p ((self.m_DataRecvBuf.length : Int) - self.m_DataRecvLen) with
  | (.bytes bs, p1) =>
    ({ self with
        m_DataRecvBuf := writeAt self.m_DataRecvBuf self.m_DataRecvLen.toNat bs
        m_DataRecvLen := self.m_DataRecvLen + bs.length }, p1)
  | (.error _, p1) => (self, p1)

/-- The second half of `SocketObj::onFdRead`, from the test
`m_DataRecvLen >= PREFIX_LEN` to the end of the method. -/
def SocketObj.onFdReadPayload {P : Type} (recv : P → Int → RecvResult × P) (s1 : SocketObj)
    (p1 : P) : SocketObj × P × List Callback :=
  if s1.m_DataRecvLen ≥ PREFIX_LEN then
    let prefixValue := ntohs s1.m_DataRecvBuf
    let (s2, p2) :=
      if prefixValue > 0 then
        SocketObj.recvInto recv
          { s1 with
              m_DataRecvBuf := resize s1.m_DataRecvBuf (PREFIX_LEN + prefixValue).toNat } p1
      else (s1, p1)
    if s2.m_DataRecvLen = PREFIX_LEN + prefixValue then
      let localDataRecvBuf := s2.m_DataRecvBuf
      let s3 := { s2 with m_DataRecvBuf := [], m_DataRecvLen := 0 }
      if prefixValue > 0 then
        (s3, p2, [.dataRecv (localDataRecvBuf.drop PREFIX_LEN.toNat) prefixValue])
      else (s3, p2, [])
    else (s2, p2, [])
  else (s1, p1, [])

/-- Method `SocketObj::onFdRead`: object afterwards, platform state afterwards,
callbacks invoked. -/
def SocketObj.onFdRead {P : Type} (recv : P → Int → RecvResult × P) (self : SocketObj)
    (p : P) : SocketObj × P × List Callback :=
  if self.m_socket = none then (self, p, [])
  else
    let (s1, p1) :=
      if self.m_DataRecvLen < PREFIX_LEN then
        SocketObj.recvInto recv
          { self with m_DataRecvBuf := resize self.m_DataRecvBuf PREFIX_LEN.toNat } p
      else (self, p)
    SocketObj.onFdReadPayload recv s1 p1

/-! ### A byte stream as the receiving platform -/

/-- The receive side of a connection: the bytes that have arrived and were not
read yet, and for each coming `recv` call a number that bounds how much of
them the call returns. -/
structure Wire where
  /-- The bytes not read yet, in arrival order. -/
  pending : List Byte
  /-- Entry `c` lets the next `recv` return at most `c + 1` bytes; once the
  list is used up every `recv` returns at most one byte. -/
  chunks : List Nat
  deriving DecidableEq, Repr

/-- Call `recv` on a byte stream: `WSAEWOULDBLOCK` when nothing is pending,
else a non-empty beginning of the pending bytes, at most `requested` long. -/
def Wire.recv (w : Wire) (requested : Int) : RecvResult × Wire :=
  if w.pending = [] then (.error WSAEWOULDBLOCK, { w with chunks := w.chunks.tail })
  else
    let k := min (min (w.chunks.headD 0 + 1) requested.toNat) w.pending.length
    (.bytes (w.pending.take k), { pending := w.pending.drop k, chunks := w.chunks.tail })

/-- The worker invoking `onFdRead` again and again while bytes are pending,
at most `n` times; the callbacks of all invocations, in order. -/
def readPending : Nat → SocketObj → Wire → SocketObj × Wire × List Callback
  | 0, self, w => (self, w, [])
  | n + 1, self, w =>
    if w.pending = [] then (self, w, [])
    else
      let (s1, w1, cbs1) := SocketObj.onFdRead Wire.recv self w
      let (s2, w2, cbs2) := readPending n s1 w1
      (s2, w2, cbs1 ++ cbs2)

/-- A connected socket object right after construction (synchronous connect
or accepted connection) on descriptor `fd`. -/
def SocketObj.connected (fd : Nat) (netEvent : Nat) : SocketObj :=
  { m_conCompletedFn := false, m_netEvent := some netEvent, m_socket := some fd,
    m_closeCalled := false, m_addrInfo := [], m_crntAddrInfo := [],
    m_resolveAsyncCompleted := true, m_dataStreamCorrupted := false,
    m_DataRecvBuf := [], m_DataRecvLen := 0 }

/-- An environment in which every platform call of `sendData` succeeds and the
`i`-th `send` takes at most `chunks[i] + 1` bytes. -/
def SendEnv.allOk (chunks : List Nat) : SendEnv :=
  { eventSelectOff := none, ioctl := none, sends := chunks.map (fun c => .sent (c + 1)),
    thereafter := WSAECONNRESET, eventSelectOn := none }


/-! ### Construction, connection and closing of a client socket object -/

/-- Answer of `getaddrinfo`: the value 0 and a non-empty list, or a non-zero
error code. -/
inductive GetAddrInfoResult where
  /-- The call returned 0 and the list `first :: more`. -/
  | ok (first : AddrInfo) (more : List AddrInfo)
  /-- The call returned `code`, which is not 0. -/
  | failed (code : { c : Int // c ≠ 0 })

/-- The error code of an answer that carries a value on success. -/
def errOfExcept {α : Type} : Except OsErr α → Int
  | .ok _ => CL_ERR_OK
  | .error e => e.val

/-- The three constructors of `SocketObj`: `conCompletedFn` tells whether a
connect-completed callback is given, `socket` is the accepted descriptor or
`none`. -/
def SocketObj.new (conCompletedFn : Bool) (socket : Option Nat) : SocketObj :=
  { m_conCompletedFn := conCompletedFn, m_netEvent := none, m_socket := socket,
    m_closeCalled := false, m_addrInfo := [], m_crntAddrInfo := [],
    m_resolveAsyncCompleted := true, m_dataStreamCorrupted := false,
    m_DataRecvBuf := [], m_DataRecvLen := 0 }

/-- Method `SocketObj::createNetEvent`; the answer of `WSACreateEvent` is the
new handle or the error. -/
def SocketObj.createNetEvent (self : SocketObj) (answer : Except OsErr Nat) :
    Int × SocketObj × List PlatformCall :=
  match answer with
  | .ok ev => (CL_ERR_OK, { self with m_netEvent := some ev }, [.WSACreateEvent])
  | .error e => (e.val, { self with m_netEvent := none }, [.WSACreateEvent])

/-- The `closesocket(m_socket)` call guarded by `m_socket != INVALID_SOCKET`. -/
def closeIfOpen : Option Nat → List PlatformCall
  | some fd => [.closesocket (some fd)]
  | none => []

/-- What the platform answers to one blocking connection attempt. -/
structure ConnectAttempt where
  /-- Answer of `socket(..)`: the descriptor, or the error. -/
  socket : Except OsErr Nat
  /-- Answer of `connect(..)`: `none` is success. -/
  connect : Option OsErr

/-- Method `SocketObj::doConnect` on the list `a :: rest`: return value,
object, the list `*pCrntAddrInfo` is left at, platform calls. -/
def SocketObj.doConnect (attempt : AddrInfo → ConnectAttempt) :
    SocketObj → AddrInfo → List AddrInfo → Int × SocketObj × List AddrInfo × List PlatformCall
  | self, a, [] =>
    match (attempt a).socket with
    | .ok fd =>
      (errOf (attempt a).connect, { self with m_socket := some fd }, [],
        closeIfOpen self.m_socket ++ [.socket a (some fd), .connect (some fd) a])
    | .error e =>
      (e.val, { self with m_socket := none }, [], closeIfOpen self.m_socket ++ [.socket a none])
  | self, a, b :: rest =>
    match (attempt a).socket with
    | .ok fd =>
      let calls := closeIfOpen self.m_socket ++ [.socket a (some fd), .connect (some fd) a]
      if errOf (attempt a).connect ≠ CL_ERR_OK then
        let r := SocketObj.doConnect attempt { self with m_socket := some fd } b rest
        (r.1, r.2.1, r.2.2.1, calls ++ r.2.2.2)
      else (errOf (attempt a).connect, { self with m_socket := some fd }, b :: rest, calls)
    | .error e =>
      let calls := closeIfOpen self.m_socket ++ [.socket a none]
      if e.val ≠ CL_ERR_OK then
        let r := SocketObj.doConnect attempt { self with m_socket := none } b rest
        (r.1, r.2.1, r.2.2.1, calls ++ r.2.2.2)
      else (e.val, { self with m_socket := none }, b :: rest, calls)

/-- What the platform answers to one non-blocking connection attempt. -/
structure AsyncAttempt where
  /-- Answer of `socket(..)`. -/
  socket : Except OsErr Nat
  /-- Answer of the `WSAEventSelect` call of `SetNonBlockingMode`. -/
  eventSelect : Option OsErr
  /-- Answer of `connect(..)`: `none` is the return value 0, `some e` is
  `SOCKET_ERROR` with `WSAGetLastError() = e`. -/
  connect : Option OsErr

/-- One pass through the body of the loop of `SocketObj::doConnectAsync`, for
the address `a`: the value of `err` and the object after it, platform calls. -/
def SocketObj.connectAsyncOnce (at_ : AsyncAttempt) (self : SocketObj) (a : AddrInfo) :
    Int × SocketObj × List PlatformCall :=
  match at_.socket with
  | .ok fd =>
    let s1 := { self with m_socket := some fd }
    let (err, calls) := s1.SetNonBlockingMode at_.eventSelect
    if err = CL_ERR_OK then
      match at_.connect with
      | none => (CL_ERR_OK, s1, closeIfOpen self.m_socket ++ [.socket a (some fd)] ++ calls
          ++ [.connect (some fd) a])
      | some e =>
        (if e ≠ WSAEWOULDBLOCK then e.val else CL_ERR_OK, s1,
          closeIfOpen self.m_socket ++ [.socket a (some fd)] ++ calls ++ [.connect (some fd) a])
    else (err, s1, closeIfOpen self.m_socket ++ [.socket a (some fd)] ++ calls)
  | .error e =>
    (e.val, { self with m_socket := none }, closeIfOpen self.m_socket ++ [.socket a none])

/-- Method `SocketObj::doConnectAsync(&m_crntAddrInfo)` on the list
`a :: rest`; `m_crntAddrInfo` is left at the entry after the last one tried. -/
def SocketObj.doConnectAsync (attempt : AddrInfo → AsyncAttempt) :
    SocketObj → AddrInfo → List AddrInfo → Int × SocketObj × List PlatformCall
  | self, a, [] =>
    let r := SocketObj.connectAsyncOnce (attempt a) self a
    (r.1, { r.2.1 with m_crntAddrInfo := [] }, r.2.2)
  | self, a, b :: rest =>
    let r := SocketObj.connectAsyncOnce (attempt a) self a
    if r.1 ≠ CL_ERR_OK then
      let r2 := SocketObj.doConnectAsync attempt r.2.1 b rest
      (r2.1, r2.2.1, r.2.2 ++ r2.2.2)
    else (r.1, { r.2.1 with m_crntAddrInfo := b :: rest }, r.2.2)

/-- What the resolver thread of an asynchronous socket finds, and what the
platform answers to the connection attempts that follow. -/
structure ResolverEnv where
  /-- Answer of `getaddrinfo`. -/
  result : GetAddrInfoResult
  /-- Answers to the connection attempts, by address. -/
  attempt : AddrInfo → AsyncAttempt

/-- Method `SocketObj::onHostAddrResolved`, run by the resolver thread with
the answer of `resolveHostAddr`. -/
def SocketObj.onHostAddrResolved (self : SocketObj) (env : ResolverEnv) :
    SocketObj × List PlatformCall × List Callback :=
  match env.result with
  | .ok first more =>
    let s1 := { self with m_addrInfo := first :: more }
    if ¬ s1.m_closeCalled then
      let r := SocketObj.doConnectAsync env.attempt { s1 with m_crntAddrInfo := first :: more }
        first more
      ({ r.2.1 with m_resolveAsyncCompleted := true }, r.2.2,
        if r.1 ≠ CL_ERR_OK then [.conCompleted r.1] else [])
    else ({ s1 with m_resolveAsyncCompleted := true }, [], [])
  | .failed code =>
    ({ self with m_addrInfo := [], m_resolveAsyncCompleted := true }, [],
      [.conCompleted code.val])

/-- Method `SocketObj::close`. When the resolver thread has not completed, the
caller waits for it: the thread then runs `onHostAddrResolved`, with
`m_closeCalled` already set, before `close` goes on. -/
def SocketObj.close (self : SocketObj) (resolver : ResolverEnv) :
    SocketObj × List PlatformCall × List Callback :=
  let s1 := { self with m_closeCalled := true }
  let (s2, calls, cbs) :=
    if s1.m_resolveAsyncCompleted then (s1, [], []) else s1.onHostAddrResolved resolver
  ({ s2 with m_socket := none }, calls ++ closeIfOpen s2.m_socket, cbs)

/-- What the platform answers while a client socket object is constructed. -/
structure CreateEnv where
  /-- The address of the object that `new SocketObj` returns; it is the
  handle of the socket. -/
  addr : Nat
  /-- Answer of `WSACreateEvent`. -/
  createEvent : Except OsErr Nat
  /-- Answer of `getaddrinfo` (synchronous connect). -/
  resolve : GetAddrInfoResult
  /-- Answers to the blocking connection attempts, by address. -/
  attempt : AddrInfo → ConnectAttempt
  /-- Answer of the `WSAEventSelect` call of `SetNonBlockingMode`. -/
  eventSelect : Option OsErr
  /-- What the resolver thread finds, for a call that has to wait for it
  (closing an asynchronous socket whose registration failed). -/
  resolver : ResolverEnv

/-- Method `SocketObj::construct`. -/
def SocketObj.construct (self : SocketObj) (env : CreateEnv) :
    Int × SocketObj × List PlatformCall :=
  let (err, s1, calls1) := self.createNetEvent env.createEvent
  if err = CL_ERR_OK then
    match env.resolve with
    | .ok first more =>
      let r := SocketObj.doConnect env.attempt s1 first more
      if r.1 = CL_ERR_OK then
        let (err3, calls3) := r.2.1.SetNonBlockingMode env.eventSelect
        if err3 ≠ CL_ERR_OK then
          (err3, { r.2.1 with m_socket := none },
            calls1 ++ [.getaddrinfo false] ++ r.2.2.2 ++ calls3 ++ closeIfOpen r.2.1.m_socket)
        else (err3, r.2.1, calls1 ++ [.getaddrinfo false] ++ r.2.2.2 ++ calls3)
      else
        (r.1, { r.2.1 with m_socket := none },
          calls1 ++ [.getaddrinfo false] ++ r.2.2.2 ++ closeIfOpen r.2.1.m_socket)
    | .failed code =>
      (code.val, { s1 with m_socket := none },
        calls1 ++ [.getaddrinfo false] ++ closeIfOpen s1.m_socket)
  else (err, { s1 with m_socket := none }, calls1 ++ closeIfOpen s1.m_socket)

/-- Method `SocketObj::constructAsync`; the resolver thread it starts runs
`onHostAddrResolved` later. -/
def SocketObj.constructAsync (self : SocketObj) (env : CreateEnv) :
    Int × SocketObj × List PlatformCall :=
  let (err, s1, calls1) := self.createNetEvent env.createEvent
  if err = CL_ERR_OK then (err, { s1 with m_resolveAsyncCompleted := false }, calls1)
  else (err, s1, calls1)

/-- Method `SocketObj::constructAccepted`. -/
def SocketObj.constructAccepted (self : SocketObj) (env : CreateEnv) :
    Int × SocketObj × List PlatformCall :=
  let (err, s1, calls1) := self.createNetEvent env.createEvent
  if err = CL_ERR_OK then
    let (err2, calls2) := s1.SetNonBlockingMode env.eventSelect
    if err2 ≠ CL_ERR_OK then
      (err2, { s1 with m_socket := none }, calls1 ++ calls2 ++ [.closesocket s1.m_socket])
    else (err2, s1, calls1 ++ calls2)
  else
    (err, { s1 with m_socket := none }, calls1 ++ [.closesocket s1.m_socket])

/-- The factory functions `SocketObj::create`, `createAsync` and
`createAccepted`, given the result of the second construction stage: the
object is handed out only when construction succeeded. -/
def SocketObj.handOut (r : Int × SocketObj × List PlatformCall) :
    Int × Option SocketObj × List PlatformCall :=
  if r.1 = CL_ERR_OK then (r.1, some r.2.1, r.2.2) else (r.1, none, r.2.2)

/-- Function `SocketObj::create`. -/
def SocketObj.create (env : CreateEnv) : Int × Option SocketObj × List PlatformCall :=
  SocketObj.handOut ((SocketObj.new false none).construct env)

/-- Function `SocketObj::createAsync`. -/
def SocketObj.createAsync (env : CreateEnv) : Int × Option SocketObj × List PlatformCall :=
  SocketObj.handOut ((SocketObj.new true none).constructAsync env)

/-- Function `SocketObj::createAccepted`. -/
def SocketObj.createAccepted (clientSocket : Option Nat) (env : CreateEnv) :
    Int × Option SocketObj × List PlatformCall :=
  SocketObj.handOut ((SocketObj.new false clientSocket).constructAccepted env)


/-! ## Server socket object (`srvsocketobj.h`, `srvsocketobj.cpp`) -/

/-- The member data of `SrvSocketObj`, without the callbacks and the user
argument. -/
structure SrvSocketObj where
  /-- Field `m_conBacklog`. -/
  m_conBacklog : Int
  /-- The event handle; `none` is `WSA_INVALID_EVENT`. -/
  m_netEvent : Option Nat
  /-- The descriptor; `none` is `INVALID_SOCKET`. -/
  m_socket : Option Nat
  /-- Whether the buffer `m_clientAddr` is allocated. -/
  m_clientAddr : Bool
  /-- Field `m_clientAddrLen`. -/
  m_clientAddrLen : Int
  deriving DecidableEq, Repr

/-- What the platform answers while a server socket object is constructed. -/
structure SrvCreateEnv where
  /-- The address of the object that `new SrvSocketObj` returns; it is the
  handle of the server socket. -/
  addr : Nat
  /-- Answer of `WSACreateEvent`. -/
  createEvent : Except OsErr Nat
  /-- Answer of `getaddrinfo` with `AI_NUMERICHOST`. -/
  resolve : GetAddrInfoResult
  /-- Answer of `socket(..)`. -/
  socket : Except OsErr Nat
  /-- Answer of `WSAEventSelect(.., FD_ACCEPT | FD_CLOSE)`. -/
  eventSelect : Option OsErr
  /-- Answer of `bind(..)`. -/
  bind : Option OsErr
  /-- Answer of `listen(..)`. -/
  listen : Option OsErr

/-- The constructor of `SrvSocketObj`. -/
def SrvSocketObj.new (conBacklog : Int) : SrvSocketObj :=
  { m_conBacklog := conBacklog, m_netEvent := none, m_socket := none, m_clientAddr := false,
    m_clientAddrLen := 0 }

/-- The steps of `SrvSocketObj::construct` after the address is resolved:
`socket`, `WSAEventSelect`, `bind`, `listen`, each made only while `err` is
`CL_ERR_OK`. -/
def SrvSocketObj.listenOn (self : SrvSocketObj) (env : SrvCreateEnv) (a : AddrInfo) :
    Int × SrvSocketObj × List PlatformCall :=
  match env.socket with
  | .error e => (e.val, { self with m_socket := none }, [.socket a none])
  | .ok fd =>
    let s1 := { self with m_socket := some fd }
    let c1 := [PlatformCall.socket a (some fd),
      .WSAEventSelect (some fd) self.m_netEvent (FD_ACCEPT ||| FD_CLOSE)]
    if errOf env.eventSelect ≠ CL_ERR_OK then (errOf env.eventSelect, s1, c1)
    else if errOf env.bind ≠ CL_ERR_OK then (errOf env.bind, s1, c1 ++ [.bind (some fd) a])
    else
      match env.listen with
      | none =>
        (CL_ERR_OK, { s1 with m_clientAddr := true, m_clientAddrLen := a.ai_addrlen },
          c1 ++ [.bind (some fd) a, .listen (some fd) self.m_conBacklog])
      | some e => (e.val, s1, c1 ++ [.bind (some fd) a, .listen (some fd) self.m_conBacklog])

/-- Method `SrvSocketObj::construct`. -/
def SrvSocketObj.construct (self : SrvSocketObj) (env : SrvCreateEnv) :
    Int × SrvSocketObj × List PlatformCall :=
  match env.createEvent with
  | .error e => (e.val, { self with m_netEvent := none, m_socket := none },
      [.WSACreateEvent] ++ closeIfOpen self.m_socket)
  | .ok ev =>
    let s1 := { self with m_netEvent := some ev }
    match env.resolve with
    | .failed code =>
      (code.val, { s1 with m_socket := none },
        [.WSACreateEvent, .getaddrinfo true] ++ closeIfOpen s1.m_socket)
    | .ok first _ =>
      let r := s1.listenOn env first
      if r.1 ≠ CL_ERR_OK then
        (r.1, { r.2.1 with m_socket := none },
          [.WSACreateEvent, .getaddrinfo true] ++ r.2.2 ++ closeIfOpen r.2.1.m_socket)
      else (r.1, r.2.1, [.WSACreateEvent, .getaddrinfo true] ++ r.2.2)

/-- Function `SrvSocketObj::create`: the object is handed out only when
construction succeeded. -/
def SrvSocketObj.create (conBacklog : Int) (env : SrvCreateEnv) :
    Int × Option SrvSocketObj × List PlatformCall :=
  let r := (SrvSocketObj.new conBacklog).construct env
  if r.1 = CL_ERR_OK then (r.1, some r.2.1, r.2.2) else (r.1, none, r.2.2)

/-- What the platform answers during `acceptConnection`. -/
structure AcceptEnv where
  /-- Answer of `accept(..)`: the descriptor of the connection, or the error. -/
  accept : Except OsErr Nat
  /-- Answer of `getnameinfo(..)`: `none` is success. -/
  getnameinfo : Option OsErr

/-- Method `SrvSocketObj::acceptConnection`: return value, the descriptor
written to `*pAcceptedSocket`, platform calls. The caller's address buffer
and port pointer only reach `getnameinfo`. -/
def SrvSocketObj.acceptConnection (self : SrvSocketObj) (env : AcceptEnv) :
    Int × Option Nat × List PlatformCall :=
  match env.accept with
  | .ok fd =>
    match env.getnameinfo with
    | none => (CL_ERR_OK, some fd, [.accept self.m_socket (some fd), .getnameinfo])
    | some e =>
      (e.val, none,
        [.accept self.m_socket (some fd), .getnameinfo, .closesocket (some fd)])
  | .error e => (e.val, none, [.accept self.m_socket none])

/-- Method `SrvSocketObj::close`. -/
def SrvSocketObj.close (self : SrvSocketObj) : SrvSocketObj × List PlatformCall :=
  ({ self with m_socket := none }, closeIfOpen self.m_socket)


/-! ## Handle registry (`socketregistry.h`, `socketregistry.inl`) -/

/-- Call `m.find(k)` on a `std::map`: the mapped value, `none` for `end()`. -/
def mapFind {α : Type} : List (Nat × α) → Nat → Option α
  | [], _ => none
  | (k', v') :: rest, k => if k = k' then some v' else mapFind rest k

/-- Call `m.erase(m.find(k))` on a `std::map` that holds the key. -/
def mapErase {α : Type} : List (Nat × α) → Nat → List (Nat × α)
  | [], _ => []
  | (k', v') :: rest, k => if k = k' then rest else (k', v') :: mapErase rest k

/-- The entries of a `std::map`, kept as a list in key order, after a new
entry is put at its place. -/
def mapInsertSorted {α : Type} : List (Nat × α) → Nat → α → List (Nat × α)
  | [], k, v => [(k, v)]
  | (k', v') :: rest, k, v =>
    if k < k' then (k, v) :: (k', v') :: rest else (k', v') :: mapInsertSorted rest k v

/-- Call `m.insert(std::make_pair(k, v))` on a `std::map`: nothing changes
when the key is present. -/
def mapInsert {α : Type} (m : List (Nat × α)) (k : Nat) (v : α) : List (Nat × α) :=
  match mapFind m k with
  | some _ => m
  | none => mapInsertSorted m k v

/-- An assignment through a pointer kept in a `std::map`: the value mapped to
`k` becomes `v`; nothing changes when the key is absent. -/
def mapAssign {α : Type} : List (Nat × α) → Nat → α → List (Nat × α)
  | [], _, _ => []
  | (k', v') :: rest, k, v =>
    if k = k' then (k', v) :: rest else (k', v') :: mapAssign rest k v

/-- Class `SktObjTypeRegistry<SktHndType, SktObjType>`; a handle is the
address of its object. -/
structure SktObjTypeRegistry (α : Type) where
  /-- Field `m_hndToSktObjMap`, in key order. -/
  m_hndToSktObjMap : List (Nat × α)
  deriving DecidableEq, Repr

/-- Method `addSocketObj`. -/
def SktObjTypeRegistry.addSocketObj {α : Type} (self : SktObjTypeRegistry α) (sktHnd : Nat)
    (sktObj : α) : SktObjTypeRegistry α :=
  ⟨mapInsert self.m_hndToSktObjMap sktHnd sktObj⟩

/-- Method `findSocketObj`; `none` is the empty shared pointer. -/
def SktObjTypeRegistry.findSocketObj {α : Type} (self : SktObjTypeRegistry α)
    (sktHnd : Nat) : Option α :=
  mapFind self.m_hndToSktObjMap sktHnd

/-- Method `removeSocketObj`: the object returned and the registry afterwards. -/
def SktObjTypeRegistry.removeSocketObj {α : Type} (self : SktObjTypeRegistry α)
    (sktHnd : Nat) : Option α × SktObjTypeRegistry α :=
  match mapFind self.m_hndToSktObjMap sktHnd with
  | some o => (some o, ⟨mapErase self.m_hndToSktObjMap sktHnd⟩)
  | none => (none, self)

/-- Method `removeFrontSocketObj`: handle and object of the first entry, and
the registry afterwards. -/
def SktObjTypeRegistry.removeFrontSocketObj {α : Type} (self : SktObjTypeRegistry α) :
    Option (Nat × α) × SktObjTypeRegistry α :=
  match self.m_hndToSktObjMap with
  | [] => (none, self)
  | e :: rest => (some e, ⟨rest⟩)

/-! ## Worker pool (`netthreadpool.h`, `netthreadpool.cpp`) -/

/-- Modelled from the spec: the constant `WSA_MAXIMUM_WAIT_EVENTS` of the
platform headers, the cap of the wait-many primitive ("documented floor: 64",
"With `MAX = 63`"). -/
abbrev WSA_MAXIMUM_WAIT_EVENTS : Nat := 64

/-- Constant `NetThreadObj::NET_OBJ_MAX_COUNT`. -/
abbrev NET_OBJ_MAX_COUNT : Nat := WSA_MAXIMUM_WAIT_EVENTS - 1

/-- A call the pool makes on a worker object (`NetThreadObj`), or the start
of a worker's thread. -/
inductive WorkerRequest where
  /-- Call `threadObj->addNetObj(netObj)`. -/
  | addNetObj (threadObj netObj : Nat)
  /-- Call `threadObj->removeNetObj(netObj)`. -/
  | removeNetObj (threadObj netObj : Nat)
  /-- Call `threadObj->startShutdown()`. -/
  | startShutdown (threadObj : Nat)
  /-- Start of a thread that runs `NetThreadObj::run` on the worker. -/
  | run (threadObj : Nat)
  deriving DecidableEq, Repr

/-- The member data of `NetThreadPool`. A worker object and a network object
are named by their addresses. A `ThreadObjCountPair` is named by its worker:
the `DWORD` that its `count` pointer shares between `m_threads` and
`m_objToThreadMap` is kept once, in `count`. -/
structure NetThreadPool where
  /-- The workers of `m_threads`, in vector order. -/
  m_threads : List Nat
  /-- Field `m_objToThreadMap`: network object to worker, in key order. -/
  m_objToThreadMap : List (Nat × Nat)
  /-- Field `m_shuttingDownThreads`, in vector order. -/
  m_shuttingDownThreads : List Nat
  /-- The shared counters: worker to number of objects added to it. -/
  count : List (Nat × Nat)
  deriving DecidableEq, Repr

/-- The value `*pair.count` of the pair of worker `t`. -/
def NetThreadPool.getCount (self : NetThreadPool) (t : Nat) : Nat :=
  (mapFind self.count t).getD 0

/-- An assignment to `*pair.count` of the pair of worker `t`. -/
def NetThreadPool.setCount (self : NetThreadPool) (t c : Nat) : NetThreadPool :=
  { self with count :=
      match mapFind self.count t with
      | some _ => mapAssign self.count t c
      | none => self.count ++ [(t, c)] }

/-- What the platform answers during one pool call. -/
structure PoolEnv where
  /-- Answer of `isShutdown()` of each worker. -/
  isShutdown : Nat → Bool
  /-- Answer of `NetThreadObj::create`: the address of the new worker, or the
  error of its construction. -/
  create : Except OsErr Nat

/-- Method `NetThreadPool::cleanupShuttingDownThreads`. -/
def NetThreadPool.cleanupShuttingDownThreads (self : NetThreadPool) (isShutdown : Nat → Bool) :
    NetThreadPool :=
  { self with m_shuttingDownThreads := self.m_shuttingDownThreads.filter (fun t => !isShutdown t) }

/-- The part of `NetThreadPool::addNetObj` that follows the call of
`cleanupShuttingDownThreads`: return value, pool afterwards, calls made on
workers. -/
def NetThreadPool.place (p : NetThreadPool) (netObj : Nat) (create : Except OsErr Nat) :
    Int × NetThreadPool × List WorkerRequest :=
  match p.m_threads.reverse.find? (fun t => p.getCount t < NET_OBJ_MAX_COUNT) with
  | some t =>
    (CL_ERR_OK,
      { p.setCount t ((p.getCount t + 1) % 2 ^ 32) with
          m_objToThreadMap := mapInsert p.m_objToThreadMap netObj t },
      [.addNetObj t netObj])
  | none =>
    match create with
    | .ok t =>
      (CL_ERR_OK,
        { p.setCount t 1 with
            m_threads := p.m_threads ++ [t]
            m_objToThreadMap := mapInsert p.m_objToThreadMap netObj t },
        [.addNetObj t netObj, .run t])
    | .error e => (e.val, p, [])

/-- Method `NetThreadPool::addNetObj`. -/
def NetThreadPool.addNetObj (self : NetThreadPool) (netObj : Nat) (env : PoolEnv) :
    Int × NetThreadPool × List WorkerRequest :=
  (self.cleanupShuttingDownThreads env.isShutdown).place netObj env.create

/-- The part of `NetThreadPool::removeNetObj` that follows the call of
`cleanupShuttingDownThreads`: pool afterwards, calls made on workers. -/
def NetThreadPool.displace (p : NetThreadPool) (netObj : Nat) :
    NetThreadPool × List WorkerRequest :=
  match mapFind p.m_objToThreadMap netObj with
  | none => (p, [])
  | some t =>
    let p1 := p.setCount t ((p.getCount t + 2 ^ 32 - 1) % 2 ^ 32)
    if p1.getCount t ≤ 0 ∧ t ∈ p1.m_threads then
      ({ p1 with
          m_shuttingDownThreads := p1.m_shuttingDownThreads ++ [t]
          m_threads := p1.m_threads.erase t
          m_objToThreadMap := mapErase p1.m_objToThreadMap netObj },
        [.removeNetObj t netObj, .startShutdown t])
    else
      ({ p1 with m_objToThreadMap := mapErase p1.m_objToThreadMap netObj },
        [.removeNetObj t netObj])

/-- Method `NetThreadPool::removeNetObj`. -/
def NetThreadPool.removeNetObj (self : NetThreadPool) (netObj : Nat) (isShutdown : Nat → Bool) :
    NetThreadPool × List WorkerRequest :=
  (self.cleanupShuttingDownThreads isShutdown).displace netObj

/-- The clock and the workers during `NetThreadPool::waitForShutdown`. -/
structure WaitEnv where
  /-- The reading of `GetTickCount()` at the start of the call. -/
  startTick : Nat
  /-- The reading of `GetTickCount()` after the `i`-th wait, counted from 0. -/
  tickAfter : Nat → Nat
  /-- Answer of `waitForShutdown(timeout)` of worker `t`. -/
  wait : Nat → Nat → Bool

/-- The loop of `NetThreadPool::waitForShutdown` over the workers still to
visit (last of the vector first): the workers kept, in visiting order, and
`allThreadsShutdown`. -/
def waitForShutdownLoop (env : WaitEnv) : List Nat → Nat → Nat → List Nat × Bool
  | [], _, _ => ([], true)
  | t :: ts, i, timeOutInterval =>
    let done := env.wait t timeOutInterval
    let elapsedInterval := (env.tickAfter i % 2 ^ 32 + 2 ^ 32 - env.startTick % 2 ^ 32) % 2 ^ 32
    let next :=
      if elapsedInterval < timeOutInterval then timeOutInterval - elapsedInterval else 0
    let r := waitForShutdownLoop env ts (i + 1) next
    (if done then r.1 else t :: r.1, done && r.2)

/-- Method `NetThreadPool::waitForShutdown(milliseconds)`. -/
def NetThreadPool.waitForShutdown (self : NetThreadPool) (milliseconds : Nat) (env : WaitEnv) :
    Bool × NetThreadPool :=
  let r := waitForShutdownLoop env self.m_shuttingDownThreads.reverse 0 milliseconds
  (r.2, { self with m_shuttingDownThreads := r.1.reverse })


/-! ## The library (`comlib.cpp`) -/

/-- The static data of `comlib.cpp`, without the mutex and the condition
variable. -/
structure Lib where
  /-- Variable `s_startupCount`. -/
  s_startupCount : Int
  /-- Variable `s_srvSocketRegistry`. -/
  s_srvSocketRegistry : SktObjTypeRegistry SrvSocketObj
  /-- Variable `s_socketRegistry`. -/
  s_socketRegistry : SktObjTypeRegistry SocketObj
  /-- Variable `s_netThreadPool`. -/
  s_netThreadPool : NetThreadPool
  /-- Variable `s_uninitializing`. -/
  s_uninitializing : Bool
  deriving DecidableEq, Repr

/-- The library when the process starts. -/
def Lib.initial : Lib :=
  { s_startupCount := 0, s_srvSocketRegistry := ⟨[]⟩, s_socketRegistry := ⟨[]⟩,
    s_netThreadPool := ⟨[], [], [], []⟩, s_uninitializing := false }

/-- What a call of the public interface does: the value returned
(`CL_ERR_OK` for a `void` function), the library afterwards, the handle
written through the out-pointer, the platform calls, the calls on workers and
the user callbacks made meanwhile by a resolver thread the call waited for. -/
structure ApiResult where
  /-- The value returned. -/
  ret : Int
  /-- The library afterwards. -/
  lib : Lib
  /-- The handle written through the out-pointer, if one was written. -/
  out : Option Nat
  /-- The platform calls, in order. -/
  calls : List PlatformCall
  /-- The calls on workers, in order. -/
  requests : List WorkerRequest
  /-- The user callbacks made by a resolver thread the call waited for. -/
  callbacks : List Callback

/-- A call that returns `ret` at once and touches nothing. -/
def ApiResult.early (lib : Lib) (ret : Int) : ApiResult :=
  { ret := ret, lib := lib, out := none, calls := [], requests := [], callbacks := [] }

/-- Function `finishCreateSrvSocketObj`, for the object `srvSktObj` at
address `addr`; `calls` are the platform calls made so far. -/
def finishCreateSrvSocketObj (lib : Lib) (addr : Nat) (srvSktObj : SrvSocketObj)
    (penv : PoolEnv) (calls : List PlatformCall) : ApiResult :=
  let reg := lib.s_srvSocketRegistry.addSocketObj addr srvSktObj
  let r := lib.s_netThreadPool.addNetObj addr penv
  if r.1 = CL_ERR_OK then
    { ret := r.1, lib := { lib with s_srvSocketRegistry := reg, s_netThreadPool := r.2.1 },
      out := some addr, calls := calls, requests := r.2.2, callbacks := [] }
  else
    { ret := r.1,
      lib := { lib with s_srvSocketRegistry := (reg.removeSocketObj addr).2,
                        s_netThreadPool := r.2.1 },
      out := none, calls := calls ++ srvSktObj.close.2, requests := r.2.2, callbacks := [] }

/-- Function `finishCreateSocketObj`, for the object `sktObj` at address
`addr`; `calls` are the platform calls made so far. -/
def finishCreateSocketObj (lib : Lib) (addr : Nat) (sktObj : SocketObj) (penv : PoolEnv)
    (resolver : ResolverEnv) (calls : List PlatformCall) : ApiResult :=
  let reg := lib.s_socketRegistry.addSocketObj addr sktObj
  let r := lib.s_netThreadPool.addNetObj addr penv
  if r.1 = CL_ERR_OK then
    { ret := r.1, lib := { lib with s_socketRegistry := reg, s_netThreadPool := r.2.1 },
      out := some addr, calls := calls, requests := r.2.2, callbacks := [] }
  else
    { ret := r.1,
      lib := { lib with s_socketRegistry := (reg.removeSocketObj addr).2,
                        s_netThreadPool := r.2.1 },
      out := none, calls := calls ++ (sktObj.close resolver).2.1, requests := r.2.2,
      callbacks := (sktObj.close resolver).2.2 }

/-- The value an `int` variable holds after the result `x` of `++` or `--` is
stored in it: the 32-bit two's-complement value, from `-2^31` to `2^31 - 1`.
Past `INT_MAX` the C++ standard leaves the result undefined; the model takes
the wrap-around that the machine instruction produces. -/
def wrapInt32 (x : Int) : Int := (x + 2 ^ 31) % 2 ^ 32 - 2 ^ 31

/-- Constant `INT_MAX` of a 32-bit `int`. -/
abbrev INT_MAX : Int := 2147483647

/-- Function `CLStartup`, once the wait for `s_uninitializing` to be false is
over; `wsaStartupErr` is what `WSAStartup` returns if it is called. -/
def CLStartup (lib : Lib) (wsaStartupErr : Int) : ApiResult :=
  let count := wrapInt32 (lib.s_startupCount + 1)
  if count = 1 then
    if wsaStartupErr ≠ 0 then
      { ret := wsaStartupErr, lib := { lib with s_startupCount := wrapInt32 (count - 1) },
        out := none, calls := [.WSAStartup], requests := [], callbacks := [] }
    else
      { ret := CL_ERR_OK, lib := { lib with s_startupCount := count }, out := none,
        calls := [.WSAStartup], requests := [], callbacks := [] }
  else ApiResult.early { lib with s_startupCount := count } CL_ERR_OK

/-- What the platform answers during `CLCleanup`. -/
structure CleanupEnv where
  /-- Answer of `isShutdown()` of each worker during the `k`-th removal of an
  object from the pool, counted from 0. -/
  isShutdown : Nat → Nat → Bool
  /-- What the resolver thread of the socket with a given handle finds, if
  closing the socket has to wait for it. -/
  resolver : Nat → ResolverEnv
  /-- The clock and the workers during the wait for the pool. -/
  wait : WaitEnv

/-- The first loop of `CLCleanup`: `closeSrvSocketObj` on every object that
`removeFrontSocketObj` returns, until the registry is empty. `k` counts the
removals from the pool. -/
def closeAllSrvSocketObjs (env : CleanupEnv) :
    List (Nat × SrvSocketObj) → Nat → NetThreadPool →
      NetThreadPool × List PlatformCall × List WorkerRequest
  | [], _, pool => (pool, [], [])
  | (h, o) :: rest, k, pool =>
    let r := pool.removeNetObj h (env.isShutdown k)
    let r2 := closeAllSrvSocketObjs env rest (k + 1) r.1
    (r2.1, o.close.2 ++ r2.2.1, r.2 ++ r2.2.2)

/-- The second loop of `CLCleanup`: `closeSocketObj` on every object that
`removeFrontSocketObj` returns, until the registry is empty. -/
def closeAllSocketObjs (env : CleanupEnv) :
    List (Nat × SocketObj) → Nat → NetThreadPool →
      NetThreadPool × List PlatformCall × List WorkerRequest × List Callback
  | [], _, pool => (pool, [], [], [])
  | (h, o) :: rest, k, pool =>
    let r := pool.removeNetObj h (env.isShutdown k)
    let c := o.close (env.resolver h)
    let r2 := closeAllSocketObjs env rest (k + 1) r.1
    (r2.1, c.2.1 ++ r2.2.1, r.2 ++ r2.2.2.1, c.2.2 ++ r2.2.2.2)

/-- The part of `CLCleanup` that runs before the library mutex is unlocked
for the wait: the count is decremented and, when it reaches 0, both
registries are emptied and `s_uninitializing` is set. -/
def CLCleanup.beforeWait (lib : Lib) (env : CleanupEnv) : ApiResult :=
  let count := wrapInt32 (lib.s_startupCount - 1)
  if count = 0 then
    let r1 := closeAllSrvSocketObjs env lib.s_srvSocketRegistry.m_hndToSktObjMap 0
      lib.s_netThreadPool
    let r2 := closeAllSocketObjs env lib.s_socketRegistry.m_hndToSktObjMap
      lib.s_srvSocketRegistry.m_hndToSktObjMap.length r1.1
    { ret := CL_ERR_OK,
      lib := { s_startupCount := count, s_srvSocketRegistry := ⟨[]⟩, s_socketRegistry := ⟨[]⟩,
               s_netThreadPool := r2.1, s_uninitializing := true },
      out := none, calls := r1.2.1 ++ r2.2.1, requests := r1.2.2 ++ r2.2.2.1,
      callbacks := r2.2.2.2 }
  else ApiResult.early { lib with s_startupCount := count } CL_ERR_OK

/-- Constant `SHUTDOWN_TIMEOUT_INTERVAL` of `CLCleanup`, in milliseconds. -/
abbrev SHUTDOWN_TIMEOUT_INTERVAL : Nat := 10000

/-- The part of `CLCleanup` from the wait for the pool to the end, run when
the count has reached 0. -/
def CLCleanup.afterWait (lib : Lib) (env : CleanupEnv) : ApiResult :=
  let r := lib.s_netThreadPool.waitForShutdown SHUTDOWN_TIMEOUT_INTERVAL env.wait
  { ret := CL_ERR_OK, lib := { lib with s_netThreadPool := r.2, s_uninitializing := false },
    out := none, calls := [.Sleep 500, .WSACleanup], requests := [], callbacks := [] }

/-- Function `CLCleanup`, once the wait for `s_uninitializing` to be false is
over, run from its first to its last statement. -/
def CLCleanup (lib : Lib) (env : CleanupEnv) : ApiResult :=
  let r1 := CLCleanup.beforeWait lib env
  if r1.lib.s_startupCount = 0 then
    let r2 := CLCleanup.afterWait r1.lib env
    { r2 with calls := r1.calls ++ r2.calls, requests := r1.requests, callbacks := r1.callbacks }
  else r1

/-- The arguments of `CLCreateSrvSocket`; a pointer is given by whether it is
non-null, the address string by its text. -/
structure SrvSocketArgs where
  /-- Argument `ipAddr`; `none` is the null pointer. -/
  ipAddr : Option String
  /-- Argument `port`, an `unsigned short`. -/
  port : Fin 65536
  /-- Whether `conPendingFn` is non-null. -/
  conPendingFn : Bool
  /-- Whether `srvSocketClosedFn` is non-null. -/
  srvSocketClosedFn : Bool
  /-- Argument `conBacklog`. -/
  conBacklog : Int
  /-- Whether `pSrvSkt` is non-null. -/
  pSrvSkt : Bool

/-- Function `CLCreateSrvSocket`. -/
def CLCreateSrvSocket (lib : Lib) (args : SrvSocketArgs) (env : SrvCreateEnv)
    (penv : PoolEnv) : ApiResult :=
  if lib.s_startupCount ≤ 0 then ApiResult.early lib CL_ERR_NOT_INITIALIZED
  else if args.ipAddr = none ∨ args.port.val > 65535 ∨ args.conPendingFn = false ∨
      args.srvSocketClosedFn = false ∨ args.pSrvSkt = false then
    ApiResult.early lib CL_ERR_ILLEGAL_ARG
  else
    match SrvSocketObj.create args.conBacklog env with
    | (_, some srvSktObj, calls) => finishCreateSrvSocketObj lib env.addr srvSktObj penv calls
    | (err, none, calls) =>
      { ret := err, lib := lib, out := none, calls := calls, requests := [], callbacks := [] }

/-- The arguments of `CLAcceptCon` other than the server handle. -/
structure AcceptArgs where
  /-- Whether `dataRecvFn` is non-null. -/
  dataRecvFn : Bool
  /-- Whether `socketClosedFn` is non-null. -/
  socketClosedFn : Bool
  /-- Whether `pClientSkt` is non-null. -/
  pClientSkt : Bool
  /-- Whether `clientIpAddr` is non-null. -/
  clientIpAddr : Bool
  /-- Argument `clientIpAddrLen`. -/
  clientIpAddrLen : Int
  /-- Whether `pClientPort` is non-null. -/
  pClientPort : Bool

/-- Function `CLAcceptCon`. -/
def CLAcceptCon (lib : Lib) (srvSkt : Nat) (args : AcceptArgs) (aenv : AcceptEnv)
    (env : CreateEnv) (penv : PoolEnv) : ApiResult :=
  if lib.s_startupCount ≤ 0 then ApiResult.early lib CL_ERR_NOT_INITIALIZED
  else if args.dataRecvFn = false ∨ args.socketClosedFn = false ∨ args.pClientSkt = false ∨
      args.clientIpAddrLen < 0 then
    ApiResult.early lib CL_ERR_ILLEGAL_ARG
  else
    match lib.s_srvSocketRegistry.findSocketObj srvSkt with
    | none => ApiResult.early lib CL_ERR_SOCKET_NOT_FOUND
    | some srvSktObj =>
      let a := srvSktObj.acceptConnection aenv
      if a.1 = CL_ERR_OK then
        match SocketObj.createAccepted a.2.1 env with
        | (_, some clientSktObj, calls) =>
          finishCreateSocketObj lib env.addr clientSktObj penv env.resolver (a.2.2 ++ calls)
        | (err, none, calls) =>
          { ret := err, lib := lib, out := none, calls := a.2.2 ++ calls, requests := [],
            callbacks := [] }
      else
        { ret := a.1, lib := lib, out := none, calls := a.2.2, requests := [],
          callbacks := [] }

/-- Function `CLDeleteSrvSocket`. -/
def CLDeleteSrvSocket (lib : Lib) (srvSkt : Nat) (isShutdown : Nat → Bool) : ApiResult :=
  if lib.s_startupCount ≤ 0 then ApiResult.early lib CL_ERR_OK
  else
    match lib.s_srvSocketRegistry.removeSocketObj srvSkt with
    | (none, _) => ApiResult.early lib CL_ERR_OK
    | (some srvSktObj, reg) =>
      let r := lib.s_netThreadPool.removeNetObj srvSkt isShutdown
      { ret := CL_ERR_OK, lib := { lib with s_srvSocketRegistry := reg, s_netThreadPool := r.1 },
        out := none, calls := srvSktObj.close.2, requests := r.2, callbacks := [] }

/-- The arguments of `CLCreateSocket` and `CLCreateSocketAsync`. -/
structure SocketArgs where
  /-- Argument `hostAddr`; `none` is the null pointer. -/
  hostAddr : Option String
  /-- Argument `hostPort`, an `unsigned short`. -/
  hostPort : Fin 65536
  /-- Whether `conCompletedFn` is non-null (`CLCreateSocketAsync` only). -/
  conCompletedFn : Bool
  /-- Whether `dataRecvFn` is non-null. -/
  dataRecvFn : Bool
  /-- Whether `socketClosedFn` is non-null. -/
  socketClosedFn : Bool
  /-- Whether `pSkt` is non-null. -/
  pSkt : Bool

/-- Function `CLCreateSocket`. -/
def CLCreateSocket (lib : Lib) (args : SocketArgs) (env : CreateEnv) (penv : PoolEnv) :
    ApiResult :=
  if lib.s_startupCount ≤ 0 then ApiResult.early lib CL_ERR_NOT_INITIALIZED
  else if args.hostAddr = none ∨ args.hostPort.val > 65535 ∨ args.dataRecvFn = false ∨
      args.socketClosedFn = false ∨ args.pSkt = false then
    ApiResult.early lib CL_ERR_ILLEGAL_ARG
  else
    match SocketObj.create env with
    | (_, some sktObj, calls) => finishCreateSocketObj lib env.addr sktObj penv env.resolver calls
    | (err, none, calls) =>
      { ret := err, lib := lib, out := none, calls := calls, requests := [], callbacks := [] }

/-- Function `CLCreateSocketAsync`. -/
def CLCreateSocketAsync (lib : Lib) (args : SocketArgs) (env : CreateEnv) (penv : PoolEnv) :
    ApiResult :=
  if lib.s_startupCount ≤ 0 then ApiResult.early lib CL_ERR_NOT_INITIALIZED
  else if args.hostAddr = none ∨ args.hostPort.val > 65535 ∨ args.conCompletedFn = false ∨
      args.dataRecvFn = false ∨ args.socketClosedFn = false ∨ args.pSkt = false then
    ApiResult.early lib CL_ERR_ILLEGAL_ARG
  else
    match SocketObj.createAsync env with
    | (_, some sktObj, calls) => finishCreateSocketObj lib env.addr sktObj penv env.resolver calls
    | (err, none, calls) =>
      { ret := err, lib := lib, out := none, calls := calls, requests := [], callbacks := [] }

/-- Function `CLSendData`; `buf = none` is the null pointer. The object is
reached through a shared pointer, so what `sendData` changes in it is seen
through the registry. -/
def CLSendData (lib : Lib) (skt : Nat) (buf : Option (List Byte)) (len : Int)
    (env : SendEnv) : ApiResult :=
  if lib.s_startupCount ≤ 0 then ApiResult.early lib CL_ERR_NOT_INITIALIZED
  else
    match buf with
    | none => ApiResult.early lib CL_ERR_ILLEGAL_ARG
    | some bytes =>
      if len < 0 then ApiResult.early lib CL_ERR_ILLEGAL_ARG
      else if len > DATA_MAX_LEN then ApiResult.early lib CL_ERR_BUF_TOO_BIG
      else
        match lib.s_socketRegistry.findSocketObj skt with
        | none => ApiResult.early lib CL_ERR_SOCKET_NOT_FOUND
        | some sktObj =>
          if len = 0 then ApiResult.early lib CL_ERR_OK
          else
            let r := sktObj.sendData bytes len env
            { ret := r.1,
              lib := { lib with s_socketRegistry :=
                ⟨mapAssign lib.s_socketRegistry.m_hndToSktObjMap skt r.2.1⟩ },
              out := none, calls := r.2.2, requests := [], callbacks := [] }

/-- Function `CLDeleteSocket`. -/
def CLDeleteSocket (lib : Lib) (skt : Nat) (isShutdown : Nat → Bool)
    (resolver : ResolverEnv) : ApiResult :=
  if lib.s_startupCount ≤ 0 then ApiResult.early lib CL_ERR_OK
  else
    match lib.s_socketRegistry.removeSocketObj skt with
    | (none, _) => ApiResult.early lib CL_ERR_OK
    | (some sktObj, reg) =>
      let r := lib.s_netThreadPool.removeNetObj skt isShutdown
      { ret := CL_ERR_OK, lib := { lib with s_socketRegistry := reg, s_netThreadPool := r.1 },
        out := none, calls := (sktObj.close resolver).2.1, requests := r.2,
        callbacks := (sktObj.close resolver).2.2 }

/-- A call of the public interface together with what the platform answers
during the call. -/
inductive ApiCall where
  /-- Call `CLStartup()`. -/
  | startup (wsaStartupErr : Int)
  /-- Call `CLCleanup()`. -/
  | cleanup (env : CleanupEnv)
  /-- Call `CLCreateSrvSocket(..)`. -/
  | createSrvSocket (args : SrvSocketArgs) (env : SrvCreateEnv) (penv : PoolEnv)
  /-- Call `CLAcceptCon(srvSkt, ..)`. -/
  | acceptCon (srvSkt : Nat) (args : AcceptArgs) (aenv : AcceptEnv) (env : CreateEnv)
      (penv : PoolEnv)
  /-- Call `CLDeleteSrvSocket(srvSkt)`. -/
  | deleteSrvSocket (srvSkt : Nat) (isShutdown : Nat → Bool)
  /-- Call `CLCreateSocket(..)`. -/
  | createSocket (args : SocketArgs) (env : CreateEnv) (penv : PoolEnv)
  /-- Call `CLCreateSocketAsync(..)`. -/
  | createSocketAsync (args : SocketArgs) (env : CreateEnv) (penv : PoolEnv)
  /-- Call `CLSendData(skt, buf, len)`. -/
  | sendData (skt : Nat) (buf : Option (List Byte)) (len : Int) (env : SendEnv)
  /-- Call `CLDeleteSocket(skt)`. -/
  | deleteSocket (skt : Nat) (isShutdown : Nat → Bool) (resolver : ResolverEnv)

/-- What a call of the public interface does to the library. -/
def ApiCall.run (lib : Lib) : ApiCall → ApiResult
  | .startup e => CLStartup lib e
  | .cleanup env => CLCleanup lib env
  | .createSrvSocket args env penv => CLCreateSrvSocket lib args env penv
  | .acceptCon srvSkt args aenv env penv => CLAcceptCon lib srvSkt args aenv env penv
  | .deleteSrvSocket srvSkt isShutdown => CLDeleteSrvSocket lib srvSkt isShutdown
  | .createSocket args env penv => CLCreateSocket lib args env penv
  | .createSocketAsync args env penv => CLCreateSocketAsync lib args env penv
  | .sendData skt buf len env => CLSendData lib skt buf len env
  | .deleteSocket skt isShutdown resolver => CLDeleteSocket lib skt isShutdown resolver

/-- The library after a sequence of calls of the public interface, made one
after the other. -/
def runCalls : Lib → List ApiCall → Lib
  | lib, [] => lib
  | lib, c :: cs => runCalls (c.run lib).lib cs



/-- The keys of a `std::map`, in order. -/
def mapKeys {α : Type} (m : List (Nat × α)) : List Nat := m.map Prod.fst

/-- The client socket with handle `skt` is registered before each call of the
sequence and after the last one. -/
def staysRegistered (skt : Nat) : Lib → List ApiCall → Prop
  | lib, [] => (lib.s_socketRegistry.findSocketObj skt).isSome = true
  | lib, c :: cs =>
    (lib.s_socketRegistry.findSocketObj skt).isSome = true ∧
      staysRegistered skt (c.run lib).lib cs

/-- Whether a socket stays registered along a sequence of calls can be
computed. -/
def staysRegistered.decidable (skt : Nat) :
    ∀ (lib : Lib) (calls : List ApiCall), Decidable (staysRegistered skt lib calls)
  | lib, [] =>
    inferInstanceAs (Decidable ((lib.s_socketRegistry.findSocketObj skt).isSome = true))
  | lib, c :: cs =>
    @instDecidableAnd _ _ (inferInstanceAs (Decidable
      ((lib.s_socketRegistry.findSocketObj skt).isSome = true)))
      (staysRegistered.decidable skt (c.run lib).lib cs)

instance (skt : Nat) (lib : Lib) (calls : List ApiCall) :
    Decidable (staysRegistered skt lib calls) :=
  staysRegistered.decidable skt lib calls


/-- The registry holds, under the handle `skt`, an object whose
stream-corrupted flag is set. -/
def corruptedAt (skt : Nat) (reg : SktObjTypeRegistry SocketObj) : Prop :=
  ∃ o, reg.findSocketObj skt = some o ∧ o.m_dataStreamCorrupted = true


/-! ### Predicates used in the statements about the pool and the life cycle -/

/-- The number of entries of `m_objToThreadMap` that name worker `t`. -/
def NetThreadPool.owned (p : NetThreadPool) (t : Nat) : Nat :=
  (p.m_objToThreadMap.filter (fun e => e.2 = t)).length

/-- The bookkeeping of the pool is consistent: no worker is twice in
`m_threads`, no object is twice in `m_objToThreadMap`, every entry of the map
names a worker of `m_threads`, and the counter of every worker of `m_threads`
is the number of entries that name it, between 1 and `NET_OBJ_MAX_COUNT`. -/
def NetThreadPool.wellFormed (p : NetThreadPool) : Prop :=
  p.m_threads.Nodup ∧ (mapKeys p.m_objToThreadMap).Nodup ∧
  (∀ e ∈ p.m_objToThreadMap, e.2 ∈ p.m_threads) ∧
  (∀ t ∈ p.m_threads,
    p.getCount t = p.owned t ∧ 1 ≤ p.getCount t ∧ p.getCount t ≤ NET_OBJ_MAX_COUNT)

/-- The pool is consistent and every object it holds is in a registry. -/
def Lib.wellFormed (lib : Lib) : Prop :=
  lib.s_netThreadPool.wellFormed ∧
  ∀ k ∈ mapKeys lib.s_netThreadPool.m_objToThreadMap,
    k ∈ mapKeys lib.s_srvSocketRegistry.m_hndToSktObjMap ∨
      k ∈ mapKeys lib.s_socketRegistry.m_hndToSktObjMap

/-- The worker that `NetThreadObj::create` answers with is at an address that
no worker of the pool has. -/
def PoolEnv.fresh (penv : PoolEnv) (p : NetThreadPool) : Bool :=
  match penv.create with
  | .ok t => decide (t ∉ p.m_threads ∧ t ∉ p.m_shuttingDownThreads)
  | .error _ => true

/-- The address `addr` that `new` answers with is the address of no object
held by a registry or by the pool. -/
def Lib.freshAddr (lib : Lib) (addr : Nat) : Bool :=
  decide (addr ∉ mapKeys lib.s_srvSocketRegistry.m_hndToSktObjMap ∧
    addr ∉ mapKeys lib.s_socketRegistry.m_hndToSktObjMap ∧
    addr ∉ mapKeys lib.s_netThreadPool.m_objToThreadMap)

/-- What the statement about balanced start and stop asks of a call made in
state `lib`: a `CLStartup` call returns `CL_ERR_OK`, the object a creating
call allocates is at an address not in use, and a worker it creates is at the
address of no worker that the pool still holds once `addNetObj` has discarded
the workers that completed shutdown. -/
def ApiCall.admissible (lib : Lib) : ApiCall → Bool
  | .startup e => decide ((CLStartup lib e).ret = CL_ERR_OK)
  | .createSrvSocket _ env penv =>
    lib.freshAddr env.addr &&
      penv.fresh (lib.s_netThreadPool.cleanupShuttingDownThreads penv.isShutdown)
  | .acceptCon _ _ _ env penv =>
    lib.freshAddr env.addr &&
      penv.fresh (lib.s_netThreadPool.cleanupShuttingDownThreads penv.isShutdown)
  | .createSocket _ env penv =>
    lib.freshAddr env.addr &&
      penv.fresh (lib.s_netThreadPool.cleanupShuttingDownThreads penv.isShutdown)
  | .createSocketAsync _ env penv =>
    lib.freshAddr env.addr &&
      penv.fresh (lib.s_netThreadPool.cleanupShuttingDownThreads penv.isShutdown)
  | _ => true

/-- Whether a call is `CLStartup`. -/
def ApiCall.isStartup : ApiCall → Bool
  | .startup _ => true
  | _ => false

/-- Whether a call is `CLCleanup`. -/
def ApiCall.isCleanup : ApiCall → Bool
  | .cleanup _ => true
  | _ => false

/-- Both registries are empty, the pool holds no object and has no active
worker. -/
def Lib.isEmpty (lib : Lib) : Prop :=
  lib.s_srvSocketRegistry.m_hndToSktObjMap = [] ∧ lib.s_socketRegistry.m_hndToSktObjMap = [] ∧
  lib.s_netThreadPool.m_objToThreadMap = [] ∧ lib.s_netThreadPool.m_threads = []

/-! ### A small scenario used to instantiate the statements -/

/-- Platform answers for a resolver that fails; no asynchronous socket of the
scenario waits for it. -/
def demoResolver : ResolverEnv :=
  { result := .failed ⟨11001, by decide⟩,
    attempt := fun _ => { socket := .error WSAECONNRESET, eventSelect := none, connect := none } }

/-- Platform answers for the creation of a client socket at address `addr`,
on descriptor `fd` with event handle `ev`: every call succeeds. -/
def demoCreateEnv (addr fd ev : Nat) : CreateEnv :=
  { addr := addr, createEvent := .ok ev, resolve := .ok ⟨1, 16⟩ [],
    attempt := fun _ => { socket := .ok fd, connect := none }, eventSelect := none,
    resolver := demoResolver }

/-- Pool answers: no worker has completed shutdown, a new worker gets the
address `t`. -/
def demoPoolEnv (t : Nat) : PoolEnv :=
  { isShutdown := fun _ => false, create := .ok t }

/-- Well-formed arguments for `CLCreateSocket`. -/
def demoSocketArgs : SocketArgs :=
  { hostAddr := some "127.0.0.1", hostPort := 9000, conCompletedFn := false, dataRecvFn := true,
    socketClosedFn := true, pSkt := true }

/-- Platform answers during `CLCleanup`: every worker shuts down at once. -/
def demoCleanupEnv : CleanupEnv :=
  { isShutdown := fun _ _ => true, resolver := fun _ => demoResolver,
    wait := { startTick := 0, tickAfter := fun _ => 0, wait := fun _ _ => true } }

/-- The library after `CLStartup` and the creation of one client socket, whose
handle is 1000. -/
def demoLib : Lib :=
  runCalls Lib.initial
    [.startup 0, .createSocket demoSocketArgs (demoCreateEnv 1000 3 7) (demoPoolEnv 500)]


/-! ### Predicates used in the statements about framing -/

/-- Whether a `send` outcome is a success with a positive count. -/
def SendOutcome.positive : SendOutcome → Bool
  | .sent (_ + 1) => true
  | _ => false

/-- Every `send` of the script succeeds with a positive count. -/
def AllSent (script : List SendOutcome) : Prop :=
  ∀ o ∈ script, o.positive = true

instance (script : List SendOutcome) : Decidable (AllSent script) :=
  inferInstanceAs (Decidable (∀ o ∈ script, o.positive = true))

/-- Whether a platform call is a `send` that returned `SOCKET_ERROR`. -/
def PlatformCall.isSendFailed : PlatformCall → Bool
  | .sendFailed _ _ _ => true
  | _ => false

/-- Whether a platform call is a `send`, successful or not. -/
def PlatformCall.isSend : PlatformCall → Bool
  | .send _ _ _ => true
  | .sendFailed _ _ _ => true
  | _ => false

/-- The receiver `s` is open and holds the first `n` bytes of the frame `F`;
the stream `w` holds the other bytes of `F`, then `rest`. -/
def Receiving (F rest : List Byte) (n : Nat) (s : SocketObj) (w : Wire) : Prop :=
  s.m_socket ≠ none ∧ s.m_DataRecvLen = n ∧ n ≤ s.m_DataRecvBuf.length ∧
  s.m_DataRecvBuf.take n = F.take n ∧ (2 ≤ n → s.m_DataRecvBuf.length = F.length) ∧
  w.pending = F.drop n ++ rest

/-- The object with its receive buffer reset, as `onFdRead` leaves it after a
complete frame. -/
def SocketObj.resetRecv (s : SocketObj) : SocketObj :=
  { s with m_DataRecvBuf := [], m_DataRecvLen := 0 }

/-- The bytes that `sendData(payload, payload.length)` hands to the platform
on a connected socket when every platform call succeeds. -/
def sentFrame (payload : List Byte) : List Byte :=
  wireBytes ((SocketObj.connected 0 0).sendData payload payload.length
    (SendEnv.allOk (List.replicate (payload.length + 2) payload.length))).2.2

/-- The five bytes of the text `hello`. -/
def hello : List Byte := [0x68, 0x65, 0x6c, 0x6c, 0x6f]

/-- An environment in which the switch to blocking mode succeeds, the platform
takes the two bytes of the length in one `send`, and the next `send` fails
because the peer has closed the connection. -/
def SendEnv.peerClosesAfterPrefix : SendEnv :=
  { eventSelectOff := none, ioctl := none, sends := [.sent 2, .failed WSAECONNRESET],
    thereafter := WSAECONNRESET, eventSelectOn := none }

/-- The library of the scenario after a `CLSendData` call during which the
peer closed the connection between the length and the payload: the call
returned the platform error and set the stream-corrupted flag. -/
def corruptedLib : Lib :=
  (CLSendData demoLib 1000 (some hello) 5 SendEnv.peerClosesAfterPrefix).lib

/-- Arguments for `CLCreateSocket` whose out-pointer `pSkt` is null. -/
def nullOutArgs : SocketArgs :=
  { hostAddr := some "127.0.0.1", hostPort := 9000, conCompletedFn := false, dataRecvFn := true,
    socketClosedFn := true, pSkt := false }

/-! ### Predicates used in the statements about creation and deletion -/

/-- The descriptors open after a trace of platform calls, given the ones open
before it: `socket` and `accept` open the descriptor they return,
`closesocket` closes its argument. -/
def openDescriptors : List Nat → List PlatformCall → List Nat
  | s, [] => s
  | s, .socket _ (some fd) :: cs => openDescriptors (s ++ [fd]) cs
  | s, .accept _ (some fd) :: cs => openDescriptors (s ++ [fd]) cs
  | s, .closesocket (some fd) :: cs => openDescriptors (s.erase fd) cs
  | s, _ :: cs => openDescriptors s cs

/-- The client socket with handle `h` is in the client registry and in the
object-to-worker index of the pool. -/
def Lib.holdsSocket (lib : Lib) (h : Nat) : Prop :=
  (lib.s_socketRegistry.findSocketObj h).isSome = true ∧
    (mapFind lib.s_netThreadPool.m_objToThreadMap h).isSome = true

/-- The server socket with handle `h` is in the server registry and in the
object-to-worker index of the pool. -/
def Lib.holdsSrvSocket (lib : Lib) (h : Nat) : Prop :=
  (lib.s_srvSocketRegistry.findSocketObj h).isSome = true ∧
    (mapFind lib.s_netThreadPool.m_objToThreadMap h).isSome = true

/-- Both registries and the object-to-worker index of the pool are the same
in two states of the library. -/
def Lib.sameObjects (a b : Lib) : Prop :=
  a.s_srvSocketRegistry = b.s_srvSocketRegistry ∧ a.s_socketRegistry = b.s_socketRegistry ∧
    a.s_netThreadPool.m_objToThreadMap = b.s_netThreadPool.m_objToThreadMap

/-- Atomic creation, said of the result `r` of a call made in state `lib`
that creates a client socket at address `addr`: the socket is held afterwards
exactly when the call returned `CL_ERR_OK`, and then `addr` is the handle
written; otherwise the registries and the index are as before, no handle is
written and every descriptor the call opened is closed again. -/
def ApiResult.atomicSocket (r : ApiResult) (lib : Lib) (addr : Nat) : Prop :=
  (r.lib.holdsSocket addr ↔ r.ret = CL_ERR_OK) ∧
  (r.ret = CL_ERR_OK → r.out = some addr) ∧
  (r.ret ≠ CL_ERR_OK →
    r.lib.sameObjects lib ∧ r.out = none ∧ openDescriptors [] r.calls = [])

/-- Atomic creation, said of the result `r` of a call made in state `lib`
that creates a server socket at address `addr`. -/
def ApiResult.atomicSrvSocket (r : ApiResult) (lib : Lib) (addr : Nat) : Prop :=
  (r.lib.holdsSrvSocket addr ↔ r.ret = CL_ERR_OK) ∧
  (r.ret = CL_ERR_OK → r.out = some addr) ∧
  (r.ret ≠ CL_ERR_OK →
    r.lib.sameObjects lib ∧ r.out = none ∧ openDescriptors [] r.calls = [])

/-- The library after one `CLStartup`. -/
def startedLib : Lib := runCalls Lib.initial [.startup 0]

/-- Pool answers: no worker has completed shutdown, and the creation of a
worker fails with error 8. -/
def failingPoolEnv : PoolEnv :=
  { isShutdown := fun _ => false, create := .error ⟨8, by decide⟩ }

/-- The address of the object that a call of the public interface allocates,
for the four creating calls. -/
def ApiCall.allocates : ApiCall → Option Nat
  | .createSrvSocket _ env _ => some env.addr
  | .acceptCon _ _ _ env _ => some env.addr
  | .createSocket _ env _ => some env.addr
  | .createSocketAsync _ env _ => some env.addr
  | _ => none

/-- Every handle that the registries of `r.lib` hold was held by the same
registry of `lib`, or is the address `a`. -/
def ApiResult.keysWithin (r : ApiResult) (lib : Lib) (a : Option Nat) : Prop :=
  (∀ k ∈ mapKeys r.lib.s_socketRegistry.m_hndToSktObjMap,
    k ∈ mapKeys lib.s_socketRegistry.m_hndToSktObjMap ∨ a = some k) ∧
  (∀ k ∈ mapKeys r.lib.s_srvSocketRegistry.m_hndToSktObjMap,
    k ∈ mapKeys lib.s_srvSocketRegistry.m_hndToSktObjMap ∨ a = some k)

/-! ### The finite map that a registry stands for -/

/-- A finite map from handle to object, as the specification of the registry
has it: a handle is bound to at most one object. -/
abbrev FiniteMap (α : Type) := Nat → Option α

/-- Specification `add(handle, obj)`: the binding `h -> o` is put in. -/
def FiniteMap.add {α : Type} (m : FiniteMap α) (h : Nat) (o : α) : FiniteMap α :=
  fun k => if k = h then some o else m k

/-- Specification `find(handle) -> optional<obj>`. -/
def FiniteMap.find {α : Type} (m : FiniteMap α) (h : Nat) : Option α := m h

/-- Specification `remove(handle) -> optional<obj>`: what was bound to `h`,
and the map without a binding for `h`. -/
def FiniteMap.remove {α : Type} (m : FiniteMap α) (h : Nat) : Option α × FiniteMap α :=
  (m h, fun k => if k = h then none else m k)

/-- The finite map a registry stands for: the association list
`m_hndToSktObjMap` read by `List.lookup`. -/
def SktObjTypeRegistry.toFiniteMap {α : Type} (self : SktObjTypeRegistry α) : FiniteMap α :=
  fun h => List.lookup h self.m_hndToSktObjMap

/-- The entries of the `std::map` are in strictly increasing key order. -/
def SktObjTypeRegistry.ordered {α : Type} (self : SktObjTypeRegistry α) : Prop :=
  (mapKeys self.m_hndToSktObjMap).Pairwise (fun a b => a < b)

instance {α : Type} (reg : SktObjTypeRegistry α) : Decidable reg.ordered :=
  inferInstanceAs (Decidable ((mapKeys reg.m_hndToSktObjMap).Pairwise (fun a b => a < b)))

/-- The results of `n` successive calls of `removeFrontSocketObj`, and the
registry after them. -/
def SktObjTypeRegistry.removeFrontMany {α : Type} :
    Nat → SktObjTypeRegistry α → List (Option (Nat × α)) × SktObjTypeRegistry α
  | 0, reg => ([], reg)
  | n + 1, reg =>
    let r := reg.removeFrontSocketObj
    let rs := SktObjTypeRegistry.removeFrontMany n r.2
    (r.1 :: rs.1, rs.2)

/-- A registry that binds the handle 3 to the object 30 and the handle 5 to
the object 50 (objects are numbers here). -/
def demoRegistry : SktObjTypeRegistry Nat := ⟨[(3, 30), (5, 50)]⟩

/-! ### Runs of pool calls -/

/-- Successive calls `addNetObj(netObj)`, one for each entry of the list, each
with its own platform answers: the return value and the calls on workers of
each call, and the pool after the last one. -/
def NetThreadPool.addNetObjs :
    NetThreadPool → List (Nat × PoolEnv) → List (Int × List WorkerRequest) × NetThreadPool
  | p, [] => ([], p)
  | p, (netObj, env) :: rest =>
    let r := p.addNetObj netObj env
    let rs := NetThreadPool.addNetObjs r.2.1 rest
    ((r.1, r.2.2) :: rs.1, rs.2)

/-- At each call of a run of `addNetObj` calls, the address that
`NetThreadObj::create` answers with is not that of a worker of the pool. -/
def NetThreadPool.freshWorkers : NetThreadPool → List (Nat × PoolEnv) → Bool
  | _, [] => true
  | p, (netObj, env) :: rest =>
    env.fresh p && NetThreadPool.freshWorkers (p.addNetObj netObj env).2.1 rest

/-- The pool holds exactly the objects `done`, packed in the order they were
added: the active workers are distinct, all but the last are full, the last
has the remaining objects, and the object added as number `i` (from 0) is on
the worker at position `i / NET_OBJ_MAX_COUNT` of the active list. -/
def NetThreadPool.packed (p : NetThreadPool) (done : List Nat) : Prop :=
  p.m_threads.Nodup ∧
  p.m_threads.length = (done.length + NET_OBJ_MAX_COUNT - 1) / NET_OBJ_MAX_COUNT ∧
  (∀ t ∈ p.m_threads.dropLast, p.getCount t = NET_OBJ_MAX_COUNT) ∧
  (∀ t, p.m_threads.getLast? = some t →
    p.getCount t + NET_OBJ_MAX_COUNT * (p.m_threads.length - 1) = done.length) ∧
  (∀ i o, done[i]? = some o →
    mapFind p.m_objToThreadMap o = p.m_threads[i / NET_OBJ_MAX_COUNT]?) ∧
  (∀ x ∈ mapKeys p.m_objToThreadMap, x ∈ done)

/-- The pool before any object is added. -/
def emptyPool : NetThreadPool := ⟨[], [], [], []⟩

/-- A run of 64 `addNetObj` calls: the objects are 1000, 1001, .. and the call
number `i` (from 0) would get the address `500 + i` for a new worker. -/
def demoAdds : List (Nat × PoolEnv) :=
  (List.range 64).map (fun i => (1000 + i, demoPoolEnv (500 + i)))

instance (p : NetThreadPool) : Decidable p.wellFormed :=
  inferInstanceAs (Decidable (p.m_threads.Nodup ∧ (mapKeys p.m_objToThreadMap).Nodup ∧
    (∀ e ∈ p.m_objToThreadMap, e.2 ∈ p.m_threads) ∧
    (∀ t ∈ p.m_threads,
      p.getCount t = p.owned t ∧ 1 ≤ p.getCount t ∧ p.getCount t ≤ NET_OBJ_MAX_COUNT)))

/-- The pool after the 64 calls of `demoAdds`: worker 500 owns the objects
1000 to 1062 and worker 563 owns the object 1063. -/
def demoPool64 : NetThreadPool := (emptyPool.addNetObjs demoAdds).2

/-! ### Connect notifications of an asynchronous socket -/

/-- Method `SocketObj::onFdConnect(fdConnectErr)`: object afterwards, platform
calls, callbacks. The next address is tried when `fdConnectErr` is an error
and `m_crntAddrInfo` is not `NULL`; otherwise the connect-completed callback
gets `fdConnectErr`. -/
def SocketObj.onFdConnect (self : SocketObj) (attempt : AddrInfo → AsyncAttempt)
    (fdConnectErr : Int) : SocketObj × List PlatformCall × List Callback :=
  if self.m_socket = none then (self, [], [])
  else
    match self.m_crntAddrInfo with
    | a :: rest =>
      if fdConnectErr ≠ CL_ERR_OK then
        let r := SocketObj.doConnectAsync attempt self a rest
        (r.2.1, r.2.2, if r.1 ≠ CL_ERR_OK then [.conCompleted r.1] else [])
      else (self, [], [.conCompleted fdConnectErr])
    | [] => (self, [], [.conCompleted fdConnectErr])

/-- Successive connect notifications, one for each error code of the list:
the object after the last one and, for each notification, the platform calls
and the callbacks it led to. -/
def SocketObj.onFdConnects (attempt : AddrInfo → AsyncAttempt) :
    SocketObj → List Int → SocketObj × List (List PlatformCall × List Callback)
  | self, [] => (self, [])
  | self, e :: es =>
    let r := self.onFdConnect attempt e
    let rs := SocketObj.onFdConnects attempt r.1 es
    (rs.1, (r.2.1, r.2.2) :: rs.2)

/-- A non-blocking connection attempt starts: `socket` and `WSAEventSelect`
succeed and `connect` returns 0 or fails with `WSAEWOULDBLOCK`. -/
def AsyncAttempt.starts (a : AsyncAttempt) : Bool :=
  match a.socket, a.eventSelect, a.connect with
  | .ok _, none, none => true
  | .ok _, none, some e => decide (e = WSAEWOULDBLOCK)
  | _, _, _ => false

/-- The addresses of the `connect` calls of a trace, in order. -/
def connectTargets : List PlatformCall → List AddrInfo
  | [] => []
  | .connect _ a :: cs => a :: connectTargets cs
  | _ :: cs => connectTargets cs

/-- An asynchronous socket right after `CLCreateSocketAsync`, with event
handle 7: the resolver thread has not completed. -/
def demoAsyncSocket : SocketObj :=
  { SocketObj.new true none with m_netEvent := some 7, m_resolveAsyncCompleted := false }

/-- Platform answers to non-blocking connection attempts: the attempt on the
address with number `i` gets the descriptor `10 + i` and is in progress
(`connect` fails with `WSAEWOULDBLOCK`). -/
def demoAsyncAttempt (a : AddrInfo) : AsyncAttempt :=
  { socket := .ok (10 + a.id), eventSelect := none, connect := some WSAEWOULDBLOCK }

/-- The asynchronous socket `demoAsyncSocket` once `close()` has set
`m_closeCalled` and waits for the resolver thread. -/
def closingAsyncSocket : SocketObj := { demoAsyncSocket with m_closeCalled := true }

/-- Platform answers for a resolver that finds the addresses 1 and 2. -/
def demoResolverOk : ResolverEnv :=
  { result := .ok ⟨1, 16⟩ [⟨2, 16⟩], attempt := demoAsyncAttempt }

/-! ### Network events of a socket object (`onNetEvent`) -/

/-- Index `FD_READ_BIT` of `iErrorCode`. -/
abbrev FD_READ_BIT : Nat := 0
/-- Index `FD_ACCEPT_BIT` of `iErrorCode`. -/
abbrev FD_ACCEPT_BIT : Nat := 3
/-- Index `FD_CONNECT_BIT` of `iErrorCode`. -/
abbrev FD_CONNECT_BIT : Nat := 4
/-- Index `FD_CLOSE_BIT` of `iErrorCode`. -/
abbrev FD_CLOSE_BIT : Nat := 5

/-- The structure `WSANETWORKEVENTS` that `WSAEnumNetworkEvents` fills in. -/
structure WSANETWORKEVENTS where
  /-- Field `lNetworkEvents`: the bits of the events that occurred. -/
  lNetworkEvents : Nat
  /-- Field `iErrorCode`, by bit index. -/
  iErrorCode : Nat → Int

/-- Method `SocketObj::onFdClose(fdCloseErr)`: the callbacks invoked. -/
def SocketObj.onFdClose (self : SocketObj) (fdCloseErr : Int) : List Callback :=
  if self.m_socket = none then [] else [.socketClosed fdCloseErr]

/-- Method `SocketObj::onNetEvent`; `enum` is the answer of
`WSAEnumNetworkEvents`: the events, or the error. Object afterwards, platform
state afterwards, platform calls, callbacks. -/
def SocketObj.onNetEvent {P : Type} (recv : P → Int → RecvResult × P)
    (attempt : AddrInfo → AsyncAttempt) (self : SocketObj)
    (enum : Except OsErr WSANETWORKEVENTS) (p : P) :
    SocketObj × P × List PlatformCall × List Callback :=
  if self.m_socket = none then (self, p, [], [])
  else
    match enum with
    | .error _ => (self, p, [.WSAEnumNetworkEvents self.m_socket self.m_netEvent], [])
    | .ok wsaNetworkEvents =>
      let r1 :=
        if wsaNetworkEvents.lNetworkEvents &&& FD_CONNECT ≠ 0 then
          self.onFdConnect attempt (wsaNetworkEvents.iErrorCode FD_CONNECT_BIT)
        else (self, [], [])
      let r2 :=
        if wsaNetworkEvents.lNetworkEvents &&& FD_READ ≠ 0 then
          if wsaNetworkEvents.iErrorCode FD_READ_BIT = 0 then r1.1.onFdRead recv p
          else (r1.1, p, [])
        else (r1.1, p, [])
      let cbs3 :=
        if wsaNetworkEvents.lNetworkEvents &&& FD_CLOSE ≠ 0 then
          r2.1.onFdClose (wsaNetworkEvents.iErrorCode FD_CLOSE_BIT)
        else []
      (r2.1, r2.2.1, .WSAEnumNetworkEvents self.m_socket self.m_netEvent :: r1.2.1,
        r1.2.2 ++ r2.2.2 ++ cbs3)

/-- Successive invocations of `SocketObj::onNetEvent`, one for each answer of
`WSAEnumNetworkEvents` in the list: the platform calls and the callbacks of
all of them, in order. -/
def SocketObj.onNetEvents {P : Type} (recv : P → Int → RecvResult × P)
    (attempt : AddrInfo → AsyncAttempt) :
    SocketObj → P → List (Except OsErr WSANETWORKEVENTS) →
      SocketObj × P × List PlatformCall × List Callback
  | self, p, [] => (self, p, [], [])
  | self, p, e :: es =>
    let r := self.onNetEvent recv attempt e p
    let rs := SocketObj.onNetEvents recv attempt r.1 r.2.1 es
    (rs.1, rs.2.1, r.2.2.1 ++ rs.2.2.1, r.2.2.2 ++ rs.2.2.2)

/-- A user callback invoked by a server socket object, without the handle and
the user argument. -/
inductive SrvCallback where
  /-- Callback `m_conPendingFn(handle, srvArg)`. -/
  | conPending
  /-- Callback `m_srvSocketClosedFn(handle, err, srvArg)`. -/
  | srvSocketClosed (err : Int)
  deriving DecidableEq, Repr

/-- Method `SrvSocketObj::onFdAccept`: the callbacks invoked. -/
def SrvSocketObj.onFdAccept (self : SrvSocketObj) : List SrvCallback :=
  if self.m_socket = none then [] else [.conPending]

/-- Method `SrvSocketObj::onFdClose(fdCloseErr)`: the callbacks invoked. -/
def SrvSocketObj.onFdClose (self : SrvSocketObj) (fdCloseErr : Int) : List SrvCallback :=
  if self.m_socket = none then [] else [.srvSocketClosed fdCloseErr]

/-- Method `SrvSocketObj::onNetEvent`: object afterwards, platform calls,
callbacks. -/
def SrvSocketObj.onNetEvent (self : SrvSocketObj) (enum : Except OsErr WSANETWORKEVENTS) :
    SrvSocketObj × List PlatformCall × List SrvCallback :=
  if self.m_socket = none then (self, [], [])
  else
    match enum with
    | .error _ => (self, [.WSAEnumNetworkEvents self.m_socket self.m_netEvent], [])
    | .ok wsaNetworkEvents =>
      let cbs1 :=
        if wsaNetworkEvents.lNetworkEvents &&& FD_ACCEPT ≠ 0 then
          if wsaNetworkEvents.iErrorCode FD_ACCEPT_BIT = 0 then self.onFdAccept else []
        else []
      let cbs2 :=
        if wsaNetworkEvents.lNetworkEvents &&& FD_CLOSE ≠ 0 then
          self.onFdClose (wsaNetworkEvents.iErrorCode FD_CLOSE_BIT)
        else []
      (self, [.WSAEnumNetworkEvents self.m_socket self.m_netEvent], cbs1 ++ cbs2)

/-- Successive invocations of `SrvSocketObj::onNetEvent`. -/
def SrvSocketObj.onNetEvents :
    SrvSocketObj → List (Except OsErr WSANETWORKEVENTS) →
      SrvSocketObj × List PlatformCall × List SrvCallback
  | self, [] => (self, [], [])
  | self, e :: es =>
    let r := self.onNetEvent e
    let rs := SrvSocketObj.onNetEvents r.1 es
    (rs.1, r.2.1 ++ rs.2.1, r.2.2 ++ rs.2.2)

/-- The answer of `WSAEnumNetworkEvents` that reports the events `bits`, each
without an error. -/
def eventsOk (bits : Nat) : Except OsErr WSANETWORKEVENTS :=
  .ok { lNetworkEvents := bits, iErrorCode := fun _ => 0 }

/-- The number of closed callbacks in a list of callbacks of a client
socket. -/
def closedCount (cbs : List Callback) : Nat :=
  (cbs.filter (fun c => match c with | .socketClosed _ => true | _ => false)).length

/-- The number of closed callbacks in a list of callbacks of a server
socket. -/
def srvClosedCount (cbs : List SrvCallback) : Nat :=
  (cbs.filter (fun c => match c with | .srvSocketClosed _ => true | _ => false)).length

/-- Whether an answer of `WSAEnumNetworkEvents` reports `FD_CLOSE`. -/
def reportsClose : Except OsErr WSANETWORKEVENTS → Bool
  | .ok ev => decide (ev.lNetworkEvents &&& FD_CLOSE ≠ 0)
  | .error _ => false

/-- A listening server socket object on descriptor 4 with event handle 9. -/
def demoSrvSocket : SrvSocketObj :=
  { m_conBacklog := 5, m_netEvent := some 9, m_socket := some 4, m_clientAddr := true,
    m_clientAddrLen := 16 }

/-- A receive side on which nothing is pending. -/
def idleWire : Wire := { pending := [], chunks := [] }

/-! ### Predicates used in the statement about the synchronous connect -/

/-- The value of `err` after one pass of the loop of `doConnect` for an
address with the platform answers `c`: `CL_ERR_OK` when `socket` and `connect`
both succeed, else the error of the call that failed. -/
def ConnectAttempt.err (c : ConnectAttempt) : Int :=
  match c.socket with
  | .ok _ => errOf c.connect
  | .error e => e.val

/-- The addresses of the `socket` calls of a trace, in order. -/
def socketTargets : List PlatformCall → List AddrInfo
  | [] => []
  | .socket a _ :: cs => a :: socketTargets cs
  | _ :: cs => socketTargets cs

/-- Along a trace that starts with the descriptors `s` open, no descriptor is
open whenever `socket` is called. -/
def closedBeforeEachSocket : List Nat → List PlatformCall → Bool
  | _, [] => true
  | s, .socket _ fd :: cs => s.isEmpty && closedBeforeEachSocket (s ++ fd.toList) cs
  | s, .accept _ (some fd) :: cs => closedBeforeEachSocket (s ++ [fd]) cs
  | s, .closesocket (some fd) :: cs => closedBeforeEachSocket (s.erase fd) cs
  | s, _ :: cs => closedBeforeEachSocket s cs

/-- One pass through the body of the loop of `SocketObj::doConnect`, for the
address `a`: the value of `err` and the object after it, platform calls. -/
def SocketObj.connectOnce (at_ : ConnectAttempt) (self : SocketObj) (a : AddrInfo) :
    Int × SocketObj × List PlatformCall :=
  match at_.socket with
  | .ok fd =>
    (errOf at_.connect, { self with m_socket := some fd },
      closeIfOpen self.m_socket ++ [.socket a (some fd), .connect (some fd) a])
  | .error e =>
    (e.val, { self with m_socket := none }, closeIfOpen self.m_socket ++ [.socket a none])

/-- Platform answers to blocking connection attempts: the address with number
1 refuses the connection on descriptor 11 (error 10061), every other address
accepts it on descriptor 12. -/
def demoConnectAttempt (a : AddrInfo) : ConnectAttempt :=
  if a.id = 1 then { socket := .ok 11, connect := some ⟨10061, by decide⟩ }
  else { socket := .ok 12, connect := none }

/-- The timeouts that the loop of `NetThreadPool::waitForShutdown` hands to
`NetThreadObj::waitForShutdown`, one for each worker visited, in visiting
order: the value of `timeOutInterval` at the call in each iteration. -/
def waitForShutdownTimeouts (env : WaitEnv) : List Nat → Nat → Nat → List Nat
  | [], _, _ => []
  | _ :: ts, i, timeOutInterval =>
    let elapsedInterval := (env.tickAfter i % 2 ^ 32 + 2 ^ 32 - env.startTick % 2 ^ 32) % 2 ^ 32
    let next :=
      if elapsedInterval < timeOutInterval then timeOutInterval - elapsedInterval else 0
    timeOutInterval :: waitForShutdownTimeouts env ts (i + 1) next

/-- The budget the specification gives to the wait that follows the tick
reading `ti`: `max(0, milliseconds - (ti - t0))`. -/
def specBudget (milliseconds t0 ti : Nat) : Nat :=
  milliseconds - (ti - t0)

/-- A clock that reads 0 at the start of the call, 1000 after the first wait
and 2000 after the second, with workers 1 and 2 that complete shutdown within
any timeout and a worker 3 that completes it within 7500 ms. -/
def demoWaitEnv : WaitEnv :=
  { startTick := 0
    tickAfter := fun i => 1000 * (i + 1)
    wait := fun t timeOutInterval => decide (t ≠ 3) || decide (7500 ≤ timeOutInterval) }

/-- A pool with no active worker and the three workers 3, 2, 1 shutting down
(the loop visits the last of the vector first). -/
def demoShuttingDownPool : NetThreadPool :=
  { emptyPool with m_shuttingDownThreads := [3, 2, 1] }

/-! ### Runs of `addNetObj` and `removeNetObj` calls -/

/-- A call of one of the two public methods of `NetThreadPool` that change its
bookkeeping, with the platform answers during the call. -/
inductive PoolCall where
  /-- Call `addNetObj(netObj)`. -/
  | add (netObj : Nat) (env : PoolEnv)
  /-- Call `removeNetObj(netObj)`; `isShutdown` is the answer of each worker. -/
  | remove (netObj : Nat) (isShutdown : Nat → Bool)

/-- The pool after one call. -/
def PoolCall.run (p : NetThreadPool) : PoolCall → NetThreadPool
  | .add netObj env => (p.addNetObj netObj env).2.1
  | .remove netObj isShutdown => (p.removeNetObj netObj isShutdown).1

/-- The pool after a sequence of calls. -/
def NetThreadPool.runPoolCalls : NetThreadPool → List PoolCall → NetThreadPool
  | p, [] => p
  | p, c :: rest => NetThreadPool.runPoolCalls (c.run p) rest

/-- A call the library can make in the state `p`: `addNetObj` is called with an
object that the index does not hold, and a worker created during the call is
at the address of no worker that the pool still holds once the workers that
completed shutdown are discarded. -/
def PoolCall.admissible (p : NetThreadPool) : PoolCall → Bool
  | .add netObj env =>
    decide (netObj ∉ mapKeys p.m_objToThreadMap) &&
      env.fresh (p.cleanupShuttingDownThreads env.isShutdown)
  | .remove _ _ => true

/-- Every call of the sequence is admissible in the state it is made in. -/
def NetThreadPool.poolCallsAdmissible : NetThreadPool → List PoolCall → Bool
  | _, [] => true
  | p, c :: rest => c.admissible p && NetThreadPool.poolCallsAdmissible (c.run p) rest

/-- Two objects are added (one worker), both are removed (the worker starts to
shut down), a third is added while that worker has completed shutdown and its
address 500 is issued again, and an object the pool does not hold is
removed. -/
def demoPoolCalls : List PoolCall :=
  [.add 1000 (demoPoolEnv 500), .add 1001 (demoPoolEnv 501), .remove 1000 (fun _ => false),
    .remove 1001 (fun _ => false),
    .add 1002 { isShutdown := fun _ => true, create := .ok 500 },
    .remove 7 (fun _ => false)]

/-! ## The worker (`netthreadobj.cpp`) -/

/-- Struct `NetThreadObj::ChangeRequest`. -/
structure ChangeRequest where
  /-- Field `add`: an addition (`true`) or a removal. -/
  add : Bool
  /-- Field `netObj`, a `NetObjSPtr`: the address of the object, `none` for
  the null pointer. -/
  netObj : Option Nat
  deriving DecidableEq, Repr

/-- The data of a `NetThreadObj`, without the mutex and the thread id. -/
structure NetThreadObj where
  /-- Field `m_netEvents`, the handles in vector order. -/
  m_netEvents : List Nat
  /-- Field `m_netObjs`, in vector order; `none` is the null pointer. -/
  m_netObjs : List (Option Nat)
  /-- Field `m_changeRequests`, front of the queue first. -/
  m_changeRequests : List ChangeRequest
  /-- Field `m_startShutdownEvent`; `none` is `NULL`. -/
  m_startShutdownEvent : Option Nat
  /-- Field `m_isShutdownEvent`; `none` is `NULL`. -/
  m_isShutdownEvent : Option Nat
  deriving DecidableEq, Repr

/-- Constructor `NetThreadObj::NetThreadObj()`. -/
def NetThreadObj.new : NetThreadObj := ⟨[], [], [], none, none⟩

/-- The answers of the three `CreateEvent` calls of `NetThreadObj::construct`:
the handle, or the value of `GetLastError()` when the answer is `NULL`. -/
structure WorkerEnv where
  /-- Answer of the call for the interrupt event. -/
  interruptEvent : Except OsErr Nat
  /-- Answer of the call for `m_startShutdownEvent`. -/
  startShutdownEvent : Except OsErr Nat
  /-- Answer of the call for `m_isShutdownEvent`. -/
  isShutdownEvent : Except OsErr Nat

/-- Method `NetThreadObj::construct`: return value and object afterwards. -/
def NetThreadObj.construct (self : NetThreadObj) (env : WorkerEnv) : Int × NetThreadObj :=
  match env.interruptEvent with
  | .ok interruptEvent =>
    let s1 := { self with
      m_netEvents := self.m_netEvents ++ [interruptEvent]
      m_netObjs := self.m_netObjs ++ [none] }
    match env.startShutdownEvent with
    | .ok h =>
      let s2 := { s1 with m_startShutdownEvent := some h }
      match env.isShutdownEvent with
      | .ok d => (CL_ERR_OK, { s2 with m_isShutdownEvent := some d })
      | .error e => (e.val, s2)
    | .error e => (e.val, s1)
  | .error e => (e.val, self)

/-- Method `NetThreadObj::addNetObj`, as far as the object's data go. -/
def NetThreadObj.addNetObj (self : NetThreadObj) (netObj : Option Nat) : NetThreadObj :=
  { self with m_changeRequests := self.m_changeRequests ++ [⟨true, netObj⟩] }

/-- Method `NetThreadObj::removeNetObj`, as far as the object's data go. -/
def NetThreadObj.removeNetObj (self : NetThreadObj) (netObj : Option Nat) : NetThreadObj :=
  { self with m_changeRequests := self.m_changeRequests ++ [⟨false, netObj⟩] }

/-- What the platform answers during the sweep of `NetThreadObj::run` that
follows a wait-many answer with a network event. Each index is visited at most
once, so an answer is given for each index. -/
structure SweepEnv where
  /-- Whether `WaitForSingleObject(m_startShutdownEvent, 0)` answers
  `WAIT_OBJECT_0` when the loop condition is evaluated at `idx`. -/
  startShutdown : Nat → Bool
  /-- Whether the zero-timeout `WSAWaitForMultipleEvents` on `m_netEvents[idx]`
  answers `WSA_WAIT_EVENT_0`. -/
  signalled : Nat → Bool

/-- The `for` loop of `NetThreadObj::run` from `idx` on, with `n` indices left
below `m_netEvents.size()`: the indices `idx` at which
`m_netObjs[idx]->onNetEvent()` is called, in the order of the calls. -/
def NetThreadObj.sweepLoop (env : SweepEnv) : Nat → Nat → List Nat
  | 0, _ => []
  | n + 1, idx =>
    if env.startShutdown idx then []
    else
      (if env.signalled idx then [idx] else []) ++ NetThreadObj.sweepLoop env n (idx + 1)

/-- The branch of `NetThreadObj::run` for `netEventIdx != 0`: the indices at
which `onNetEvent` is called, in the order of the calls. -/
def NetThreadObj.sweep (self : NetThreadObj) (env : SweepEnv) (netEventIdx : Nat) : List Nat :=
  NetThreadObj.sweepLoop env (self.m_netEvents.length - netEventIdx) netEventIdx

/-- The body of the `while (!m_changeRequests.empty())` loop of
`NetThreadObj::run` for the request at the front; `netEvent` gives the answer
of `netEvent()` of each object. The result is `none` where the code
dereferences a null pointer or erases past the end of `m_netEvents`. -/
def NetThreadObj.applyChange (netEvent : Nat → Nat) (self : NetThreadObj)
    (changeRequest : ChangeRequest) : Option NetThreadObj :=
  if changeRequest.add then
    match changeRequest.netObj with
    | some o =>
      some { self with
        m_netObjs := self.m_netObjs ++ [some o]
        m_netEvents := self.m_netEvents ++ [netEvent o] }
    | none => none
  else
    let netObjIdx := self.m_netObjs.indexOf changeRequest.netObj
    if netObjIdx < self.m_netObjs.length then
      if netObjIdx < self.m_netEvents.length then
        some { self with
          m_netObjs := self.m_netObjs.eraseIdx netObjIdx
          m_netEvents := self.m_netEvents.eraseIdx netObjIdx }
      else none
    else some self

/-- The loop `while (!m_changeRequests.empty())` over the requests given,
front first. -/
def NetThreadObj.drainLoop (netEvent : Nat → Nat) :
    NetThreadObj → List ChangeRequest → Option NetThreadObj
  | self, [] => some self
  | self, r :: rest =>
    match self.applyChange netEvent r with
    | some s => NetThreadObj.drainLoop netEvent s rest
    | none => none

/-- The branch of `NetThreadObj::run` for the interrupt event when shutdown
has not started: every request of the queue is handled and popped. -/
def NetThreadObj.drain (netEvent : Nat → Nat) (self : NetThreadObj) : Option NetThreadObj :=
  (NetThreadObj.drainLoop netEvent self self.m_changeRequests).map
    (fun s => { s with m_changeRequests := [] })

/-- The objects on a worker that holds `cur` once the requests are handled:
an addition appends the object, a removal erases it. -/
def onWorkerAfter : List Nat → List ChangeRequest → List Nat
  | cur, [] => cur
  | cur, r :: rest =>
    match r.netObj with
    | some o => if r.add then onWorkerAfter (cur ++ [o]) rest else onWorkerAfter (cur.erase o) rest
    | none => onWorkerAfter cur rest

/-- A sequence of requests that the pool can enqueue on a worker that holds
`cur`: no request names the null pointer, an object is added only when it is
not on the worker, and only while fewer than `NET_OBJ_MAX_COUNT` objects
are on it. -/
def admissibleRequests : List Nat → List ChangeRequest → Bool
  | _, [] => true
  | cur, r :: rest =>
    match r.netObj with
    | none => false
    | some o =>
      if r.add then
        decide (o ∉ cur ∧ cur.length < NET_OBJ_MAX_COUNT) && admissibleRequests (cur ++ [o]) rest
      else admissibleRequests (cur.erase o) rest

/-- A worker with three objects behind the interrupt event. -/
def demoWorker : NetThreadObj :=
  { m_netEvents := [100, 1001, 1002, 1003], m_netObjs := [none, some 1, some 2, some 3],
    m_changeRequests := [], m_startShutdownEvent := some 101, m_isShutdownEvent := some 102 }

/-- A sweep in which no shutdown is observed and the handles at the indices 1
and 3 are signalled. -/
def demoSweepEnv : SweepEnv :=
  { startShutdown := fun _ => false, signalled := fun idx => decide (idx ≠ 2) }

/-- The three `CreateEvent` calls answer with the handles 100, 101, 102. -/
def demoWorkerEnv : WorkerEnv :=
  { interruptEvent := .ok 100, startShutdownEvent := .ok 101, isShutdownEvent := .ok 102 }

/-- The wait handle of the object at address `o`. -/
def demoNetEvent (o : Nat) : Nat := 1000 + o

/-- Requests of a pool: add 1, add 2, remove 1, remove 5 (not on the worker),
add 3. -/
def demoRequests : List ChangeRequest :=
  [⟨true, some 1⟩, ⟨true, some 2⟩, ⟨false, some 1⟩, ⟨false, some 5⟩, ⟨true, some 3⟩]

/-! ### The lifecycle with `CLCleanup` in two phases -/

/-- Whether a call takes the library mutex in shared mode: every call but
`CLStartup` and `CLCleanup`. -/
def ApiCall.isShared (c : ApiCall) : Bool := !c.isStartup && !c.isCleanup

/-- Whether a call is `CLDeleteSrvSocket` or `CLDeleteSocket`, the two calls
of the shared kind that return nothing. -/
def ApiCall.isDelete : ApiCall → Bool
  | .deleteSrvSocket _ _ => true
  | .deleteSocket _ _ _ => true
  | _ => false

/-- A step of the library as seen by the holders of its mutex: `CLCleanup`
releases the mutex for the wait for the pool, so that it is two steps. -/
inductive LifecycleStep where
  /-- Call `CLStartup()`, from its wait for `s_uninitializing` to its return. -/
  | startup (wsaStartupErr : Int)
  /-- Call `CLCleanup()` from its wait for `s_uninitializing` to the unlock
  before the wait for the pool, or to its return when the count is not 0. -/
  | cleanupBegin (env : CleanupEnv)
  /-- The rest of that call of `CLCleanup()`, from the wait for the pool on. -/
  | cleanupEnd (env : CleanupEnv)
  /-- A call that takes the mutex in shared mode. -/
  | shared (c : ApiCall)

/-- Whether a step can be taken: `CLStartup` and `CLCleanup` wait while
`s_uninitializing` is set, and the second phase of `CLCleanup` is that of the
call that set it. -/
def LifecycleStep.enabled (lib : Lib) : LifecycleStep → Bool
  | .startup _ => !lib.s_uninitializing
  | .cleanupBegin _ => !lib.s_uninitializing
  | .cleanupEnd _ => lib.s_uninitializing
  | .shared c => c.isShared

/-- The library after a step. -/
def LifecycleStep.run (lib : Lib) : LifecycleStep → Lib
  | .startup e => (CLStartup lib e).lib
  | .cleanupBegin env => (CLCleanup.beforeWait lib env).lib
  | .cleanupEnd env => (CLCleanup.afterWait lib env).lib
  | .shared c => (c.run lib).lib

/-- The library after a sequence of steps; `none` when a step of the sequence
cannot be taken in the state it meets. -/
def runLifecycle : Lib → List LifecycleStep → Option Lib
  | lib, [] => some lib
  | lib, s :: rest => if s.enabled lib then runLifecycle (s.run lib) rest else none

/-- The lifecycle up to the teardown window: `CLStartup`, the creation of one
client socket, and the first phase of `CLCleanup`. -/
def demoTeardown : List LifecycleStep :=
  [.startup 0,
    .shared (.createSocket demoSocketArgs (demoCreateEnv 1000 3 7) (demoPoolEnv 500)),
    .cleanupBegin demoCleanupEnv]

/-- The library in the teardown window of `demoTeardown`. -/
def demoTeardownLib : Lib := (runLifecycle Lib.initial demoTeardown).getD Lib.initial

/-! ### A scripted platform for `recv` -/

/-- A receive side whose `recv` answers are scripted and that records the size
requested by every call. -/
structure RecvScript where
  /-- The outcomes of the coming `recv` calls; a byte outcome is cut to the
  size requested, and once the list is used up `recv` fails with
  `WSAEWOULDBLOCK`. -/
  outcomes : List RecvResult
  /-- The sizes requested by the calls made so far, in order. -/
  requested : List Int
  deriving DecidableEq, Repr

/-- Call `recv` on a scripted receive side: an error, or any number of bytes
from 0 up to the size requested. -/
def RecvScript.recv (p : RecvScript) (requested : Int) : RecvResult × RecvScript :=
  match p.outcomes with
  | [] => (.error WSAEWOULDBLOCK, { p with requested := p.requested ++ [requested] })
  | .bytes bs :: rest =>
    (.bytes (bs.take requested.toNat),
      { outcomes := rest, requested := p.requested ++ [requested] })
  | .error e :: rest =>
    (.error e, { outcomes := rest, requested := p.requested ++ [requested] })

/-- The bounds on the receive buffer of a socket object: the filled length is
between 0 and the length of the buffer, which is at most 65537, and a filled
length of 2 or more is short of the frame that the prefix announces. -/
def SocketObj.recvBounds (s : SocketObj) : Prop :=
  0 ≤ s.m_DataRecvLen ∧ s.m_DataRecvLen ≤ s.m_DataRecvBuf.length ∧
  s.m_DataRecvBuf.length ≤ 65537 ∧
  (2 ≤ s.m_DataRecvLen → s.m_DataRecvLen < 2 + ntohs s.m_DataRecvBuf)

/-- The sizes that one invocation of `onFdRead` on the object `s` requests
from `recv`, in order. On a closed socket: none. In the prefix stage (filled
length below 2, buffer of length 2): the `2 - filled` bytes that the prefix
lacks, followed, when the prefix is then complete and announces
`prefixValue > 0` bytes, by the `prefixValue + 2 - 2` bytes of the payload. In
the payload stage (buffer of length `prefixValue + 2`): the
`prefixValue + 2 - filled` bytes that the frame lacks. -/
def SocketObj.recvSizes (s : SocketObj) (new : List Int) : Prop :=
  (s.m_socket = none ∧ new = []) ∨
  (s.m_socket ≠ none ∧ s.m_DataRecvLen < 2 ∧
    (new = [2 - s.m_DataRecvLen] ∨
      ∃ prefixValue : Int, 1 ≤ prefixValue ∧ prefixValue ≤ 65535 ∧
        new = [2 - s.m_DataRecvLen, prefixValue + 2 - 2])) ∨
  (s.m_socket ≠ none ∧ 2 ≤ s.m_DataRecvLen ∧
    new = [ntohs s.m_DataRecvBuf + 2 - s.m_DataRecvLen])

/-- Successive invocations of `onFdRead`, `n` of them, on a scripted receive
side: the object and the receive side after the last one, and the callbacks of
each invocation. -/
def SocketObj.onFdReads : Nat → SocketObj → RecvScript →
    SocketObj × RecvScript × List (List Callback)
  | 0, s, p => (s, p, [])
  | n + 1, s, p =>
    let r := s.onFdRead RecvScript.recv p
    let rs := SocketObj.onFdReads n r.1 r.2.1
    (rs.1, rs.2.1, r.2.2 :: rs.2.2)

/-- Outcomes of `recv`: one prefix byte, the second prefix byte, an error,
three payload bytes where two are asked for. The prefix announces 2 bytes. -/
def demoOutcomes : List RecvResult :=
  [.bytes [0], .bytes [2], .error WSAECONNRESET, .bytes [7, 8, 9]]

/-! ### Matched calls of `CLCleanup` -/

/-- Every `CLCleanup` call of a run from `lib` has a matching earlier
successful `CLStartup`: when it is made, `b` is at least 1, where `b` counts
the `CLStartup` calls that returned `CL_ERR_OK` less the `CLCleanup` calls
made so far. -/
def cleanupsMatched : Lib → Nat → List ApiCall → Bool
  | _, _, [] => true
  | lib, b, c :: cs =>
    if c.isCleanup then decide (1 ≤ b) && cleanupsMatched (c.run lib).lib (b - 1) cs
    else if c.isStartup && decide ((c.run lib).ret = CL_ERR_OK) then
      cleanupsMatched (c.run lib).lib (b + 1) cs
    else cleanupsMatched (c.run lib).lib b cs

/-- A call of `CLCleanup` that no `CLStartup` precedes. -/
def demoUnmatchedCleanup : List ApiCall := [.cleanup demoCleanupEnv]

/-- A failed `CLStartup`, a successful one, a `CLCleanup`. -/
def demoMatchedCalls : List ApiCall := [.startup 10091, .startup 0, .cleanup demoCleanupEnv]

/-! ### The platform calls and the descriptors of a run -/

/-- The descriptors that the objects of a `std::map` of socket objects hold,
in the order of the map. -/
def heldDescriptors {α : Type} (socket : α → Option Nat) : List (Nat × α) → List Nat
  | [] => []
  | (_, o) :: rest => (socket o).toList ++ heldDescriptors socket rest

/-- The descriptors held by the objects of the two registries. -/
def Lib.descriptors (lib : Lib) : List Nat :=
  heldDescriptors SrvSocketObj.m_socket lib.s_srvSocketRegistry.m_hndToSktObjMap ++
    heldDescriptors SocketObj.m_socket lib.s_socketRegistry.m_hndToSktObjMap

end Comlib

/-! # Proofs -/

namespace Comlib

/-! ## The send path -/

theorem memRead_add (buf : List Byte) (off a b : Nat) :
    memRead buf off (a + b) = memRead buf off a ++ memRead buf (off + a) b := by
  simp [memRead, List.range_add, List.map_append, List.map_map, Function.comp_def, Nat.add_assoc]

theorem memRead_zero (buf : List Byte) (off : Nat) : memRead buf off 0 = [] := by
  simp [memRead]

theorem memRead_length (buf : List Byte) (off k : Nat) : (memRead buf off k).length = k := by
  simp [memRead]

theorem memRead_eq_take (buf : List Byte) (k : Nat) (h : k ≤ buf.length) :
    memRead buf 0 k = buf.take k := by
  apply List.ext_getElem
  · simp [memRead, h]
  · intro i h1 h2
    simp [memRead] at h1 ⊢
    rw [List.getElem?_eq_getElem (by omega)]
    rfl

theorem sendAllLoop_allSent (fd : Option Nat) (buf : List Byte) (len : Int) (th : OsErr) :
    ∀ (script : List SendOutcome) (bytesSent : Int), AllSent script → 0 ≤ bytesSent →
      (len - bytesSent).toNat ≤ script.length →
      (sendAllLoop fd buf len th script bytesSent).err = CL_ERR_OK ∧
      wireBytes (sendAllLoop fd buf len th script bytesSent).calls =
        memRead buf bytesSent.toNat (len - bytesSent).toNat ∧
      (∃ used, script = used ++ (sendAllLoop fd buf len th script bytesSent).rest ∧
        used.length ≤ (len - bytesSent).toNat) := by
  intro script
  induction script with
  | nil =>
    intro bytesSent _ h0 hlen
    have : ¬ bytesSent < len := by simp at hlen; omega
    have h2 : (len - bytesSent).toNat = 0 := by omega
    simp [sendAllLoop, this, wireBytes, h2, memRead_zero]
  | cons o rest ih =>
    intro bytesSent hall h0 hlen
    by_cases hlt : bytesSent < len
    · obtain ⟨n, rfl⟩ : ∃ n : Nat, o = .sent (n + 1) := by
        have := hall o (List.mem_cons_self _ _)
        match o, this with
        | .sent (n + 1), _ => exact ⟨n, rfl⟩
      have hall' : AllSent rest := fun o ho => hall o (List.mem_cons_of_mem _ ho)
      simp only [sendAllLoop, hlt, if_true]
      set k := min (n + 1) (len - bytesSent).toNat with hk
      have hk1 : 1 ≤ k := by omega
      have hk2 : k ≤ (len - bytesSent).toNat := by omega
      have hrem : (len - (bytesSent + (k : Int))).toNat = (len - bytesSent).toNat - k := by omega
      have hoff : (bytesSent + (k : Int)).toNat = bytesSent.toNat + k := by omega
      have := ih (bytesSent + (k : Int)) hall' (by omega) (by simp at hlen; omega)
      obtain ⟨e1, e2, used, e3, e4⟩ := this
      refine ⟨e1, ?_, SendOutcome.sent (n + 1) :: used, ?_, ?_⟩
      · simp only [wireBytes, e2, hrem, hoff]
        rw [← memRead_add]
        congr 1
        omega
      · simp only [List.cons_append]
        rw [← e3]
      · simp only [List.length_cons]
        omega
    · have h2 : (len - bytesSent).toNat = 0 := by omega
      simp [sendAllLoop, hlt, wireBytes, h2, memRead_zero]


theorem wireBytes_append (a b : List PlatformCall) :
    wireBytes (a ++ b) = wireBytes a ++ wireBytes b := by
  induction a with
  | nil => rfl
  | cons c cs ih => cases c <;> simp [wireBytes, ih]

theorem htons_val (v : Nat) : (htons v).map Fin.val = [v / 256 % 256, v % 256] := by
  simp [htons]

theorem memRead_htons (v : Nat) : memRead (htons v) 0 2 = htons v := by
  simp [memRead, htons, List.range_succ]

theorem toPrefixType_of_le (n : Nat) (h : n ≤ 65535) : toPrefixType (n : Int) = n := by
  unfold toPrefixType
  omega

theorem AllSent_of_append {a b : List SendOutcome} (h : AllSent (a ++ b)) : AllSent b :=
  fun o ho => h o (List.mem_append_right _ ho)

theorem sendData_allSent (self : SocketObj) (buf : List Byte) (n : Nat) (env : SendEnv)
    (hflag : self.m_dataStreamCorrupted = false)
    (hoff : env.eventSelectOff = none) (hio : env.ioctl = none)
    (hon : env.eventSelectOn = none)
    (hsent : AllSent env.sends) (hcover : n + 2 ≤ env.sends.length) :
    (self.sendData buf n env).1 = CL_ERR_OK ∧ (self.sendData buf n env).2.1 = self ∧
    wireBytes (self.sendData buf n env).2.2 =
      htons (toPrefixType (n : Int)) ++ memRead buf 0 n := by
  obtain ⟨a1, a2, used, a3, a4⟩ := sendAllLoop_allSent self.m_socket
    (htons (toPrefixType (n : Int))) 2 env.thereafter env.sends 0 hsent (le_refl _)
    (by simp; omega)
  have hrest : AllSent (sendAllLoop self.m_socket (htons (toPrefixType (n : Int))) 2
      env.thereafter env.sends 0).rest := by
    rw [a3] at hsent
    exact AllSent_of_append hsent
  have hlen : n ≤ (sendAllLoop self.m_socket (htons (toPrefixType (n : Int))) 2
      env.thereafter env.sends 0).rest.length := by
    have := congrArg List.length a3
    simp only [List.length_append] at this
    simp at a4
    omega
  obtain ⟨b1, b2, -⟩ := sendAllLoop_allSent self.m_socket buf (n : Int) env.thereafter
    _ 0 hrest (le_refl _) (by simpa using hlen)
  simp only [Int.sub_zero, Int.toNat_zero, Int.toNat_ofNat] at a2 b2
  have a2' : wireBytes (sendAllLoop self.m_socket (htons (toPrefixType (n : Int))) 2
      env.thereafter env.sends 0).calls = htons (toPrefixType (n : Int)) := by
    rw [a2]; exact memRead_htons _
  simp [SocketObj.sendData, hflag, SocketObj.SetBlockingMode, hoff, hio, hon, errOf,
    SocketObj.sendAll, a1, b1, SocketObj.SetNonBlockingMode, wireBytes_append, wireBytes,
    a2', b2]

/-! ## The receive path -/

theorem recvInto_wire (F rest : List Byte) (s : SocketObj) (w : Wire) (n : Nat)
    (hn : s.m_DataRecvLen = n) (hlt : n < s.m_DataRecvBuf.length)
    (hm : s.m_DataRecvBuf.length ≤ F.length)
    (htake : s.m_DataRecvBuf.take n = F.take n)
    (hw : w.pending = F.drop n ++ rest) :
    ∃ k, 1 ≤ k ∧ n + k ≤ s.m_DataRecvBuf.length ∧
      (SocketObj.recvInto Wire.recv s w).1 =
        { s with m_DataRecvBuf := F.take (n + k) ++ s.m_DataRecvBuf.drop (n + k),
                 m_DataRecvLen := ((n + k : Nat) : Int) } ∧
      (SocketObj.recvInto Wire.recv s w).2.pending = F.drop (n + k) ++ rest := by
  have hFd : (F.drop n).length = F.length - n := List.length_drop _ _
  have hplen : w.pending.length = F.length - n + rest.length := by
    rw [hw, List.length_append, hFd]
  have hne : w.pending ≠ [] := by
    intro h
    rw [h] at hplen
    simp at hplen
    omega
  have hreq : ((s.m_DataRecvBuf.length : Int) - (n : Int)).toNat
      = s.m_DataRecvBuf.length - n := by omega
  obtain ⟨k, hk⟩ : ∃ k, k =
    min (min (w.chunks.headD 0 + 1) (s.m_DataRecvBuf.length - n)) w.pending.length := ⟨_, rfl⟩
  have hk1 : 1 ≤ k := by omega
  have hk2 : k ≤ (F.drop n).length := by omega
  have htk : (w.pending.take k) = (F.drop n).take k := by
    rw [hw, List.take_append_of_le_length hk2]
  have hdk : (w.pending.drop k) = F.drop (n + k) ++ rest := by
    rw [hw, List.drop_append_of_le_length hk2, List.drop_drop, Nat.add_comm]
  have hlk : ((F.drop n).take k).length = k := by
    rw [List.length_take]; omega
  have hrecv : Wire.recv w ((s.m_DataRecvBuf.length : Int) - (n : Int)) =
      (.bytes ((F.drop n).take k), ⟨F.drop (n + k) ++ rest, w.chunks.tail⟩) := by
    unfold Wire.recv
    rw [if_neg hne]
    simp only [hreq]
    rw [← hk, htk, hdk]
  refine ⟨k, hk1, by omega, ?_, ?_⟩
  · simp only [SocketObj.recvInto, hn, hrecv, writeAt, Int.toNat_ofNat, htake, hlk,
      List.take_add]
    simp
  · simp only [SocketObj.recvInto, hn, hrecv]

theorem resize_length (v : List Byte) (n : Nat) : (resize v n).length = n := by
  simp [resize]; omega

theorem take_resize (v : List Byte) (n k : Nat) (h1 : k ≤ v.length) (h2 : k ≤ n) :
    (resize v n).take k = v.take k := by
  unfold resize
  rw [List.take_append_of_le_length (by simp; omega), List.take_take]
  congr 1
  omega

theorem resize_self (v : List Byte) (n : Nat) (h : v.length = n) : resize v n = v := by
  simp [resize, ← h]

theorem ntohs_of_take (buf : List Byte) (L : Nat) (hL : L ≤ 65535)
    (h : buf.take 2 = htons L) : ntohs buf = L := by
  match buf, h with
  | a :: b :: t, h =>
    simp [htons] at h
    obtain ⟨ha, hb⟩ := h
    subst ha; subst hb
    simp [ntohs]
    omega
  | [a], h => simp [htons] at h
  | [], h => simp [htons] at h

theorem onFdReadPayload_wire (L : Nat) (payload F rest : List Byte)
    (hF : F = htons L ++ payload) (hL : payload.length = L) (h1 : 1 ≤ L) (h2 : L ≤ 65535)
    (s : SocketObj) (w : Wire) (n : Nat) (hsock : s.m_socket ≠ none)
    (hn : s.m_DataRecvLen = n) (h2n : 2 ≤ n) (hlt : n < F.length)
    (hbuf : n ≤ s.m_DataRecvBuf.length)
    (htake : s.m_DataRecvBuf.take n = F.take n) (hw : w.pending = F.drop n ++ rest) :
    (∃ n', n < n' ∧ n' < F.length ∧
        Receiving F rest n' (SocketObj.onFdReadPayload Wire.recv s w).1
          (SocketObj.onFdReadPayload Wire.recv s w).2.1 ∧
        (SocketObj.onFdReadPayload Wire.recv s w).2.2 = []) ∨
    ((SocketObj.onFdReadPayload Wire.recv s w).1 =
        { s with m_DataRecvBuf := [], m_DataRecvLen := 0 } ∧
      (SocketObj.onFdReadPayload Wire.recv s w).2.1.pending = rest ∧
      (SocketObj.onFdReadPayload Wire.recv s w).2.2 = [.dataRecv payload L]) := by
  have hFlen : F.length = L + 2 := by simp [hF, htons, hL]
  have hF2 : F.take 2 = htons L := by simp [hF, htons]
  have hpv : ntohs s.m_DataRecvBuf = L := by
    apply ntohs_of_take _ _ h2
    have := congrArg (List.take 2) htake
    rw [List.take_take, List.take_take, min_eq_left h2n] at this
    rw [this, hF2]
  have hsz : (PREFIX_LEN + (L : Int)).toNat = L + 2 := by simp [PREFIX_LEN]; omega
  obtain ⟨k, hk1, hk2, e1, e2⟩ := recvInto_wire F rest
    { s with m_DataRecvBuf := resize s.m_DataRecvBuf (L + 2) } w n hn
    (by simp [resize_length]; omega) (by simp [resize_length]; omega)
    (by simp only; rw [take_resize _ _ _ hbuf (by omega)]; exact htake) hw
  simp only [resize_length] at hk2 e1
  have hge : s.m_DataRecvLen ≥ PREFIX_LEN := by simp [hn, PREFIX_LEN]; omega
  have hpos : (L : Int) > 0 := by omega
  have hdrop2 : F.drop 2 = payload := by simp [hF, htons]
  generalize hr : SocketObj.recvInto Wire.recv
    { s with m_DataRecvBuf := resize s.m_DataRecvBuf (L + 2) } w = r at e1 e2
  obtain ⟨s2, w2⟩ := r
  simp only at e1 e2
  subst e1
  by_cases hfull : n + k = L + 2
  · right
    have hc : ((n + k : Nat) : Int) = PREFIX_LEN + (L : Int) := by
      simp only [PREFIX_LEN]; omega
    have ht : List.take (n + k) F = F := List.take_of_length_le (by omega)
    have hd : List.drop (n + k) (resize s.m_DataRecvBuf (L + 2)) = [] :=
      List.drop_eq_nil_of_le (by rw [resize_length]; omega)
    have hd2 : List.drop (n + k) F = [] := List.drop_eq_nil_of_le (by omega)
    simp only [SocketObj.onFdReadPayload, hge, if_true, hpv, hpos, hsz, hr, hc, ht, hd,
      List.append_nil, e2, hd2, List.nil_append, true_and]
    simp [PREFIX_LEN, hdrop2]
  · left
    have hc : ¬ ((n + k : Nat) : Int) = PREFIX_LEN + (L : Int) := by
      simp only [PREFIX_LEN]; omega
    refine ⟨n + k, by omega, by omega, ?_, ?_⟩
    · simp only [SocketObj.onFdReadPayload, hge, if_true, hpv, hpos, hsz, hr, hc, if_false]
      refine ⟨hsock, rfl, ?_, ?_, ?_, e2⟩
      · simp [resize_length]; omega
      · rw [List.take_append_of_le_length (by simp; omega), List.take_take, min_self]
      · intro _
        simp [resize_length]; omega
    · simp only [SocketObj.onFdReadPayload, hge, if_true, hpv, hpos, hsz, hr, hc, if_false]

theorem onFdRead_wire (L : Nat) (payload F rest : List Byte)
    (hF : F = htons L ++ payload) (hL : payload.length = L) (h1 : 1 ≤ L) (h2 : L ≤ 65535)
    (s : SocketObj) (w : Wire) (n : Nat) (hlt : n < F.length) (hR : Receiving F rest n s w) :
    (∃ n', n < n' ∧ n' < F.length ∧
        Receiving F rest n' (SocketObj.onFdRead Wire.recv s w).1
          (SocketObj.onFdRead Wire.recv s w).2.1 ∧
        (SocketObj.onFdRead Wire.recv s w).2.2 = []) ∨
    ((SocketObj.onFdRead Wire.recv s w).1 =
        { s with m_DataRecvBuf := [], m_DataRecvLen := 0 } ∧
      (SocketObj.onFdRead Wire.recv s w).2.1.pending = rest ∧
      (SocketObj.onFdRead Wire.recv s w).2.2 = [.dataRecv payload L]) := by
  obtain ⟨hsock, hn, hbuf, htake, hfull, hw⟩ := hR
  have hFlen : F.length = L + 2 := by simp [hF, htons, hL]
  by_cases h2n : 2 ≤ n
  · have hnot : ¬ s.m_DataRecvLen < PREFIX_LEN := by simp only [hn, PREFIX_LEN]; omega
    simp only [SocketObj.onFdRead, hsock, if_false, hnot]
    exact onFdReadPayload_wire L payload F rest hF hL h1 h2 s w n hsock hn h2n hlt hbuf htake hw
  · have hless : s.m_DataRecvLen < PREFIX_LEN := by simp only [hn, PREFIX_LEN]; omega
    obtain ⟨k, hk1, hk2, e1, e2⟩ := recvInto_wire F rest
      { s with m_DataRecvBuf := resize s.m_DataRecvBuf 2 } w n hn
      (by simp [resize_length]; omega) (by simp [resize_length]; omega)
      (by simp only; rw [take_resize _ _ _ hbuf (by omega)]; exact htake) hw
    simp only [resize_length] at hk2 e1
    have hp2 : PREFIX_LEN.toNat = 2 := rfl
    generalize hr : SocketObj.recvInto Wire.recv
      { s with m_DataRecvBuf := resize s.m_DataRecvBuf 2 } w = r at e1 e2
    obtain ⟨s1, w1⟩ := r
    simp only at e1 e2
    simp only [SocketObj.onFdRead, hsock, if_false, hless, if_true, hp2, hr]
    by_cases hk : n + k = 2
    · have := onFdReadPayload_wire L payload F rest hF hL h1 h2 s1 w1 2
        (by rw [e1]; exact hsock) (by rw [e1]; simp [hk]) (le_refl _) (by omega)
        (by rw [e1]; simp [resize_length]; omega)
        (by rw [e1]; simp only [hk]
            rw [List.take_append_of_le_length (by simp; omega), List.take_take, min_self])
        (by rw [e2, hk])
      rcases this with ⟨n', a1, a2, a3, a4⟩ | ⟨b1, b2, b3⟩
      · exact Or.inl ⟨n', by omega, a2, a3, a4⟩
      · refine Or.inr ⟨?_, b2, b3⟩
        rw [b1, e1]
    · left
      have hlen1 : ¬ s1.m_DataRecvLen ≥ PREFIX_LEN := by
        rw [e1]; simp only [PREFIX_LEN]; omega
      refine ⟨n + k, by omega, by omega, ?_, ?_⟩
      · simp only [SocketObj.onFdReadPayload, hlen1, if_false]
        rw [e1]
        refine ⟨hsock, rfl, ?_, ?_, ?_, e2⟩
        · simp [resize_length]; omega
        · simp only
          rw [List.take_append_of_le_length (by simp; omega), List.take_take, min_self]
        · intro h; omega
      · simp only [SocketObj.onFdReadPayload, hlen1, if_false]

theorem recvInto_resetRecv {P : Type} (recv : P → Int → RecvResult × P) (s : SocketObj)
    (p : P) : (SocketObj.recvInto recv s p).1.resetRecv = s.resetRecv := by
  unfold SocketObj.recvInto
  split <;> rfl

theorem onFdReadPayload_resetRecv {P : Type} (recv : P → Int → RecvResult × P)
    (s : SocketObj) (p : P) :
    (SocketObj.onFdReadPayload recv s p).1.resetRecv = s.resetRecv := by
  have h := recvInto_resetRecv recv
    { s with m_DataRecvBuf := resize s.m_DataRecvBuf (PREFIX_LEN + ntohs s.m_DataRecvBuf).toNat } p
  have key : ∀ x : SocketObj × P, x.1.resetRecv = s.resetRecv →
      (match x with
        | (s2, p2) =>
          if s2.m_DataRecvLen = PREFIX_LEN + ntohs s.m_DataRecvBuf then
            if ntohs s.m_DataRecvBuf > 0 then
              ({ s2 with m_DataRecvBuf := [], m_DataRecvLen := 0 }, p2,
                [Callback.dataRecv (List.drop PREFIX_LEN.toNat s2.m_DataRecvBuf)
                  (ntohs s.m_DataRecvBuf)])
            else ({ s2 with m_DataRecvBuf := [], m_DataRecvLen := 0 }, p2, [])
          else (s2, p2, [])).1.resetRecv = s.resetRecv := by
    rintro ⟨s2, p2⟩ hx
    simp only
    split_ifs <;> simpa [SocketObj.resetRecv] using hx
  unfold SocketObj.onFdReadPayload
  by_cases hge : s.m_DataRecvLen ≥ PREFIX_LEN
  · simp only [hge, if_true]
    apply key
    split_ifs
    · exact h
    · rfl
  · simp only [hge, if_false]

theorem onFdRead_resetRecv {P : Type} (recv : P → Int → RecvResult × P) (s : SocketObj)
    (p : P) : (SocketObj.onFdRead recv s p).1.resetRecv = s.resetRecv := by
  unfold SocketObj.onFdRead
  split_ifs
  · rfl
  · rw [onFdReadPayload_resetRecv]
    exact recvInto_resetRecv recv _ p
  · rw [onFdReadPayload_resetRecv]

theorem readPending_succ (n : Nat) (s : SocketObj) (w : Wire) (h : w.pending ≠ []) :
    readPending (n + 1) s w =
      ((readPending n (SocketObj.onFdRead Wire.recv s w).1
          (SocketObj.onFdRead Wire.recv s w).2.1).1,
        (readPending n (SocketObj.onFdRead Wire.recv s w).1
          (SocketObj.onFdRead Wire.recv s w).2.1).2.1,
        (SocketObj.onFdRead Wire.recv s w).2.2 ++
          (readPending n (SocketObj.onFdRead Wire.recv s w).1
            (SocketObj.onFdRead Wire.recv s w).2.1).2.2) := by
  simp only [readPending, h, if_false]

theorem readPending_nil (n : Nat) (s : SocketObj) (w : Wire) (h : w.pending = []) :
    readPending n s w = (s, w, []) := by
  cases n <;> simp [readPending, h]

theorem readPending_frame (L : Nat) (payload F rest : List Byte)
    (hF : F = htons L ++ payload) (hL : payload.length = L) (h1 : 1 ≤ L) (h2 : L ≤ 65535) :
    ∀ (fuel n : Nat) (s : SocketObj) (w : Wire), Receiving F rest n s w → n < F.length →
      F.length - n ≤ fuel →
      ∃ fuel' w', fuel - (F.length - n) ≤ fuel' ∧ w'.pending = rest ∧
        readPending fuel s w =
          ((readPending fuel' s.resetRecv w').1, (readPending fuel' s.resetRecv w').2.1,
            Callback.dataRecv payload L :: (readPending fuel' s.resetRecv w').2.2) := by
  intro fuel
  induction fuel with
  | zero => intro n s w _ hlt hfuel; omega
  | succ fuel ih =>
    intro n s w hR hlt hfuel
    have hne : w.pending ≠ [] := by
      obtain ⟨-, -, -, -, -, hw⟩ := hR
      intro h
      have := congrArg List.length h
      rw [hw] at this
      simp at this
      omega
    rw [readPending_succ _ _ _ hne]
    have hreset := onFdRead_resetRecv Wire.recv s w
    rcases onFdRead_wire L payload F rest hF hL h1 h2 s w n hlt hR with
      ⟨n', a1, a2, a3, a4⟩ | ⟨b1, b2, b3⟩
    · obtain ⟨fuel', w', c1, c2, c3⟩ := ih n' _ _ a3 a2 (by omega)
      refine ⟨fuel', w', by omega, c2, ?_⟩
      rw [c3, a4, hreset]
      rfl
    · refine ⟨fuel, (SocketObj.onFdRead Wire.recv s w).2.1, by omega, b2, ?_⟩
      rw [b3, b1]
      rfl

/-- The frame of a payload: big-endian length, then the payload. -/
theorem sentFrame_eq (payload : List Byte) (h : payload.length ≤ 65535) :
    sentFrame payload = htons payload.length ++ payload := by
  unfold sentFrame
  have := sendData_allSent (SocketObj.connected 0 0) payload payload.length
    (SendEnv.allOk (List.replicate (payload.length + 2) payload.length)) rfl rfl rfl rfl
    (by intro o ho; simp [SendEnv.allOk] at ho; subst ho; rfl)
    (by simp [SendEnv.allOk])
  rw [this.2.2, toPrefixType_of_le _ h, memRead_eq_take _ _ (le_refl _), List.take_length]

theorem readPending_frames :
    ∀ (payloads : List (List Byte)) (fuel : Nat) (s : SocketObj) (w : Wire),
      (∀ p ∈ payloads, 1 ≤ p.length ∧ p.length ≤ 65535) →
      s.m_socket ≠ none → s.m_DataRecvLen = 0 →
      w.pending = (payloads.map sentFrame).flatten → w.pending.length ≤ fuel →
      (readPending fuel s w).2.2 = payloads.map (fun p => Callback.dataRecv p p.length) ∧
      (readPending fuel s w).2.1.pending = [] ∧
      (readPending fuel s w).1.resetRecv = s.resetRecv ∧
      (readPending fuel s w).1.m_DataRecvLen = 0 ∧
      (payloads ≠ [] → (readPending fuel s w).1.m_DataRecvBuf = []) := by
  intro payloads
  induction payloads with
  | nil =>
    intro fuel s w _ _ hlen hw _
    simp at hw
    rw [readPending_nil _ _ _ hw]
    simp [hlen, hw]
  | cons p ps ih =>
    intro fuel s w hall hsock hlen hw hfuel
    obtain ⟨hp1, hp2⟩ := hall p (List.mem_cons_self _ _)
    have hF := sentFrame_eq p hp2
    have hFlen : (sentFrame p).length = p.length + 2 := by simp [hF, htons]
    simp only [List.map_cons, List.flatten_cons] at hw
    have hR : Receiving (sentFrame p) (ps.map sentFrame).flatten 0 s w :=
      ⟨hsock, by simp [hlen], Nat.zero_le _, by simp, by intro h; omega, by simpa using hw⟩
    have hfuel' : p.length + 2 + (ps.map sentFrame).flatten.length ≤ fuel := by
      rw [hw, List.length_append, hFlen] at hfuel
      exact hfuel
    obtain ⟨fuel', w', c1, c2, c3⟩ := readPending_frame p.length p _ _ hF rfl hp1 hp2 fuel 0 s w
      hR (by omega) (by omega)
    have hrest := ih fuel' s.resetRecv w' (fun q hq => hall q (List.mem_cons_of_mem _ hq))
      hsock rfl c2 (by rw [c2]; omega)
    obtain ⟨d1, d2, d3, d4, d5⟩ := hrest
    rw [c3]
    refine ⟨by simp [d1], d2, ?_, d4, ?_⟩
    · simpa [SocketObj.resetRecv] using d3
    · intro _
      cases ps with
      | nil =>
        simp only [List.map_nil, List.flatten_nil] at c2
        rw [readPending_nil _ _ _ c2]
        rfl
      | cons q qs => exact d5 (by simp)

theorem sendAllLoop_err_nonneg (fd : Option Nat) (buf : List Byte) (len : Int) (th : OsErr) :
    ∀ (script : List SendOutcome) (bytesSent : Int),
      0 ≤ (sendAllLoop fd buf len th script bytesSent).err := by
  intro script
  induction script with
  | nil =>
    intro bytesSent
    unfold sendAllLoop
    split_ifs
    · exact le_of_lt th.2
    · exact le_refl _
  | cons o rest ih =>
    intro bytesSent
    unfold sendAllLoop
    split_ifs
    · cases o with
      | sent n => exact ih _
      | failed e => exact le_of_lt e.2
    · exact le_refl _

theorem sendAllLoop_noFail (fd : Option Nat) (buf : List Byte) (len : Int) (th : OsErr) :
    ∀ (script : List SendOutcome) (bytesSent : Int),
      (∀ c ∈ (sendAllLoop fd buf len th script bytesSent).calls, c.isSendFailed = false) →
      (sendAllLoop fd buf len th script bytesSent).err = CL_ERR_OK := by
  intro script
  induction script with
  | nil =>
    intro bytesSent h
    unfold sendAllLoop at h ⊢
    split_ifs at h ⊢
    · simp [PlatformCall.isSendFailed] at h
    · rfl
  | cons o rest ih =>
    intro bytesSent h
    unfold sendAllLoop at h ⊢
    split_ifs at h ⊢
    · cases o with
      | sent n =>
        apply ih
        intro c hc
        exact h c (List.mem_cons_of_mem _ hc)
      | failed e => simp [PlatformCall.isSendFailed] at h
    · rfl

theorem sendAllLoop_ok (fd : Option Nat) (buf : List Byte) (len : Int) (th : OsErr) :
    ∀ (script : List SendOutcome) (bytesSent : Int), 0 ≤ bytesSent →
      (sendAllLoop fd buf len th script bytesSent).err = CL_ERR_OK →
      wireBytes (sendAllLoop fd buf len th script bytesSent).calls =
        memRead buf bytesSent.toNat (len - bytesSent).toNat := by
  intro script
  induction script with
  | nil =>
    intro bytesSent h0 h
    unfold sendAllLoop at h ⊢
    split_ifs at h ⊢ with hlt
    · exact absurd h (ne_of_gt th.2)
    · have h2 : (len - bytesSent).toNat = 0 := by omega
      simp [wireBytes, h2, memRead_zero]
  | cons o rest ih =>
    intro bytesSent h0 h
    unfold sendAllLoop at h ⊢
    split_ifs at h ⊢ with hlt
    · cases o with
      | sent n =>
        simp only at h ⊢
        have hk2 : min n (len - bytesSent).toNat ≤ (len - bytesSent).toNat := min_le_right _ _
        generalize min n (len - bytesSent).toNat = k at h hk2 ⊢
        have hrem : (len - (bytesSent + (k : Int))).toNat = (len - bytesSent).toNat - k := by
          omega
        have hoff : (bytesSent + (k : Int)).toNat = bytesSent.toNat + k := by omega
        rw [wireBytes, ih _ (by omega) h, hrem, hoff, ← memRead_add]
        congr 1
        omega
      | failed e => exact absurd h (ne_of_gt e.2)
    · have h2 : (len - bytesSent).toNat = 0 := by omega
      simp [wireBytes, h2, memRead_zero]
theorem wireBytes_SetBlockingMode (self : SocketObj) (a b : Option OsErr) :
    wireBytes (self.SetBlockingMode a b).2 = [] := by
  unfold SocketObj.SetBlockingMode
  cases a <;> rfl

theorem wireBytes_SetNonBlockingMode (self : SocketObj) (a : Option OsErr) :
    wireBytes (self.SetNonBlockingMode a).2 = [] := rfl

theorem sendData_ok_wire (self : SocketObj) (buf : List Byte) (len : Int) (env : SendEnv)
    (hok : (self.sendData buf len env).1 = CL_ERR_OK) :
    wireBytes (self.sendData buf len env).2.2 =
      htons (toPrefixType len) ++ memRead buf 0 len.toNat := by
  unfold SocketObj.sendData at hok ⊢
  by_cases hflag : self.m_dataStreamCorrupted = true
  · simp [hflag] at hok
  · simp only [hflag] at hok ⊢
    by_cases hb : (self.SetBlockingMode env.eventSelectOff env.ioctl).1 = CL_ERR_OK
    · simp only [hb, ne_eq, not_true_eq_false, if_false, Bool.false_eq_true] at hok ⊢
      by_cases h1 : (self.sendAll (htons (toPrefixType len)) PREFIX_LEN env.sends
          env.thereafter).err = CL_ERR_OK
      · simp only [h1, if_true] at hok ⊢
        by_cases h2 : (self.sendAll buf len (self.sendAll (htons (toPrefixType len))
            PREFIX_LEN env.sends env.thereafter).rest env.thereafter).err = CL_ERR_OK
        · simp only [h2, ne_eq, not_true_eq_false, if_false] at hok ⊢
          have w1 := sendAllLoop_ok _ _ _ _ _ 0 (le_refl _) h1
          have w2 := sendAllLoop_ok _ _ _ _ _ 0 (le_refl _) h2
          simp only [Int.sub_zero, Int.toNat_zero] at w1 w2
          simp only [wireBytes_append, wireBytes_SetBlockingMode,
            wireBytes_SetNonBlockingMode, List.nil_append, List.append_nil]
          unfold SocketObj.sendAll at w2 ⊢
          rw [w1, w2]
          congr 1
        · simp [h2] at hok
      · simp only [h1, if_false] at hok
        split_ifs at hok <;> simp [h1] at hok
    · simp [hb] at hok

theorem sendData_noFail (self : SocketObj) (buf : List Byte) (len : Int) (env : SendEnv)
    (hflag : self.m_dataStreamCorrupted = false)
    (hoff : env.eventSelectOff = none) (hio : env.ioctl = none)
    (hon : env.eventSelectOn = none)
    (hnf : ∀ c ∈ (self.sendData buf len env).2.2, c.isSendFailed = false) :
    (self.sendData buf len env).1 = CL_ERR_OK ∧ (self.sendData buf len env).2.1 = self := by
  unfold SocketObj.sendData at hnf ⊢
  simp only [hflag, Bool.false_eq_true, if_false, SocketObj.SetBlockingMode, hoff, hio, errOf,
    ne_eq, not_true_eq_false, SocketObj.SetNonBlockingMode, hon] at hnf ⊢
  by_cases h1 : (self.sendAll (htons (toPrefixType len)) PREFIX_LEN env.sends
      env.thereafter).err = CL_ERR_OK
  · simp only [h1, if_true] at hnf ⊢
    by_cases h2 : (self.sendAll buf len (self.sendAll (htons (toPrefixType len))
        PREFIX_LEN env.sends env.thereafter).rest env.thereafter).err = CL_ERR_OK
    · simp [h2]
    · exfalso
      apply h2
      apply sendAllLoop_noFail
      intro c hc
      apply hnf c
      simp only [h2, if_false, if_true, not_false_eq_true]
      simp only [List.mem_append, List.mem_cons]
      exact Or.inl (Or.inr (Or.inr hc))
  · exfalso
    apply h1
    apply sendAllLoop_noFail
    intro c hc
    apply hnf c
    simp only [h1, if_false]
    split_ifs <;> simp only [List.mem_append, List.mem_cons] <;> exact Or.inl (Or.inr hc)

/-! ## Claims about framing -/

/-- C1 (framing round trip). A payload of 1 to 65535 bytes is sent with a
`sendData` call that returns `CL_ERR_OK`; the bytes that call handed to the
platform are the stream of an open receiver whose buffer is empty. However the
stream is cut into `recv` results (`chunks`), invoking `onFdRead` while bytes
are pending (`fuel` bounds the number of invocations and is large enough)
makes exactly one data-received callback, with the payload and its length, and
leaves the receive buffer reset and the stream read to the end. -/
theorem C1_framing_round_trip (sender receiver : SocketObj) (payload : List Byte)
    (env : SendEnv) (chunks : List Nat) (fuel : Nat)
    (hlen1 : 1 ≤ payload.length) (hlen2 : payload.length ≤ 65535)
    (hsent : (sender.sendData payload payload.length env).1 = CL_ERR_OK)
    (hopen : receiver.m_socket ≠ none) (hempty : receiver.m_DataRecvLen = 0)
    (hfuel : payload.length + 2 ≤ fuel) :
    (readPending fuel receiver
        ⟨wireBytes (sender.sendData payload payload.length env).2.2, chunks⟩).2.2 =
      [Callback.dataRecv payload payload.length] ∧
    (readPending fuel receiver
        ⟨wireBytes (sender.sendData payload payload.length env).2.2, chunks⟩).1 =
      receiver.resetRecv ∧
    (readPending fuel receiver
        ⟨wireBytes (sender.sendData payload payload.length env).2.2, chunks⟩).2.1.pending =
      [] := by
  have hw : wireBytes (sender.sendData payload payload.length env).2.2 = sentFrame payload := by
    rw [sendData_ok_wire _ _ _ _ hsent, sentFrame_eq _ hlen2, toPrefixType_of_le _ hlen2,
      Int.toNat_ofNat, memRead_eq_take _ _ (le_refl _), List.take_length]
  rw [hw]
  have hlenF : (sentFrame payload).length = payload.length + 2 := by
    simp [sentFrame_eq _ hlen2, htons]
  obtain ⟨a, b, c, d, e⟩ := readPending_frames [payload] fuel receiver
    ⟨sentFrame payload, chunks⟩ (by simpa using ⟨hlen1, hlen2⟩) hopen hempty (by simp)
    (by simp only [hlenF]; omega)
  refine ⟨by simpa using a, ?_, b⟩
  have e' := e (by simp)
  generalize readPending fuel receiver ⟨sentFrame payload, chunks⟩ = r at c d e'
  obtain ⟨r1, r2, r3⟩ := r
  simp only at c d e' ⊢
  rw [← c]
  cases r1
  simp only at d e'
  subst d; subst e'
  rfl

/-- C2 (FIFO frame delivery). The frames of a list of payloads, each of 1 to
65535 bytes, follow one another in the stream of an open receiver whose buffer
is empty. However the stream is cut into `recv` results, invoking `onFdRead`
while bytes are pending makes one data-received callback per payload, in the
order sent, each with exactly its own payload, and reads the stream to its
end. -/
theorem C2_fifo_frame_delivery (receiver : SocketObj) (payloads : List (List Byte))
    (chunks : List Nat) (fuel : Nat)
    (hlen : ∀ p ∈ payloads, 1 ≤ p.length ∧ p.length ≤ 65535)
    (hopen : receiver.m_socket ≠ none) (hempty : receiver.m_DataRecvLen = 0)
    (hfuel : (payloads.map sentFrame).flatten.length ≤ fuel) :
    (readPending fuel receiver ⟨(payloads.map sentFrame).flatten, chunks⟩).2.2 =
      payloads.map (fun p => Callback.dataRecv p p.length) ∧
    (readPending fuel receiver ⟨(payloads.map sentFrame).flatten, chunks⟩).2.1.pending = [] ∧
    (readPending fuel receiver ⟨(payloads.map sentFrame).flatten, chunks⟩).1.m_DataRecvLen
      = 0 := by
  obtain ⟨a, b, -, d, -⟩ := readPending_frames payloads fuel receiver
    ⟨(payloads.map sentFrame).flatten, chunks⟩ hlen hopen hempty rfl hfuel
  exact ⟨a, b, d⟩

/-- C3 (wire format of a send). On a socket whose stream-corrupted flag is
clear, with `1 ≤ len ≤ 65535` and a buffer of at least `len` bytes, if the
mode switches succeed and no `send` call of the run fails, `sendData` returns
`CL_ERR_OK` and the bytes taken by the platform, in order, are `len / 256`,
`len % 256` and then the first `len` bytes of the buffer. -/
theorem C3_sendData_wire_format (self : SocketObj) (buf : List Byte) (len : Nat)
    (env : SendEnv) (hflag : self.m_dataStreamCorrupted = false)
    (hlen1 : 1 ≤ len) (hlen2 : len ≤ 65535) (hbuf : len ≤ buf.length)
    (hoff : env.eventSelectOff = none) (hio : env.ioctl = none)
    (hon : env.eventSelectOn = none)
    (hnf : ∀ c ∈ (self.sendData buf len env).2.2, c.isSendFailed = false) :
    (self.sendData buf len env).1 = CL_ERR_OK ∧
    (wireBytes (self.sendData buf len env).2.2).map Fin.val =
      len / 256 :: len % 256 :: (buf.take len).map Fin.val := by
  have hok := (sendData_noFail self buf len env hflag hoff hio hon hnf).1
  refine ⟨hok, ?_⟩
  rw [sendData_ok_wire _ _ _ _ hok, toPrefixType_of_le _ hlen2, Int.toNat_ofNat,
    memRead_eq_take _ _ hbuf, List.map_append, htons_val]
  have : len / 256 % 256 = len / 256 := Nat.mod_eq_of_lt (by omega)
  rw [this]
  rfl

theorem C1_framing_round_trip_witness :
    (((SocketObj.connected 3 7).sendData hello hello.length
        (SendEnv.allOk [0, 0, 2, 0, 9])).1 = CL_ERR_OK ∧
      hello.length + 2 ≤ 7) ∧
    ((readPending 7 (SocketObj.connected 4 8)
        ⟨wireBytes ((SocketObj.connected 3 7).sendData hello hello.length
          (SendEnv.allOk [0, 0, 2, 0, 9])).2.2, [0, 2, 1]⟩).2.2 =
      [Callback.dataRecv hello hello.length] ∧
    (readPending 7 (SocketObj.connected 4 8)
        ⟨wireBytes ((SocketObj.connected 3 7).sendData hello hello.length
          (SendEnv.allOk [0, 0, 2, 0, 9])).2.2, [0, 2, 1]⟩).1 =
      (SocketObj.connected 4 8).resetRecv ∧
    (readPending 7 (SocketObj.connected 4 8)
        ⟨wireBytes ((SocketObj.connected 3 7).sendData hello hello.length
          (SendEnv.allOk [0, 0, 2, 0, 9])).2.2, [0, 2, 1]⟩).2.1.pending = []) :=
  ⟨⟨by decide, by decide⟩,
    C1_framing_round_trip (SocketObj.connected 3 7) (SocketObj.connected 4 8)
      hello (SendEnv.allOk [0, 0, 2, 0, 9]) [0, 2, 1] 7
      (by decide) (by decide) (by decide) (by decide) (by decide) (by decide)⟩

theorem C2_fifo_frame_delivery_witness :
    (∀ p ∈ [[(65 : Byte)], [66, 67]], 1 ≤ p.length ∧ p.length ≤ 65535) ∧
    ((readPending 7 (SocketObj.connected 4 8)
        ⟨([[(65 : Byte)], [66, 67]].map sentFrame).flatten, [9, 9, 9, 9]⟩).2.2 =
      [[(65 : Byte)], [66, 67]].map (fun p => Callback.dataRecv p p.length) ∧
    (readPending 7 (SocketObj.connected 4 8)
        ⟨([[(65 : Byte)], [66, 67]].map sentFrame).flatten, [9, 9, 9, 9]⟩).2.1.pending = [] ∧
    (readPending 7 (SocketObj.connected 4 8)
        ⟨([[(65 : Byte)], [66, 67]].map sentFrame).flatten,
          [9, 9, 9, 9]⟩).1.m_DataRecvLen = 0) :=
  ⟨by decide,
    C2_fifo_frame_delivery (SocketObj.connected 4 8) [[(65 : Byte)], [66, 67]] [9, 9, 9, 9] 7
      (by decide) (by decide) (by decide) (by decide)⟩

theorem C3_sendData_wire_format_witness :
    wireBytes ((SocketObj.connected 3 7).sendData hello 5
      (SendEnv.allOk [0, 0, 2, 0, 9])).2.2 = [0x00, 0x05, 0x68, 0x65, 0x6c, 0x6c, 0x6f] ∧
    (((SocketObj.connected 3 7).sendData hello (5 : Nat) (SendEnv.allOk [0, 0, 2, 0, 9])).1
        = CL_ERR_OK ∧
      (wireBytes ((SocketObj.connected 3 7).sendData hello (5 : Nat)
          (SendEnv.allOk [0, 0, 2, 0, 9])).2.2).map Fin.val =
        5 / 256 :: 5 % 256 :: (hello.take 5).map Fin.val) :=
  ⟨by decide,
    C3_sendData_wire_format (SocketObj.connected 3 7) hello 5 (SendEnv.allOk [0, 0, 2, 0, 9])
      (by decide) (by decide) (by decide) (by decide) rfl rfl rfl (by decide)⟩

theorem memRead_len (buf : List Byte) (off k : Nat) : (memRead buf off k).length = k := by
  simp [memRead]

theorem sendAllLoop_spec (fd : Option Nat) (buf : List Byte) (len : Int) (th : OsErr) :
    ∀ (script : List SendOutcome) (b : Int), 0 ≤ b →
      ((wireBytes (sendAllLoop fd buf len th script b).calls).length : Int) =
        (sendAllLoop fd buf len th script b).bytesSent - b ∧
      b ≤ (sendAllLoop fd buf len th script b).bytesSent ∧
      (((sendAllLoop fd buf len th script b).err = CL_ERR_OK ∧
          (∀ c ∈ (sendAllLoop fd buf len th script b).calls, c.isSendFailed = false) ∧
          ¬ (sendAllLoop fd buf len th script b).bytesSent < len) ∨
        (∃ e : OsErr, (sendAllLoop fd buf len th script b).err = e.val ∧
          (∃ req, PlatformCall.sendFailed fd req e ∈ (sendAllLoop fd buf len th script b).calls) ∧
          (sendAllLoop fd buf len th script b).bytesSent < len)) := by
  intro script
  induction script with
  | nil =>
    intro b hb
    unfold sendAllLoop
    split_ifs with hlt
    · refine ⟨by simp [wireBytes], le_refl _, Or.inr ⟨th, rfl, ⟨len - b, by simp⟩, hlt⟩⟩
    · exact ⟨by simp [wireBytes], le_refl _, Or.inl ⟨rfl, by simp, hlt⟩⟩
  | cons o rest ih =>
    intro b hb
    unfold sendAllLoop
    split_ifs with hlt
    · cases o with
      | sent n =>
        simp only
        generalize min n (len - b).toNat = k
        obtain ⟨i1, i2, i3⟩ := ih (b + (k : Int)) (by omega)
        refine ⟨?_, by omega, ?_⟩
        · simp only [wireBytes, List.length_append, memRead_len]
          push_cast
          omega
        · rcases i3 with ⟨a1, a2, a3⟩ | ⟨e, a1, ⟨req, a2⟩, a3⟩
          · refine Or.inl ⟨a1, ?_, a3⟩
            intro c hc
            rcases List.mem_cons.1 hc with rfl | hc
            · rfl
            · exact a2 c hc
          · exact Or.inr ⟨e, a1, ⟨req, List.mem_cons_of_mem _ a2⟩, a3⟩
      | failed e =>
        exact ⟨by simp [wireBytes], le_refl _, Or.inr ⟨e, rfl, ⟨len - b, by simp⟩, hlt⟩⟩
    · exact ⟨by simp [wireBytes], le_refl _, Or.inl ⟨rfl, by simp, hlt⟩⟩

theorem sendAllLoop_bytesSent_le (fd : Option Nat) (buf : List Byte) (len : Int) (th : OsErr) :
    ∀ (script : List SendOutcome) (b : Int),
      (sendAllLoop fd buf len th script b).bytesSent ≤ max b len := by
  intro script
  induction script with
  | nil =>
    intro b
    unfold sendAllLoop
    split_ifs <;> exact le_max_left _ _
  | cons o rest ih =>
    intro b
    unfold sendAllLoop
    split_ifs with hlt
    · cases o with
      | sent n =>
        simp only
        have hk2 : min n (len - b).toNat ≤ (len - b).toNat := min_le_right _ _
        generalize min n (len - b).toNat = k at hk2
        have := ih (b + (k : Int))
        have h1 : max (b + (k : Int)) len = len := max_eq_right (by omega)
        have h2 : max b len = len := max_eq_right (by omega)
        rw [h1] at this
        rw [h2]
        exact this
      | failed e => exact le_max_left _ _
    · exact le_max_left _ _

theorem isSendFailed_of_mem_sendFailed {calls : List PlatformCall} {fd : Option Nat}
    {req : Int} {e : OsErr} (h : PlatformCall.sendFailed fd req e ∈ calls) :
    ∃ c ∈ calls, c.isSendFailed = true := ⟨_, h, rfl⟩

/-- C5 (latch rule). For a `sendData(buf, len)` call with `len ≥ 1` on a
socket whose stream-corrupted flag is clear: the flag is set on return exactly
when a `send` call failed after the platform had taken at least one and fewer
than `len + 2` bytes; a call in which the platform took no byte, and a call
whose switch to blocking mode failed, leave the flag clear; and the call that
sets the flag returns the error code of the failed `send`, which is not
`CL_ERR_DATA_STREAM_CORRUPTED`. -/
theorem C5_latch_rule (self : SocketObj) (buf : List Byte) (len : Int) (env : SendEnv)
    (hlen : 1 ≤ len) (hflag : self.m_dataStreamCorrupted = false) :
    ((self.sendData buf len env).2.1.m_dataStreamCorrupted = true ↔
      ((∃ c ∈ (self.sendData buf len env).2.2, c.isSendFailed = true) ∧
        1 ≤ (wireBytes (self.sendData buf len env).2.2).length ∧
        ((wireBytes (self.sendData buf len env).2.2).length : Int) < len + 2)) ∧
    (wireBytes (self.sendData buf len env).2.2 = [] →
      (self.sendData buf len env).2.1.m_dataStreamCorrupted = false) ∧
    ((self.SetBlockingMode env.eventSelectOff env.ioctl).1 ≠ CL_ERR_OK →
      (self.sendData buf len env).2.1.m_dataStreamCorrupted = false) ∧
    ((self.sendData buf len env).2.1.m_dataStreamCorrupted = true →
      (∃ fd req e, PlatformCall.sendFailed fd req e ∈ (self.sendData buf len env).2.2 ∧
        (self.sendData buf len env).1 = e.val) ∧
      (self.sendData buf len env).1 ≠ CL_ERR_DATA_STREAM_CORRUPTED) := by
  obtain ⟨w1, g1, c1⟩ := sendAllLoop_spec self.m_socket (htons (toPrefixType len)) PREFIX_LEN
    env.thereafter env.sends 0 (le_refl _)
  obtain ⟨w2, g2, c2⟩ := sendAllLoop_spec self.m_socket buf len env.thereafter
    (sendAllLoop self.m_socket (htons (toPrefixType len)) PREFIX_LEN env.thereafter
      env.sends 0).rest 0 (le_refl _)
  have u1 := sendAllLoop_bytesSent_le self.m_socket (htons (toPrefixType len)) PREFIX_LEN
    env.thereafter env.sends 0
  have u2 := sendAllLoop_bytesSent_le self.m_socket buf len env.thereafter
    (sendAllLoop self.m_socket (htons (toPrefixType len)) PREFIX_LEN env.thereafter
      env.sends 0).rest 0
  unfold SocketObj.sendData
  simp only [hflag, Bool.false_eq_true, if_false, SocketObj.sendAll, SocketObj.SetNonBlockingMode]
  generalize sendAllLoop self.m_socket buf len env.thereafter
    (sendAllLoop self.m_socket (htons (toPrefixType len)) PREFIX_LEN env.thereafter
      env.sends 0).rest 0 = r2 at w2 g2 c2 u2 ⊢
  generalize sendAllLoop self.m_socket (htons (toPrefixType len)) PREFIX_LEN env.thereafter
      env.sends 0 = r1 at w1 g1 c1 u1 ⊢
  have hw3 : wireBytes [PlatformCall.WSAEventSelect self.m_socket self.m_netEvent
      (if self.m_conCompletedFn = true then FD_READ ||| FD_CLOSE ||| FD_CONNECT
        else FD_READ ||| FD_CLOSE)] = [] := rfl
  have hnf3 : ∀ c ∈ [PlatformCall.WSAEventSelect self.m_socket self.m_netEvent
      (if self.m_conCompletedFn = true then FD_READ ||| FD_CLOSE ||| FD_CONNECT
        else FD_READ ||| FD_CLOSE)], c.isSendFailed = false := by
    simp [PlatformCall.isSendFailed]
  have hu1 : r1.bytesSent ≤ 2 := by simpa [PREFIX_LEN] using u1
  have hu2 : r2.bytesSent ≤ len := by
    have : max (0 : Int) len = len := max_eq_right (by omega)
    rwa [this] at u2
  by_cases hb : (self.SetBlockingMode env.eventSelectOff env.ioctl).1 = CL_ERR_OK
  · have hw0 : wireBytes (self.SetBlockingMode env.eventSelectOff env.ioctl).2 = [] :=
      wireBytes_SetBlockingMode _ _ _
    have hnf0 : ∀ c ∈ (self.SetBlockingMode env.eventSelectOff env.ioctl).2,
        c.isSendFailed = false := by
      unfold SocketObj.SetBlockingMode
      cases env.eventSelectOff <;> simp [PlatformCall.isSendFailed]
    generalize (self.SetBlockingMode env.eventSelectOff env.ioctl).2 = calls0 at hw0 hnf0 ⊢
    simp only [hb, ne_eq, not_true_eq_false, if_false]
    simp only [PREFIX_LEN] at c1
    rcases c1 with ⟨ok1, nf1, full1⟩ | ⟨e1, er1, ⟨req1, mem1⟩, lt1⟩
    · rcases c2 with ⟨ok2, nf2, full2⟩ | ⟨e2, er2, ⟨req2, mem2⟩, lt2⟩
      · simp only [ok1, ok2, if_true, not_true_eq_false, if_false, hflag, Bool.false_eq_true,
          false_iff, wireBytes_append, hw0, List.nil_append, false_implies, and_true,
          implies_true, true_and]
        rintro ⟨⟨c, hc, hf⟩, -⟩
        simp only [List.mem_append] at hc
        rcases hc with (hc | hc | hc) | hc
        · rw [hnf0 c hc] at hf; exact Bool.false_ne_true hf
        · rw [nf1 c hc] at hf; exact Bool.false_ne_true hf
        · rw [nf2 c hc] at hf; exact Bool.false_ne_true hf
        · rw [hnf3 c hc] at hf; exact Bool.false_ne_true hf
      · have hne2 : ¬ r2.err = CL_ERR_OK := by rw [er2]; exact ne_of_gt e2.2
        have hlen12 : (wireBytes r1.calls).length + (wireBytes r2.calls).length
            = (r1.bytesSent + r2.bytesSent).toNat := by omega
        simp only [ok1, hne2, if_true, not_false_eq_true, if_false, wireBytes_append, hw0, hw3,
          List.nil_append, List.append_nil, List.length_append, true_iff, true_implies]
        refine ⟨⟨⟨PlatformCall.sendFailed self.m_socket req2 e2, ?_, rfl⟩, by omega, by omega⟩,
          ?_, ?_, ⟨self.m_socket, req2, e2, ?_, er2⟩, ?_⟩
        · simp only [List.mem_append]
          exact Or.inl (Or.inr (Or.inr mem2))
        · intro h
          have := congrArg List.length h
          simp only [List.length_append, List.length_nil] at this
          omega
        · simp
        · simp only [List.mem_append]
          exact Or.inl (Or.inr (Or.inr mem2))
        · rw [er2]
          have := e2.2
          simp only [CL_ERR_DATA_STREAM_CORRUPTED]
          omega
    · have hne1 : ¬ r1.err = CL_ERR_OK := by rw [er1]; exact ne_of_gt e1.2
      by_cases hpos : r1.bytesSent > 0
      · simp only [hne1, if_false, hpos, if_true, wireBytes_append, hw0, hw3,
          List.nil_append, List.append_nil, true_iff, true_implies]
        refine ⟨⟨⟨PlatformCall.sendFailed self.m_socket req1 e1, ?_, rfl⟩, by omega, by omega⟩,
          ?_, ?_, ⟨self.m_socket, req1, e1, ?_, er1⟩, ?_⟩
        · simp only [List.mem_append]
          exact Or.inl (Or.inr mem1)
        · intro h
          have := congrArg List.length h
          simp only [List.length_nil] at this
          omega
        · simp
        · simp only [List.mem_append]
          exact Or.inl (Or.inr mem1)
        · rw [er1]
          have := e1.2
          simp only [CL_ERR_DATA_STREAM_CORRUPTED]
          omega
      · simp only [hne1, if_false, hpos, hflag, Bool.false_eq_true, false_iff, wireBytes_append,
          hw0, hw3, List.nil_append, List.append_nil, false_implies, implies_true, and_true]
        rintro ⟨-, h, -⟩
        omega
  · have hw : wireBytes (self.SetBlockingMode env.eventSelectOff env.ioctl).2 = [] :=
      wireBytes_SetBlockingMode _ _ _
    have hnf : ∀ c ∈ (self.SetBlockingMode env.eventSelectOff env.ioctl).2,
        c.isSendFailed = false := by
      unfold SocketObj.SetBlockingMode
      cases env.eventSelectOff <;> simp [PlatformCall.isSendFailed]
    simp only [hb, ne_eq, not_false_eq_true, if_true, hflag, hw, List.length_nil]
    simp

theorem C5_latch_rule_witness :
    ((SocketObj.connected 3 7).sendData hello 5 SendEnv.peerClosesAfterPrefix).2.1.m_dataStreamCorrupted
        = true ∧
    ((SocketObj.connected 3 7).sendData hello 5 SendEnv.peerClosesAfterPrefix).1 = 10054 ∧
    (((SocketObj.connected 3 7).sendData hello 5
          SendEnv.peerClosesAfterPrefix).2.1.m_dataStreamCorrupted = true →
      (∃ fd req e, PlatformCall.sendFailed fd req e ∈
          ((SocketObj.connected 3 7).sendData hello 5 SendEnv.peerClosesAfterPrefix).2.2 ∧
        ((SocketObj.connected 3 7).sendData hello 5 SendEnv.peerClosesAfterPrefix).1 = e.val) ∧
      ((SocketObj.connected 3 7).sendData hello 5 SendEnv.peerClosesAfterPrefix).1 ≠
        CL_ERR_DATA_STREAM_CORRUPTED) :=
  ⟨by decide, by decide,
    (C5_latch_rule (SocketObj.connected 3 7) hello 5 SendEnv.peerClosesAfterPrefix
      (by decide) (by decide)).2.2.2⟩

/-! ## Claims about the public interface -/

theorem DATA_MAX_LEN_eq : DATA_MAX_LEN = 65535 := by decide

theorem sendData_ret (self : SocketObj) (buf : List Byte) (len : Int) (env : SendEnv) :
    ((self.sendData buf len env).1 = CL_ERR_DATA_STREAM_CORRUPTED ∧
        self.m_dataStreamCorrupted = true) ∨
      0 ≤ (self.sendData buf len env).1 := by
  unfold SocketObj.sendData
  by_cases hflag : self.m_dataStreamCorrupted = true
  · left
    simp [hflag]
  · right
    have h1 := sendAllLoop_err_nonneg self.m_socket (htons (toPrefixType len)) PREFIX_LEN
      env.thereafter env.sends 0
    have h2 := sendAllLoop_err_nonneg self.m_socket buf len env.thereafter
      (sendAllLoop self.m_socket (htons (toPrefixType len)) PREFIX_LEN env.thereafter
        env.sends 0).rest 0
    have h0 : 0 ≤ (self.SetBlockingMode env.eventSelectOff env.ioctl).1 := by
      unfold SocketObj.SetBlockingMode
      cases env.eventSelectOff with
      | none =>
        cases env.ioctl with
        | none => exact le_refl _
        | some e => exact le_of_lt e.2
      | some e => exact le_of_lt e.2
    have h3 : ∀ s : SocketObj, 0 ≤ (s.SetNonBlockingMode env.eventSelectOn).1 := by
      intro s
      unfold SocketObj.SetNonBlockingMode
      cases env.eventSelectOn with
      | none => exact le_refl _
      | some e => exact le_of_lt e.2
    simp only [hflag, Bool.false_eq_true, if_false, SocketObj.sendAll]
    split_ifs <;> dsimp only <;> first | exact h0 | exact h1 | exact h2 | apply h3

/-- C6 (send length limit). With the library initialized and a non-null
buffer, `CLSendData` returns `CL_ERR_BUF_TOO_BIG` for every `len > 65535`,
whatever the handle, makes no platform call and leaves the library as it is;
for `0 ≤ len ≤ 65535` it never returns `CL_ERR_BUF_TOO_BIG`; and
`SocketObj::DATA_MAX_LEN` is 65535. -/
theorem C6_send_length_limit (lib : Lib) (skt : Nat) (buf : List Byte) (len : Int)
    (env : SendEnv) (hinit : 0 < lib.s_startupCount) :
    (65535 < len →
      CLSendData lib skt (some buf) len env = ApiResult.early lib CL_ERR_BUF_TOO_BIG ∧
      (CLSendData lib skt (some buf) len env).calls = []) ∧
    (0 ≤ len → len ≤ 65535 →
      (CLSendData lib skt (some buf) len env).ret ≠ CL_ERR_BUF_TOO_BIG) ∧
    DATA_MAX_LEN = 65535 := by
  have hni : ¬ lib.s_startupCount ≤ 0 := not_le.2 hinit
  refine ⟨?_, ?_, DATA_MAX_LEN_eq⟩
  · intro h
    have h1 : ¬ len < 0 := by omega
    have h2 : len > DATA_MAX_LEN := by rw [DATA_MAX_LEN_eq]; exact h
    simp [CLSendData, hni, h1, h2, ApiResult.early]
  · intro h0 h1
    have h2 : ¬ len < 0 := by omega
    have h3 : ¬ len > DATA_MAX_LEN := by rw [DATA_MAX_LEN_eq]; omega
    simp only [CLSendData, hni, if_false, h2, h3]
    cases lib.s_socketRegistry.findSocketObj skt with
    | none => simp [ApiResult.early]
    | some o =>
      simp only
      split_ifs
      · simp [ApiResult.early]
      · simp only
        rcases sendData_ret o buf len env with ⟨h, -⟩ | h
        · rw [h]; decide
        · intro hc
          rw [hc] at h
          exact absurd h (by decide)

/-- C7 (zero-length send). With the library initialized, a registered client
socket and a non-null buffer, `CLSendData(skt, buf, 0)` returns `CL_ERR_OK`,
makes no platform call and leaves the library, and with it the socket object,
as it is. -/
theorem C7_zero_length_send (lib : Lib) (skt : Nat) (buf : List Byte) (env : SendEnv)
    (sktObj : SocketObj) (hinit : 0 < lib.s_startupCount)
    (hreg : lib.s_socketRegistry.findSocketObj skt = some sktObj) :
    (CLSendData lib skt (some buf) 0 env).ret = CL_ERR_OK ∧
    (CLSendData lib skt (some buf) 0 env).calls = [] ∧
    (CLSendData lib skt (some buf) 0 env).lib = lib ∧
    (CLSendData lib skt (some buf) 0 env).lib.s_socketRegistry.findSocketObj skt =
      some sktObj := by
  have hni : ¬ lib.s_startupCount ≤ 0 := not_le.2 hinit
  have h3 : ¬ (0 : Int) > DATA_MAX_LEN := by rw [DATA_MAX_LEN_eq]; decide
  simp [CLSendData, hni, h3, hreg, ApiResult.early]

/-! ### The 32-bit start count -/

theorem wrapInt32_of_range (x : Int) (h1 : -2147483648 ≤ x) (h2 : x ≤ 2147483647) :
    wrapInt32 x = x := by
  show (x + 2147483648) % 4294967296 - 2147483648 = x
  omega

theorem wrapInt32_range (x : Int) : -2147483648 ≤ wrapInt32 x ∧ wrapInt32 x ≤ 2147483647 := by
  show -2147483648 ≤ (x + 2147483648) % 4294967296 - 2147483648 ∧
    (x + 2147483648) % 4294967296 - 2147483648 ≤ 2147483647
  omega

theorem wrapInt32_natCast_eq_zero (d : Nat) (h : wrapInt32 (d : Int) = 0) (hd : d < 4294967296) :
    d = 0 := by
  have h2 : ((d : Int) + 2147483648) % 4294967296 - 2147483648 = 0 := h
  omega

/-- `CLStartup` on a count from 0 to `INT_MAX - 1`, with `WSAStartup`
succeeding if it is called: the return value is `CL_ERR_OK` and the count goes
up by one. -/
theorem CLStartup_ok (lib : Lib) (e : Int) (h0 : 0 ≤ lib.s_startupCount)
    (h1 : lib.s_startupCount < INT_MAX) (he : lib.s_startupCount = 0 → e = 0) :
    (CLStartup lib e).ret = CL_ERR_OK ∧
    (CLStartup lib e).lib = { lib with s_startupCount := lib.s_startupCount + 1 } ∧
    (CLStartup lib e).calls = (if lib.s_startupCount = 0 then [.WSAStartup] else []) := by
  have h1b : lib.s_startupCount < 2147483647 := h1
  have hw : wrapInt32 (lib.s_startupCount + 1) = lib.s_startupCount + 1 :=
    wrapInt32_of_range _ (by omega) (by omega)
  unfold CLStartup
  dsimp only
  rw [hw]
  by_cases hz : lib.s_startupCount = 0
  · have h11 : lib.s_startupCount + 1 = 1 := by omega
    have he0 : ¬ e ≠ 0 := not_not.2 (he hz)
    rw [if_pos h11, if_neg he0, if_pos hz]
    exact ⟨rfl, rfl, rfl⟩
  · have h11 : ¬ lib.s_startupCount + 1 = 1 := by omega
    rw [if_neg h11, if_neg hz]
    exact ⟨rfl, rfl, rfl⟩

/-- The library after `n` successful `CLStartup` calls, for `n` up to
`INT_MAX - lib.s_startupCount`. -/
theorem runCalls_startups :
    ∀ (n : Nat) (lib : Lib), 0 ≤ lib.s_startupCount → lib.s_startupCount + n ≤ INT_MAX →
      runCalls lib (List.replicate n (.startup 0)) =
        { lib with s_startupCount := lib.s_startupCount + n }
  | 0, lib, _, _ => by
    show lib = { lib with s_startupCount := lib.s_startupCount + ((0 : Nat) : Int) }
    have : lib.s_startupCount + ((0 : Nat) : Int) = lib.s_startupCount := by simp
    rw [this]
  | n + 1, lib, h0, h1 => by
    have h1b : lib.s_startupCount + ((n + 1 : Nat) : Int) ≤ 2147483647 := h1
    have hlt : lib.s_startupCount < INT_MAX := by
      show lib.s_startupCount < 2147483647
      omega
    obtain ⟨_, hl, _⟩ := CLStartup_ok lib 0 h0 hlt (fun _ => rfl)
    show runCalls (CLStartup lib 0).lib (List.replicate n (.startup 0)) = _
    rw [hl, runCalls_startups n _ (by show 0 ≤ lib.s_startupCount + 1; omega)
      (by show lib.s_startupCount + 1 + (n : Int) ≤ 2147483647; omega)]
    have : lib.s_startupCount + 1 + (n : Int) = lib.s_startupCount + ((n + 1 : Nat) : Int) := by
      push_cast
      ring
    show { lib with s_startupCount := lib.s_startupCount + 1 + (n : Int) } = _
    rw [this]

/-- C9, counterexample: after `INT_MAX` successful `CLStartup` calls the start
count is `INT_MAX >= 1`. The next `CLStartup` returns `CL_ERR_OK` without
calling `WSAStartup`, but the increment of the 32-bit count overflows: the
count is `-2147483648` afterwards, not one greater than before, and
`CLSendData` answers `CL_ERR_NOT_INITIALIZED`. -/
theorem C9_increment_overflows :
    (runCalls Lib.initial (List.replicate 2147483647 (.startup 0))).s_startupCount = INT_MAX ∧
    (CLStartup (runCalls Lib.initial (List.replicate 2147483647 (.startup 0))) 0).ret =
      CL_ERR_OK ∧
    (CLStartup (runCalls Lib.initial (List.replicate 2147483647 (.startup 0))) 0).calls = [] ∧
    (CLStartup (runCalls Lib.initial
      (List.replicate 2147483647 (.startup 0))) 0).lib.s_startupCount = -2147483648 ∧
    (CLStartup (runCalls Lib.initial
      (List.replicate 2147483647 (.startup 0))) 0).lib.s_startupCount ≠
        (runCalls Lib.initial (List.replicate 2147483647 (.startup 0))).s_startupCount + 1 ∧
    (CLSendData (CLStartup (runCalls Lib.initial
      (List.replicate 2147483647 (.startup 0))) 0).lib 1000 (some hello) 5
        SendEnv.peerClosesAfterPrefix).ret = CL_ERR_NOT_INITIALIZED := by
  rw [runCalls_startups 2147483647 Lib.initial (le_refl _) (by decide)]
  refine ⟨by decide, by decide, by decide, by decide, by decide, by decide⟩

/-- C9, amended (start rollback). When the start count is 0 and `WSAStartup`
fails with a code `e ≠ 0`, `CLStartup` returns `e` and the start count is still
0; when the start count is 0 and `WSAStartup` succeeds, or when the start
count is at least 1 and below `INT_MAX` (and then `WSAStartup` is not called),
`CLStartup` returns `CL_ERR_OK` and the start count is one greater than
before. Nothing else in the library changes. At `INT_MAX` the call returns
`CL_ERR_OK` and the 32-bit count overflows to `-2147483648`. -/
theorem C9_start_rollback (lib : Lib) (e : Int) :
    (lib.s_startupCount = 0 → e ≠ 0 →
      (CLStartup lib e).ret = e ∧ (CLStartup lib e).lib = lib ∧
      (CLStartup lib e).calls = [.WSAStartup]) ∧
    (lib.s_startupCount = 0 → e = 0 →
      (CLStartup lib e).ret = CL_ERR_OK ∧
      (CLStartup lib e).lib = { lib with s_startupCount := lib.s_startupCount + 1 } ∧
      (CLStartup lib e).calls = [.WSAStartup]) ∧
    (1 ≤ lib.s_startupCount → lib.s_startupCount < INT_MAX →
      (CLStartup lib e).ret = CL_ERR_OK ∧
      (CLStartup lib e).lib = { lib with s_startupCount := lib.s_startupCount + 1 } ∧
      (CLStartup lib e).calls = []) ∧
    (lib.s_startupCount = INT_MAX →
      (CLStartup lib e).ret = CL_ERR_OK ∧
      (CLStartup lib e).lib = { lib with s_startupCount := -2147483648 } ∧
      (CLStartup lib e).calls = []) := by
  refine ⟨?_, ?_, ?_, ?_⟩
  · intro h he
    have hw : wrapInt32 (lib.s_startupCount + 1) = 1 := by rw [h]; decide
    have hw2 : wrapInt32 ((1 : Int) - 1) = lib.s_startupCount := by rw [h]; decide
    unfold CLStartup
    dsimp only
    rw [hw, if_pos rfl, if_pos he, hw2]
    exact ⟨rfl, rfl, rfl⟩
  · intro h he
    obtain ⟨a, b, c⟩ := CLStartup_ok lib e (le_of_eq h.symm) (by rw [h]; decide) (fun _ => he)
    rw [if_pos h] at c
    exact ⟨a, b, c⟩
  · intro h hlt
    obtain ⟨a, b, c⟩ := CLStartup_ok lib e (by omega) hlt (fun h0 => by omega)
    rw [if_neg (by omega)] at c
    exact ⟨a, b, c⟩
  · intro h
    have hw : wrapInt32 (lib.s_startupCount + 1) = -2147483648 := by rw [h]; decide
    unfold CLStartup
    dsimp only
    rw [hw, if_neg (by decide)]
    exact ⟨rfl, rfl, rfl⟩

/-- C10 (the not-initialized check comes first). When the start count is at
most 0, `CLCreateSrvSocket`, `CLAcceptCon`, `CLCreateSocket`,
`CLCreateSocketAsync` and `CLSendData` return `CL_ERR_NOT_INITIALIZED` for all
arguments and all answers of the platform, `CLDeleteSrvSocket` and
`CLDeleteSocket` return, and each of them makes no platform call, no call on
a worker, and leaves the library, with its registries and its pool, as it
is. -/
theorem C10_not_initialized_first (lib : Lib) (hcount : lib.s_startupCount ≤ 0) :
    (∀ args env penv,
      CLCreateSrvSocket lib args env penv = ApiResult.early lib CL_ERR_NOT_INITIALIZED) ∧
    (∀ srvSkt args aenv env penv,
      CLAcceptCon lib srvSkt args aenv env penv =
        ApiResult.early lib CL_ERR_NOT_INITIALIZED) ∧
    (∀ args env penv,
      CLCreateSocket lib args env penv = ApiResult.early lib CL_ERR_NOT_INITIALIZED) ∧
    (∀ args env penv,
      CLCreateSocketAsync lib args env penv = ApiResult.early lib CL_ERR_NOT_INITIALIZED) ∧
    (∀ skt buf len env,
      CLSendData lib skt buf len env = ApiResult.early lib CL_ERR_NOT_INITIALIZED) ∧
    (∀ srvSkt isShutdown,
      CLDeleteSrvSocket lib srvSkt isShutdown = ApiResult.early lib CL_ERR_OK) ∧
    (∀ skt isShutdown resolver,
      CLDeleteSocket lib skt isShutdown resolver = ApiResult.early lib CL_ERR_OK) ∧
    (∀ ret, (ApiResult.early lib ret).lib = lib ∧ (ApiResult.early lib ret).calls = [] ∧
      (ApiResult.early lib ret).requests = [] ∧ (ApiResult.early lib ret).out = none) := by
  refine ⟨?_, ?_, ?_, ?_, ?_, ?_, ?_, ?_⟩
  · intro args env penv; simp [CLCreateSrvSocket, hcount]
  · intro srvSkt args aenv env penv; simp [CLAcceptCon, hcount]
  · intro args env penv; simp [CLCreateSocket, hcount]
  · intro args env penv; simp [CLCreateSocketAsync, hcount]
  · intro skt buf len env; simp [CLSendData, hcount]
  · intro srvSkt isShutdown; simp [CLDeleteSrvSocket, hcount]
  · intro skt isShutdown resolver; simp [CLDeleteSocket, hcount]
  · intro ret; simp [ApiResult.early]

theorem C6_send_length_limit_witness :
    0 < demoLib.s_startupCount ∧
    ((65535 < (65536 : Int) →
      CLSendData demoLib 1000 (some hello) 65536 SendEnv.peerClosesAfterPrefix =
        ApiResult.early demoLib CL_ERR_BUF_TOO_BIG ∧
      (CLSendData demoLib 1000 (some hello) 65536 SendEnv.peerClosesAfterPrefix).calls = []) ∧
    (0 ≤ (65536 : Int) → (65536 : Int) ≤ 65535 →
      (CLSendData demoLib 1000 (some hello) 65536 SendEnv.peerClosesAfterPrefix).ret ≠
        CL_ERR_BUF_TOO_BIG) ∧
    DATA_MAX_LEN = 65535) :=
  ⟨by decide,
    C6_send_length_limit demoLib 1000 hello 65536 SendEnv.peerClosesAfterPrefix (by decide)⟩

theorem C7_zero_length_send_witness :
    (0 < demoLib.s_startupCount ∧
      demoLib.s_socketRegistry.findSocketObj 1000 = some (SocketObj.connected 3 7)) ∧
    ((CLSendData demoLib 1000 (some hello) 0 SendEnv.peerClosesAfterPrefix).ret = CL_ERR_OK ∧
    (CLSendData demoLib 1000 (some hello) 0 SendEnv.peerClosesAfterPrefix).calls = [] ∧
    (CLSendData demoLib 1000 (some hello) 0 SendEnv.peerClosesAfterPrefix).lib = demoLib ∧
    (CLSendData demoLib 1000 (some hello) 0
        SendEnv.peerClosesAfterPrefix).lib.s_socketRegistry.findSocketObj 1000 =
      some (SocketObj.connected 3 7)) :=
  ⟨⟨by decide, by decide⟩,
    C7_zero_length_send demoLib 1000 hello SendEnv.peerClosesAfterPrefix
      (SocketObj.connected 3 7) (by decide) (by decide)⟩

theorem C9_start_rollback_witness :
    ((CLStartup Lib.initial 10091).ret = 10091 ∧ (CLStartup Lib.initial 10091).lib = Lib.initial ∧
      (CLStartup Lib.initial 10091).calls = [.WSAStartup]) ∧
    ((CLStartup demoLib 10091).ret = CL_ERR_OK ∧
      (CLStartup demoLib 10091).lib =
        { demoLib with s_startupCount := demoLib.s_startupCount + 1 } ∧
      (CLStartup demoLib 10091).calls = []) :=
  ⟨(C9_start_rollback Lib.initial 10091).1 (by decide) (by decide),
    (C9_start_rollback demoLib 10091).2.2.1 (by decide) (by decide)⟩

theorem C10_not_initialized_first_witness :
    Lib.initial.s_startupCount ≤ 0 ∧
    CLSendData Lib.initial 1000 none (-1) SendEnv.peerClosesAfterPrefix =
      ApiResult.early Lib.initial CL_ERR_NOT_INITIALIZED ∧
    CLCreateSocket Lib.initial demoSocketArgs (demoCreateEnv 1000 3 7) (demoPoolEnv 500) =
      ApiResult.early Lib.initial CL_ERR_NOT_INITIALIZED :=
  ⟨by decide,
    (C10_not_initialized_first Lib.initial (by decide)).2.2.2.2.1 1000 none (-1)
      SendEnv.peerClosesAfterPrefix,
    (C10_not_initialized_first Lib.initial (by decide)).2.2.1 demoSocketArgs
      (demoCreateEnv 1000 3 7) (demoPoolEnv 500)⟩

/-! ## Facts about the `std::map` model -/

theorem mapFind_eq_none {α : Type} (m : List (Nat × α)) (k : Nat) :
    mapFind m k = none ↔ k ∉ mapKeys m := by
  induction m with
  | nil => simp [mapFind, mapKeys]
  | cons e rest ih =>
    obtain ⟨k', v'⟩ := e
    unfold mapFind
    by_cases h : k = k'
    · simp [h, mapKeys]
    · simp only [h, if_false, ih]
      simp [mapKeys, h]

theorem mapFind_isSome {α : Type} (m : List (Nat × α)) (k : Nat) :
    (mapFind m k).isSome = true ↔ k ∈ mapKeys m := by
  rw [← not_iff_not, ← mapFind_eq_none]
  cases mapFind m k <;> simp

theorem mapFind_insertSorted_ne {α : Type} (m : List (Nat × α)) (k k' : Nat) (v : α)
    (h : k' ≠ k) : mapFind (mapInsertSorted m k v) k' = mapFind m k' := by
  induction m with
  | nil => simp [mapInsertSorted, mapFind, h]
  | cons e rest ih =>
    obtain ⟨k1, v1⟩ := e
    unfold mapInsertSorted
    split_ifs
    · simp [mapFind, h]
    · simp [mapFind, ih]

theorem mapInsertSorted_perm {α : Type} (m : List (Nat × α)) (k : Nat) (v : α) :
    List.Perm (mapInsertSorted m k v) ((k, v) :: m) := by
  induction m with
  | nil => simp [mapInsertSorted]
  | cons e rest ih =>
    obtain ⟨k1, v1⟩ := e
    unfold mapInsertSorted
    split_ifs
    · exact List.Perm.refl _
    · exact (List.Perm.cons _ ih).trans (List.Perm.swap _ _ _)

theorem mapFind_mapInsert_of_some {α : Type} (m : List (Nat × α)) (k k' : Nat) (v x : α)
    (h : mapFind m k' = some x) : mapFind (mapInsert m k v) k' = some x := by
  unfold mapInsert
  cases hk : mapFind m k with
  | some y => exact h
  | none =>
    simp only
    rw [mapFind_insertSorted_ne _ _ _ _ (by rintro rfl; rw [h] at hk; cases hk), h]

theorem mapFind_mapErase_ne {α : Type} (m : List (Nat × α)) (k k' : Nat) (h : k' ≠ k) :
    mapFind (mapErase m k) k' = mapFind m k' := by
  induction m with
  | nil => rfl
  | cons e rest ih =>
    obtain ⟨k1, v1⟩ := e
    unfold mapErase
    by_cases h1 : k = k1
    · subst h1
      simp [mapFind, h]
    · simp only [h1, if_false]
      simp [mapFind, ih]

theorem mapKeys_mapErase_sublist {α : Type} (m : List (Nat × α)) (k : Nat) :
    List.Sublist (mapKeys (mapErase m k)) (mapKeys m) := by
  induction m with
  | nil => exact List.Sublist.refl _
  | cons e rest ih =>
    obtain ⟨k1, v1⟩ := e
    unfold mapErase
    split_ifs
    · exact List.sublist_cons_self _ _
    · exact List.Sublist.cons₂ _ ih

theorem mapFind_mapErase_self {α : Type} (m : List (Nat × α)) (k : Nat)
    (hnd : (mapKeys m).Nodup) : mapFind (mapErase m k) k = none := by
  induction m with
  | nil => rfl
  | cons e rest ih =>
    obtain ⟨k1, v1⟩ := e
    simp only [mapKeys, List.map_cons, List.nodup_cons] at hnd
    unfold mapErase
    by_cases h1 : k = k1
    · subst h1
      simp only [if_true]
      exact (mapFind_eq_none _ _).2 hnd.1
    · simp only [h1, if_false]
      simp [mapFind, h1, ih hnd.2]

theorem mapKeys_mapAssign {α : Type} (m : List (Nat × α)) (k : Nat) (v : α) :
    mapKeys (mapAssign m k v) = mapKeys m := by
  induction m with
  | nil => rfl
  | cons e rest ih =>
    obtain ⟨k1, v1⟩ := e
    unfold mapAssign
    split_ifs
    · simp [mapKeys]
    · simp only [mapKeys, List.map_cons] at ih ⊢
      rw [ih]

theorem mapFind_mapAssign_ne {α : Type} (m : List (Nat × α)) (k k' : Nat) (v : α)
    (h : k' ≠ k) : mapFind (mapAssign m k v) k' = mapFind m k' := by
  induction m with
  | nil => rfl
  | cons e rest ih =>
    obtain ⟨k1, v1⟩ := e
    unfold mapAssign
    by_cases h1 : k = k1
    · subst h1
      simp [mapFind, h]
    · simp only [h1, if_false]
      simp [mapFind, ih]

theorem mapFind_mapAssign_self {α : Type} (m : List (Nat × α)) (k : Nat) (v x : α)
    (h : mapFind m k = some x) : mapFind (mapAssign m k v) k = some v := by
  induction m with
  | nil => simp [mapFind] at h
  | cons e rest ih =>
    obtain ⟨k1, v1⟩ := e
    unfold mapAssign
    unfold mapFind at h
    by_cases h1 : k = k1
    · subst h1
      simp [mapFind]
    · simp only [h1, if_false] at h ⊢
      simp [mapFind, h1, ih h]

theorem mapKeys_mapInsert_nodup {α : Type} (m : List (Nat × α)) (k : Nat) (v : α)
    (hnd : (mapKeys m).Nodup) : (mapKeys (mapInsert m k v)).Nodup := by
  unfold mapInsert
  cases hk : mapFind m k with
  | some y => exact hnd
  | none =>
    simp only
    have hp := (mapInsertSorted_perm m k v).map Prod.fst
    unfold mapKeys
    rw [hp.nodup_iff]
    simp only [List.map_cons, List.nodup_cons]
    exact ⟨(mapFind_eq_none _ _).1 hk, hnd⟩

theorem mapKeys_mapErase_nodup {α : Type} (m : List (Nat × α)) (k : Nat)
    (hnd : (mapKeys m).Nodup) : (mapKeys (mapErase m k)).Nodup :=
  (mapKeys_mapErase_sublist m k).nodup hnd
/-! ## The stream-corrupted flag seen through `CLSendData` -/

theorem sendData_of_corrupted (self : SocketObj) (buf : List Byte) (len : Int) (env : SendEnv)
    (h : self.m_dataStreamCorrupted = true) :
    self.sendData buf len env = (CL_ERR_DATA_STREAM_CORRUPTED, self, []) := by
  simp [SocketObj.sendData, h]

theorem CLSendData_corrupted_post (lib : Lib) (skt : Nat) (buf : List Byte) (len : Int)
    (env : SendEnv)
    (hret : (CLSendData lib skt (some buf) len env).ret = CL_ERR_DATA_STREAM_CORRUPTED) :
    (CLSendData lib skt (some buf) len env).lib = lib ∧
    ∃ o, lib.s_socketRegistry.findSocketObj skt = some o ∧ o.m_dataStreamCorrupted = true := by
  unfold CLSendData at hret ⊢
  by_cases h0 : lib.s_startupCount ≤ 0
  · simp [h0, ApiResult.early] at hret
  · simp only [h0, if_false] at hret ⊢
    by_cases h1 : len < 0
    · simp [h1, ApiResult.early] at hret
    · simp only [h1, if_false] at hret ⊢
      by_cases h2 : len > DATA_MAX_LEN
      · simp [h2, ApiResult.early] at hret
      · simp only [h2, if_false] at hret ⊢
        cases hf : lib.s_socketRegistry.findSocketObj skt with
        | none => simp [hf, ApiResult.early] at hret
        | some o =>
          simp only [hf] at hret ⊢
          by_cases h3 : len = 0
          · simp [h3, ApiResult.early] at hret
          · simp only [h3, if_false] at hret ⊢
            rcases sendData_ret o buf len env with ⟨-, hflag⟩ | hpos
            · rw [sendData_of_corrupted _ _ _ _ hflag]
              refine ⟨?_, o, rfl, hflag⟩
              simp only
              have : mapAssign lib.s_socketRegistry.m_hndToSktObjMap skt o =
                  lib.s_socketRegistry.m_hndToSktObjMap := by
                unfold SktObjTypeRegistry.findSocketObj at hf
                generalize lib.s_socketRegistry.m_hndToSktObjMap = m at hf
                induction m with
                | nil => rfl
                | cons e rest ih =>
                  obtain ⟨k1, v1⟩ := e
                  unfold mapAssign
                  unfold mapFind at hf
                  by_cases hk : skt = k1
                  · simp only [hk, if_true] at hf ⊢
                    cases hf
                    rfl
                  · simp only [hk, if_false] at hf ⊢
                    rw [ih hf]
              rw [this]
            · rw [hret] at hpos
              exact absurd hpos (by decide)

theorem CLSendData_of_corrupted (lib : Lib) (skt : Nat) (buf : List Byte) (len : Int)
    (env : SendEnv) (o : SocketObj) (hinit : 0 < lib.s_startupCount)
    (hfind : lib.s_socketRegistry.findSocketObj skt = some o)
    (hflag : o.m_dataStreamCorrupted = true) (h1 : 1 ≤ len) (h2 : len ≤ 65535) :
    (CLSendData lib skt (some buf) len env).ret = CL_ERR_DATA_STREAM_CORRUPTED := by
  have hni : ¬ lib.s_startupCount ≤ 0 := not_le.2 hinit
  have h3 : ¬ len < 0 := by omega
  have h4 : ¬ len > DATA_MAX_LEN := by rw [DATA_MAX_LEN_eq]; omega
  have h5 : ¬ len = 0 := by omega
  simp [CLSendData, hni, h3, h4, h5, hfind, sendData_of_corrupted _ _ _ _ hflag]
theorem corruptedAt_add (skt addr : Nat) (obj : SocketObj) (reg : SktObjTypeRegistry SocketObj)
    (h : corruptedAt skt reg) : corruptedAt skt (reg.addSocketObj addr obj) := by
  obtain ⟨o, h1, h2⟩ := h
  exact ⟨o, mapFind_mapInsert_of_some _ _ _ _ _ h1, h2⟩

theorem nodup_add (addr : Nat) (obj : SocketObj) (reg : SktObjTypeRegistry SocketObj)
    (h : (mapKeys reg.m_hndToSktObjMap).Nodup) :
    (mapKeys (reg.addSocketObj addr obj).m_hndToSktObjMap).Nodup :=
  mapKeys_mapInsert_nodup _ _ _ h

theorem nodup_remove (addr : Nat) (reg : SktObjTypeRegistry SocketObj)
    (h : (mapKeys reg.m_hndToSktObjMap).Nodup) :
    (mapKeys (reg.removeSocketObj addr).2.m_hndToSktObjMap).Nodup := by
  unfold SktObjTypeRegistry.removeSocketObj
  cases mapFind reg.m_hndToSktObjMap addr with
  | none => exact h
  | some o => exact mapKeys_mapErase_nodup _ _ h

theorem corruptedAt_remove (skt addr : Nat) (reg : SktObjTypeRegistry SocketObj)
    (hnd : (mapKeys reg.m_hndToSktObjMap).Nodup) (h : corruptedAt skt reg)
    (hreg : ((reg.removeSocketObj addr).2.findSocketObj skt).isSome = true) :
    corruptedAt skt (reg.removeSocketObj addr).2 := by
  obtain ⟨o, h1, h2⟩ := h
  unfold SktObjTypeRegistry.removeSocketObj at hreg ⊢
  cases hf : mapFind reg.m_hndToSktObjMap addr with
  | none => exact ⟨o, h1, h2⟩
  | some x =>
    simp only [hf] at hreg ⊢
    by_cases hk : skt = addr
    · subst hk
      simp only [SktObjTypeRegistry.findSocketObj, mapFind_mapErase_self _ _ hnd] at hreg
      cases hreg
    · refine ⟨o, ?_, h2⟩
      simp only [SktObjTypeRegistry.findSocketObj] at h1 ⊢
      rw [mapFind_mapErase_ne _ _ _ hk, h1]

theorem finishCreateSocketObj_keeps (lib : Lib) (addr : Nat) (obj : SocketObj)
    (penv : PoolEnv) (res : ResolverEnv) (calls : List PlatformCall) (skt : Nat)
    (hnd : (mapKeys lib.s_socketRegistry.m_hndToSktObjMap).Nodup)
    (h : corruptedAt skt lib.s_socketRegistry)
    (hreg : ((finishCreateSocketObj lib addr obj penv res calls).lib.s_socketRegistry.findSocketObj
      skt).isSome = true) :
    (mapKeys (finishCreateSocketObj lib addr obj penv res
      calls).lib.s_socketRegistry.m_hndToSktObjMap).Nodup ∧
    corruptedAt skt (finishCreateSocketObj lib addr obj penv res calls).lib.s_socketRegistry := by
  unfold finishCreateSocketObj at hreg ⊢
  by_cases hp : (lib.s_netThreadPool.addNetObj addr penv).1 = CL_ERR_OK
  · simp only [hp, if_true] at hreg ⊢
    exact ⟨nodup_add _ _ _ hnd, corruptedAt_add _ _ _ _ h⟩
  · simp only [hp, if_false] at hreg ⊢
    exact ⟨nodup_remove _ _ (nodup_add _ _ _ hnd),
      corruptedAt_remove _ _ _ (nodup_add _ _ _ hnd) (corruptedAt_add _ _ _ _ h) hreg⟩

theorem step_keeps_corrupted (lib : Lib) (c : ApiCall) (skt : Nat)
    (hnd : (mapKeys lib.s_socketRegistry.m_hndToSktObjMap).Nodup)
    (h : corruptedAt skt lib.s_socketRegistry)
    (hreg : ((c.run lib).lib.s_socketRegistry.findSocketObj skt).isSome = true) :
    (mapKeys (c.run lib).lib.s_socketRegistry.m_hndToSktObjMap).Nodup ∧
    corruptedAt skt (c.run lib).lib.s_socketRegistry := by
  revert hreg
  cases c with
  | startup e =>
    simp only [ApiCall.run, CLStartup, ApiResult.early]
    split_ifs <;> exact fun _ => ⟨hnd, h⟩
  | cleanup env =>
    simp only [ApiCall.run, CLCleanup, CLCleanup.beforeWait, CLCleanup.afterWait,
      ApiResult.early]
    by_cases h0 : wrapInt32 (lib.s_startupCount - 1) = 0
    · simp [h0, SktObjTypeRegistry.findSocketObj, mapFind]
    · simp only [h0, if_false]
      exact fun _ => ⟨hnd, h⟩
  | createSrvSocket args env penv =>
    simp only [ApiCall.run, CLCreateSrvSocket, ApiResult.early, finishCreateSrvSocketObj]
    split_ifs <;> first | exact fun _ => ⟨hnd, h⟩ | (split <;> exact fun _ => ⟨hnd, h⟩)
  | acceptCon srvSkt args aenv env penv =>
    simp only [ApiCall.run, CLAcceptCon, ApiResult.early]
    split_ifs
    · exact fun _ => ⟨hnd, h⟩
    · exact fun _ => ⟨hnd, h⟩
    · split
      · exact fun _ => ⟨hnd, h⟩
      · split_ifs
        · split
          · exact fun hreg => finishCreateSocketObj_keeps _ _ _ _ _ _ _ hnd h hreg
          · exact fun _ => ⟨hnd, h⟩
        · exact fun _ => ⟨hnd, h⟩
  | deleteSrvSocket srvSkt f =>
    simp only [ApiCall.run, CLDeleteSrvSocket, ApiResult.early]
    split_ifs <;> first | exact fun _ => ⟨hnd, h⟩ | (split <;> exact fun _ => ⟨hnd, h⟩)
  | createSocket args env penv =>
    simp only [ApiCall.run, CLCreateSocket, ApiResult.early]
    split_ifs
    · exact fun _ => ⟨hnd, h⟩
    · exact fun _ => ⟨hnd, h⟩
    · split
      · exact fun hreg => finishCreateSocketObj_keeps _ _ _ _ _ _ _ hnd h hreg
      · exact fun _ => ⟨hnd, h⟩
  | createSocketAsync args env penv =>
    simp only [ApiCall.run, CLCreateSocketAsync, ApiResult.early]
    split_ifs
    · exact fun _ => ⟨hnd, h⟩
    · exact fun _ => ⟨hnd, h⟩
    · split
      · exact fun hreg => finishCreateSocketObj_keeps _ _ _ _ _ _ _ hnd h hreg
      · exact fun _ => ⟨hnd, h⟩
  | sendData skt2 buf len env =>
    cases buf with
    | none =>
      simp only [ApiCall.run, CLSendData, ApiResult.early]
      split_ifs <;> exact fun _ => ⟨hnd, h⟩
    | some bytes =>
      simp only [ApiCall.run, CLSendData, ApiResult.early]
      by_cases h0 : lib.s_startupCount ≤ 0
      · simp only [h0, if_true]; exact fun _ => ⟨hnd, h⟩
      simp only [h0, if_false]
      by_cases h1 : len < 0
      · simp only [h1, if_true]; exact fun _ => ⟨hnd, h⟩
      simp only [h1, if_false]
      by_cases h2 : len > DATA_MAX_LEN
      · simp only [h2, if_true]; exact fun _ => ⟨hnd, h⟩
      simp only [h2, if_false]
      cases hf2 : lib.s_socketRegistry.findSocketObj skt2 with
      | none => exact fun _ => ⟨hnd, h⟩
      | some o2 =>
        simp only
        by_cases h3 : len = 0
        · simp only [h3, if_true]; exact fun _ => ⟨hnd, h⟩
        simp only [h3, if_false]
        intro _
        refine ⟨by simp only [mapKeys_mapAssign]; exact hnd, ?_⟩
        obtain ⟨o, e1, e2⟩ := h
        by_cases hk : skt = skt2
        · subst hk
          have ho : o2 = o := by rw [e1] at hf2; exact (Option.some.inj hf2).symm
          rw [ho, sendData_of_corrupted _ _ _ _ e2]
          exact ⟨o, mapFind_mapAssign_self _ _ _ _ e1, e2⟩
        · refine ⟨o, ?_, e2⟩
          simp only [SktObjTypeRegistry.findSocketObj] at e1 ⊢
          rw [mapFind_mapAssign_ne _ _ _ _ hk, e1]
  | deleteSocket skt2 f res =>
    simp only [ApiCall.run, CLDeleteSocket, ApiResult.early]
    split_ifs
    · exact fun _ => ⟨hnd, h⟩
    · have hn := nodup_remove skt2 _ hnd
      have hc := corruptedAt_remove skt skt2 _ hnd h
      revert hn hc
      generalize lib.s_socketRegistry.removeSocketObj skt2 = r
      obtain ⟨ro, rreg⟩ := r
      intro hn hc
      cases ro with
      | none =>
        exact fun _ => ⟨hnd, h⟩
      | some x =>
        simp only at hn hc ⊢
        exact fun hreg => ⟨hn, hc hreg⟩

theorem staysRegistered_head (skt : Nat) (lib : Lib) (calls : List ApiCall)
    (h : staysRegistered skt lib calls) :
    (lib.s_socketRegistry.findSocketObj skt).isSome = true := by
  cases calls with
  | nil => exact h
  | cons c cs => exact h.1

theorem runCalls_keeps_corrupted (skt : Nat) :
    ∀ (calls : List ApiCall) (lib : Lib),
      (mapKeys lib.s_socketRegistry.m_hndToSktObjMap).Nodup →
      corruptedAt skt lib.s_socketRegistry → staysRegistered skt lib calls →
      corruptedAt skt (runCalls lib calls).s_socketRegistry := by
  intro calls
  induction calls with
  | nil => intro lib _ h _; exact h
  | cons c cs ih =>
    intro lib hnd h hreg
    obtain ⟨a, b⟩ := step_keeps_corrupted lib c skt hnd h (staysRegistered_head _ _ _ hreg.2)
    exact ih _ a b hreg.2

/-- C4, as amended (sticky stream corruption at the public interface). The
client registry holds no handle twice. Once a `CLSendData` call on a socket
has returned `CL_ERR_DATA_STREAM_CORRUPTED`, then after any sequence of calls
of the public interface during which the socket stays registered, and with
the library initialized, every `CLSendData` call on that socket with a
non-null buffer and `1 ≤ len ≤ 65535` returns
`CL_ERR_DATA_STREAM_CORRUPTED`. -/
theorem C4_sticky_stream_corruption (lib : Lib) (skt : Nat) (buf : List Byte) (len : Int)
    (env : SendEnv) (calls : List ApiCall) (buf' : List Byte) (len' : Int) (env' : SendEnv)
    (hmap : (mapKeys lib.s_socketRegistry.m_hndToSktObjMap).Nodup)
    (hret : (CLSendData lib skt (some buf) len env).ret = CL_ERR_DATA_STREAM_CORRUPTED)
    (hreg : staysRegistered skt (CLSendData lib skt (some buf) len env).lib calls)
    (hinit : 0 < (runCalls (CLSendData lib skt (some buf) len env).lib calls).s_startupCount)
    (hlen1 : 1 ≤ len') (hlen2 : len' ≤ 65535) :
    (CLSendData (runCalls (CLSendData lib skt (some buf) len env).lib calls) skt (some buf')
      len' env').ret = CL_ERR_DATA_STREAM_CORRUPTED := by
  obtain ⟨hlib, hcor⟩ := CLSendData_corrupted_post lib skt buf len env hret
  rw [hlib] at hreg hinit ⊢
  obtain ⟨o, h1, h2⟩ := runCalls_keeps_corrupted skt calls lib hmap hcor hreg
  exact CLSendData_of_corrupted _ _ _ _ _ o hinit h1 h2 hlen1 hlen2

theorem C4_sticky_stream_corruption_witness :
    (CLSendData corruptedLib 1000 (some hello) 5 SendEnv.peerClosesAfterPrefix).ret =
      CL_ERR_DATA_STREAM_CORRUPTED ∧
    (CLSendData
      (runCalls (CLSendData corruptedLib 1000 (some hello) 5 SendEnv.peerClosesAfterPrefix).lib
        [.startup 0, .sendData 1000 (some hello) 0 (SendEnv.allOk [])])
      1000 (some hello) 65535 (SendEnv.allOk [])).ret = CL_ERR_DATA_STREAM_CORRUPTED :=
  ⟨by decide,
    C4_sticky_stream_corruption corruptedLib 1000 hello 5 SendEnv.peerClosesAfterPrefix
      [.startup 0, .sendData 1000 (some hello) 0 (SendEnv.allOk [])] hello 65535
      (SendEnv.allOk []) (by decide) (by decide) (by decide) (by decide) (by decide)
      (by decide)⟩

/-- C4 as stated fails for `len = 0`: on a registered socket, with the library
initialized, a `CLSendData` call returns `CL_ERR_DATA_STREAM_CORRUPTED` and
the next call, with a non-null buffer and `len = 0`, returns `CL_ERR_OK`. -/
theorem C4_zero_length_not_sticky :
    ¬ ((CLSendData corruptedLib 1000 (some hello) 5 SendEnv.peerClosesAfterPrefix).ret =
          CL_ERR_DATA_STREAM_CORRUPTED →
        0 < (CLSendData corruptedLib 1000 (some hello) 5
          SendEnv.peerClosesAfterPrefix).lib.s_startupCount →
        ((CLSendData corruptedLib 1000 (some hello) 5
          SendEnv.peerClosesAfterPrefix).lib.s_socketRegistry.findSocketObj 1000).isSome = true →
        (0 : Int) ≤ 0 ∧ (0 : Int) ≤ 65535 →
        (CLSendData
          (CLSendData corruptedLib 1000 (some hello) 5 SendEnv.peerClosesAfterPrefix).lib
          1000 (some hello) 0 SendEnv.peerClosesAfterPrefix).ret =
          CL_ERR_DATA_STREAM_CORRUPTED) := by
  decide

/-! ### The pool, the registries and the life cycle -/

/-! ## The bookkeeping of the pool -/

theorem mapFind_append_of_none {α : Type} (m : List (Nat × α)) (k k' : Nat) (v : α)
    (h : mapFind m k = none) :
    mapFind (m ++ [(k, v)]) k' = if k' = k then some v else mapFind m k' := by
  induction m with
  | nil => simp [mapFind]
  | cons e rest ih =>
    obtain ⟨k1, v1⟩ := e
    unfold mapFind at h
    by_cases h1 : k = k1
    · simp [h1] at h
    · simp only [h1, if_false] at h
      simp only [List.cons_append, mapFind]
      by_cases h2 : k' = k1
      · subst h2
        have : ¬ k' = k := fun h => h1 h.symm
        simp [this]
      · simp only [h2, if_false]
        exact ih h

theorem getCount_setCount (p : NetThreadPool) (t c t' : Nat) :
    (p.setCount t c).getCount t' = if t' = t then c else p.getCount t' := by
  unfold NetThreadPool.setCount NetThreadPool.getCount
  cases h : mapFind p.count t with
  | none =>
    simp only [mapFind_append_of_none _ _ _ _ h]
    split_ifs <;> rfl
  | some x =>
    simp only
    by_cases hk : t' = t
    · subst hk
      simp [mapFind_mapAssign_self _ _ _ _ h]
    · simp [hk, mapFind_mapAssign_ne _ _ _ _ hk]

theorem setCount_threads (p : NetThreadPool) (t c : Nat) :
    (p.setCount t c).m_threads = p.m_threads := rfl

theorem setCount_map (p : NetThreadPool) (t c : Nat) :
    (p.setCount t c).m_objToThreadMap = p.m_objToThreadMap := rfl

theorem setCount_shuttingDown (p : NetThreadPool) (t c : Nat) :
    (p.setCount t c).m_shuttingDownThreads = p.m_shuttingDownThreads := rfl

theorem mapErase_perm {α : Type} (m : List (Nat × α)) (k : Nat) (v : α)
    (h : mapFind m k = some v) : List.Perm m ((k, v) :: mapErase m k) := by
  induction m with
  | nil => simp [mapFind] at h
  | cons e rest ih =>
    obtain ⟨k1, v1⟩ := e
    unfold mapFind at h
    unfold mapErase
    by_cases h1 : k = k1
    · subst h1
      simp only [if_true] at h ⊢
      cases h
      exact List.Perm.refl _
    · simp only [h1, if_false] at h ⊢
      exact (List.Perm.cons _ (ih h)).trans (List.Perm.swap _ _ _)

theorem mapInsert_perm {α : Type} (m : List (Nat × α)) (k : Nat) (v : α)
    (h : k ∉ mapKeys m) : List.Perm (mapInsert m k v) ((k, v) :: m) := by
  unfold mapInsert
  rw [(mapFind_eq_none m k).2 h]
  exact mapInsertSorted_perm m k v

theorem mapFind_mem {α : Type} (m : List (Nat × α)) (k : Nat) (v : α)
    (h : mapFind m k = some v) : (k, v) ∈ m := by
  induction m with
  | nil => simp [mapFind] at h
  | cons e rest ih =>
    obtain ⟨k1, v1⟩ := e
    unfold mapFind at h
    by_cases h1 : k = k1
    · subst h1
      simp only [if_true] at h
      cases h
      exact List.mem_cons_self _ _
    · simp only [h1, if_false] at h
      exact List.mem_cons_of_mem _ (ih h)

theorem owned_of_perm (p q : NetThreadPool) (t : Nat) (k v : Nat)
    (h : List.Perm q.m_objToThreadMap ((k, v) :: p.m_objToThreadMap)) :
    q.owned t = p.owned t + (if v = t then 1 else 0) := by
  unfold NetThreadPool.owned
  rw [(h.filter _).length_eq]
  by_cases hv : v = t
  · simp [List.filter_cons, hv]
  · simp [List.filter_cons, hv]

theorem cleanup_wellFormed (p : NetThreadPool) (f : Nat → Bool) (h : p.wellFormed) :
    (p.cleanupShuttingDownThreads f).wellFormed := h

theorem wellFormed_insert (p : NetThreadPool) (t netObj : Nat) (h : p.wellFormed)
    (hfresh : netObj ∉ mapKeys p.m_objToThreadMap) (htmem : t ∈ p.m_threads)
    (hlt : p.getCount t < NET_OBJ_MAX_COUNT) :
    NetThreadPool.wellFormed
      { p.setCount t ((p.getCount t + 1) % 2 ^ 32) with
          m_objToThreadMap := mapInsert p.m_objToThreadMap netObj t } := by
  obtain ⟨hnd, hkeys, hent, hcnt⟩ := h
  have hperm := mapInsert_perm p.m_objToThreadMap netObj t hfresh
  refine ⟨hnd, mapKeys_mapInsert_nodup _ _ _ hkeys, ?_, ?_⟩
  · intro e he
    rcases List.mem_cons.1 (hperm.mem_iff.1 he) with rfl | h'
    · exact htmem
    · exact hent e h'
  · intro t' ht'
    obtain ⟨c1, c2, c3⟩ := hcnt t' ht'
    have hown : NetThreadPool.owned { p.setCount t ((p.getCount t + 1) % 2 ^ 32) with
          m_objToThreadMap := mapInsert p.m_objToThreadMap netObj t } t'
        = p.owned t' + (if t = t' then 1 else 0) := owned_of_perm p _ t' netObj t hperm
    have hget : NetThreadPool.getCount { p.setCount t ((p.getCount t + 1) % 2 ^ 32) with
          m_objToThreadMap := mapInsert p.m_objToThreadMap netObj t } t'
        = if t' = t then (p.getCount t + 1) % 2 ^ 32 else p.getCount t' :=
      getCount_setCount p t _ t'
    rw [hget, hown]
    have hmod : (p.getCount t + 1) % 2 ^ 32 = p.getCount t + 1 :=
      Nat.mod_eq_of_lt (by simp only [NET_OBJ_MAX_COUNT, WSA_MAXIMUM_WAIT_EVENTS] at hlt; omega)
    by_cases hk : t' = t
    · subst hk
      rw [if_pos rfl, if_pos rfl, hmod]
      omega
    · have hk' : ¬ t = t' := fun h => hk h.symm
      simp only [hk, hk', if_false]
      omega

theorem wellFormed_insert_new (p : NetThreadPool) (t netObj : Nat) (h : p.wellFormed)
    (hfresh : netObj ∉ mapKeys p.m_objToThreadMap) (htnew : t ∉ p.m_threads) :
    NetThreadPool.wellFormed
      { p.setCount t 1 with
          m_threads := p.m_threads ++ [t]
          m_objToThreadMap := mapInsert p.m_objToThreadMap netObj t } := by
  obtain ⟨hnd, hkeys, hent, hcnt⟩ := h
  have hperm := mapInsert_perm p.m_objToThreadMap netObj t hfresh
  refine ⟨?_, mapKeys_mapInsert_nodup _ _ _ hkeys, ?_, ?_⟩
  · show (p.m_threads ++ [t]).Nodup
    rw [List.nodup_append]
    refine ⟨hnd, List.nodup_singleton _, ?_⟩
    intro a ha hb
    rw [List.mem_singleton] at hb
    subst hb
    exact htnew ha
  · intro e he
    show e.2 ∈ p.m_threads ++ [t]
    rcases List.mem_cons.1 (hperm.mem_iff.1 he) with rfl | h'
    · simp
    · exact List.mem_append_left _ (hent e h')
  · intro t' ht'
    have ht'' : t' ∈ p.m_threads ++ [t] := ht'
    have hown : NetThreadPool.owned { p.setCount t 1 with
          m_threads := p.m_threads ++ [t]
          m_objToThreadMap := mapInsert p.m_objToThreadMap netObj t } t'
        = p.owned t' + (if t = t' then 1 else 0) := owned_of_perm p _ t' netObj t hperm
    have hget : NetThreadPool.getCount { p.setCount t 1 with
          m_threads := p.m_threads ++ [t]
          m_objToThreadMap := mapInsert p.m_objToThreadMap netObj t } t'
        = if t' = t then 1 else p.getCount t' := getCount_setCount p t 1 t'
    rw [hget, hown]
    by_cases hk : t' = t
    · subst hk
      have hz : p.owned t' = 0 := by
        unfold NetThreadPool.owned
        rw [List.length_eq_zero, List.filter_eq_nil_iff]
        intro e he
        simp only [decide_eq_true_eq]
        intro h2
        exact htnew (h2 ▸ hent e he)
      rw [if_pos rfl, if_pos rfl, hz]
      simp only [NET_OBJ_MAX_COUNT, WSA_MAXIMUM_WAIT_EVENTS]
      exact ⟨trivial, le_refl _, by omega⟩
    · have hk' : ¬ t = t' := fun h => hk h.symm
      have hmem : t' ∈ p.m_threads := by
        rcases List.mem_append.1 ht'' with h' | h'
        · exact h'
        · rw [List.mem_singleton] at h'; exact absurd h' hk
      obtain ⟨c1, c2, c3⟩ := hcnt t' hmem
      simp only [hk, hk', if_false]
      omega

theorem place_wellFormed (p : NetThreadPool) (netObj : Nat) (create : Except OsErr Nat)
    (h : p.wellFormed) (hfresh : netObj ∉ mapKeys p.m_objToThreadMap)
    (hnew : ∀ t, create = .ok t → t ∉ p.m_threads) :
    (p.place netObj create).2.1.wellFormed ∧
    (∀ k ∈ mapKeys (p.place netObj create).2.1.m_objToThreadMap,
      k = netObj ∨ k ∈ mapKeys p.m_objToThreadMap) ∧
    ((p.place netObj create).1 ≠ CL_ERR_OK →
      (p.place netObj create).2.1.m_objToThreadMap = p.m_objToThreadMap) := by
  have hkeysub : ∀ (t : Nat), ∀ k ∈ mapKeys (mapInsert p.m_objToThreadMap netObj t),
      k = netObj ∨ k ∈ mapKeys p.m_objToThreadMap := by
    intro t k hk
    have := ((mapInsert_perm p.m_objToThreadMap netObj t hfresh).map Prod.fst).mem_iff.1 hk
    simpa [mapKeys] using this
  unfold NetThreadPool.place
  cases hfind : p.m_threads.reverse.find?
      (fun t => decide (p.getCount t < NET_OBJ_MAX_COUNT)) with
  | some t =>
    have htmem : t ∈ p.m_threads := by
      have := List.mem_of_find?_eq_some hfind
      simpa using this
    have htlt : p.getCount t < NET_OBJ_MAX_COUNT := by
      have := List.find?_some hfind
      simpa using this
    exact ⟨wellFormed_insert p t netObj h hfresh htmem htlt, hkeysub t,
      fun hne => absurd rfl hne⟩
  | none =>
    cases hcreate : create with
    | error e =>
      exact ⟨h, fun k hk => Or.inr hk, fun _ => rfl⟩
    | ok t =>
      exact ⟨wellFormed_insert_new p t netObj h hfresh (hnew t hcreate), hkeysub t,
        fun hne => absurd rfl hne⟩

theorem mapKeys_mapErase_iff {α : Type} (m : List (Nat × α)) (n k : Nat)
    (hnd : (mapKeys m).Nodup) :
    k ∈ mapKeys (mapErase m n) ↔ (k ∈ mapKeys m ∧ k ≠ n) := by
  rw [← mapFind_isSome, ← mapFind_isSome]
  by_cases hk : k = n
  · subst hk
    simp [mapFind_mapErase_self _ _ hnd]
  · simp [mapFind_mapErase_ne _ _ _ hk, hk]

theorem mem_of_mem_mapErase {α : Type} (m : List (Nat × α)) (n : Nat) (e : Nat × α)
    (h : e ∈ mapErase m n) : e ∈ m := by
  induction m with
  | nil => simp [mapErase] at h
  | cons e1 rest ih =>
    obtain ⟨k1, v1⟩ := e1
    unfold mapErase at h
    split_ifs at h
    · exact List.mem_cons_of_mem _ h
    · rcases List.mem_cons.1 h with rfl | h'
      · exact List.mem_cons_self _ _
      · exact List.mem_cons_of_mem _ (ih h')

theorem displace_wellFormed (p : NetThreadPool) (netObj : Nat) (h : p.wellFormed) :
    (p.displace netObj).1.wellFormed ∧
    (∀ k, k ∈ mapKeys (p.displace netObj).1.m_objToThreadMap ↔
      (k ∈ mapKeys p.m_objToThreadMap ∧ k ≠ netObj)) := by
  obtain ⟨hnd, hkeys, hent, hcnt⟩ := h
  unfold NetThreadPool.displace
  cases hfind : mapFind p.m_objToThreadMap netObj with
  | none =>
    refine ⟨⟨hnd, hkeys, hent, hcnt⟩, ?_⟩
    intro k
    have := (mapFind_eq_none _ _).1 hfind
    constructor
    · intro hk
      exact ⟨hk, fun h => this (h ▸ hk)⟩
    · exact fun hk => hk.1
  | some t =>
    have hmem : (netObj, t) ∈ p.m_objToThreadMap := mapFind_mem _ _ _ hfind
    have htmem : t ∈ p.m_threads := hent _ hmem
    obtain ⟨c1, c2, c3⟩ := hcnt t htmem
    have hperm := mapErase_perm _ _ _ hfind
    have hmod : (p.getCount t + 2 ^ 32 - 1) % 2 ^ 32 = p.getCount t - 1 := by
      simp only [NET_OBJ_MAX_COUNT, WSA_MAXIMUM_WAIT_EVENTS] at c3
      have : p.getCount t + 2 ^ 32 - 1 = (p.getCount t - 1) + 2 ^ 32 := by omega
      rw [this, Nat.add_mod_right]
      exact Nat.mod_eq_of_lt (by omega)
    have hget1 : (p.setCount t ((p.getCount t + 2 ^ 32 - 1) % 2 ^ 32)).getCount t
        = p.getCount t - 1 := by
      rw [getCount_setCount, if_pos rfl, hmod]
    have hmemth : t ∈ (p.setCount t ((p.getCount t + 2 ^ 32 - 1) % 2 ^ 32)).m_threads := htmem
    have hkeysNew := mapKeys_mapErase_nodup _ netObj hkeys
    have hiff := fun k => mapKeys_mapErase_iff p.m_objToThreadMap netObj k hkeys
    simp only [hget1]
    by_cases hzero : p.getCount t - 1 ≤ 0 ∧
        t ∈ (p.setCount t ((p.getCount t + 2 ^ 32 - 1) % 2 ^ 32)).m_threads
    · simp only [hzero, and_self, if_true]
      refine ⟨⟨?_, hkeysNew, ?_, ?_⟩, hiff⟩
      · exact hnd.erase t
      · intro e he
        show e.2 ∈ p.m_threads.erase t
        have he' : e ∈ p.m_objToThreadMap := mem_of_mem_mapErase _ _ _ he
        have hne : e.2 ≠ t := by
          intro heq
          have hown := owned_of_perm
            { p with m_objToThreadMap := mapErase p.m_objToThreadMap netObj } p t netObj t hperm
          rw [if_pos rfl] at hown
          have hz : NetThreadPool.owned
              { p with m_objToThreadMap := mapErase p.m_objToThreadMap netObj } t = 0 := by
            have := hzero.1
            omega
          unfold NetThreadPool.owned at hz
          rw [List.length_eq_zero, List.filter_eq_nil_iff] at hz
          have := hz e he
          simp only [decide_eq_true_eq] at this
          exact this heq
        exact (List.mem_erase_of_ne hne).2 (hent e he')
      · intro t' ht'
        have ht'' : t' ∈ p.m_threads.erase t := ht'
        have hne : t' ≠ t := fun heq => by
          rw [heq] at ht''
          exact (List.Nodup.not_mem_erase hnd) ht''
        have hmem' : t' ∈ p.m_threads := List.mem_of_mem_erase ht''
        obtain ⟨d1, d2, d3⟩ := hcnt t' hmem'
        have hown := owned_of_perm
          { p with m_objToThreadMap := mapErase p.m_objToThreadMap netObj } p t' netObj t hperm
        rw [if_neg (fun h => hne h.symm)] at hown
        have hget : NetThreadPool.getCount
            { p.setCount t ((p.getCount t + 2 ^ 32 - 1) % 2 ^ 32) with
              m_shuttingDownThreads :=
                (p.setCount t ((p.getCount t + 2 ^ 32 - 1) % 2 ^ 32)).m_shuttingDownThreads ++ [t]
              m_threads := (p.setCount t ((p.getCount t + 2 ^ 32 - 1) % 2 ^ 32)).m_threads.erase t
              m_objToThreadMap := mapErase
                (p.setCount t ((p.getCount t + 2 ^ 32 - 1) % 2 ^ 32)).m_objToThreadMap netObj } t'
            = p.getCount t' := by
          have := getCount_setCount p t ((p.getCount t + 2 ^ 32 - 1) % 2 ^ 32) t'
          rw [if_neg hne] at this
          exact this
        have hown' : NetThreadPool.owned
            { p.setCount t ((p.getCount t + 2 ^ 32 - 1) % 2 ^ 32) with
              m_shuttingDownThreads :=
                (p.setCount t ((p.getCount t + 2 ^ 32 - 1) % 2 ^ 32)).m_shuttingDownThreads ++ [t]
              m_threads := (p.setCount t ((p.getCount t + 2 ^ 32 - 1) % 2 ^ 32)).m_threads.erase t
              m_objToThreadMap := mapErase
                (p.setCount t ((p.getCount t + 2 ^ 32 - 1) % 2 ^ 32)).m_objToThreadMap netObj } t'
            = NetThreadPool.owned
              { p with m_objToThreadMap := mapErase p.m_objToThreadMap netObj } t' := rfl
        rw [hget, hown']
        omega
    · simp only [hzero, if_false]
      have hpos : 1 ≤ p.getCount t - 1 := by
        by_contra hc
        exact hzero ⟨by omega, hmemth⟩
      refine ⟨⟨hnd, hkeysNew, ?_, ?_⟩, hiff⟩
      · intro e he
        exact hent e (mem_of_mem_mapErase _ _ _ he)
      · intro t' ht'
        have hmem' : t' ∈ p.m_threads := ht'
        obtain ⟨d1, d2, d3⟩ := hcnt t' hmem'
        have hown := owned_of_perm
          { p with m_objToThreadMap := mapErase p.m_objToThreadMap netObj } p t' netObj t hperm
        have hget : NetThreadPool.getCount
            { p.setCount t ((p.getCount t + 2 ^ 32 - 1) % 2 ^ 32) with
              m_objToThreadMap := mapErase
                (p.setCount t ((p.getCount t + 2 ^ 32 - 1) % 2 ^ 32)).m_objToThreadMap netObj } t'
            = if t' = t then (p.getCount t + 2 ^ 32 - 1) % 2 ^ 32 else p.getCount t' :=
          getCount_setCount p t ((p.getCount t + 2 ^ 32 - 1) % 2 ^ 32) t'
        have hown' : NetThreadPool.owned
            { p.setCount t ((p.getCount t + 2 ^ 32 - 1) % 2 ^ 32) with
              m_objToThreadMap := mapErase
                (p.setCount t ((p.getCount t + 2 ^ 32 - 1) % 2 ^ 32)).m_objToThreadMap netObj } t'
            = NetThreadPool.owned
              { p with m_objToThreadMap := mapErase p.m_objToThreadMap netObj } t' := rfl
        rw [hget, hown', hmod]
        by_cases hk : t' = t
        · subst hk
          rw [if_pos rfl] at hown ⊢
          omega
        · rw [if_neg (fun h => hk h.symm)] at hown
          rw [if_neg hk]
          omega

theorem removeNetObj_wellFormed (p : NetThreadPool) (netObj : Nat) (f : Nat → Bool)
    (h : p.wellFormed) :
    (p.removeNetObj netObj f).1.wellFormed ∧
    (∀ k, k ∈ mapKeys (p.removeNetObj netObj f).1.m_objToThreadMap ↔
      (k ∈ mapKeys p.m_objToThreadMap ∧ k ≠ netObj)) :=
  displace_wellFormed (p.cleanupShuttingDownThreads f) netObj (cleanup_wellFormed p _ h)

theorem mapFind_mapInsert_ne {α : Type} (m : List (Nat × α)) (a k : Nat) (v : α)
    (h : k ≠ a) : mapFind (mapInsert m a v) k = mapFind m k := by
  unfold mapInsert
  cases mapFind m a with
  | some _ => rfl
  | none => exact mapFind_insertSorted_ne _ _ _ _ h

theorem mapKeys_mapInsert_of_mem {α : Type} (m : List (Nat × α)) (a k : Nat) (v : α)
    (h : k ∈ mapKeys m) : k ∈ mapKeys (mapInsert m a v) := by
  rw [← mapFind_isSome] at h ⊢
  cases hk : mapFind m k with
  | none => rw [hk] at h; cases h
  | some x => rw [mapFind_mapInsert_of_some _ _ _ _ _ hk]; rfl

theorem mapKeys_mapInsert_self {α : Type} (m : List (Nat × α)) (a : Nat) (v : α) :
    a ∈ mapKeys (mapInsert m a v) := by
  by_cases h : a ∈ mapKeys m
  · exact mapKeys_mapInsert_of_mem _ _ _ _ h
  · have := ((mapInsert_perm m a v h).map Prod.fst).mem_iff.2 (List.mem_cons_self _ _)
    exact this

/-- C11 (argument validation). With the library initialized (start count at
least 1): `CLSendData` returns `CL_ERR_ILLEGAL_ARG` when `buf` is null or
`len < 0`; `CLAcceptCon` returns it when `dataRecvFn`, `socketClosedFn` or
`pClientSkt` is null or `clientIpAddrLen < 0`; `CLCreateSrvSocket`,
`CLCreateSocket` and `CLCreateSocketAsync` return it when the address string,
a callback or the out-handle pointer is null. This holds for every handle,
known or not; no platform call and no call on a worker is made, no handle is
written and the library (registries, pool) is unchanged. -/
theorem C11_argument_validation (lib : Lib) (hinit : 0 < lib.s_startupCount) :
    (∀ (skt : Nat) (buf : Option (List Byte)) (len : Int) (env : SendEnv),
      buf = none ∨ len < 0 →
        (CLSendData lib skt buf len env).ret = CL_ERR_ILLEGAL_ARG ∧
        (CLSendData lib skt buf len env).calls = [] ∧
        (CLSendData lib skt buf len env).requests = [] ∧
        (CLSendData lib skt buf len env).lib = lib) ∧
    (∀ (srvSkt : Nat) (args : AcceptArgs) (aenv : AcceptEnv) (env : CreateEnv) (penv : PoolEnv),
      args.dataRecvFn = false ∨ args.socketClosedFn = false ∨ args.pClientSkt = false ∨
          args.clientIpAddrLen < 0 →
        (CLAcceptCon lib srvSkt args aenv env penv).ret = CL_ERR_ILLEGAL_ARG ∧
        (CLAcceptCon lib srvSkt args aenv env penv).calls = [] ∧
        (CLAcceptCon lib srvSkt args aenv env penv).requests = [] ∧
        (CLAcceptCon lib srvSkt args aenv env penv).out = none ∧
        (CLAcceptCon lib srvSkt args aenv env penv).lib = lib) ∧
    (∀ (args : SrvSocketArgs) (env : SrvCreateEnv) (penv : PoolEnv),
      args.ipAddr = none ∨ args.conPendingFn = false ∨ args.srvSocketClosedFn = false ∨
          args.pSrvSkt = false →
        (CLCreateSrvSocket lib args env penv).ret = CL_ERR_ILLEGAL_ARG ∧
        (CLCreateSrvSocket lib args env penv).calls = [] ∧
        (CLCreateSrvSocket lib args env penv).requests = [] ∧
        (CLCreateSrvSocket lib args env penv).out = none ∧
        (CLCreateSrvSocket lib args env penv).lib = lib) ∧
    (∀ (args : SocketArgs) (env : CreateEnv) (penv : PoolEnv),
      args.hostAddr = none ∨ args.dataRecvFn = false ∨ args.socketClosedFn = false ∨
          args.pSkt = false →
        (CLCreateSocket lib args env penv).ret = CL_ERR_ILLEGAL_ARG ∧
        (CLCreateSocket lib args env penv).calls = [] ∧
        (CLCreateSocket lib args env penv).requests = [] ∧
        (CLCreateSocket lib args env penv).out = none ∧
        (CLCreateSocket lib args env penv).lib = lib) ∧
    (∀ (args : SocketArgs) (env : CreateEnv) (penv : PoolEnv),
      args.hostAddr = none ∨ args.conCompletedFn = false ∨ args.dataRecvFn = false ∨
          args.socketClosedFn = false ∨ args.pSkt = false →
        (CLCreateSocketAsync lib args env penv).ret = CL_ERR_ILLEGAL_ARG ∧
        (CLCreateSocketAsync lib args env penv).calls = [] ∧
        (CLCreateSocketAsync lib args env penv).requests = [] ∧
        (CLCreateSocketAsync lib args env penv).out = none ∧
        (CLCreateSocketAsync lib args env penv).lib = lib) := by
  have h0 : ¬ lib.s_startupCount ≤ 0 := by omega
  refine ⟨?_, ?_, ?_, ?_, ?_⟩
  · intro skt buf len env h
    unfold CLSendData
    rw [if_neg h0]
    cases buf with
    | none => exact ⟨rfl, rfl, rfl, rfl⟩
    | some bytes =>
      have hlen : len < 0 := by
        rcases h with h | h
        · cases h
        · exact h
      dsimp only
      rw [if_pos hlen]
      exact ⟨rfl, rfl, rfl, rfl⟩
  · intro srvSkt args aenv env penv h
    unfold CLAcceptCon
    rw [if_neg h0, if_pos h]
    exact ⟨rfl, rfl, rfl, rfl, rfl⟩
  · intro args env penv h
    have h2 : args.ipAddr = none ∨ args.port.val > 65535 ∨ args.conPendingFn = false ∨
        args.srvSocketClosedFn = false ∨ args.pSrvSkt = false := by tauto
    unfold CLCreateSrvSocket
    rw [if_neg h0, if_pos h2]
    exact ⟨rfl, rfl, rfl, rfl, rfl⟩
  · intro args env penv h
    have h2 : args.hostAddr = none ∨ args.hostPort.val > 65535 ∨ args.dataRecvFn = false ∨
        args.socketClosedFn = false ∨ args.pSkt = false := by tauto
    unfold CLCreateSocket
    rw [if_neg h0, if_pos h2]
    exact ⟨rfl, rfl, rfl, rfl, rfl⟩
  · intro args env penv h
    have h2 : args.hostAddr = none ∨ args.hostPort.val > 65535 ∨ args.conCompletedFn = false ∨
        args.dataRecvFn = false ∨ args.socketClosedFn = false ∨ args.pSkt = false := by tauto
    unfold CLCreateSocketAsync
    rw [if_neg h0, if_pos h2]
    exact ⟨rfl, rfl, rfl, rfl, rfl⟩

/-- The statement C11 at the library `demoLib`: a send with a null buffer on
the unknown handle 77 and a `CLCreateSocket` call with a null out-pointer. -/
theorem C11_argument_validation_witness :
    0 < demoLib.s_startupCount ∧
    (CLSendData demoLib 77 none 5 (SendEnv.allOk [])).ret = CL_ERR_ILLEGAL_ARG ∧
    (CLSendData demoLib 1000 (some hello) (-1) (SendEnv.allOk [])).lib = demoLib ∧
    (CLCreateSocket demoLib nullOutArgs (demoCreateEnv 2000 4 8)
      (demoPoolEnv 501)).ret = CL_ERR_ILLEGAL_ARG ∧
    (CLCreateSocket demoLib nullOutArgs (demoCreateEnv 2000 4 8) (demoPoolEnv 501)).calls = [] :=
  ⟨by decide,
    ((C11_argument_validation demoLib (by decide)).1 77 none 5 (SendEnv.allOk [])
      (Or.inl rfl)).1,
    ((C11_argument_validation demoLib (by decide)).1 1000 (some hello) (-1) (SendEnv.allOk [])
      (Or.inr (by decide))).2.2.2,
    ((C11_argument_validation demoLib (by decide)).2.2.2.1 nullOutArgs (demoCreateEnv 2000 4 8)
      (demoPoolEnv 501) (Or.inr (Or.inr (Or.inr rfl)))).1,
    ((C11_argument_validation demoLib (by decide)).2.2.2.1 nullOutArgs (demoCreateEnv 2000 4 8)
      (demoPoolEnv 501) (Or.inr (Or.inr (Or.inr rfl)))).2.1⟩

/-! ### Creation is atomic with respect to registration -/

theorem openDescriptors_append (c1 c2 : List PlatformCall) :
    ∀ s : List Nat, openDescriptors s (c1 ++ c2) = openDescriptors (openDescriptors s c1) c2 := by
  induction c1 with
  | nil => intro s; rfl
  | cons c cs ih =>
    intro s
    cases c with
    | socket a fd => cases fd <;> simp [openDescriptors, ih]
    | accept a fd => cases fd <;> simp [openDescriptors, ih]
    | closesocket fd => cases fd <;> simp [openDescriptors, ih]
    | _ => simp [openDescriptors, ih]

theorem openDescriptors_closeIfOpen (o : Option Nat) :
    openDescriptors o.toList (closeIfOpen o) = [] := by
  cases o <;> simp [closeIfOpen, openDescriptors]

theorem openDescriptors_doConnect (attempt : AddrInfo → ConnectAttempt) :
    ∀ (rest : List AddrInfo) (self : SocketObj) (a : AddrInfo),
      openDescriptors self.m_socket.toList (SocketObj.doConnect attempt self a rest).2.2.2 =
        (SocketObj.doConnect attempt self a rest).2.1.m_socket.toList := by
  intro rest
  induction rest with
  | nil =>
    intro self a
    unfold SocketObj.doConnect
    cases hs : (attempt a).socket with
    | ok fd =>
      simp only [openDescriptors_append, openDescriptors_closeIfOpen]
      simp [openDescriptors]
    | error e =>
      simp only [openDescriptors_append, openDescriptors_closeIfOpen]
      simp [openDescriptors]
  | cons b rest ih =>
    intro self a
    unfold SocketObj.doConnect
    cases hs : (attempt a).socket with
    | ok fd =>
      dsimp only
      split_ifs with hc
      · simp only [openDescriptors_append, openDescriptors_closeIfOpen]
        have := ih { self with m_socket := some fd } b
        simpa [openDescriptors] using this
      · simp only [openDescriptors_append, openDescriptors_closeIfOpen]
        simp [openDescriptors]
    | error e =>
      dsimp only
      split_ifs with hc
      · simp only [openDescriptors_append, openDescriptors_closeIfOpen]
        have := ih { self with m_socket := none } b
        simpa [openDescriptors] using this
      · simp only [openDescriptors_append, openDescriptors_closeIfOpen]
        simp [openDescriptors]
theorem openDescriptors_createNetEvent (self : SocketObj) (answer : Except OsErr Nat) :
    (self.createNetEvent answer).2.1.m_socket = self.m_socket ∧
    ∀ s, openDescriptors s (self.createNetEvent answer).2.2 = s := by
  cases answer <;> exact ⟨rfl, fun _ => rfl⟩

theorem openDescriptors_SetNonBlockingMode (self : SocketObj) (answer : Option OsErr)
    (s : List Nat) : openDescriptors s (self.SetNonBlockingMode answer).2 = s := rfl

theorem construct_open (env : CreateEnv) :
    openDescriptors [] ((SocketObj.new false none).construct env).2.2 =
      ((SocketObj.new false none).construct env).2.1.m_socket.toList ∧
    (((SocketObj.new false none).construct env).1 ≠ CL_ERR_OK →
      ((SocketObj.new false none).construct env).2.1.m_socket = none) := by
  unfold SocketObj.construct
  cases hce : env.createEvent with
  | error e =>
    refine ⟨?_, fun _ => ?_⟩ <;>
      simp [SocketObj.createNetEvent, SocketObj.new, closeIfOpen, openDescriptors, e.2.ne']
  | ok ev =>
    simp only [SocketObj.createNetEvent, if_true]
    cases hres : env.resolve with
    | failed code =>
      refine ⟨?_, fun _ => ?_⟩ <;> simp [SocketObj.new, closeIfOpen, openDescriptors]
    | ok first more =>
      dsimp only
      have hd := openDescriptors_doConnect env.attempt more
        { SocketObj.new false none with m_netEvent := some ev } first
      have hn : ({ SocketObj.new false none with m_netEvent := some ev } : SocketObj).m_socket.toList
          = [] := rfl
      rw [hn] at hd
      split_ifs with h1 h2
      · refine ⟨?_, fun _ => rfl⟩
        simp only [openDescriptors_append]
        have h0 : openDescriptors [] [PlatformCall.WSACreateEvent] = [] := rfl
        have h3 : openDescriptors [] [PlatformCall.getaddrinfo false] = [] := rfl
        rw [h0, h3, hd, openDescriptors_SetNonBlockingMode, openDescriptors_closeIfOpen]
        rfl
      · refine ⟨?_, fun h => ?_⟩
        · simp only [openDescriptors_append]
          have h0 : openDescriptors [] [PlatformCall.WSACreateEvent] = [] := rfl
          have h3 : openDescriptors [] [PlatformCall.getaddrinfo false] = [] := rfl
          rw [h0, h3, hd, openDescriptors_SetNonBlockingMode]
        · exact absurd (not_not.mp h2) h
      · refine ⟨?_, fun _ => rfl⟩
        simp only [openDescriptors_append]
        have h0 : openDescriptors [] [PlatformCall.WSACreateEvent] = [] := rfl
        have h3 : openDescriptors [] [PlatformCall.getaddrinfo false] = [] := rfl
        rw [h0, h3, hd, openDescriptors_closeIfOpen]
        rfl
theorem create_open (env : CreateEnv) :
    (∀ o, (SocketObj.create env).2.1 = some o →
      openDescriptors [] (SocketObj.create env).2.2 = o.m_socket.toList) ∧
    ((SocketObj.create env).2.1 = none →
      (SocketObj.create env).1 ≠ CL_ERR_OK ∧
        openDescriptors [] (SocketObj.create env).2.2 = []) := by
  obtain ⟨h1, h2⟩ := construct_open env
  unfold SocketObj.create SocketObj.handOut
  split_ifs with h
  · refine ⟨fun o ho => ?_, fun hn => ?_⟩
    · cases ho
      exact h1
    · cases hn
  · refine ⟨fun o ho => ?_, fun _ => ⟨h, ?_⟩⟩
    · cases ho
    · dsimp only
      rw [h1, h2 h]
      rfl

theorem createAsync_open (env : CreateEnv) :
    (∀ o, (SocketObj.createAsync env).2.1 = some o →
      openDescriptors [] (SocketObj.createAsync env).2.2 = o.m_socket.toList) ∧
    ((SocketObj.createAsync env).2.1 = none →
      (SocketObj.createAsync env).1 ≠ CL_ERR_OK ∧
        openDescriptors [] (SocketObj.createAsync env).2.2 = []) := by
  unfold SocketObj.createAsync SocketObj.handOut SocketObj.constructAsync
  cases hce : env.createEvent with
  | error e =>
    refine ⟨fun o ho => ?_, fun _ => ?_⟩
    · simp [SocketObj.createNetEvent, e.2.ne'] at ho
    · simp [SocketObj.createNetEvent, e.2.ne', openDescriptors]
  | ok ev =>
    refine ⟨fun o ho => ?_, fun hn => ?_⟩
    · simp [SocketObj.createNetEvent] at ho
      subst ho
      simp [SocketObj.createNetEvent, openDescriptors, SocketObj.new]
    · simp [SocketObj.createNetEvent] at hn

theorem createAccepted_open (fd : Nat) (env : CreateEnv) :
    (∀ o, (SocketObj.createAccepted (some fd) env).2.1 = some o →
      openDescriptors [fd] (SocketObj.createAccepted (some fd) env).2.2 = o.m_socket.toList) ∧
    ((SocketObj.createAccepted (some fd) env).2.1 = none →
      (SocketObj.createAccepted (some fd) env).1 ≠ CL_ERR_OK ∧
        openDescriptors [fd] (SocketObj.createAccepted (some fd) env).2.2 = []) := by
  unfold SocketObj.createAccepted SocketObj.handOut SocketObj.constructAccepted
  cases hce : env.createEvent with
  | error e =>
    refine ⟨fun o ho => ?_, fun _ => ?_⟩
    · simp [SocketObj.createNetEvent, e.2.ne'] at ho
    · simp [SocketObj.createNetEvent, e.2.ne', openDescriptors, SocketObj.new]
  | ok ev =>
    cases hes : env.eventSelect with
    | none =>
      refine ⟨fun o ho => ?_, fun hn => ?_⟩
      · simp [SocketObj.createNetEvent, SocketObj.SetNonBlockingMode, errOf] at ho
        subst ho
        simp [SocketObj.createNetEvent, SocketObj.SetNonBlockingMode, errOf, openDescriptors,
          SocketObj.new]
      · simp [SocketObj.createNetEvent, SocketObj.SetNonBlockingMode, errOf] at hn
    | some e =>
      refine ⟨fun o ho => ?_, fun _ => ?_⟩
      · simp [SocketObj.createNetEvent, SocketObj.SetNonBlockingMode, errOf, e.2.ne'] at ho
      · simp [SocketObj.createNetEvent, SocketObj.SetNonBlockingMode, errOf, e.2.ne',
          openDescriptors, SocketObj.new]

theorem acceptConnection_open (srv : SrvSocketObj) (aenv : AcceptEnv) :
    ((srv.acceptConnection aenv).1 = CL_ERR_OK →
      ∃ fd, (srv.acceptConnection aenv).2.1 = some fd ∧
        openDescriptors [] (srv.acceptConnection aenv).2.2 = [fd]) ∧
    ((srv.acceptConnection aenv).1 ≠ CL_ERR_OK →
      openDescriptors [] (srv.acceptConnection aenv).2.2 = []) := by
  unfold SrvSocketObj.acceptConnection
  cases ha : aenv.accept with
  | error e =>
    refine ⟨fun h => ?_, fun _ => ?_⟩
    · exact absurd h e.2.ne'
    · rfl
  | ok fd =>
    cases hg : aenv.getnameinfo with
    | none =>
      refine ⟨fun _ => ⟨fd, rfl, ?_⟩, fun h => ?_⟩
      · simp [openDescriptors]
      · exact absurd rfl h
    | some e =>
      refine ⟨fun h => ?_, fun _ => ?_⟩
      · exact absurd h e.2.ne'
      · simp [openDescriptors]

theorem srvCreate_open (conBacklog : Int) (env : SrvCreateEnv) :
    (∀ o, (SrvSocketObj.create conBacklog env).2.1 = some o →
      openDescriptors [] (SrvSocketObj.create conBacklog env).2.2 = o.m_socket.toList) ∧
    ((SrvSocketObj.create conBacklog env).2.1 = none →
      (SrvSocketObj.create conBacklog env).1 ≠ CL_ERR_OK ∧
        openDescriptors [] (SrvSocketObj.create conBacklog env).2.2 = []) := by
  have key : openDescriptors [] ((SrvSocketObj.new conBacklog).construct env).2.2 =
        ((SrvSocketObj.new conBacklog).construct env).2.1.m_socket.toList ∧
      (((SrvSocketObj.new conBacklog).construct env).1 ≠ CL_ERR_OK →
        ((SrvSocketObj.new conBacklog).construct env).2.1.m_socket = none) := by
    unfold SrvSocketObj.construct
    cases hce : env.createEvent with
    | error e => exact ⟨rfl, fun _ => rfl⟩
    | ok ev =>
      cases hres : env.resolve with
      | failed code => exact ⟨rfl, fun _ => rfl⟩
      | ok first more =>
        dsimp only
        have hl : openDescriptors []
            (({ SrvSocketObj.new conBacklog with m_netEvent := some ev } : SrvSocketObj).listenOn
              env first).2.2 =
            (({ SrvSocketObj.new conBacklog with m_netEvent := some ev } : SrvSocketObj).listenOn
              env first).2.1.m_socket.toList := by
          unfold SrvSocketObj.listenOn
          cases hs : env.socket with
          | error e => rfl
          | ok fd =>
            dsimp only
            split_ifs
            · rfl
            · rfl
            · cases hli : env.listen <;> rfl
        split_ifs with h1
        · refine ⟨?_, fun _ => rfl⟩
          simp only [openDescriptors_append]
          have h0 : openDescriptors [] [PlatformCall.WSACreateEvent, .getaddrinfo true] = [] := rfl
          rw [h0, hl, openDescriptors_closeIfOpen]
          rfl
        · refine ⟨?_, fun h => absurd (not_not.mp h1) h⟩
          simp only [openDescriptors_append]
          have h0 : openDescriptors [] [PlatformCall.WSACreateEvent, .getaddrinfo true] = [] := rfl
          rw [h0, hl]
  obtain ⟨h1, h2⟩ := key
  unfold SrvSocketObj.create
  dsimp only
  split_ifs with h
  · refine ⟨fun o ho => ?_, fun hn => ?_⟩
    · cases ho
      exact h1
    · cases hn
  · refine ⟨fun o ho => ?_, fun _ => ⟨h, ?_⟩⟩
    · cases ho
    · rw [h1, h2 h]
      rfl

theorem close_open (self : SocketObj) (resolver : ResolverEnv) :
    openDescriptors self.m_socket.toList (self.close resolver).2.1 = [] ∧
    (self.close resolver).1.m_socket = none := by
  unfold SocketObj.close
  by_cases hc : self.m_resolveAsyncCompleted = true
  · simp [hc, openDescriptors_closeIfOpen]
  · simp only [hc]
    unfold SocketObj.onHostAddrResolved
    cases hr : resolver.result with
    | ok first more => simp [openDescriptors_closeIfOpen]
    | failed code => simp [openDescriptors_closeIfOpen]

theorem srvClose_open (self : SrvSocketObj) :
    openDescriptors self.m_socket.toList self.close.2 = [] :=
  openDescriptors_closeIfOpen _
theorem mapErase_mapInsertSorted {α : Type} (m : List (Nat × α)) (k : Nat) (v : α)
    (h : k ∉ mapKeys m) : mapErase (mapInsertSorted m k v) k = m := by
  induction m with
  | nil => simp [mapInsertSorted, mapErase]
  | cons e rest ih =>
    obtain ⟨k', v'⟩ := e
    have hne : k ≠ k' := by
      intro hk
      exact h (by simp [mapKeys, hk])
    have hrest : k ∉ mapKeys rest := by
      intro hk
      exact h (by simp only [mapKeys, List.map_cons, List.mem_cons]; exact Or.inr hk)
    unfold mapInsertSorted
    split_ifs with hlt
    · simp [mapErase]
    · simp [mapErase, hne, ih hrest]

theorem mapFind_mapInsertSorted_self {α : Type} (m : List (Nat × α)) (k : Nat) (v : α)
    (h : k ∉ mapKeys m) : mapFind (mapInsertSorted m k v) k = some v := by
  induction m with
  | nil => simp [mapInsertSorted, mapFind]
  | cons e rest ih =>
    obtain ⟨k', v'⟩ := e
    have hne : k ≠ k' := by
      intro hk
      exact h (by simp [mapKeys, hk])
    have hrest : k ∉ mapKeys rest := by
      intro hk
      exact h (by simp only [mapKeys, List.map_cons, List.mem_cons]; exact Or.inr hk)
    unfold mapInsertSorted
    split_ifs with hlt
    · simp [mapFind]
    · simp [mapFind, hne, ih hrest]

theorem mapInsert_of_not_mem {α : Type} (m : List (Nat × α)) (k : Nat) (v : α)
    (h : k ∉ mapKeys m) : mapInsert m k v = mapInsertSorted m k v := by
  unfold mapInsert
  rw [(mapFind_eq_none m k).2 h]

theorem remove_add {α : Type} (reg : SktObjTypeRegistry α) (h : Nat) (o : α)
    (hfresh : h ∉ mapKeys reg.m_hndToSktObjMap) :
    ((reg.addSocketObj h o).removeSocketObj h).2 = reg ∧
    (reg.addSocketObj h o).findSocketObj h = some o := by
  unfold SktObjTypeRegistry.removeSocketObj SktObjTypeRegistry.addSocketObj
    SktObjTypeRegistry.findSocketObj
  simp only [mapInsert_of_not_mem _ _ _ hfresh, mapFind_mapInsertSorted_self _ _ _ hfresh,
    mapErase_mapInsertSorted _ _ _ hfresh, and_self]

theorem addNetObj_failed (p : NetThreadPool) (netObj : Nat) (env : PoolEnv)
    (h : (p.addNetObj netObj env).1 ≠ CL_ERR_OK) :
    (p.addNetObj netObj env).2.1.m_objToThreadMap = p.m_objToThreadMap ∧
    (p.addNetObj netObj env).2.1.m_threads = p.m_threads ∧
    (p.addNetObj netObj env).2.1.count = p.count ∧
    (p.addNetObj netObj env).2.2 = [] ∧
    ∃ e, env.create = .error e ∧ (p.addNetObj netObj env).1 = e.val := by
  unfold NetThreadPool.addNetObj NetThreadPool.place at h ⊢
  split at h
  · exact absurd rfl h
  · rename_i hfind
    simp only [hfind]
    cases hc : env.create with
    | ok t =>
      rw [hc] at h
      exact absurd rfl h
    | error e => exact ⟨rfl, rfl, rfl, rfl, e, rfl, rfl⟩

theorem addNetObj_ok (p : NetThreadPool) (netObj : Nat) (env : PoolEnv)
    (h : (p.addNetObj netObj env).1 = CL_ERR_OK) :
    (mapFind (p.addNetObj netObj env).2.1.m_objToThreadMap netObj).isSome = true := by
  rw [mapFind_isSome]
  unfold NetThreadPool.addNetObj NetThreadPool.place at h ⊢
  split at h
  · rename_i t hfind
    simp only [hfind]
    exact mapKeys_mapInsert_self _ _ _
  · rename_i hfind
    simp only [hfind]
    cases hc : env.create with
    | ok t => exact mapKeys_mapInsert_self _ _ _
    | error e =>
      rw [hc] at h
      exact absurd h e.2.ne'
theorem freshAddr_iff (lib : Lib) (addr : Nat) :
    lib.freshAddr addr = true ↔
      (addr ∉ mapKeys lib.s_srvSocketRegistry.m_hndToSktObjMap ∧
        addr ∉ mapKeys lib.s_socketRegistry.m_hndToSktObjMap ∧
        addr ∉ mapKeys lib.s_netThreadPool.m_objToThreadMap) := by
  simp [Lib.freshAddr]

theorem not_holdsSocket_of_fresh (lib : Lib) (addr : Nat) (h : lib.freshAddr addr = true) :
    ¬ lib.holdsSocket addr := by
  intro hh
  have := ((freshAddr_iff lib addr).1 h).2.1
  exact this ((mapFind_isSome _ _).1 hh.1)

theorem not_holdsSrvSocket_of_fresh (lib : Lib) (addr : Nat) (h : lib.freshAddr addr = true) :
    ¬ lib.holdsSrvSocket addr := by
  intro hh
  have := ((freshAddr_iff lib addr).1 h).1
  exact this ((mapFind_isSome _ _).1 hh.1)

theorem atomicSocket_of_failed (lib : Lib) (addr : Nat) (err : Int) (calls : List PlatformCall)
    (hfresh : lib.freshAddr addr = true) (herr : err ≠ CL_ERR_OK)
    (hopen : openDescriptors [] calls = []) :
    ApiResult.atomicSocket
      { ret := err, lib := lib, out := none, calls := calls, requests := [], callbacks := [] }
      lib addr :=
  ⟨⟨fun h => absurd h (not_holdsSocket_of_fresh lib addr hfresh), fun h => absurd h herr⟩,
    fun h => absurd h herr, fun _ => ⟨⟨rfl, rfl, rfl⟩, rfl, hopen⟩⟩

theorem atomicSrvSocket_of_failed (lib : Lib) (addr : Nat) (err : Int)
    (calls : List PlatformCall) (hfresh : lib.freshAddr addr = true) (herr : err ≠ CL_ERR_OK)
    (hopen : openDescriptors [] calls = []) :
    ApiResult.atomicSrvSocket
      { ret := err, lib := lib, out := none, calls := calls, requests := [], callbacks := [] }
      lib addr :=
  ⟨⟨fun h => absurd h (not_holdsSrvSocket_of_fresh lib addr hfresh), fun h => absurd h herr⟩,
    fun h => absurd h herr, fun _ => ⟨⟨rfl, rfl, rfl⟩, rfl, hopen⟩⟩

theorem finishCreateSocketObj_atomic (lib : Lib) (addr : Nat) (obj : SocketObj)
    (penv : PoolEnv) (res : ResolverEnv) (calls : List PlatformCall)
    (hfresh : lib.freshAddr addr = true)
    (hopen : openDescriptors [] calls = obj.m_socket.toList) :
    (finishCreateSocketObj lib addr obj penv res calls).atomicSocket lib addr := by
  have hf := ((freshAddr_iff lib addr).1 hfresh).2.1
  obtain ⟨hra1, hra2⟩ := remove_add lib.s_socketRegistry addr obj hf
  unfold finishCreateSocketObj
  dsimp only
  by_cases h : (lib.s_netThreadPool.addNetObj addr penv).1 = CL_ERR_OK
  · rw [if_pos h]
    refine ⟨⟨fun _ => h, fun _ => ⟨?_, addNetObj_ok _ _ _ h⟩⟩, fun _ => rfl,
      fun hne => absurd h hne⟩
    show ((lib.s_socketRegistry.addSocketObj addr obj).findSocketObj addr).isSome = true
    rw [hra2]
    rfl
  · rw [if_neg h]
    obtain ⟨hp1, _⟩ := addNetObj_failed _ _ _ h
    have hsame : Lib.sameObjects
        { lib with
          s_socketRegistry := ((lib.s_socketRegistry.addSocketObj addr obj).removeSocketObj addr).2
          s_netThreadPool := (lib.s_netThreadPool.addNetObj addr penv).2.1 } lib :=
      ⟨rfl, hra1, hp1⟩
    refine ⟨⟨fun hh => ?_, fun hh => absurd hh h⟩, fun hh => absurd hh h,
      fun _ => ⟨hsame, rfl, ?_⟩⟩
    · exfalso
      have h1 := hh.1
      dsimp only at h1
      rw [hra1] at h1
      exact hf ((mapFind_isSome _ _).1 h1)
    · dsimp only
      rw [openDescriptors_append, hopen]
      exact (close_open obj res).1

theorem finishCreateSrvSocketObj_atomic (lib : Lib) (addr : Nat) (obj : SrvSocketObj)
    (penv : PoolEnv) (calls : List PlatformCall)
    (hfresh : lib.freshAddr addr = true)
    (hopen : openDescriptors [] calls = obj.m_socket.toList) :
    (finishCreateSrvSocketObj lib addr obj penv calls).atomicSrvSocket lib addr := by
  have hf := ((freshAddr_iff lib addr).1 hfresh).1
  obtain ⟨hra1, hra2⟩ := remove_add lib.s_srvSocketRegistry addr obj hf
  unfold finishCreateSrvSocketObj
  dsimp only
  by_cases h : (lib.s_netThreadPool.addNetObj addr penv).1 = CL_ERR_OK
  · rw [if_pos h]
    refine ⟨⟨fun _ => h, fun _ => ⟨?_, addNetObj_ok _ _ _ h⟩⟩, fun _ => rfl,
      fun hne => absurd h hne⟩
    show ((lib.s_srvSocketRegistry.addSocketObj addr obj).findSocketObj addr).isSome = true
    rw [hra2]
    rfl
  · rw [if_neg h]
    obtain ⟨hp1, _⟩ := addNetObj_failed _ _ _ h
    have hsame : Lib.sameObjects
        { lib with
          s_srvSocketRegistry :=
            ((lib.s_srvSocketRegistry.addSocketObj addr obj).removeSocketObj addr).2
          s_netThreadPool := (lib.s_netThreadPool.addNetObj addr penv).2.1 } lib :=
      ⟨hra1, rfl, hp1⟩
    refine ⟨⟨fun hh => ?_, fun hh => absurd hh h⟩, fun hh => absurd hh h,
      fun _ => ⟨hsame, rfl, ?_⟩⟩
    · exfalso
      have h1 := hh.1
      dsimp only at h1
      rw [hra1] at h1
      exact hf ((mapFind_isSome _ _).1 h1)
    · dsimp only
      rw [openDescriptors_append, hopen]
      exact srvClose_open obj
theorem atomicSocket_early (lib : Lib) (addr : Nat) (err : Int)
    (hfresh : lib.freshAddr addr = true) (herr : err ≠ CL_ERR_OK) :
    (ApiResult.early lib err).atomicSocket lib addr :=
  atomicSocket_of_failed lib addr err [] hfresh herr rfl

theorem atomicSrvSocket_early (lib : Lib) (addr : Nat) (err : Int)
    (hfresh : lib.freshAddr addr = true) (herr : err ≠ CL_ERR_OK) :
    (ApiResult.early lib err).atomicSrvSocket lib addr :=
  atomicSrvSocket_of_failed lib addr err [] hfresh herr rfl

theorem CLCreateSocket_atomic (lib : Lib) (args : SocketArgs) (env : CreateEnv)
    (penv : PoolEnv) (hfresh : lib.freshAddr env.addr = true) :
    (CLCreateSocket lib args env penv).atomicSocket lib env.addr := by
  unfold CLCreateSocket
  split_ifs with h0 h1
  · exact atomicSocket_early lib _ _ hfresh (by decide)
  · exact atomicSocket_early lib _ _ hfresh (by decide)
  · obtain ⟨c1, c2⟩ := create_open env
    revert c1 c2
    generalize SocketObj.create env = x
    obtain ⟨err, o, calls⟩ := x
    intro c1 c2
    cases o with
    | some obj =>
      exact finishCreateSocketObj_atomic lib env.addr obj penv env.resolver calls hfresh
        (c1 obj rfl)
    | none => exact atomicSocket_of_failed lib env.addr err calls hfresh (c2 rfl).1 (c2 rfl).2

theorem CLCreateSocketAsync_atomic (lib : Lib) (args : SocketArgs) (env : CreateEnv)
    (penv : PoolEnv) (hfresh : lib.freshAddr env.addr = true) :
    (CLCreateSocketAsync lib args env penv).atomicSocket lib env.addr := by
  unfold CLCreateSocketAsync
  split_ifs with h0 h1
  · exact atomicSocket_early lib _ _ hfresh (by decide)
  · exact atomicSocket_early lib _ _ hfresh (by decide)
  · obtain ⟨c1, c2⟩ := createAsync_open env
    revert c1 c2
    generalize SocketObj.createAsync env = x
    obtain ⟨err, o, calls⟩ := x
    intro c1 c2
    cases o with
    | some obj =>
      exact finishCreateSocketObj_atomic lib env.addr obj penv env.resolver calls hfresh
        (c1 obj rfl)
    | none => exact atomicSocket_of_failed lib env.addr err calls hfresh (c2 rfl).1 (c2 rfl).2

theorem CLCreateSrvSocket_atomic (lib : Lib) (args : SrvSocketArgs) (env : SrvCreateEnv)
    (penv : PoolEnv) (hfresh : lib.freshAddr env.addr = true) :
    (CLCreateSrvSocket lib args env penv).atomicSrvSocket lib env.addr := by
  unfold CLCreateSrvSocket
  split_ifs with h0 h1
  · exact atomicSrvSocket_early lib _ _ hfresh (by decide)
  · exact atomicSrvSocket_early lib _ _ hfresh (by decide)
  · obtain ⟨c1, c2⟩ := srvCreate_open args.conBacklog env
    revert c1 c2
    generalize SrvSocketObj.create args.conBacklog env = x
    obtain ⟨err, o, calls⟩ := x
    intro c1 c2
    cases o with
    | some obj =>
      exact finishCreateSrvSocketObj_atomic lib env.addr obj penv calls hfresh (c1 obj rfl)
    | none => exact atomicSrvSocket_of_failed lib env.addr err calls hfresh (c2 rfl).1 (c2 rfl).2

theorem CLAcceptCon_atomic (lib : Lib) (srvSkt : Nat) (args : AcceptArgs) (aenv : AcceptEnv)
    (env : CreateEnv) (penv : PoolEnv) (hfresh : lib.freshAddr env.addr = true) :
    (CLAcceptCon lib srvSkt args aenv env penv).atomicSocket lib env.addr := by
  unfold CLAcceptCon
  split_ifs with h0 h1
  · exact atomicSocket_early lib _ _ hfresh (by decide)
  · exact atomicSocket_early lib _ _ hfresh (by decide)
  · split
    · exact atomicSocket_early lib _ _ hfresh (by decide)
    · rename_i srvSktObj _
      dsimp only
      obtain ⟨a1, a2⟩ := acceptConnection_open srvSktObj aenv
      split_ifs with ha
      · obtain ⟨fd, hfd, hop⟩ := a1 ha
        rw [hfd]
        obtain ⟨c1, c2⟩ := createAccepted_open fd env
        revert c1 c2
        generalize SocketObj.createAccepted (some fd) env = x
        obtain ⟨err, o, calls⟩ := x
        intro c1 c2
        cases o with
        | some obj =>
          refine finishCreateSocketObj_atomic lib env.addr obj penv env.resolver _ hfresh ?_
          rw [openDescriptors_append, hop]
          exact c1 obj rfl
        | none =>
          refine atomicSocket_of_failed lib env.addr err _ hfresh (c2 rfl).1 ?_
          rw [openDescriptors_append, hop]
          exact (c2 rfl).2
      · exact atomicSocket_of_failed lib env.addr _ _ hfresh ha (a2 ha)

/-- C12 (creation is atomic with respect to registration). For
`CLCreateSrvSocket`, `CLCreateSocket`, `CLCreateSocketAsync` and `CLAcceptCon`,
called in any library state with the new object at an address `env.addr` not
in use: the object is in its registry and in the object-to-worker index of
the pool afterwards if and only if the call returned `CL_ERR_OK`, and then the
handle written is `env.addr`, the key the registry finds it under. When the
call returns another value (also when construction succeeded and the pool
refused the object) both registries and the index are as before, no handle is
written and every descriptor the call opened has been closed. -/
theorem C12_creation_atomic (lib : Lib) (penv : PoolEnv) :
    (∀ (args : SrvSocketArgs) (env : SrvCreateEnv), lib.freshAddr env.addr = true →
      (CLCreateSrvSocket lib args env penv).atomicSrvSocket lib env.addr) ∧
    (∀ (args : SocketArgs) (env : CreateEnv), lib.freshAddr env.addr = true →
      (CLCreateSocket lib args env penv).atomicSocket lib env.addr) ∧
    (∀ (args : SocketArgs) (env : CreateEnv), lib.freshAddr env.addr = true →
      (CLCreateSocketAsync lib args env penv).atomicSocket lib env.addr) ∧
    (∀ (srvSkt : Nat) (args : AcceptArgs) (aenv : AcceptEnv) (env : CreateEnv),
      lib.freshAddr env.addr = true →
      (CLAcceptCon lib srvSkt args aenv env penv).atomicSocket lib env.addr) :=
  ⟨fun args env h => CLCreateSrvSocket_atomic lib args env penv h,
    fun args env h => CLCreateSocket_atomic lib args env penv h,
    fun args env h => CLCreateSocketAsync_atomic lib args env penv h,
    fun srvSkt args aenv env h => CLAcceptCon_atomic lib srvSkt args aenv env penv h⟩
/-- The statement C12 at a `CLCreateSocket` call whose connection succeeds on
descriptor 3 while the pool cannot create a worker: the call returns the
error 8 of the pool, the registries and the index are as before and the
descriptor 3 is closed by the last platform call. -/
theorem C12_creation_atomic_witness :
    startedLib.freshAddr 1000 = true ∧
    (CLCreateSocket startedLib demoSocketArgs (demoCreateEnv 1000 3 7)
      failingPoolEnv).atomicSocket startedLib 1000 ∧
    (CLCreateSocket startedLib demoSocketArgs (demoCreateEnv 1000 3 7) failingPoolEnv).ret = 8 ∧
    (CLCreateSocket startedLib demoSocketArgs (demoCreateEnv 1000 3 7) failingPoolEnv).calls =
      [.WSACreateEvent, .getaddrinfo false, .socket ⟨1, 16⟩ (some 3), .connect (some 3) ⟨1, 16⟩,
        .WSAEventSelect (some 3) (some 7) 33, .closesocket (some 3)] ∧
    (CLCreateSocket startedLib demoSocketArgs (demoCreateEnv 1000 3 7)
      (demoPoolEnv 500)).ret = CL_ERR_OK ∧
    (CLCreateSocket startedLib demoSocketArgs (demoCreateEnv 1000 3 7)
      (demoPoolEnv 500)).atomicSocket startedLib 1000 :=
  ⟨by decide,
    (C12_creation_atomic startedLib failingPoolEnv).2.1 demoSocketArgs (demoCreateEnv 1000 3 7)
      (by decide),
    by decide, by decide, by decide,
    (C12_creation_atomic startedLib (demoPoolEnv 500)).2.1 demoSocketArgs
      (demoCreateEnv 1000 3 7) (by decide)⟩

/-! ### Deleting a handle -/

theorem removeSocketObj_unknown {α : Type} (reg : SktObjTypeRegistry α) (h : Nat)
    (hun : h ∉ mapKeys reg.m_hndToSktObjMap) : reg.removeSocketObj h = (none, reg) := by
  unfold SktObjTypeRegistry.removeSocketObj
  rw [(mapFind_eq_none _ _).2 hun]

theorem removeSocketObj_absent {α : Type} (reg : SktObjTypeRegistry α) (h : Nat)
    (hnd : (mapKeys reg.m_hndToSktObjMap).Nodup) :
    h ∉ mapKeys (reg.removeSocketObj h).2.m_hndToSktObjMap := by
  unfold SktObjTypeRegistry.removeSocketObj
  cases hf : mapFind reg.m_hndToSktObjMap h with
  | none => exact (mapFind_eq_none _ _).1 hf
  | some o =>
    dsimp only
    rw [mapKeys_mapErase_iff _ _ _ hnd]
    exact fun hh => hh.2 rfl

theorem CLDeleteSocket_unknown (lib : Lib) (skt : Nat) (f : Nat → Bool) (res : ResolverEnv)
    (hun : skt ∉ mapKeys lib.s_socketRegistry.m_hndToSktObjMap) :
    CLDeleteSocket lib skt f res = ApiResult.early lib CL_ERR_OK := by
  unfold CLDeleteSocket
  rw [removeSocketObj_unknown _ _ hun]
  split_ifs <;> rfl

theorem CLDeleteSrvSocket_unknown (lib : Lib) (srvSkt : Nat) (f : Nat → Bool)
    (hun : srvSkt ∉ mapKeys lib.s_srvSocketRegistry.m_hndToSktObjMap) :
    CLDeleteSrvSocket lib srvSkt f = ApiResult.early lib CL_ERR_OK := by
  unfold CLDeleteSrvSocket
  rw [removeSocketObj_unknown _ _ hun]
  split_ifs <;> rfl

theorem CLDeleteSocket_absent (lib : Lib) (skt : Nat) (f : Nat → Bool) (res : ResolverEnv)
    (hnd : (mapKeys lib.s_socketRegistry.m_hndToSktObjMap).Nodup)
    (hinit : 0 < lib.s_startupCount) :
    skt ∉ mapKeys (CLDeleteSocket lib skt f res).lib.s_socketRegistry.m_hndToSktObjMap := by
  have hab := removeSocketObj_absent lib.s_socketRegistry skt hnd
  have h0 : ¬ lib.s_startupCount ≤ 0 := by omega
  unfold CLDeleteSocket
  rw [if_neg h0]
  revert hab
  cases hr : lib.s_socketRegistry.removeSocketObj skt with
  | mk ro reg =>
    intro hab
    cases ro with
    | none =>
      have : reg = lib.s_socketRegistry := by
        unfold SktObjTypeRegistry.removeSocketObj at hr
        split at hr
        · cases hr
        · cases hr
          rfl
      rw [this] at hab
      exact hab
    | some o => exact hab

theorem CLDeleteSrvSocket_absent (lib : Lib) (srvSkt : Nat) (f : Nat → Bool)
    (hnd : (mapKeys lib.s_srvSocketRegistry.m_hndToSktObjMap).Nodup)
    (hinit : 0 < lib.s_startupCount) :
    srvSkt ∉ mapKeys (CLDeleteSrvSocket lib srvSkt f).lib.s_srvSocketRegistry.m_hndToSktObjMap := by
  have hab := removeSocketObj_absent lib.s_srvSocketRegistry srvSkt hnd
  have h0 : ¬ lib.s_startupCount ≤ 0 := by omega
  unfold CLDeleteSrvSocket
  rw [if_neg h0]
  revert hab
  cases hr : lib.s_srvSocketRegistry.removeSocketObj srvSkt with
  | mk ro reg =>
    intro hab
    cases ro with
    | none =>
      have : reg = lib.s_srvSocketRegistry := by
        unfold SktObjTypeRegistry.removeSocketObj at hr
        split at hr
        · cases hr
        · cases hr
          rfl
      rw [this] at hab
      exact hab
    | some o => exact hab

/-- C13 (deleting an unknown handle is a silent no-op). In every library state,
for every handle that is not a key of the client registry, `CLDeleteSocket`
returns normally, makes no platform call, no call on a worker and no callback,
and leaves the whole library as it was: both registries with every socket
object, and the pool with its active workers, counts, index and shutting-down
list. The same holds for `CLDeleteSrvSocket` and the server registry. A handle
that was just deleted is such a handle: deleting it a second time changes
nothing. -/
theorem C13_delete_unknown_noop (lib : Lib) (h : Nat) (isShutdown : Nat → Bool)
    (resolver : ResolverEnv) :
    (h ∉ mapKeys lib.s_socketRegistry.m_hndToSktObjMap →
      (CLDeleteSocket lib h isShutdown resolver).ret = CL_ERR_OK ∧
      (CLDeleteSocket lib h isShutdown resolver).lib = lib ∧
      (CLDeleteSocket lib h isShutdown resolver).calls = [] ∧
      (CLDeleteSocket lib h isShutdown resolver).requests = [] ∧
      (CLDeleteSocket lib h isShutdown resolver).callbacks = []) ∧
    (h ∉ mapKeys lib.s_srvSocketRegistry.m_hndToSktObjMap →
      (CLDeleteSrvSocket lib h isShutdown).ret = CL_ERR_OK ∧
      (CLDeleteSrvSocket lib h isShutdown).lib = lib ∧
      (CLDeleteSrvSocket lib h isShutdown).calls = [] ∧
      (CLDeleteSrvSocket lib h isShutdown).requests = [] ∧
      (CLDeleteSrvSocket lib h isShutdown).callbacks = []) ∧
    ((mapKeys lib.s_socketRegistry.m_hndToSktObjMap).Nodup →
      ∀ (f : Nat → Bool) (res : ResolverEnv),
        (CLDeleteSocket (CLDeleteSocket lib h isShutdown resolver).lib h f res).lib =
          (CLDeleteSocket lib h isShutdown resolver).lib) ∧
    ((mapKeys lib.s_srvSocketRegistry.m_hndToSktObjMap).Nodup →
      ∀ (f : Nat → Bool),
        (CLDeleteSrvSocket (CLDeleteSrvSocket lib h isShutdown).lib h f).lib =
          (CLDeleteSrvSocket lib h isShutdown).lib) := by
  refine ⟨fun hun => ?_, fun hun => ?_, fun hnd f res => ?_, fun hnd f => ?_⟩
  · rw [CLDeleteSocket_unknown lib h isShutdown resolver hun]
    exact ⟨rfl, rfl, rfl, rfl, rfl⟩
  · rw [CLDeleteSrvSocket_unknown lib h isShutdown hun]
    exact ⟨rfl, rfl, rfl, rfl, rfl⟩
  · by_cases h0 : lib.s_startupCount ≤ 0
    · have e : CLDeleteSocket lib h isShutdown resolver = ApiResult.early lib CL_ERR_OK := by
        unfold CLDeleteSocket
        rw [if_pos h0]
      rw [e]
      show (CLDeleteSocket lib h f res).lib = lib
      unfold CLDeleteSocket
      rw [if_pos h0]
      rfl
    · rw [CLDeleteSocket_unknown _ h f res
        (CLDeleteSocket_absent lib h isShutdown resolver hnd (by omega))]
      rfl
  · by_cases h0 : lib.s_startupCount ≤ 0
    · have e : CLDeleteSrvSocket lib h isShutdown = ApiResult.early lib CL_ERR_OK := by
        unfold CLDeleteSrvSocket
        rw [if_pos h0]
      rw [e]
      show (CLDeleteSrvSocket lib h f).lib = lib
      unfold CLDeleteSrvSocket
      rw [if_pos h0]
      rfl
    · rw [CLDeleteSrvSocket_unknown _ h f
        (CLDeleteSrvSocket_absent lib h isShutdown hnd (by omega))]
      rfl

/-- The statement C13 at the library `demoLib`, whose only socket has the
handle 1000: deleting the unknown handle 77 changes nothing, and so does
deleting 1000 a second time. -/
theorem C13_delete_unknown_noop_witness :
    77 ∉ mapKeys demoLib.s_socketRegistry.m_hndToSktObjMap ∧
    (mapKeys demoLib.s_socketRegistry.m_hndToSktObjMap).Nodup ∧
    (CLDeleteSocket demoLib 77 (fun _ => true) demoResolver).lib = demoLib ∧
    (CLDeleteSocket (CLDeleteSocket demoLib 1000 (fun _ => true) demoResolver).lib 1000
      (fun _ => true) demoResolver).lib =
        (CLDeleteSocket demoLib 1000 (fun _ => true) demoResolver).lib ∧
    (CLDeleteSocket demoLib 1000 (fun _ => true) demoResolver).lib ≠ demoLib :=
  ⟨by decide, by decide,
    ((C13_delete_unknown_noop demoLib 77 (fun _ => true) demoResolver).1 (by decide)).2.1,
    (C13_delete_unknown_noop demoLib 1000 (fun _ => true) demoResolver).2.2.1 (by decide)
      (fun _ => true) demoResolver,
    by decide⟩

theorem mapKeys_mapInsert_subset {α : Type} (m : List (Nat × α)) (a k : Nat) (v : α)
    (h : k ∈ mapKeys (mapInsert m a v)) : k ∈ mapKeys m ∨ a = k := by
  unfold mapInsert at h
  split at h
  · exact Or.inl h
  · have hp := (mapInsertSorted_perm m a v).map Prod.fst
    have h2 : k ∈ List.map Prod.fst ((a, v) :: m) := hp.subset h
    simp only [List.map_cons, List.mem_cons] at h2
    rcases h2 with h2 | h2
    · exact Or.inr h2.symm
    · exact Or.inl h2

theorem mapKeys_removeSocketObj_subset {α : Type} (reg : SktObjTypeRegistry α) (a k : Nat)
    (h : k ∈ mapKeys (reg.removeSocketObj a).2.m_hndToSktObjMap) :
    k ∈ mapKeys reg.m_hndToSktObjMap := by
  unfold SktObjTypeRegistry.removeSocketObj at h
  split at h
  · exact (mapKeys_mapErase_sublist _ _).subset h
  · exact h

theorem keysWithin_refl (lib : Lib) (r : ApiResult) (a : Option Nat) (h : r.lib = lib) :
    r.keysWithin lib a := by
  subst h
  exact ⟨fun k hk => Or.inl hk, fun k hk => Or.inl hk⟩

theorem keysWithin_of_registries (lib : Lib) (r : ApiResult) (a : Option Nat)
    (h1 : r.lib.s_socketRegistry = lib.s_socketRegistry)
    (h2 : r.lib.s_srvSocketRegistry = lib.s_srvSocketRegistry) : r.keysWithin lib a := by
  unfold ApiResult.keysWithin
  rw [h1, h2]
  exact ⟨fun k hk => Or.inl hk, fun k hk => Or.inl hk⟩

theorem finishCreateSocketObj_keysWithin (lib : Lib) (addr : Nat) (obj : SocketObj)
    (penv : PoolEnv) (res : ResolverEnv) (calls : List PlatformCall) :
    (finishCreateSocketObj lib addr obj penv res calls).keysWithin lib (some addr) := by
  unfold finishCreateSocketObj
  dsimp only
  split_ifs
  · refine ⟨fun k hk => ?_, fun k hk => Or.inl hk⟩
    rcases mapKeys_mapInsert_subset _ _ _ _ hk with h | h
    · exact Or.inl h
    · exact Or.inr (by rw [h])
  · refine ⟨fun k hk => ?_, fun k hk => Or.inl hk⟩
    rcases mapKeys_mapInsert_subset _ _ _ _ (mapKeys_removeSocketObj_subset _ _ _ hk) with h | h
    · exact Or.inl h
    · exact Or.inr (by rw [h])

theorem finishCreateSrvSocketObj_keysWithin (lib : Lib) (addr : Nat) (obj : SrvSocketObj)
    (penv : PoolEnv) (calls : List PlatformCall) :
    (finishCreateSrvSocketObj lib addr obj penv calls).keysWithin lib (some addr) := by
  unfold finishCreateSrvSocketObj
  dsimp only
  split_ifs
  · refine ⟨fun k hk => Or.inl hk, fun k hk => ?_⟩
    rcases mapKeys_mapInsert_subset _ _ _ _ hk with h | h
    · exact Or.inl h
    · exact Or.inr (by rw [h])
  · refine ⟨fun k hk => Or.inl hk, fun k hk => ?_⟩
    rcases mapKeys_mapInsert_subset _ _ _ _ (mapKeys_removeSocketObj_subset _ _ _ hk) with h | h
    · exact Or.inl h
    · exact Or.inr (by rw [h])

theorem step_keysWithin (lib : Lib) (c : ApiCall) : (c.run lib).keysWithin lib c.allocates := by
  cases c with
  | startup e =>
    apply keysWithin_of_registries
    · simp only [ApiCall.run, CLStartup]
      split_ifs <;> rfl
    · simp only [ApiCall.run, CLStartup]
      split_ifs <;> rfl
  | cleanup env =>
    simp only [ApiCall.run, CLCleanup, CLCleanup.beforeWait, CLCleanup.afterWait]
    by_cases h : wrapInt32 (lib.s_startupCount - 1) = 0
    · simp only [h, if_true]
      exact ⟨fun k hk => by simp [mapKeys] at hk, fun k hk => by simp [mapKeys] at hk⟩
    · simp only [h, if_false]
      have h2 : ¬ (ApiResult.early
          { lib with s_startupCount := wrapInt32 (lib.s_startupCount - 1) }
          CL_ERR_OK).lib.s_startupCount = 0 := h
      rw [if_neg h2]
      exact keysWithin_of_registries _ _ _ rfl rfl
  | createSrvSocket args env penv =>
    simp only [ApiCall.run, ApiCall.allocates, CLCreateSrvSocket]
    split_ifs
    · exact keysWithin_refl _ _ _ rfl
    · exact keysWithin_refl _ _ _ rfl
    · split
      · exact finishCreateSrvSocketObj_keysWithin _ _ _ _ _
      · exact keysWithin_refl _ _ _ rfl
  | acceptCon srvSkt args aenv env penv =>
    simp only [ApiCall.run, ApiCall.allocates, CLAcceptCon]
    split_ifs
    · exact keysWithin_refl _ _ _ rfl
    · exact keysWithin_refl _ _ _ rfl
    · split
      · exact keysWithin_refl _ _ _ rfl
      · split_ifs
        · split
          · exact finishCreateSocketObj_keysWithin _ _ _ _ _ _
          · exact keysWithin_refl _ _ _ rfl
        · exact keysWithin_refl _ _ _ rfl
  | deleteSrvSocket srvSkt f =>
    simp only [ApiCall.run, ApiCall.allocates, CLDeleteSrvSocket]
    split_ifs
    · exact keysWithin_refl _ _ _ rfl
    · have hk := fun k => mapKeys_removeSocketObj_subset lib.s_srvSocketRegistry srvSkt k
      revert hk
      generalize lib.s_srvSocketRegistry.removeSocketObj srvSkt = x
      obtain ⟨ro, reg⟩ := x
      intro hk
      cases ro with
      | none => exact keysWithin_refl _ _ _ rfl
      | some o => exact ⟨fun k h => Or.inl h, fun k h => Or.inl (hk k h)⟩
  | createSocket args env penv =>
    simp only [ApiCall.run, ApiCall.allocates, CLCreateSocket]
    split_ifs
    · exact keysWithin_refl _ _ _ rfl
    · exact keysWithin_refl _ _ _ rfl
    · split
      · exact finishCreateSocketObj_keysWithin _ _ _ _ _ _
      · exact keysWithin_refl _ _ _ rfl
  | createSocketAsync args env penv =>
    simp only [ApiCall.run, ApiCall.allocates, CLCreateSocketAsync]
    split_ifs
    · exact keysWithin_refl _ _ _ rfl
    · exact keysWithin_refl _ _ _ rfl
    · split
      · exact finishCreateSocketObj_keysWithin _ _ _ _ _ _
      · exact keysWithin_refl _ _ _ rfl
  | sendData skt buf len env =>
    simp only [ApiCall.run, ApiCall.allocates, CLSendData]
    cases buf with
    | none => split_ifs <;> exact keysWithin_refl _ _ _ rfl
    | some bytes =>
      dsimp only
      split_ifs <;> first
        | exact keysWithin_refl _ _ _ rfl
        | (split
           · exact keysWithin_refl _ _ _ rfl
           · first
              | exact keysWithin_refl _ _ _ rfl
              | exact ⟨fun k hk => Or.inl (by simpa only [mapKeys_mapAssign] using hk),
                  fun k hk => Or.inl hk⟩)
  | deleteSocket skt f res =>
    simp only [ApiCall.run, ApiCall.allocates, CLDeleteSocket]
    split_ifs
    · exact keysWithin_refl _ _ _ rfl
    · have hk := fun k => mapKeys_removeSocketObj_subset lib.s_socketRegistry skt k
      revert hk
      generalize lib.s_socketRegistry.removeSocketObj skt = x
      obtain ⟨ro, reg⟩ := x
      intro hk
      cases ro with
      | none => exact keysWithin_refl _ _ _ rfl
      | some o => exact ⟨fun k h => Or.inl (hk k h), fun k h => Or.inl h⟩
theorem runCalls_keeps_unregistered (h : Nat) :
    ∀ (cs : List ApiCall) (lib : Lib), (∀ c ∈ cs, c.allocates ≠ some h) →
      (h ∉ mapKeys lib.s_socketRegistry.m_hndToSktObjMap →
        h ∉ mapKeys (runCalls lib cs).s_socketRegistry.m_hndToSktObjMap) ∧
      (h ∉ mapKeys lib.s_srvSocketRegistry.m_hndToSktObjMap →
        h ∉ mapKeys (runCalls lib cs).s_srvSocketRegistry.m_hndToSktObjMap) := by
  intro cs
  induction cs with
  | nil => exact fun lib _ => ⟨id, id⟩
  | cons c cs ih =>
    intro lib hc
    obtain ⟨s1, s2⟩ := step_keysWithin lib c
    obtain ⟨i1, i2⟩ := ih (c.run lib).lib (fun d hd => hc d (List.mem_cons_of_mem _ hd))
    have hne := hc c (List.mem_cons_self _ _)
    refine ⟨fun hn => i1 (fun hk => ?_), fun hn => i2 (fun hk => ?_)⟩
    · rcases s1 h hk with h1 | h1
      · exact hn h1
      · exact hne h1
    · rcases s2 h hk with h1 | h1
      · exact hn h1
      · exact hne h1

theorem removeNetObj_index (p : NetThreadPool) (h : Nat) (f : Nat → Bool)
    (hnd : (mapKeys p.m_objToThreadMap).Nodup) :
    mapFind (p.removeNetObj h f).1.m_objToThreadMap h = none ∧
    ∀ k, k ≠ h → mapFind (p.removeNetObj h f).1.m_objToThreadMap k =
      mapFind p.m_objToThreadMap k := by
  unfold NetThreadPool.removeNetObj NetThreadPool.displace
  cases hf : mapFind (p.cleanupShuttingDownThreads f).m_objToThreadMap h with
  | none => exact ⟨hf, fun _ _ => rfl⟩
  | some t =>
    dsimp only
    split_ifs
    · exact ⟨mapFind_mapErase_self _ _ hnd, fun k hk => mapFind_mapErase_ne _ _ _ hk⟩
    · exact ⟨mapFind_mapErase_self _ _ hnd, fun k hk => mapFind_mapErase_ne _ _ _ hk⟩

theorem CLDeleteSocket_known (lib : Lib) (h : Nat) (o : SocketObj) (f : Nat → Bool)
    (res : ResolverEnv) (hinit : 0 < lib.s_startupCount)
    (hreg : lib.s_socketRegistry.findSocketObj h = some o) :
    CLDeleteSocket lib h f res =
      { ret := CL_ERR_OK,
        lib := { lib with
          s_socketRegistry := ⟨mapErase lib.s_socketRegistry.m_hndToSktObjMap h⟩
          s_netThreadPool := (lib.s_netThreadPool.removeNetObj h f).1 },
        out := none, calls := (o.close res).2.1,
        requests := (lib.s_netThreadPool.removeNetObj h f).2,
        callbacks := (o.close res).2.2 } := by
  have h0 : ¬ lib.s_startupCount ≤ 0 := by omega
  unfold CLDeleteSocket SktObjTypeRegistry.removeSocketObj
  unfold SktObjTypeRegistry.findSocketObj at hreg
  rw [if_neg h0, hreg]

theorem CLDeleteSrvSocket_known (lib : Lib) (h : Nat) (o : SrvSocketObj) (f : Nat → Bool)
    (hinit : 0 < lib.s_startupCount)
    (hreg : lib.s_srvSocketRegistry.findSocketObj h = some o) :
    CLDeleteSrvSocket lib h f =
      { ret := CL_ERR_OK,
        lib := { lib with
          s_srvSocketRegistry := ⟨mapErase lib.s_srvSocketRegistry.m_hndToSktObjMap h⟩
          s_netThreadPool := (lib.s_netThreadPool.removeNetObj h f).1 },
        out := none, calls := o.close.2,
        requests := (lib.s_netThreadPool.removeNetObj h f).2, callbacks := [] } := by
  have h0 : ¬ lib.s_startupCount ≤ 0 := by omega
  unfold CLDeleteSrvSocket SktObjTypeRegistry.removeSocketObj
  unfold SktObjTypeRegistry.findSocketObj at hreg
  rw [if_neg h0, hreg]

theorem CLSendData_not_found (lib : Lib) (h : Nat) (bytes : List Byte) (len : Int)
    (env : SendEnv) (hinit : 0 < lib.s_startupCount) (h0 : 0 ≤ len) (h1 : len ≤ 65535)
    (hun : h ∉ mapKeys lib.s_socketRegistry.m_hndToSktObjMap) :
    (CLSendData lib h (some bytes) len env).ret = CL_ERR_SOCKET_NOT_FOUND := by
  have hc : ¬ lib.s_startupCount ≤ 0 := by omega
  have hl : ¬ len < 0 := by omega
  have hm : ¬ len > DATA_MAX_LEN := by
    rw [DATA_MAX_LEN_eq]
    omega
  unfold CLSendData SktObjTypeRegistry.findSocketObj
  rw [if_neg hc]
  dsimp only
  rw [if_neg hl, if_neg hm, (mapFind_eq_none _ _).2 hun]
  rfl

theorem CLAcceptCon_not_found (lib : Lib) (h : Nat) (args : AcceptArgs) (aenv : AcceptEnv)
    (env : CreateEnv) (penv : PoolEnv) (hinit : 0 < lib.s_startupCount)
    (ha : args.dataRecvFn = true ∧ args.socketClosedFn = true ∧ args.pClientSkt = true ∧
      0 ≤ args.clientIpAddrLen)
    (hun : h ∉ mapKeys lib.s_srvSocketRegistry.m_hndToSktObjMap) :
    (CLAcceptCon lib h args aenv env penv).ret = CL_ERR_SOCKET_NOT_FOUND := by
  have hc : ¬ lib.s_startupCount ≤ 0 := by omega
  have hv : ¬ (args.dataRecvFn = false ∨ args.socketClosedFn = false ∨
      args.pClientSkt = false ∨ args.clientIpAddrLen < 0) := by
    obtain ⟨a1, a2, a3, a4⟩ := ha
    simp [a1, a2, a3]
    omega
  unfold CLAcceptCon SktObjTypeRegistry.findSocketObj
  rw [if_neg hc, if_neg hv, (mapFind_eq_none _ _).2 hun]
  rfl

/-- C14, counterexample: a handle is the address of its object
(`SocketRegistry::toHandle`), and the address of a deleted object can be
issued again. In `demoLib`, `CLDeleteSocket(1000)` is followed by a
`CLCreateSocket` whose new object is at the address 1000, now not in use: the
call returns `CL_ERR_OK` and writes the handle 1000, and the later
`CLSendData(1000, "hello", 5)` returns `CL_ERR_OK`, not
`CL_ERR_SOCKET_NOT_FOUND`. -/
theorem C14_handle_reissued :
    demoLib.s_socketRegistry.findSocketObj 1000 = some (SocketObj.connected 3 7) ∧
    (CLDeleteSocket demoLib 1000 (fun _ => true) demoResolver).lib.s_socketRegistry.findSocketObj
      1000 = none ∧
    (ApiCall.createSocket demoSocketArgs (demoCreateEnv 1000 4 8) (demoPoolEnv 501)).admissible
      (CLDeleteSocket demoLib 1000 (fun _ => true) demoResolver).lib = true ∧
    (CLCreateSocket (CLDeleteSocket demoLib 1000 (fun _ => true) demoResolver).lib
      demoSocketArgs (demoCreateEnv 1000 4 8) (demoPoolEnv 501)).ret = CL_ERR_OK ∧
    (CLCreateSocket (CLDeleteSocket demoLib 1000 (fun _ => true) demoResolver).lib
      demoSocketArgs (demoCreateEnv 1000 4 8) (demoPoolEnv 501)).out = some 1000 ∧
    (CLSendData
      (runCalls (CLDeleteSocket demoLib 1000 (fun _ => true) demoResolver).lib
        [.createSocket demoSocketArgs (demoCreateEnv 1000 4 8) (demoPoolEnv 501)])
      1000 (some hello) 5 (SendEnv.allOk [1, 4])).ret = CL_ERR_OK := by
  refine ⟨by decide, by decide, by decide, by decide, by decide, by decide⟩

/-- C14, amended (deleting a known handle). With the library initialized, let
`h` be a handle that the client registry holds (one a successful create or
accept has returned and that was not deleted since). After `CLDeleteSocket(h)` the
registry no longer holds `h`, the object-to-worker index of the pool no longer
holds it, the descriptor of the object is closed, every other entry of the
client registry and the whole server registry are unchanged, and, after any
further calls none of which allocates an object at the address `h` again,
every `CLSendData(h, buf, len)` with non-null `buf` and `0 <= len <= 65535`
made while the library is initialized returns `CL_ERR_SOCKET_NOT_FOUND`.
Likewise for a handle of the server registry, `CLDeleteSrvSocket` and
`CLAcceptCon` with valid arguments. -/
theorem C14_delete_known (lib : Lib) (h : Nat) (isShutdown : Nat → Bool)
    (hinit : 0 < lib.s_startupCount)
    (hidx : (mapKeys lib.s_netThreadPool.m_objToThreadMap).Nodup) :
    (∀ (o : SocketObj) (resolver : ResolverEnv),
      (mapKeys lib.s_socketRegistry.m_hndToSktObjMap).Nodup →
      lib.s_socketRegistry.findSocketObj h = some o →
        (CLDeleteSocket lib h isShutdown resolver).lib.s_socketRegistry.findSocketObj h = none ∧
        mapFind (CLDeleteSocket lib h isShutdown resolver).lib.s_netThreadPool.m_objToThreadMap h
          = none ∧
        openDescriptors o.m_socket.toList (CLDeleteSocket lib h isShutdown resolver).calls = [] ∧
        (∀ k, k ≠ h →
          (CLDeleteSocket lib h isShutdown resolver).lib.s_socketRegistry.findSocketObj k =
            lib.s_socketRegistry.findSocketObj k) ∧
        (CLDeleteSocket lib h isShutdown resolver).lib.s_srvSocketRegistry =
          lib.s_srvSocketRegistry ∧
        (∀ (cs : List ApiCall), (∀ c ∈ cs, c.allocates ≠ some h) →
          ∀ (buf : List Byte) (len : Int) (env : SendEnv), 0 ≤ len → len ≤ 65535 →
            0 < (runCalls (CLDeleteSocket lib h isShutdown resolver).lib cs).s_startupCount →
            (CLSendData (runCalls (CLDeleteSocket lib h isShutdown resolver).lib cs) h
              (some buf) len env).ret = CL_ERR_SOCKET_NOT_FOUND)) ∧
    (∀ (o : SrvSocketObj),
      (mapKeys lib.s_srvSocketRegistry.m_hndToSktObjMap).Nodup →
      lib.s_srvSocketRegistry.findSocketObj h = some o →
        (CLDeleteSrvSocket lib h isShutdown).lib.s_srvSocketRegistry.findSocketObj h = none ∧
        mapFind (CLDeleteSrvSocket lib h isShutdown).lib.s_netThreadPool.m_objToThreadMap h
          = none ∧
        openDescriptors o.m_socket.toList (CLDeleteSrvSocket lib h isShutdown).calls = [] ∧
        (∀ k, k ≠ h →
          (CLDeleteSrvSocket lib h isShutdown).lib.s_srvSocketRegistry.findSocketObj k =
            lib.s_srvSocketRegistry.findSocketObj k) ∧
        (CLDeleteSrvSocket lib h isShutdown).lib.s_socketRegistry = lib.s_socketRegistry ∧
        (∀ (cs : List ApiCall), (∀ c ∈ cs, c.allocates ≠ some h) →
          ∀ (args : AcceptArgs) (aenv : AcceptEnv) (env : CreateEnv) (penv : PoolEnv),
            args.dataRecvFn = true ∧ args.socketClosedFn = true ∧ args.pClientSkt = true ∧
              0 ≤ args.clientIpAddrLen →
            0 < (runCalls (CLDeleteSrvSocket lib h isShutdown).lib cs).s_startupCount →
            (CLAcceptCon (runCalls (CLDeleteSrvSocket lib h isShutdown).lib cs) h args aenv env
              penv).ret = CL_ERR_SOCKET_NOT_FOUND)) := by
  obtain ⟨p1, p2⟩ := removeNetObj_index lib.s_netThreadPool h isShutdown hidx
  refine ⟨fun o resolver hnd hreg => ?_, fun o hnd hreg => ?_⟩
  · rw [CLDeleteSocket_known lib h o isShutdown resolver hinit hreg]
    have hgone : mapFind (mapErase lib.s_socketRegistry.m_hndToSktObjMap h) h = none :=
      mapFind_mapErase_self _ _ hnd
    refine ⟨hgone, p1, (close_open o resolver).1,
      fun k hk => mapFind_mapErase_ne _ _ _ hk, rfl, ?_⟩
    intro cs hcs buf len env h0 h1 hc
    refine CLSendData_not_found _ h buf len env hc h0 h1 ?_
    exact (runCalls_keeps_unregistered h cs _ hcs).1 ((mapFind_eq_none _ _).1 hgone)
  · rw [CLDeleteSrvSocket_known lib h o isShutdown hinit hreg]
    have hgone : mapFind (mapErase lib.s_srvSocketRegistry.m_hndToSktObjMap h) h = none :=
      mapFind_mapErase_self _ _ hnd
    refine ⟨hgone, p1, srvClose_open o,
      fun k hk => mapFind_mapErase_ne _ _ _ hk, rfl, ?_⟩
    intro cs hcs args aenv env penv ha hc
    refine CLAcceptCon_not_found _ h args aenv env penv hc ha ?_
    exact (runCalls_keeps_unregistered h cs _ hcs).2 ((mapFind_eq_none _ _).1 hgone)

/-- The statement C14 at the library `demoLib` and its socket 1000, which is
connected on descriptor 3: after `CLDeleteSocket(1000)` the descriptor 3 is
closed and, a second socket having been created at address 2000 meanwhile, a
send on the handle 1000 finds no socket. -/
theorem C14_delete_known_witness :
    0 < demoLib.s_startupCount ∧
    (mapKeys demoLib.s_netThreadPool.m_objToThreadMap).Nodup ∧
    (mapKeys demoLib.s_socketRegistry.m_hndToSktObjMap).Nodup ∧
    demoLib.s_socketRegistry.findSocketObj 1000 = some (SocketObj.connected 3 7) ∧
    (CLDeleteSocket demoLib 1000 (fun _ => true) demoResolver).calls = [.closesocket (some 3)] ∧
    openDescriptors [3] (CLDeleteSocket demoLib 1000 (fun _ => true) demoResolver).calls = [] ∧
    (CLSendData
      (runCalls (CLDeleteSocket demoLib 1000 (fun _ => true) demoResolver).lib
        [.createSocket demoSocketArgs (demoCreateEnv 2000 4 8) (demoPoolEnv 501)])
      1000 (some hello) 5 (SendEnv.allOk [])).ret = CL_ERR_SOCKET_NOT_FOUND :=
  ⟨by decide, by decide, by decide, by decide, by decide,
    ((C14_delete_known demoLib 1000 (fun _ => true) (by decide) (by decide)).1
      (SocketObj.connected 3 7) demoResolver (by decide) (by decide)).2.2.1,
    ((C14_delete_known demoLib 1000 (fun _ => true) (by decide) (by decide)).1
      (SocketObj.connected 3 7) demoResolver (by decide) (by decide)).2.2.2.2.2
      [.createSocket demoSocketArgs (demoCreateEnv 2000 4 8) (demoPoolEnv 501)]
      (by decide) hello 5 (SendEnv.allOk []) (by decide) (by decide) (by decide)⟩

/-! ### The registry refines a finite map -/

theorem mapFind_eq_lookup {α : Type} (m : List (Nat × α)) (k : Nat) :
    mapFind m k = List.lookup k m := by
  induction m with
  | nil => rfl
  | cons e rest ih =>
    obtain ⟨k', v'⟩ := e
    by_cases h : k = k'
    · subst h
      simp [mapFind, List.lookup]
    · have hb : (k == k') = false := by simpa using h
      simp [mapFind, List.lookup, h, hb, ih]

theorem toFiniteMap_eq {α : Type} (reg : SktObjTypeRegistry α) (k : Nat) :
    reg.toFiniteMap k = mapFind reg.m_hndToSktObjMap k :=
  (mapFind_eq_lookup _ _).symm

theorem nodup_of_ordered {α : Type} (reg : SktObjTypeRegistry α) (h : reg.ordered) :
    (mapKeys reg.m_hndToSktObjMap).Nodup :=
  List.Pairwise.imp (fun hab => Nat.ne_of_lt hab) h

theorem mapKeys_mapInsertSorted_mem {α : Type} (m : List (Nat × α)) (k x : Nat) (v : α)
    (h : x ∈ mapKeys (mapInsertSorted m k v)) : x = k ∨ x ∈ mapKeys m := by
  have hp := (mapInsertSorted_perm m k v).map Prod.fst
  have h2 : x ∈ List.map Prod.fst ((k, v) :: m) := hp.subset h
  simpa [mapKeys] using h2

theorem ordered_mapInsertSorted {α : Type} (m : List (Nat × α)) (k : Nat) (v : α)
    (hord : (mapKeys m).Pairwise (fun a b => a < b)) (hk : k ∉ mapKeys m) :
    (mapKeys (mapInsertSorted m k v)).Pairwise (fun a b => a < b) := by
  induction m with
  | nil => simp [mapInsertSorted, mapKeys]
  | cons e rest ih =>
    obtain ⟨k', v'⟩ := e
    have hne : k ≠ k' := by
      intro hkk
      exact hk (by simp [mapKeys, hkk])
    have hrest : k ∉ mapKeys rest := by
      intro hkk
      exact hk (by simp only [mapKeys, List.map_cons, List.mem_cons]; exact Or.inr hkk)
    simp only [mapKeys, List.map_cons, List.pairwise_cons] at hord
    unfold mapInsertSorted
    split_ifs with hlt
    · simp only [mapKeys, List.map_cons, List.pairwise_cons, List.mem_cons]
      refine ⟨fun x hx => ?_, hord⟩
      rcases hx with hx | hx
      · rw [hx]; exact hlt
      · exact Nat.lt_trans hlt (hord.1 x hx)
    · simp only [mapKeys, List.map_cons, List.pairwise_cons]
      refine ⟨fun x hx => ?_, ih hord.2 hrest⟩
      rcases mapKeys_mapInsertSorted_mem rest k x v hx with hx | hx
      · rw [hx]; omega
      · exact hord.1 x hx
theorem addSocketObj_refines {α : Type} (reg : SktObjTypeRegistry α) (h : Nat) (o : α)
    (hun : reg.toFiniteMap h = none) :
    (reg.addSocketObj h o).toFiniteMap = FiniteMap.add reg.toFiniteMap h o := by
  have hk : h ∉ mapKeys reg.m_hndToSktObjMap := by
    rw [toFiniteMap_eq] at hun
    exact (mapFind_eq_none _ _).1 hun
  funext k
  rw [toFiniteMap_eq]
  unfold SktObjTypeRegistry.addSocketObj FiniteMap.add
  dsimp only
  rw [mapInsert_of_not_mem _ _ _ hk]
  by_cases hkh : k = h
  · rw [if_pos hkh, hkh]
    exact mapFind_mapInsertSorted_self _ _ _ hk
  · rw [if_neg hkh, toFiniteMap_eq]
    exact mapFind_insertSorted_ne _ _ _ _ hkh

theorem removeSocketObj_refines {α : Type} (reg : SktObjTypeRegistry α) (h : Nat)
    (hord : reg.ordered) :
    (reg.removeSocketObj h).1 = (FiniteMap.remove reg.toFiniteMap h).1 ∧
    (reg.removeSocketObj h).2.toFiniteMap = (FiniteMap.remove reg.toFiniteMap h).2 := by
  have hnd := nodup_of_ordered reg hord
  unfold FiniteMap.remove
  dsimp only
  rw [toFiniteMap_eq]
  unfold SktObjTypeRegistry.removeSocketObj
  cases hf : mapFind reg.m_hndToSktObjMap h with
  | none =>
    refine ⟨rfl, ?_⟩
    funext k
    dsimp only
    by_cases hkh : k = h
    · rw [if_pos hkh, hkh, toFiniteMap_eq]
      exact hf
    · rw [if_neg hkh]
  | some o =>
    refine ⟨rfl, ?_⟩
    funext k
    dsimp only
    rw [toFiniteMap_eq]
    by_cases hkh : k = h
    · rw [if_pos hkh, hkh]
      exact mapFind_mapErase_self _ _ hnd
    · rw [if_neg hkh, toFiniteMap_eq]
      exact mapFind_mapErase_ne _ _ _ hkh

theorem removeSocketObj_ordered {α : Type} (reg : SktObjTypeRegistry α) (h : Nat)
    (hord : reg.ordered) : (reg.removeSocketObj h).2.ordered := by
  unfold SktObjTypeRegistry.removeSocketObj
  split
  · exact List.Pairwise.sublist (mapKeys_mapErase_sublist _ _) hord
  · exact hord

theorem addSocketObj_ordered {α : Type} (reg : SktObjTypeRegistry α) (h : Nat) (o : α)
    (hord : reg.ordered) : (reg.addSocketObj h o).ordered := by
  unfold SktObjTypeRegistry.addSocketObj mapInsert
  cases hf : mapFind reg.m_hndToSktObjMap h with
  | some x => exact hord
  | none => exact ordered_mapInsertSorted _ _ _ hord ((mapFind_eq_none _ _).1 hf)

theorem removeFrontSocketObj_refines {α : Type} (reg : SktObjTypeRegistry α)
    (hord : reg.ordered) (e : Nat × α) (hr : reg.removeFrontSocketObj.1 = some e) :
    reg.toFiniteMap e.1 = some e.2 ∧
    (∀ k x, reg.toFiniteMap k = some x → e.1 ≤ k) ∧
    reg.removeFrontSocketObj.2.toFiniteMap = (FiniteMap.remove reg.toFiniteMap e.1).2 ∧
    reg.removeFrontSocketObj.2.ordered := by
  obtain ⟨m⟩ := reg
  cases m with
  | nil => simp [SktObjTypeRegistry.removeFrontSocketObj] at hr
  | cons e' rest =>
    simp only [SktObjTypeRegistry.removeFrontSocketObj, Option.some.injEq] at hr
    subst hr
    obtain ⟨k', v'⟩ := e'
    have hord2 := hord
    simp only [SktObjTypeRegistry.ordered, mapKeys, List.map_cons, List.pairwise_cons] at hord2
    refine ⟨?_, ?_, ?_, hord2.2⟩
    · rw [toFiniteMap_eq]
      simp [mapFind]
    · intro k x hk
      rw [toFiniteMap_eq] at hk
      have hmem : k ∈ mapKeys ((k', v') :: rest) := by
        rw [← mapFind_isSome, hk]
        rfl
      simp only [mapKeys, List.map_cons, List.mem_cons] at hmem
      rcases hmem with hmem | hmem
      · omega
      · exact Nat.le_of_lt (hord2.1 k hmem)
    · funext k
      unfold FiniteMap.remove
      simp only [SktObjTypeRegistry.removeFrontSocketObj, toFiniteMap_eq]
      by_cases hkh : k = k'
      · rw [if_pos hkh, hkh, mapFind_eq_none]
        intro hmem
        exact Nat.lt_irrefl _ (hord2.1 k' hmem)
      · rw [if_neg hkh]
        simp [mapFind, hkh]

theorem removeFrontMany_all {α : Type} (m : List (Nat × α)) :
    SktObjTypeRegistry.removeFrontMany (m.length + 1) ⟨m⟩ = (m.map some ++ [none], ⟨[]⟩) := by
  induction m with
  | nil => rfl
  | cons e rest ih =>
    show ((some e :: (SktObjTypeRegistry.removeFrontMany (rest.length + 1) ⟨rest⟩).1),
      (SktObjTypeRegistry.removeFrontMany (rest.length + 1) ⟨rest⟩).2) = _
    rw [ih]
    rfl

theorem mapFind_of_mem_nodup {α : Type} (m : List (Nat × α)) (e : Nat × α)
    (hnd : (mapKeys m).Nodup) (he : e ∈ m) : mapFind m e.1 = some e.2 := by
  induction m with
  | nil => cases he
  | cons e' rest ih =>
    obtain ⟨k', v'⟩ := e'
    simp only [mapKeys, List.map_cons, List.nodup_cons] at hnd
    rcases List.mem_cons.1 he with h | h
    · subst h
      simp [mapFind]
    · have hne : e.1 ≠ k' := by
        intro hk
        apply hnd.1
        rw [← hk]
        exact List.mem_map_of_mem Prod.fst h
      simp only [mapFind, if_neg hne]
      exact ih hnd.2 h
/-- C15 (the handle registry refines a finite map from handle to object). Let
`reg` be a registry whose `std::map` is in key order, and read it as the
finite map `reg.toFiniteMap`. Then: `addSocketObj(h, o)` with `h` unbound
gives the map with the binding `h -> o` put in and every other binding as it
was; `findSocketObj(h)` returns the bound object, or the empty pointer when
`h` is unbound (it is a function of the registry and cannot change it);
`removeSocketObj(h)` returns what `findSocketObj(h)` returns and leaves the
map with `h` unbound and every other binding as it was, the registry itself
unchanged when `h` was unbound; `removeFrontSocketObj` returns the empty
pointer on an empty registry and otherwise the object bound to the least
handle, removing exactly that binding; `n + 1` successive calls on a registry
of `n` entries return its `n` entries, which have distinct handles, and then
the empty pointer. Every operation keeps the key order. -/
theorem C15_registry_refines_map {α : Type} (reg : SktObjTypeRegistry α)
    (hord : reg.ordered) :
    (∀ (h : Nat) (o : α), reg.toFiniteMap h = none →
      (reg.addSocketObj h o).toFiniteMap = FiniteMap.add reg.toFiniteMap h o ∧
      (reg.addSocketObj h o).ordered) ∧
    (∀ h : Nat, reg.findSocketObj h = FiniteMap.find reg.toFiniteMap h) ∧
    (∀ h : Nat,
      (reg.removeSocketObj h).1 = reg.findSocketObj h ∧
      (reg.removeSocketObj h).1 = (FiniteMap.remove reg.toFiniteMap h).1 ∧
      (reg.removeSocketObj h).2.toFiniteMap = (FiniteMap.remove reg.toFiniteMap h).2 ∧
      (reg.removeSocketObj h).2.ordered ∧
      (reg.toFiniteMap h = none → (reg.removeSocketObj h).2 = reg)) ∧
    ((∀ h : Nat, reg.toFiniteMap h = none) → reg.removeFrontSocketObj = (none, reg)) ∧
    ((∃ (h : Nat) (o : α), reg.toFiniteMap h = some o) →
      ∃ e : Nat × α, reg.removeFrontSocketObj.1 = some e ∧
        reg.toFiniteMap e.1 = some e.2 ∧
        (∀ k x, reg.toFiniteMap k = some x → e.1 ≤ k) ∧
        reg.removeFrontSocketObj.2.toFiniteMap = (FiniteMap.remove reg.toFiniteMap e.1).2 ∧
        reg.removeFrontSocketObj.2.ordered) ∧
    (∃ es : List (Nat × α),
      (reg.removeFrontMany (reg.m_hndToSktObjMap.length + 1)).1 = es.map some ++ [none] ∧
      es.length = reg.m_hndToSktObjMap.length ∧ (es.map Prod.fst).Nodup ∧
      (∀ e ∈ es, reg.toFiniteMap e.1 = some e.2) ∧
      (∀ (h : Nat) (o : α), reg.toFiniteMap h = some o → (h, o) ∈ es)) := by
  have hnd := nodup_of_ordered reg hord
  refine ⟨fun h o hun => ⟨addSocketObj_refines reg h o hun, addSocketObj_ordered reg h o hord⟩,
    fun h => (toFiniteMap_eq reg h).symm, fun h => ?_, fun hall => ?_, fun hex => ?_, ?_⟩
  · obtain ⟨r1, r2⟩ := removeSocketObj_refines reg h hord
    refine ⟨?_, r1, r2, removeSocketObj_ordered reg h hord, fun hun => ?_⟩
    · rw [r1]
      exact toFiniteMap_eq reg h
    · rw [toFiniteMap_eq] at hun
      unfold SktObjTypeRegistry.removeSocketObj
      rw [hun]
  · obtain ⟨m⟩ := reg
    cases m with
    | nil => rfl
    | cons e rest =>
      have := hall e.1
      rw [toFiniteMap_eq] at this
      simp [mapFind] at this
  · obtain ⟨h, o, hho⟩ := hex
    cases hm : reg.m_hndToSktObjMap with
    | nil =>
      rw [toFiniteMap_eq, hm] at hho
      cases hho
    | cons e rest =>
      have hr : reg.removeFrontSocketObj.1 = some e := by
        unfold SktObjTypeRegistry.removeFrontSocketObj
        rw [hm]
      exact ⟨e, hr, removeFrontSocketObj_refines reg hord e hr⟩
  · refine ⟨reg.m_hndToSktObjMap, congrArg Prod.fst (removeFrontMany_all reg.m_hndToSktObjMap),
      rfl, hnd, fun e he => ?_, fun h o hho => ?_⟩
    · rw [toFiniteMap_eq]
      exact mapFind_of_mem_nodup _ e hnd he
    · rw [toFiniteMap_eq] at hho
      exact mapFind_mem _ _ _ hho

/-- The statement C15 at the registry `demoRegistry`, which binds the handles
3 and 5: the handle 4 is added between them, the front object removed is the
one bound to 3, and three calls of `removeFrontSocketObj` return the two
entries and then the empty pointer. -/
theorem C15_registry_refines_map_witness :
    demoRegistry.ordered ∧
    (demoRegistry.addSocketObj 4 40).toFiniteMap = FiniteMap.add demoRegistry.toFiniteMap 4 40 ∧
    (demoRegistry.addSocketObj 4 40).m_hndToSktObjMap = [(3, 30), (4, 40), (5, 50)] ∧
    demoRegistry.removeFrontSocketObj.1 = some (3, 30) ∧
    (demoRegistry.removeFrontMany 3).1 = [some (3, 30), some (5, 50), none] ∧
    (demoRegistry.removeSocketObj 5).1 = demoRegistry.findSocketObj 5 :=
  ⟨by decide,
    ((C15_registry_refines_map demoRegistry (by decide)).1 4 40 (by decide)).1,
    by decide, by decide, by decide,
    ((C15_registry_refines_map demoRegistry (by decide)).2.2.1 5).1⟩

/-! ### Placement and removal in the pool -/

theorem mapFind_mapInsert_self {α : Type} (m : List (Nat × α)) (k : Nat) (v : α)
    (h : k ∉ mapKeys m) : mapFind (mapInsert m k v) k = some v := by
  rw [mapInsert_of_not_mem _ _ _ h]
  exact mapFind_mapInsertSorted_self _ _ _ h

theorem find?_reverse_some {α : Type} (l : List α) (P : α → Bool) (t : α)
    (h : l.reverse.find? P = some t) :
    P t = true ∧ ∃ pre post, l = pre ++ t :: post ∧ ∀ u ∈ post, P u = false := by
  obtain ⟨h1, as, bs, h2, h3⟩ := List.find?_eq_some.1 h
  refine ⟨h1, bs.reverse, as.reverse, ?_, fun u hu => ?_⟩
  · have := congrArg List.reverse h2
    simpa using this
  · have := h3 u (List.mem_reverse.1 hu)
    simpa using this

theorem place_some (p : NetThreadPool) (netObj : Nat) (create : Except OsErr Nat) (t : Nat)
    (hfind : p.m_threads.reverse.find? (fun t => p.getCount t < NET_OBJ_MAX_COUNT) = some t) :
    p.place netObj create =
      (CL_ERR_OK,
        { p.setCount t ((p.getCount t + 1) % 2 ^ 32) with
            m_objToThreadMap := mapInsert p.m_objToThreadMap netObj t },
        [.addNetObj t netObj]) := by
  unfold NetThreadPool.place
  rw [hfind]

theorem place_none (p : NetThreadPool) (netObj : Nat) (create : Except OsErr Nat)
    (hfind : p.m_threads.reverse.find? (fun t => p.getCount t < NET_OBJ_MAX_COUNT) = none) :
    p.place netObj create =
      match create with
      | .ok t =>
        (CL_ERR_OK,
          { p.setCount t 1 with
              m_threads := p.m_threads ++ [t]
              m_objToThreadMap := mapInsert p.m_objToThreadMap netObj t },
          [.addNetObj t netObj, .run t])
      | .error e => (e.val, p, []) := by
  unfold NetThreadPool.place
  rw [hfind]

theorem place_on_existing (p : NetThreadPool) (netObj : Nat) (create : Except OsErr Nat)
    (hfresh : netObj ∉ mapKeys p.m_objToThreadMap)
    (hex : ∃ t ∈ p.m_threads, p.getCount t < NET_OBJ_MAX_COUNT) :
    ∃ pre t post, p.m_threads = pre ++ t :: post ∧ p.getCount t < NET_OBJ_MAX_COUNT ∧
      (∀ u ∈ post, ¬ p.getCount u < NET_OBJ_MAX_COUNT) ∧
      (p.place netObj create).1 = CL_ERR_OK ∧
      (p.place netObj create).2.2 = [.addNetObj t netObj] ∧
      (p.place netObj create).2.1.m_threads = p.m_threads ∧
      (p.place netObj create).2.1.m_shuttingDownThreads = p.m_shuttingDownThreads ∧
      (p.place netObj create).2.1.getCount t = p.getCount t + 1 ∧
      (∀ u, u ≠ t → (p.place netObj create).2.1.getCount u = p.getCount u) ∧
      mapFind (p.place netObj create).2.1.m_objToThreadMap netObj = some t ∧
      (∀ k, k ≠ netObj → mapFind (p.place netObj create).2.1.m_objToThreadMap k =
        mapFind p.m_objToThreadMap k) := by
  cases hfind : p.m_threads.reverse.find? (fun t => decide (p.getCount t < NET_OBJ_MAX_COUNT)) with
  | none =>
    exfalso
    obtain ⟨t, ht, hlt⟩ := hex
    have := List.find?_eq_none.1 hfind t (List.mem_reverse.2 ht)
    exact (by simpa using this : ¬ p.getCount t < NET_OBJ_MAX_COUNT) hlt
  | some t =>
    obtain ⟨h1, pre, post, h2, h3⟩ := find?_reverse_some _ _ _ hfind
    have hlt : p.getCount t < NET_OBJ_MAX_COUNT := by simpa using h1
    rw [place_some p netObj create t hfind]
    refine ⟨pre, t, post, h2, hlt, fun u hu => by simpa using h3 u hu, rfl, rfl, rfl, rfl,
      ?_, fun u hu => ?_, mapFind_mapInsert_self _ _ _ hfresh,
      fun k hk => mapFind_mapInsert_ne _ _ _ _ hk⟩
    · show (p.setCount t ((p.getCount t + 1) % 2 ^ 32)).getCount t = p.getCount t + 1
      rw [getCount_setCount, if_pos rfl]
      have : p.getCount t < 63 := hlt
      omega
    · show (p.setCount t ((p.getCount t + 1) % 2 ^ 32)).getCount u = p.getCount u
      rw [getCount_setCount, if_neg hu]

theorem place_on_new (p : NetThreadPool) (netObj : Nat) (create : Except OsErr Nat)
    (hfresh : netObj ∉ mapKeys p.m_objToThreadMap)
    (hfull : ∀ t ∈ p.m_threads, ¬ p.getCount t < NET_OBJ_MAX_COUNT) :
    (∀ t, create = .ok t →
      (p.place netObj create).1 = CL_ERR_OK ∧
      (p.place netObj create).2.2 = [.addNetObj t netObj, .run t] ∧
      (p.place netObj create).2.1.m_threads = p.m_threads ++ [t] ∧
      (p.place netObj create).2.1.m_shuttingDownThreads = p.m_shuttingDownThreads ∧
      (p.place netObj create).2.1.getCount t = 1 ∧
      (∀ u, u ≠ t → (p.place netObj create).2.1.getCount u = p.getCount u) ∧
      mapFind (p.place netObj create).2.1.m_objToThreadMap netObj = some t ∧
      (∀ k, k ≠ netObj → mapFind (p.place netObj create).2.1.m_objToThreadMap k =
        mapFind p.m_objToThreadMap k)) ∧
    (∀ e, create = .error e → p.place netObj create = (e.val, p, [])) := by
  have hfind : p.m_threads.reverse.find? (fun t => decide (p.getCount t < NET_OBJ_MAX_COUNT))
      = none := by
    rw [List.find?_eq_none]
    intro x hx
    simpa using hfull x (List.mem_reverse.1 hx)
  rw [place_none p netObj create hfind]
  refine ⟨fun t ht => ?_, fun e he => ?_⟩
  · subst ht
    refine ⟨rfl, rfl, rfl, rfl, ?_, fun u hu => ?_, mapFind_mapInsert_self _ _ _ hfresh,
      fun k hk => mapFind_mapInsert_ne _ _ _ _ hk⟩
    · show (p.setCount t 1).getCount t = 1
      rw [getCount_setCount, if_pos rfl]
    · show (p.setCount t 1).getCount u = p.getCount u
      rw [getCount_setCount, if_neg hu]
  · subst he
    rfl
/-- C17 (placement policy). Let the pool be in a state in which no count
exceeds `NET_OBJ_MAX_COUNT` (every state it reaches is such a state) and let
`netObj` be an object that the index does not hold. If some active worker is
not full, `addNetObj` places the object on the last worker of the active list
whose count is below `NET_OBJ_MAX_COUNT` (every worker after it is full):
it returns `CL_ERR_OK`, adds one to the count of that worker only, records
`netObj -> worker` in the index and changes no other entry, leaves the active
list as it is and starts no thread. If every active worker is full, or there
is none, it creates a worker: when that succeeds the worker is appended at
the end of the active list with count 1, owns the object, and its thread is
started; when it fails `addNetObj` returns the error of the creation and the
active list, the counts and the index are unchanged. -/
theorem C17_placement_policy (p : NetThreadPool) (netObj : Nat) (env : PoolEnv)
    (hfresh : netObj ∉ mapKeys p.m_objToThreadMap)
    (hbound : ∀ t ∈ p.m_threads, p.getCount t ≤ NET_OBJ_MAX_COUNT) :
    ((∃ t ∈ p.m_threads, p.getCount t ≠ NET_OBJ_MAX_COUNT) →
      ∃ pre t post, p.m_threads = pre ++ t :: post ∧ p.getCount t < NET_OBJ_MAX_COUNT ∧
        (∀ u ∈ post, p.getCount u = NET_OBJ_MAX_COUNT) ∧
        (p.addNetObj netObj env).1 = CL_ERR_OK ∧
        (p.addNetObj netObj env).2.2 = [.addNetObj t netObj] ∧
        (p.addNetObj netObj env).2.1.m_threads = p.m_threads ∧
        (p.addNetObj netObj env).2.1.getCount t = p.getCount t + 1 ∧
        (∀ u, u ≠ t → (p.addNetObj netObj env).2.1.getCount u = p.getCount u) ∧
        mapFind (p.addNetObj netObj env).2.1.m_objToThreadMap netObj = some t ∧
        (∀ k, k ≠ netObj → mapFind (p.addNetObj netObj env).2.1.m_objToThreadMap k =
          mapFind p.m_objToThreadMap k)) ∧
    ((∀ t ∈ p.m_threads, p.getCount t = NET_OBJ_MAX_COUNT) →
      (∀ t, env.create = .ok t →
        (p.addNetObj netObj env).1 = CL_ERR_OK ∧
        (p.addNetObj netObj env).2.2 = [.addNetObj t netObj, .run t] ∧
        (p.addNetObj netObj env).2.1.m_threads = p.m_threads ++ [t] ∧
        (p.addNetObj netObj env).2.1.getCount t = 1 ∧
        (∀ u, u ≠ t → (p.addNetObj netObj env).2.1.getCount u = p.getCount u) ∧
        mapFind (p.addNetObj netObj env).2.1.m_objToThreadMap netObj = some t ∧
        (∀ k, k ≠ netObj → mapFind (p.addNetObj netObj env).2.1.m_objToThreadMap k =
          mapFind p.m_objToThreadMap k)) ∧
      (∀ e, env.create = .error e →
        (p.addNetObj netObj env).1 = e.val ∧
        (p.addNetObj netObj env).2.2 = [] ∧
        (p.addNetObj netObj env).2.1.m_threads = p.m_threads ∧
        (∀ u, (p.addNetObj netObj env).2.1.getCount u = p.getCount u) ∧
        (p.addNetObj netObj env).2.1.m_objToThreadMap = p.m_objToThreadMap)) := by
  refine ⟨fun hex => ?_, fun hfull => ⟨fun t ht => ?_, fun e he => ?_⟩⟩
  · have hex2 : ∃ t ∈ (p.cleanupShuttingDownThreads env.isShutdown).m_threads,
        (p.cleanupShuttingDownThreads env.isShutdown).getCount t < NET_OBJ_MAX_COUNT := by
      obtain ⟨t, ht, hne⟩ := hex
      exact ⟨t, ht, lt_of_le_of_ne (hbound t ht) hne⟩
    obtain ⟨pre, t, post, h1, h2, h3, h4, h5, h6, _, h8, h9, h10, h11⟩ :=
      place_on_existing (p.cleanupShuttingDownThreads env.isShutdown) netObj env.create hfresh hex2
    refine ⟨pre, t, post, h1, h2, fun u hu => ?_, h4, h5, h6, h8, h9, h10, h11⟩
    have hmem : u ∈ p.m_threads := by
      have : u ∈ pre ++ t :: post := by simp [hu]
      rw [← h1] at this
      exact this
    exact le_antisymm (hbound u hmem) (not_lt.1 (h3 u hu))
  · have hfull2 : ∀ t ∈ (p.cleanupShuttingDownThreads env.isShutdown).m_threads,
        ¬ (p.cleanupShuttingDownThreads env.isShutdown).getCount t < NET_OBJ_MAX_COUNT :=
      fun u hu => not_lt.2 (le_of_eq (hfull u hu).symm)
    obtain ⟨h1, h2, h3, _, h5, h6, h7, h8⟩ :=
      (place_on_new (p.cleanupShuttingDownThreads env.isShutdown) netObj env.create hfresh
        hfull2).1 t ht
    exact ⟨h1, h2, h3, h5, h6, h7, h8⟩
  · have hfull2 : ∀ t ∈ (p.cleanupShuttingDownThreads env.isShutdown).m_threads,
        ¬ (p.cleanupShuttingDownThreads env.isShutdown).getCount t < NET_OBJ_MAX_COUNT :=
      fun u hu => not_lt.2 (le_of_eq (hfull u hu).symm)
    have hp := (place_on_new (p.cleanupShuttingDownThreads env.isShutdown) netObj env.create
      hfresh hfull2).2 e he
    unfold NetThreadPool.addNetObj
    rw [hp]
    exact ⟨rfl, rfl, rfl, fun _ => rfl, rfl⟩

/-- The statement C17 at the pool of `demoLib`, whose only worker 500 owns one
object: the object 2000 is placed on worker 500, whose count becomes 2, and no
worker is created. -/
theorem C17_placement_policy_witness :
    2000 ∉ mapKeys demoLib.s_netThreadPool.m_objToThreadMap ∧
    (∀ t ∈ demoLib.s_netThreadPool.m_threads,
      demoLib.s_netThreadPool.getCount t ≤ NET_OBJ_MAX_COUNT) ∧
    (∃ t ∈ demoLib.s_netThreadPool.m_threads,
      demoLib.s_netThreadPool.getCount t ≠ NET_OBJ_MAX_COUNT) ∧
    (demoLib.s_netThreadPool.addNetObj 2000 (demoPoolEnv 501)).2.1.m_threads = [500] ∧
    (demoLib.s_netThreadPool.addNetObj 2000 (demoPoolEnv 501)).2.1.getCount 500 = 2 ∧
    (∃ pre t post, demoLib.s_netThreadPool.m_threads = pre ++ t :: post ∧
      (demoLib.s_netThreadPool.addNetObj 2000 (demoPoolEnv 501)).2.2 = [.addNetObj t 2000] ∧
      mapFind (demoLib.s_netThreadPool.addNetObj 2000 (demoPoolEnv 501)).2.1.m_objToThreadMap
        2000 = some t) :=
  ⟨by decide, by decide, by decide, by decide, by decide,
    match (C17_placement_policy demoLib.s_netThreadPool 2000 (demoPoolEnv 501) (by decide)
      (by decide)).1 (by decide) with
    | ⟨pre, t, post, h1, _, _, _, h5, _, _, _, h9, _⟩ => ⟨pre, t, post, h1, h5, h9⟩⟩

/-! ### The worker-capacity boundary -/

theorem packed_counts (p : NetThreadPool) (done : List Nat) (hp : p.packed done) :
    (done.length % 63 ≠ 0 →
      ∃ L b, p.m_threads = L ++ [b] ∧ p.getCount b < 63 ∧
        p.getCount b + 63 * L.length = done.length ∧ done.length / 63 = L.length) ∧
    (done.length % 63 = 0 →
      (∀ t ∈ p.m_threads, p.getCount t = 63) ∧ 63 * p.m_threads.length = done.length) := by
  obtain ⟨_, h2, h3, h4, _, _⟩ := hp
  have h2b : p.m_threads.length = (done.length + 62) / 63 := h2
  rcases List.eq_nil_or_concat p.m_threads with hnil | ⟨L, b, hLb⟩
  · rw [hnil] at h2b
    simp only [List.length_nil] at h2b
    refine ⟨fun hk => ?_, fun hk => ⟨fun t ht => ?_, ?_⟩⟩
    · omega
    · rw [hnil] at ht
      cases ht
    · rw [hnil]
      simp only [List.length_nil]
      omega
  · rw [List.concat_eq_append] at hLb
    have hlast : p.m_threads.getLast? = some b := by
      rw [hLb]
      simp
    have hlen : p.m_threads.length = L.length + 1 := by
      rw [hLb]
      simp
    have hcb := h4 b hlast
    rw [hlen] at hcb h2b
    have hcb2 : p.getCount b + 63 * L.length = done.length := by
      simpa using hcb
    refine ⟨fun hk => ⟨L, b, hLb, ?_, hcb2, ?_⟩, fun hk => ⟨fun t ht => ?_, ?_⟩⟩
    · omega
    · omega
    · rw [hLb] at ht h3
      rw [List.dropLast_concat] at h3
      rcases List.mem_append.1 ht with ht | ht
      · exact h3 t ht
      · simp only [List.mem_singleton] at ht
        rw [ht]
        omega
    · rw [hlen]
      omega
theorem fresh_ok (env : PoolEnv) (p : NetThreadPool) (t : Nat) (h : env.fresh p = true)
    (hc : env.create = .ok t) : t ∉ p.m_threads := by
  unfold PoolEnv.fresh at h
  rw [hc] at h
  simp only [decide_eq_true_eq] at h
  exact h.1

theorem getElem?_snoc_lt {α : Type} (l : List α) (x : α) (i : Nat) (v : α)
    (h : l[i]? = some v) : (l ++ [x])[i]? = some v := by
  have hi : i < l.length := by
    by_contra hne
    rw [List.getElem?_eq_none (by omega)] at h
    cases h
  rw [List.getElem?_append_left hi]
  exact h

theorem addNetObj_packed_existing (p : NetThreadPool) (done : List Nat) (o : Nat)
    (env : PoolEnv) (hp : p.packed done) (ho : o ∉ done) (hk : done.length % 63 ≠ 0) :
    (p.addNetObj o env).2.1.packed (done ++ [o]) ∧ (p.addNetObj o env).1 = CL_ERR_OK ∧
    ∃ t, (p.addNetObj o env).2.2 = [.addNetObj t o] := by
  obtain ⟨L, b, hLb, hlt, hcb, hdiv⟩ := (packed_counts p done hp).1 hk
  obtain ⟨h1, h2, h3, h4, h5, h6⟩ := hp
  have hofresh : o ∉ mapKeys p.m_objToThreadMap := fun hm => ho (h6 o hm)
  have hfind : (p.cleanupShuttingDownThreads env.isShutdown).m_threads.reverse.find?
      (fun t => decide ((p.cleanupShuttingDownThreads env.isShutdown).getCount t
        < NET_OBJ_MAX_COUNT)) = some b := by
    show p.m_threads.reverse.find? (fun t => decide (p.getCount t < 63)) = some b
    rw [hLb]
    simp [hlt]
  unfold NetThreadPool.addNetObj
  rw [place_some _ o env.create b hfind]
  refine ⟨⟨h1, ?_, ?_, ?_, ?_, ?_⟩, rfl, b, rfl⟩
  · show p.m_threads.length = ((done ++ [o]).length + 63 - 1) / 63
    have h2b : p.m_threads.length = (done.length + 62) / 63 := h2
    rw [h2b]
    simp only [List.length_append, List.length_singleton]
    omega
  · intro t ht
    show (p.setCount b ((p.getCount b + 1) % 2 ^ 32)).getCount t = 63
    have htm : t ∈ p.m_threads.dropLast := ht
    have hne : t ≠ b := by
      rw [hLb, List.dropLast_concat] at htm
      rw [hLb] at h1
      intro hEq
      rw [hEq] at htm
      have := List.nodup_append.1 h1
      exact this.2.2 htm (List.mem_singleton_self b)
    rw [getCount_setCount, if_neg hne]
    exact h3 t htm
  · intro t ht
    have hlast : p.m_threads.getLast? = some t := ht
    have htb : t = b := by
      rw [hLb] at hlast
      simpa using hlast.symm
    subst htb
    show (p.setCount t ((p.getCount t + 1) % 2 ^ 32)).getCount t + 63 * (p.m_threads.length - 1)
      = (done ++ [o]).length
    rw [getCount_setCount, if_pos rfl]
    have hlen : p.m_threads.length = L.length + 1 := by
      rw [hLb]
      simp
    rw [hlen]
    simp only [List.length_append, List.length_singleton]
    omega
  · intro i x hix
    show mapFind (mapInsert p.m_objToThreadMap o b) x = p.m_threads[i / 63]?
    by_cases hi : i < done.length
    · rw [List.getElem?_append_left hi] at hix
      have hxo : x ≠ o := by
        intro hEq
        rw [hEq] at hix
        exact ho (List.getElem?_mem hix)
      rw [mapFind_mapInsert_ne _ _ _ _ hxo]
      exact h5 i x hix
    · have hie : i = done.length := by
        by_contra hne
        rw [List.getElem?_eq_none (by simp; omega)] at hix
        cases hix
      subst hie
      have hxo : x = o := by
        simpa using hix.symm
      rw [hxo, mapFind_mapInsert_self _ _ _ hofresh, hdiv, hLb]
      simp
  · intro x hx
    have hx2 : x ∈ mapKeys (mapInsert p.m_objToThreadMap o b) := hx
    rcases mapKeys_mapInsert_subset _ _ _ _ hx2 with h | h
    · exact List.mem_append_left _ (h6 x h)
    · rw [← h]
      simp
theorem addNetObj_packed_new (p : NetThreadPool) (done : List Nat) (o : Nat)
    (env : PoolEnv) (hp : p.packed done) (ho : o ∉ done) (hfresh : env.fresh p = true)
    (hok : (p.addNetObj o env).1 = CL_ERR_OK) (hk : done.length % 63 = 0) :
    (p.addNetObj o env).2.1.packed (done ++ [o]) ∧
    ∃ t, (p.addNetObj o env).2.2 = [.addNetObj t o, .run t] := by
  obtain ⟨hall, hlen⟩ := (packed_counts p done hp).2 hk
  obtain ⟨h1, h2, h3, h4, h5, h6⟩ := hp
  have hofresh : o ∉ mapKeys p.m_objToThreadMap := fun hm => ho (h6 o hm)
  have hfind : (p.cleanupShuttingDownThreads env.isShutdown).m_threads.reverse.find?
      (fun t => decide ((p.cleanupShuttingDownThreads env.isShutdown).getCount t
        < NET_OBJ_MAX_COUNT)) = none := by
    show p.m_threads.reverse.find? (fun t => decide (p.getCount t < 63)) = none
    rw [List.find?_eq_none]
    intro x hx
    have := hall x (List.mem_reverse.1 hx)
    simp [this]
  unfold NetThreadPool.addNetObj at hok ⊢
  rw [place_none _ o env.create hfind] at hok ⊢
  cases hc : env.create with
  | error e =>
    rw [hc] at hok
    exact absurd hok e.2.ne'
  | ok t =>
    have htnew : t ∉ p.m_threads := fresh_ok env p t hfresh hc
    refine ⟨⟨?_, ?_, ?_, ?_, ?_, ?_⟩, t, rfl⟩
    · show (p.m_threads ++ [t]).Nodup
      rw [List.nodup_append]
      refine ⟨h1, List.nodup_singleton t, fun a ha hb => ?_⟩
      simp only [List.mem_singleton] at hb
      exact htnew (hb ▸ ha)
    · show (p.m_threads ++ [t]).length = ((done ++ [o]).length + 63 - 1) / 63
      simp only [List.length_append, List.length_singleton]
      omega
    · intro u hu
      have hum : u ∈ (p.m_threads ++ [t]).dropLast := hu
      rw [List.dropLast_concat] at hum
      have hne : u ≠ t := fun hEq => htnew (hEq ▸ hum)
      show (p.setCount t 1).getCount u = 63
      rw [getCount_setCount, if_neg hne]
      exact hall u hum
    · intro u hu
      have hlast : (p.m_threads ++ [t]).getLast? = some u := hu
      have hut : u = t := by simpa using hlast.symm
      subst hut
      show (p.setCount u 1).getCount u + 63 * ((p.m_threads ++ [u]).length - 1)
        = (done ++ [o]).length
      rw [getCount_setCount, if_pos rfl]
      simp only [List.length_append, List.length_singleton]
      omega
    · intro i x hix
      show mapFind (mapInsert p.m_objToThreadMap o t) x = (p.m_threads ++ [t])[i / 63]?
      by_cases hi : i < done.length
      · rw [List.getElem?_append_left hi] at hix
        have hxo : x ≠ o := by
          intro hEq
          rw [hEq] at hix
          exact ho (List.getElem?_mem hix)
        rw [mapFind_mapInsert_ne _ _ _ _ hxo, h5 i x hix]
        have hlt : i / 63 < p.m_threads.length := by omega
        exact (List.getElem?_append_left hlt).symm
      · have hie : i = done.length := by
          by_contra hne
          rw [List.getElem?_eq_none (by simp; omega)] at hix
          cases hix
        subst hie
        have hxo : x = o := by
          simpa using hix.symm
        have hdiv : done.length / 63 = p.m_threads.length := by omega
        rw [hxo, mapFind_mapInsert_self _ _ _ hofresh, hdiv]
        simp
    · intro x hx
      have hx2 : x ∈ mapKeys (mapInsert p.m_objToThreadMap o t) := hx
      rcases mapKeys_mapInsert_subset _ _ _ _ hx2 with h | h
      · exact List.mem_append_left _ (h6 x h)
      · rw [← h]
        simp

theorem addNetObj_packed (p : NetThreadPool) (done : List Nat) (o : Nat)
    (env : PoolEnv) (hp : p.packed done) (ho : o ∉ done) (hfresh : env.fresh p = true)
    (hok : (p.addNetObj o env).1 = CL_ERR_OK) :
    (p.addNetObj o env).2.1.packed (done ++ [o]) ∧
    ((∃ t, WorkerRequest.run t ∈ (p.addNetObj o env).2.2) ↔
      done.length % NET_OBJ_MAX_COUNT = 0) := by
  by_cases hk : done.length % 63 = 0
  · obtain ⟨a, t, ht⟩ := addNetObj_packed_new p done o env hp ho hfresh hok hk
    refine ⟨a, fun _ => hk, fun _ => ⟨t, ?_⟩⟩
    rw [ht]
    simp
  · obtain ⟨a, _, t, ht⟩ := addNetObj_packed_existing p done o env hp ho hk
    refine ⟨a, fun hex => ?_, fun h0 => absurd h0 hk⟩
    obtain ⟨u, hu⟩ := hex
    rw [ht] at hu
    simp at hu

theorem addNetObjs_packed :
    ∀ (adds : List (Nat × PoolEnv)) (p : NetThreadPool) (done : List Nat),
      p.packed done → (done ++ adds.map Prod.fst).Nodup → p.freshWorkers adds = true →
      (∀ r ∈ (p.addNetObjs adds).1, r.1 = CL_ERR_OK) →
      (p.addNetObjs adds).2.packed (done ++ adds.map Prod.fst) ∧
      ∀ i r, (p.addNetObjs adds).1[i]? = some r →
        ((∃ t, WorkerRequest.run t ∈ r.2) ↔ (done.length + i) % NET_OBJ_MAX_COUNT = 0) := by
  intro adds
  induction adds with
  | nil =>
    intro p done hp _ _ _
    refine ⟨by simpa using hp, fun i r hir => ?_⟩
    simp [NetThreadPool.addNetObjs] at hir
  | cons a rest ih =>
    obtain ⟨o, env⟩ := a
    intro p done hp hnd hfr hok
    simp only [NetThreadPool.freshWorkers, Bool.and_eq_true] at hfr
    have hnd2 : ((done ++ [o]) ++ rest.map Prod.fst).Nodup := by
      simpa using hnd
    have ho : o ∉ done := by
      intro hmem
      have := List.nodup_append.1 hnd
      exact this.2.2 hmem (by simp) 
    have hok1 : (p.addNetObj o env).1 = CL_ERR_OK :=
      hok ((p.addNetObj o env).1, (p.addNetObj o env).2.2) (by simp [NetThreadPool.addNetObjs])
    have hok2 : ∀ r ∈ ((p.addNetObj o env).2.1.addNetObjs rest).1, r.1 = CL_ERR_OK :=
      fun r hr => hok r (by simp [NetThreadPool.addNetObjs, hr])
    obtain ⟨s1, s2⟩ := addNetObj_packed p done o env hp ho hfr.1 hok1
    obtain ⟨i1, i2⟩ := ih (p.addNetObj o env).2.1 (done ++ [o]) s1 hnd2 hfr.2 hok2
    refine ⟨by simpa [NetThreadPool.addNetObjs] using i1, fun i r hir => ?_⟩
    cases i with
    | zero =>
      simp only [NetThreadPool.addNetObjs, List.getElem?_cons_zero, Option.some.injEq] at hir
      subst hir
      simpa using s2
    | succ j =>
      simp only [NetThreadPool.addNetObjs, List.getElem?_cons_succ] at hir
      have := i2 j r hir
      simp only [List.length_append, List.length_singleton] at this
      rw [this]
      have : done.length + 1 + j = done.length + (j + 1) := by omega
      rw [this]
theorem packed_nil (p : NetThreadPool) (hnone : p.m_threads = [])
    (hidx : p.m_objToThreadMap = []) : p.packed [] := by
  unfold NetThreadPool.packed
  rw [hnone, hidx]
  simp [mapKeys]

/-- C16 (worker-capacity boundary). Start from a pool with no worker and an
empty index and make `n` calls of `addNetObj`, with pairwise distinct objects,
that all return `CL_ERR_OK` (a worker that is created gets an address no
worker of the pool has). Then the number of active workers is
`ceil(n / NET_OBJ_MAX_COUNT)`; the object added by call number `i` (from 0) is
owned by the worker at position `i / NET_OBJ_MAX_COUNT` of the active list, so
the first `NET_OBJ_MAX_COUNT` objects are all owned by the first worker; and
call number `i` starts the thread of a new worker exactly when
`i % NET_OBJ_MAX_COUNT = 0`, so after the first call it is call number
`NET_OBJ_MAX_COUNT`, the `(NET_OBJ_MAX_COUNT + 1)`-th, that creates the second
worker. -/
theorem C16_worker_capacity (p : NetThreadPool) (adds : List (Nat × PoolEnv))
    (hnone : p.m_threads = []) (hidx : p.m_objToThreadMap = [])
    (hdistinct : (adds.map Prod.fst).Nodup)
    (hfresh : p.freshWorkers adds = true)
    (hok : ∀ r ∈ (p.addNetObjs adds).1, r.1 = CL_ERR_OK) :
    (p.addNetObjs adds).2.m_threads.length =
      (adds.length + NET_OBJ_MAX_COUNT - 1) / NET_OBJ_MAX_COUNT ∧
    (∀ i a, adds[i]? = some a →
      ∃ t, (p.addNetObjs adds).2.m_threads[i / NET_OBJ_MAX_COUNT]? = some t ∧
        mapFind (p.addNetObjs adds).2.m_objToThreadMap a.1 = some t) ∧
    (∀ i a, i < NET_OBJ_MAX_COUNT → adds[i]? = some a →
      ∃ t, (p.addNetObjs adds).2.m_threads.head? = some t ∧
        mapFind (p.addNetObjs adds).2.m_objToThreadMap a.1 = some t) ∧
    (∀ i r, (p.addNetObjs adds).1[i]? = some r →
      ((∃ t, WorkerRequest.run t ∈ r.2) ↔ i % NET_OBJ_MAX_COUNT = 0)) := by
  obtain ⟨hpk, hrun⟩ := addNetObjs_packed adds p [] (packed_nil p hnone hidx)
    (by simpa using hdistinct) hfresh hok
  simp only [List.nil_append, List.length_nil, Nat.zero_add] at hpk hrun
  obtain ⟨_, h2, _, _, h5, _⟩ := hpk
  have hlen : (p.addNetObjs adds).2.m_threads.length = (adds.length + 62) / 63 := by
    simpa using h2
  have hown : ∀ i a, adds[i]? = some a →
      ∃ t, (p.addNetObjs adds).2.m_threads[i / 63]? = some t ∧
        mapFind (p.addNetObjs adds).2.m_objToThreadMap a.1 = some t := by
    intro i a hia
    have hi : i < adds.length := by
      by_contra hne
      rw [List.getElem?_eq_none (by omega)] at hia
      cases hia
    have hlt : i / 63 < (p.addNetObjs adds).2.m_threads.length := by omega
    have h := h5 i a.1 (by simp [hia])
    refine ⟨(p.addNetObjs adds).2.m_threads[i / 63], List.getElem?_eq_getElem hlt, ?_⟩
    rw [h]
    exact List.getElem?_eq_getElem hlt
  refine ⟨by simpa using h2, hown, fun i a hi hia => ?_, hrun⟩
  obtain ⟨t, ht1, ht2⟩ := hown i a hia
  have h0 : i / 63 = 0 := by
    have : i < 63 := hi
    omega
  rw [h0] at ht1
  refine ⟨t, ?_, ht2⟩
  rw [List.head?_eq_getElem?]
  exact ht1
/-- The statement C16 at the run `demoAdds` of 64 calls from the empty pool:
two workers are active afterwards, the object 1062 added by call number 62 is
on the first worker 500, the object 1063 added by call number 63 is on the
second worker 563, and of all the calls only number 0 and number 63 start a
thread. -/
theorem C16_worker_capacity_witness :
    emptyPool.m_threads = [] ∧ emptyPool.m_objToThreadMap = [] ∧
    (demoAdds.map Prod.fst).Nodup ∧ emptyPool.freshWorkers demoAdds = true ∧
    (∀ r ∈ (emptyPool.addNetObjs demoAdds).1, r.1 = CL_ERR_OK) ∧
    (emptyPool.addNetObjs demoAdds).2.m_threads = [500, 563] ∧
    mapFind (emptyPool.addNetObjs demoAdds).2.m_objToThreadMap 1062 = some 500 ∧
    mapFind (emptyPool.addNetObjs demoAdds).2.m_objToThreadMap 1063 = some 563 ∧
    (emptyPool.addNetObjs demoAdds).2.m_threads.length =
      (demoAdds.length + NET_OBJ_MAX_COUNT - 1) / NET_OBJ_MAX_COUNT ∧
    (∀ i r, (emptyPool.addNetObjs demoAdds).1[i]? = some r →
      ((∃ t, WorkerRequest.run t ∈ r.2) ↔ i % NET_OBJ_MAX_COUNT = 0)) :=
  ⟨rfl, rfl, by decide, by decide, by decide, by decide, by decide, by decide,
    (C16_worker_capacity emptyPool demoAdds rfl rfl (by decide) (by decide) (by decide)).1,
    (C16_worker_capacity emptyPool demoAdds rfl rfl (by decide) (by decide) (by decide)).2.2.2⟩

theorem displace_known (p : NetThreadPool) (netObj t : Nat) (hwf : p.wellFormed)
    (hreg : mapFind p.m_objToThreadMap netObj = some t) :
    t ∈ p.m_threads ∧ 1 ≤ p.getCount t ∧
    (p.displace netObj).1.getCount t + 1 = p.getCount t ∧
    (∀ u, u ≠ t → (p.displace netObj).1.getCount u = p.getCount u) ∧
    (p.displace netObj).1.m_objToThreadMap = mapErase p.m_objToThreadMap netObj ∧
    ((p.displace netObj).1.getCount t = 0 →
      (p.displace netObj).1.m_threads = p.m_threads.erase t ∧
      (p.displace netObj).1.m_shuttingDownThreads = p.m_shuttingDownThreads ++ [t] ∧
      (p.displace netObj).2 = [.removeNetObj t netObj, .startShutdown t]) ∧
    ((p.displace netObj).1.getCount t ≠ 0 →
      (p.displace netObj).1.m_threads = p.m_threads ∧
      (p.displace netObj).1.m_shuttingDownThreads = p.m_shuttingDownThreads ∧
      (p.displace netObj).2 = [.removeNetObj t netObj]) := by
  obtain ⟨_, _, hmem, hcnt⟩ := hwf
  have ht : t ∈ p.m_threads := hmem _ (mapFind_mem _ _ _ hreg)
  obtain ⟨_, hge, hle⟩ := hcnt t ht
  have hnew : (p.setCount t ((p.getCount t + 2 ^ 32 - 1) % 2 ^ 32)).getCount t + 1
      = p.getCount t := by
    rw [getCount_setCount, if_pos rfl]
    have : p.getCount t ≤ 63 := hle
    omega
  have hoth : ∀ u, u ≠ t →
      (p.setCount t ((p.getCount t + 2 ^ 32 - 1) % 2 ^ 32)).getCount u = p.getCount u := by
    intro u hu
    rw [getCount_setCount, if_neg hu]
  unfold NetThreadPool.displace
  rw [hreg]
  dsimp only
  by_cases hz : (p.setCount t ((p.getCount t + 2 ^ 32 - 1) % 2 ^ 32)).getCount t ≤ 0 ∧
      t ∈ (p.setCount t ((p.getCount t + 2 ^ 32 - 1) % 2 ^ 32)).m_threads
  · rw [if_pos hz]
    refine ⟨ht, hge, hnew, hoth, rfl, fun _ => ⟨rfl, rfl, rfl⟩, fun hne => ?_⟩
    exact absurd (Nat.le_zero.1 hz.1) hne
  · rw [if_neg hz]
    refine ⟨ht, hge, hnew, hoth, rfl, fun h0 => ?_, fun _ => ⟨rfl, rfl, rfl⟩⟩
    exact absurd ⟨Nat.le_of_eq h0, ht⟩ hz

theorem displace_unknown (p : NetThreadPool) (netObj : Nat)
    (hreg : mapFind p.m_objToThreadMap netObj = none) : p.displace netObj = (p, []) := by
  unfold NetThreadPool.displace
  rw [hreg]

/-- C18 (removal policy). Let the pool be in a consistent state (every state it
reaches is one) and let `netObj` be an object the index maps to the worker
`t`. Then `removeNetObj` erases the index entry of `netObj` and keeps every
other entry, takes exactly one off the count of `t` and keeps every other
count. If the count of `t` became zero, `t` is taken out of the active list,
which is otherwise unchanged, is appended to the shutting-down list and is
asked to shut down; if it did not, the active list is unchanged and `t` is
not appended. For an object the index does not hold, the active list, the
counts and the index are unchanged and no worker is called. -/
theorem C18_removal_policy (p : NetThreadPool) (netObj : Nat) (isShutdown : Nat → Bool)
    (hwf : p.wellFormed) :
    (∀ t, mapFind p.m_objToThreadMap netObj = some t →
      mapFind (p.removeNetObj netObj isShutdown).1.m_objToThreadMap netObj = none ∧
      (∀ k, k ≠ netObj → mapFind (p.removeNetObj netObj isShutdown).1.m_objToThreadMap k =
        mapFind p.m_objToThreadMap k) ∧
      (p.removeNetObj netObj isShutdown).1.getCount t + 1 = p.getCount t ∧
      (∀ u, u ≠ t → (p.removeNetObj netObj isShutdown).1.getCount u = p.getCount u) ∧
      ((p.removeNetObj netObj isShutdown).1.getCount t = 0 →
        (p.removeNetObj netObj isShutdown).1.m_threads = p.m_threads.erase t ∧
        t ∉ (p.removeNetObj netObj isShutdown).1.m_threads ∧
        (∀ u, u ≠ t → (u ∈ (p.removeNetObj netObj isShutdown).1.m_threads ↔ u ∈ p.m_threads)) ∧
        (p.removeNetObj netObj isShutdown).1.m_shuttingDownThreads =
          p.m_shuttingDownThreads.filter (fun u => !isShutdown u) ++ [t] ∧
        (p.removeNetObj netObj isShutdown).2 = [.removeNetObj t netObj, .startShutdown t]) ∧
      ((p.removeNetObj netObj isShutdown).1.getCount t ≠ 0 →
        (p.removeNetObj netObj isShutdown).1.m_threads = p.m_threads ∧
        (p.removeNetObj netObj isShutdown).1.m_shuttingDownThreads =
          p.m_shuttingDownThreads.filter (fun u => !isShutdown u) ∧
        (p.removeNetObj netObj isShutdown).2 = [.removeNetObj t netObj])) ∧
    (mapFind p.m_objToThreadMap netObj = none →
      (p.removeNetObj netObj isShutdown).1.m_threads = p.m_threads ∧
      (∀ u, (p.removeNetObj netObj isShutdown).1.getCount u = p.getCount u) ∧
      (p.removeNetObj netObj isShutdown).1.m_objToThreadMap = p.m_objToThreadMap ∧
      (p.removeNetObj netObj isShutdown).2 = []) := by
  have hwf2 : (p.cleanupShuttingDownThreads isShutdown).wellFormed :=
    cleanup_wellFormed p isShutdown hwf
  have hnd : p.m_threads.Nodup := hwf.1
  have hndk : (mapKeys p.m_objToThreadMap).Nodup := hwf.2.1
  refine ⟨fun t hreg => ?_, fun hreg => ?_⟩
  · obtain ⟨_, _, h3, h4, h5, h6, h7⟩ :=
      displace_known (p.cleanupShuttingDownThreads isShutdown) netObj t hwf2 hreg
    unfold NetThreadPool.removeNetObj
    refine ⟨?_, fun k hk => ?_, h3, h4, fun h0 => ?_, fun hne => h7 hne⟩
    · rw [h5]
      exact mapFind_mapErase_self _ _ hndk
    · rw [h5]
      exact mapFind_mapErase_ne _ _ _ hk
    · obtain ⟨a, b, c⟩ := h6 h0
      refine ⟨a, ?_, fun u hu => ?_, b, c⟩
      · rw [a]
        exact fun hmem => (List.Nodup.mem_erase_iff hnd).1 hmem |>.1 rfl
      · rw [a]
        exact ⟨fun hmem => List.mem_of_mem_erase hmem,
          fun hmem => (List.mem_erase_of_ne hu).2 hmem⟩
  · unfold NetThreadPool.removeNetObj
    rw [displace_unknown (p.cleanupShuttingDownThreads isShutdown) netObj hreg]
    exact ⟨rfl, fun _ => rfl, rfl, rfl⟩
set_option maxRecDepth 100000 in
/-- The statement C18 at the pool `demoPool64`, in which worker 500 owns 63
objects and worker 563 owns the object 1063 alone: removing 1063 takes the
count of worker 563 to zero and moves it from the active list to the
shutting-down list, while worker 500 stays active with its 63 objects;
removing 1062 only takes the count of worker 500 from 63 to 62. -/
theorem C18_removal_policy_witness :
    demoPool64.wellFormed ∧
    mapFind demoPool64.m_objToThreadMap 1063 = some 563 ∧
    (demoPool64.removeNetObj 1063 (fun _ => false)).1.getCount 563 + 1 =
      demoPool64.getCount 563 ∧
    (demoPool64.removeNetObj 1063 (fun _ => false)).1.getCount 563 = 0 ∧
    (demoPool64.removeNetObj 1063 (fun _ => false)).1.m_threads = [500] ∧
    (demoPool64.removeNetObj 1063 (fun _ => false)).1.m_shuttingDownThreads = [563] ∧
    (demoPool64.removeNetObj 1063 (fun _ => false)).1.getCount 500 = 63 ∧
    (demoPool64.removeNetObj 1062 (fun _ => false)).1.m_threads = [500, 563] ∧
    (demoPool64.removeNetObj 1062 (fun _ => false)).1.getCount 500 = 62 ∧
    (demoPool64.removeNetObj 1062 (fun _ => false)).1.m_shuttingDownThreads = [] :=
  ⟨by decide, by decide,
    ((C18_removal_policy demoPool64 1063 (fun _ => false) (by decide)).1 563 (by decide)).2.2.1,
    by decide, by decide, by decide, by decide, by decide, by decide, by decide⟩

/-! ### Asynchronous connect through the candidate list -/

theorem connectTargets_append (c1 c2 : List PlatformCall) :
    connectTargets (c1 ++ c2) = connectTargets c1 ++ connectTargets c2 := by
  induction c1 with
  | nil => rfl
  | cons c cs ih => cases c <;> simp [connectTargets, ih]

theorem connectTargets_closeIfOpen (o : Option Nat) : connectTargets (closeIfOpen o) = [] := by
  cases o <;> rfl

theorem connectAsyncOnce_starts (at_ : AsyncAttempt) (self : SocketObj) (a : AddrInfo)
    (h : at_.starts = true) :
    (SocketObj.connectAsyncOnce at_ self a).1 = CL_ERR_OK ∧
    (SocketObj.connectAsyncOnce at_ self a).2.1.m_socket ≠ none ∧
    (SocketObj.connectAsyncOnce at_ self a).2.1.m_closeCalled = self.m_closeCalled ∧
    connectTargets (SocketObj.connectAsyncOnce at_ self a).2.2 = [a] := by
  unfold AsyncAttempt.starts at h
  unfold SocketObj.connectAsyncOnce
  cases hs : at_.socket with
  | error e => simp [hs] at h
  | ok fd =>
    cases he : at_.eventSelect with
    | some e => simp [hs, he] at h
    | none =>
      cases hc : at_.connect with
      | none =>
        simp [SocketObj.SetNonBlockingMode, errOf, connectTargets_append,
          connectTargets_closeIfOpen, connectTargets]
      | some e =>
        have hw : e = WSAEWOULDBLOCK := by simpa [hs, he, hc] using h
        subst hw
        simp [SocketObj.SetNonBlockingMode, errOf, connectTargets_append,
          connectTargets_closeIfOpen, connectTargets]

theorem doConnectAsync_starts (attempt : AddrInfo → AsyncAttempt) (self : SocketObj)
    (a : AddrInfo) (rest : List AddrInfo) (h : (attempt a).starts = true) :
    (SocketObj.doConnectAsync attempt self a rest).1 = CL_ERR_OK ∧
    (SocketObj.doConnectAsync attempt self a rest).2.1.m_socket ≠ none ∧
    (SocketObj.doConnectAsync attempt self a rest).2.1.m_closeCalled = self.m_closeCalled ∧
    (SocketObj.doConnectAsync attempt self a rest).2.1.m_crntAddrInfo = rest ∧
    connectTargets (SocketObj.doConnectAsync attempt self a rest).2.2 = [a] := by
  obtain ⟨h1, h2, h3, h4⟩ := connectAsyncOnce_starts (attempt a) self a h
  cases rest with
  | nil =>
    unfold SocketObj.doConnectAsync
    exact ⟨h1, h2, h3, rfl, h4⟩
  | cons b rest =>
    unfold SocketObj.doConnectAsync
    dsimp only
    rw [if_neg (not_not.2 h1)]
    exact ⟨h1, h2, h3, rfl, h4⟩

theorem onFdConnect_next (attempt : AddrInfo → AsyncAttempt) (self : SocketObj) (e : Int)
    (a : AddrInfo) (rest : List AddrInfo) (hs : self.m_socket ≠ none)
    (hc : self.m_crntAddrInfo = a :: rest) (he : e ≠ CL_ERR_OK)
    (h : (attempt a).starts = true) :
    (self.onFdConnect attempt e).1.m_socket ≠ none ∧
    (self.onFdConnect attempt e).1.m_crntAddrInfo = rest ∧
    connectTargets (self.onFdConnect attempt e).2.1 = [a] ∧
    (self.onFdConnect attempt e).2.2 = [] := by
  obtain ⟨h1, h2, _, h4, h5⟩ := doConnectAsync_starts attempt self a rest h
  unfold SocketObj.onFdConnect
  rw [if_neg hs, hc]
  dsimp only
  rw [if_pos he, if_neg (not_not.2 h1)]
  exact ⟨h2, h4, h5, rfl⟩

theorem onFdConnect_done (attempt : AddrInfo → AsyncAttempt) (self : SocketObj) (e : Int)
    (hs : self.m_socket ≠ none) (h : e = CL_ERR_OK ∨ self.m_crntAddrInfo = []) :
    self.onFdConnect attempt e = (self, [], [.conCompleted e]) := by
  unfold SocketObj.onFdConnect
  rw [if_neg hs]
  cases hc : self.m_crntAddrInfo with
  | nil => rfl
  | cons a rest =>
    rcases h with h | h
    · dsimp only
      rw [if_neg (not_not.2 h)]
    · rw [hc] at h
      cases h

theorem onFdConnects_append (attempt : AddrInfo → AsyncAttempt) (l2 : List Int) :
    ∀ (l1 : List Int) (self : SocketObj),
      SocketObj.onFdConnects attempt self (l1 ++ l2) =
        ((SocketObj.onFdConnects attempt (SocketObj.onFdConnects attempt self l1).1 l2).1,
          (SocketObj.onFdConnects attempt self l1).2 ++
            (SocketObj.onFdConnects attempt (SocketObj.onFdConnects attempt self l1).1 l2).2) := by
  intro l1
  induction l1 with
  | nil => intro self; rfl
  | cons e es ih =>
    intro self
    show SocketObj.onFdConnects attempt self (e :: (es ++ l2)) = _
    simp only [SocketObj.onFdConnects]
    rw [ih]
    rfl

theorem onFdConnects_fail (attempt : AddrInfo → AsyncAttempt) :
    ∀ (fails : List Int) (self : SocketObj) (pending : List AddrInfo),
      self.m_socket ≠ none → self.m_crntAddrInfo = pending →
      (∀ a ∈ pending, (attempt a).starts = true) → (∀ x ∈ fails, x ≠ CL_ERR_OK) →
      fails.length ≤ pending.length →
      (SocketObj.onFdConnects attempt self fails).1.m_socket ≠ none ∧
      (SocketObj.onFdConnects attempt self fails).1.m_crntAddrInfo = pending.drop fails.length ∧
      (SocketObj.onFdConnects attempt self fails).2.map (fun x => connectTargets x.1) =
        (pending.take fails.length).map (fun a => [a]) ∧
      (SocketObj.onFdConnects attempt self fails).2.map (fun x => x.2) =
        fails.map (fun _ => []) := by
  intro fails
  induction fails with
  | nil =>
    intro self pending hs hc _ _ _
    exact ⟨hs, by simpa using hc, by simp [SocketObj.onFdConnects],
      by simp [SocketObj.onFdConnects]⟩
  | cons e es ih =>
    intro self pending hs hc hst hf hlen
    cases pending with
    | nil => simp at hlen
    | cons a rest =>
      obtain ⟨n1, n2, n3, n4⟩ := onFdConnect_next attempt self e a rest hs hc
        (hf e (List.mem_cons_self _ _)) (hst a (List.mem_cons_self _ _))
      obtain ⟨i1, i2, i3, i4⟩ := ih (self.onFdConnect attempt e).1 rest n1 n2
        (fun b hb => hst b (List.mem_cons_of_mem _ hb))
        (fun x hx => hf x (List.mem_cons_of_mem _ hx))
        (by simpa using hlen)
      refine ⟨i1, by simpa using i2, ?_, ?_⟩
      · simp only [SocketObj.onFdConnects, List.map_cons, List.length_cons, List.take_succ_cons,
          n3, i3]
      · simp only [SocketObj.onFdConnects, List.map_cons, n4, i4]
theorem onHostAddrResolved_starts (self : SocketObj) (attempt : AddrInfo → AsyncAttempt)
    (first : AddrInfo) (more : List AddrInfo) (hclose : self.m_closeCalled = false)
    (h : (attempt first).starts = true) :
    (self.onHostAddrResolved ⟨.ok first more, attempt⟩).1.m_socket ≠ none ∧
    (self.onHostAddrResolved ⟨.ok first more, attempt⟩).1.m_crntAddrInfo = more ∧
    connectTargets (self.onHostAddrResolved ⟨.ok first more, attempt⟩).2.1 = [first] ∧
    (self.onHostAddrResolved ⟨.ok first more, attempt⟩).2.2 = [] := by
  obtain ⟨h1, h2, _, h4, h5⟩ := doConnectAsync_starts attempt
    { self with m_addrInfo := first :: more, m_crntAddrInfo := first :: more } first more h
  have hnc : ¬ self.m_closeCalled = true := by
    rw [hclose]
    decide
  unfold SocketObj.onHostAddrResolved
  dsimp only
  rw [if_pos hnc, if_neg (not_not.2 h1)]
  exact ⟨h2, h4, h5, rfl⟩

/-- C19 (asynchronous connect through the candidate list). Let the resolver of
an asynchronous socket on which `close()` has not been called find the
candidates `first :: more` (`n` of them), and let every non-blocking attempt
start. `onHostAddrResolved` starts the attempt on `first` and invokes no
callback. Let then connect notifications arrive: failures `fails` (at most
`n - 1` of them) and one more notification `e`, which reports success or is
the `n`-th one. Then each failure notification leads to exactly one attempt,
on the next candidate in list order, and to no callback; the last
notification leads to no attempt and to exactly one connect-completed
callback, with `e`. So when all `n` notifications report failures the
callback is invoked once, after the `n`-th, with the error of the last
candidate; and when notification `i` reports success it is invoked once, with
`CL_ERR_OK`, only the first `i` candidates having been attempted. -/
theorem C19_async_connect (self : SocketObj) (attempt : AddrInfo → AsyncAttempt)
    (first : AddrInfo) (more : List AddrInfo) (fails : List Int) (e : Int)
    (hclose : self.m_closeCalled = false)
    (hstart : ∀ a ∈ first :: more, (attempt a).starts = true)
    (hfail : ∀ x ∈ fails, x ≠ CL_ERR_OK)
    (hlen : fails.length ≤ more.length)
    (hlast : e = CL_ERR_OK ∨ fails.length = more.length) :
    (self.onHostAddrResolved ⟨.ok first more, attempt⟩).2.2 = [] ∧
    connectTargets (self.onHostAddrResolved ⟨.ok first more, attempt⟩).2.1 = [first] ∧
    (SocketObj.onFdConnects attempt (self.onHostAddrResolved ⟨.ok first more, attempt⟩).1
        (fails ++ [e])).2.map (fun x => connectTargets x.1) =
      (more.take fails.length).map (fun a => [a]) ++ [[]] ∧
    (SocketObj.onFdConnects attempt (self.onHostAddrResolved ⟨.ok first more, attempt⟩).1
        (fails ++ [e])).2.map (fun x => x.2) =
      fails.map (fun _ => []) ++ [[.conCompleted e]] := by
  obtain ⟨r1, r2, r3, r4⟩ := onHostAddrResolved_starts self attempt first more hclose
    (hstart first (List.mem_cons_self _ _))
  obtain ⟨f1, f2, f3, f4⟩ := onFdConnects_fail attempt fails
    (self.onHostAddrResolved ⟨.ok first more, attempt⟩).1 more r1 r2
    (fun a ha => hstart a (List.mem_cons_of_mem _ ha)) hfail hlen
  have hdone : e = CL_ERR_OK ∨
      (SocketObj.onFdConnects attempt (self.onHostAddrResolved ⟨.ok first more, attempt⟩).1
        fails).1.m_crntAddrInfo = [] := by
    rcases hlast with h | h
    · exact Or.inl h
    · right
      rw [f2, h]
      simp
  have hl := onFdConnect_done attempt _ e f1 hdone
  refine ⟨r4, r3, ?_, ?_⟩
  · rw [onFdConnects_append]
    simp only [List.map_append, f3, SocketObj.onFdConnects, hl, List.map_cons, List.map_nil,
      connectTargets]
  · rw [onFdConnects_append]
    simp only [List.map_append, f4, SocketObj.onFdConnects, hl, List.map_cons, List.map_nil]

/-- The statement C19 at a socket whose host resolves to the two addresses 1
and 2, both of which refuse the connection: the first notification (error
10061) leads to the attempt on address 2 and to no callback, the second
(error 10065) to the single connect-completed callback, with 10065. -/
theorem C19_async_connect_witness :
    demoAsyncSocket.m_closeCalled = false ∧
    (∀ a ∈ [(⟨1, 16⟩ : AddrInfo), ⟨2, 16⟩], (demoAsyncAttempt a).starts = true) ∧
    connectTargets
      (demoAsyncSocket.onHostAddrResolved ⟨.ok ⟨1, 16⟩ [⟨2, 16⟩], demoAsyncAttempt⟩).2.1
        = [⟨1, 16⟩] ∧
    (SocketObj.onFdConnects demoAsyncAttempt
      (demoAsyncSocket.onHostAddrResolved ⟨.ok ⟨1, 16⟩ [⟨2, 16⟩], demoAsyncAttempt⟩).1
        ([10061] ++ [10065])).2.map (fun x => connectTargets x.1) = [[⟨2, 16⟩], []] ∧
    (SocketObj.onFdConnects demoAsyncAttempt
      (demoAsyncSocket.onHostAddrResolved ⟨.ok ⟨1, 16⟩ [⟨2, 16⟩], demoAsyncAttempt⟩).1
        ([10061] ++ [10065])).2.map (fun x => x.2) = [[], [.conCompleted 10065]] :=
  ⟨rfl, by decide,
    (C19_async_connect demoAsyncSocket demoAsyncAttempt ⟨1, 16⟩ [⟨2, 16⟩] [10061] 10065 rfl
      (by decide) (by decide) (by decide) (Or.inr rfl)).2.1,
    (C19_async_connect demoAsyncSocket demoAsyncAttempt ⟨1, 16⟩ [⟨2, 16⟩] [10061] 10065 rfl
      (by decide) (by decide) (by decide) (Or.inr rfl)).2.2.1,
    (C19_async_connect demoAsyncSocket demoAsyncAttempt ⟨1, 16⟩ [⟨2, 16⟩] [10061] 10065 rfl
      (by decide) (by decide) (by decide) (Or.inr rfl)).2.2.2⟩

/-! ### Resolver completion after close -/

/-- C20, as amended. On an asynchronous socket on which `close()` has been
called, `onHostAddrResolved` makes no platform call, so it starts no connect
attempt, for every resolver outcome, and it marks the resolver as completed.
When the resolution succeeded it invokes no callback. When the resolution
failed with the code `c` it invokes the connect-completed callback, once,
with `c`. -/
theorem C20_resolver_after_close (self : SocketObj) (env : ResolverEnv)
    (hclose : self.m_closeCalled = true) :
    (self.onHostAddrResolved env).2.1 = [] ∧
    (self.onHostAddrResolved env).1.m_socket = self.m_socket ∧
    (self.onHostAddrResolved env).1.m_resolveAsyncCompleted = true ∧
    (∀ first more, env.result = .ok first more → (self.onHostAddrResolved env).2.2 = []) ∧
    (∀ code, env.result = .failed code →
      (self.onHostAddrResolved env).2.2 = [.conCompleted code.val]) := by
  unfold SocketObj.onHostAddrResolved
  cases hr : env.result with
  | ok first more =>
    dsimp only
    rw [if_neg (not_not.2 hclose)]
    refine ⟨rfl, rfl, rfl, ?_, ?_⟩
    · intro _ _ _
      rfl
    · intro code hc
      cases hc
  | failed code =>
    refine ⟨rfl, rfl, rfl, ?_, ?_⟩
    · intro first more hc
      cases hc
    · intro c hc
      cases hc
      rfl

/-- The statement C20, as amended, at the socket `closingAsyncSocket`: a
resolver that finds two addresses leads to no callback and no platform call,
a resolver that fails with 11001 leads to the callback with 11001. -/
theorem C20_resolver_after_close_witness :
    closingAsyncSocket.m_closeCalled = true ∧
    (closingAsyncSocket.onHostAddrResolved demoResolverOk).2.1 = [] ∧
    (closingAsyncSocket.onHostAddrResolved demoResolverOk).2.2 = [] ∧
    (closingAsyncSocket.onHostAddrResolved demoResolver).2.1 = [] ∧
    (closingAsyncSocket.onHostAddrResolved demoResolver).2.2 = [.conCompleted 11001] :=
  ⟨rfl,
    (C20_resolver_after_close closingAsyncSocket demoResolverOk rfl).1,
    (C20_resolver_after_close closingAsyncSocket demoResolverOk rfl).2.2.2.1 ⟨1, 16⟩ [⟨2, 16⟩] rfl,
    (C20_resolver_after_close closingAsyncSocket demoResolver rfl).1,
    (C20_resolver_after_close closingAsyncSocket demoResolver rfl).2.2.2.2 ⟨11001, by decide⟩
      rfl⟩

/-- C20 as stated fails when the resolution fails: on the socket
`closingAsyncSocket`, on which `close()` has been called, a resolver that
fails with the code 11001 makes `onHostAddrResolved` invoke a user callback.
The same callback is seen by the caller of `close()`, which waits for the
resolver. -/
theorem C20_failure_after_close_not_silent :
    ¬ (closingAsyncSocket.m_closeCalled = true →
        (closingAsyncSocket.onHostAddrResolved demoResolver).2.2 = [] ∧
        (closingAsyncSocket.onHostAddrResolved demoResolver).2.1 = []) ∧
    (demoAsyncSocket.close demoResolver).2.2 = [.conCompleted 11001] := by
  decide

/-! ### No callbacks after close -/

theorem close_state (self : SocketObj) (resolver : ResolverEnv) :
    (self.close resolver).1.m_socket = none ∧ (self.close resolver).1.m_closeCalled = true ∧
    (self.close resolver).1.m_resolveAsyncCompleted = true := by
  unfold SocketObj.close
  by_cases hc : self.m_resolveAsyncCompleted = true
  · simp [hc]
  · simp only [hc]
    unfold SocketObj.onHostAddrResolved
    cases hr : resolver.result with
    | ok first more => simp
    | failed code => simp

theorem close_of_closed (c : SocketObj) (resolver : ResolverEnv) (h1 : c.m_socket = none)
    (h2 : c.m_closeCalled = true) (h3 : c.m_resolveAsyncCompleted = true) :
    c.close resolver = (c, [], []) := by
  obtain ⟨a, b, d, e, f, g, h, i, j, k⟩ := c
  simp only at h1 h2 h3
  subst h1 h2 h3
  rfl

theorem onNetEvent_of_closed {P : Type} (recv : P → Int → RecvResult × P)
    (attempt : AddrInfo → AsyncAttempt) (c : SocketObj)
    (enum : Except OsErr WSANETWORKEVENTS) (p : P) (h : c.m_socket = none) :
    c.onNetEvent recv attempt enum p = (c, p, [], []) := by
  unfold SocketObj.onNetEvent
  rw [if_pos h]

theorem onNetEvents_of_closed {P : Type} (recv : P → Int → RecvResult × P)
    (attempt : AddrInfo → AsyncAttempt) (c : SocketObj) (h : c.m_socket = none) :
    ∀ (enums : List (Except OsErr WSANETWORKEVENTS)) (p : P),
      SocketObj.onNetEvents recv attempt c p enums = (c, p, [], []) := by
  intro enums
  induction enums with
  | nil => intro p; rfl
  | cons e es ih =>
    intro p
    simp only [SocketObj.onNetEvents, onNetEvent_of_closed recv attempt c e p h, ih,
      List.append_nil]

theorem srvOnNetEvents_of_closed (c : SrvSocketObj) (h : c.m_socket = none) :
    ∀ (enums : List (Except OsErr WSANETWORKEVENTS)), c.onNetEvents enums = (c, [], []) := by
  intro enums
  induction enums with
  | nil => rfl
  | cons e es ih =>
    have h1 : c.onNetEvent e = (c, [], []) := by
      unfold SrvSocketObj.onNetEvent
      rw [if_pos h]
    simp only [SrvSocketObj.onNetEvents, h1, ih, List.append_nil]

/-- C21 (no callbacks after close). Once `close()` has returned on a client
socket, every sequence of `onNetEvent` invocations, whatever
`WSAEnumNetworkEvents` would answer and whatever the platform would give to
`recv` or to a connection attempt, invokes no callback, makes no platform call
(the platform state seen by `recv` is untouched) and leaves the object as it
is; a second `close()` leaves the object as the first did, closes no
descriptor and invokes no callback. The same holds for a server socket. -/
theorem C21_no_callbacks_after_close :
    (∀ (P : Type) (recv : P → Int → RecvResult × P) (attempt : AddrInfo → AsyncAttempt)
        (self : SocketObj) (resolver : ResolverEnv)
        (enums : List (Except OsErr WSANETWORKEVENTS)) (p : P),
      SocketObj.onNetEvents recv attempt (self.close resolver).1 p enums =
        ((self.close resolver).1, p, [], [])) ∧
    (∀ (self : SocketObj) (resolver again : ResolverEnv),
      (self.close resolver).1.close again = ((self.close resolver).1, [], [])) ∧
    (∀ (self : SrvSocketObj) (enums : List (Except OsErr WSANETWORKEVENTS)),
      self.close.1.onNetEvents enums = (self.close.1, [], [])) ∧
    (∀ (self : SrvSocketObj), self.close.1.close = (self.close.1, [])) := by
  refine ⟨fun P recv attempt self resolver enums p => ?_, fun self resolver again => ?_,
    fun self enums => ?_, fun self => rfl⟩
  · exact onNetEvents_of_closed recv attempt _ (close_state self resolver).1 enums p
  · obtain ⟨h1, h2, h3⟩ := close_state self resolver
    exact close_of_closed _ again h1 h2 h3
  · exact srvOnNetEvents_of_closed _ rfl enums

/-! ### The closed callback -/

theorem closedCount_append (a b : List Callback) :
    closedCount (a ++ b) = closedCount a + closedCount b := by
  simp [closedCount]

theorem srvClosedCount_append (a b : List SrvCallback) :
    srvClosedCount (a ++ b) = srvClosedCount a + srvClosedCount b := by
  simp [srvClosedCount]

theorem closedCount_onFdConnect (self : SocketObj) (attempt : AddrInfo → AsyncAttempt)
    (e : Int) : closedCount (self.onFdConnect attempt e).2.2 = 0 := by
  unfold SocketObj.onFdConnect
  by_cases h : self.m_socket = none
  · rw [if_pos h]
    rfl
  · rw [if_neg h]
    cases self.m_crntAddrInfo with
    | nil => rfl
    | cons a rest =>
      dsimp only
      split_ifs <;> rfl

theorem closedCount_onFdReadPayload {P : Type} (recv : P → Int → RecvResult × P)
    (s : SocketObj) (p : P) : closedCount (SocketObj.onFdReadPayload recv s p).2.2 = 0 := by
  unfold SocketObj.onFdReadPayload
  split_ifs <;> first | rfl | (dsimp only; split_ifs <;> rfl)

theorem closedCount_onFdRead {P : Type} (recv : P → Int → RecvResult × P)
    (s : SocketObj) (p : P) : closedCount (s.onFdRead recv p).2.2 = 0 := by
  unfold SocketObj.onFdRead
  split_ifs
  · rfl
  · exact closedCount_onFdReadPayload recv _ _
  · exact closedCount_onFdReadPayload recv _ _

theorem closedCount_onFdClose (s : SocketObj) (e : Int) :
    closedCount (s.onFdClose e) ≤ 1 := by
  unfold SocketObj.onFdClose
  split_ifs <;> simp [closedCount]

theorem closedCount_onNetEvent {P : Type} (recv : P → Int → RecvResult × P)
    (attempt : AddrInfo → AsyncAttempt) (self : SocketObj)
    (enum : Except OsErr WSANETWORKEVENTS) (p : P) :
    closedCount (self.onNetEvent recv attempt enum p).2.2.2 ≤
      if reportsClose enum = true then 1 else 0 := by
  unfold SocketObj.onNetEvent
  by_cases h0 : self.m_socket = none
  · rw [if_pos h0]
    simp [closedCount]
  · rw [if_neg h0]
    cases enum with
    | error e => simp [closedCount]
    | ok ev =>
      dsimp only
      rw [closedCount_append, closedCount_append]
      have hA : closedCount (if ev.lNetworkEvents &&& FD_CONNECT ≠ 0 then
          self.onFdConnect attempt (ev.iErrorCode FD_CONNECT_BIT) else (self, [], [])).2.2 = 0 := by
        split_ifs
        · exact closedCount_onFdConnect _ _ _
        · rfl
      have hB : ∀ s : SocketObj, closedCount (if ev.lNetworkEvents &&& FD_READ ≠ 0 then
          if ev.iErrorCode FD_READ_BIT = 0 then s.onFdRead recv p else (s, p, [])
          else (s, p, [])).2.2 = 0 := by
        intro s
        split_ifs
        · exact closedCount_onFdRead _ _ _
        · rfl
        · rfl
      have hC : ∀ s : SocketObj, closedCount (if ev.lNetworkEvents &&& FD_CLOSE ≠ 0 then
          s.onFdClose (ev.iErrorCode FD_CLOSE_BIT) else []) ≤
          if reportsClose (Except.ok ev) = true then 1 else 0 := by
        intro s
        simp only [reportsClose, decide_eq_true_eq]
        split_ifs
        · exact closedCount_onFdClose _ _
        · simp [closedCount]
      rw [hA, hB]
      have := hC (if ev.lNetworkEvents &&& FD_READ ≠ 0 then
          if ev.iErrorCode FD_READ_BIT = 0 then
            SocketObj.onFdRead recv (if ev.lNetworkEvents &&& FD_CONNECT ≠ 0 then
              self.onFdConnect attempt (ev.iErrorCode FD_CONNECT_BIT) else (self, [], [])).1 p
          else ((if ev.lNetworkEvents &&& FD_CONNECT ≠ 0 then
              self.onFdConnect attempt (ev.iErrorCode FD_CONNECT_BIT) else (self, [], [])).1, p, [])
          else ((if ev.lNetworkEvents &&& FD_CONNECT ≠ 0 then
              self.onFdConnect attempt (ev.iErrorCode FD_CONNECT_BIT) else (self, [], [])).1, p,
                [])).1
      omega

theorem closedCount_onNetEvents {P : Type} (recv : P → Int → RecvResult × P)
    (attempt : AddrInfo → AsyncAttempt) :
    ∀ (enums : List (Except OsErr WSANETWORKEVENTS)) (self : SocketObj) (p : P),
      closedCount (SocketObj.onNetEvents recv attempt self p enums).2.2.2 ≤
        (enums.filter reportsClose).length := by
  intro enums
  induction enums with
  | nil => intro self p; simp [SocketObj.onNetEvents, closedCount]
  | cons e es ih =>
    intro self p
    simp only [SocketObj.onNetEvents, closedCount_append]
    have h1 := closedCount_onNetEvent recv attempt self e p
    have h2 := ih (self.onNetEvent recv attempt e p).1 (self.onNetEvent recv attempt e p).2.1
    rw [List.filter_cons]
    split_ifs with hr
    · rw [if_pos hr] at h1
      simp only [List.length_cons]
      omega
    · rw [if_neg hr] at h1
      omega

theorem srvClosedCount_onNetEvent (self : SrvSocketObj)
    (enum : Except OsErr WSANETWORKEVENTS) :
    srvClosedCount (self.onNetEvent enum).2.2 ≤ if reportsClose enum = true then 1 else 0 := by
  unfold SrvSocketObj.onNetEvent
  by_cases h0 : self.m_socket = none
  · rw [if_pos h0]
    simp [srvClosedCount]
  · rw [if_neg h0]
    cases enum with
    | error e => simp [srvClosedCount]
    | ok ev =>
      dsimp only
      rw [srvClosedCount_append]
      have hA : srvClosedCount (if ev.lNetworkEvents &&& FD_ACCEPT ≠ 0 then
          if ev.iErrorCode FD_ACCEPT_BIT = 0 then self.onFdAccept else [] else []) = 0 := by
        unfold SrvSocketObj.onFdAccept
        split_ifs <;> rfl
      have hC : srvClosedCount (if ev.lNetworkEvents &&& FD_CLOSE ≠ 0 then
          self.onFdClose (ev.iErrorCode FD_CLOSE_BIT) else []) ≤
          if reportsClose (Except.ok ev) = true then 1 else 0 := by
        simp only [reportsClose, decide_eq_true_eq]
        unfold SrvSocketObj.onFdClose
        split_ifs <;> simp [srvClosedCount]
      rw [hA]
      omega

theorem srvClosedCount_onNetEvents :
    ∀ (enums : List (Except OsErr WSANETWORKEVENTS)) (self : SrvSocketObj),
      srvClosedCount (self.onNetEvents enums).2.2 ≤ (enums.filter reportsClose).length := by
  intro enums
  induction enums with
  | nil => intro self; simp [SrvSocketObj.onNetEvents, srvClosedCount]
  | cons e es ih =>
    intro self
    simp only [SrvSocketObj.onNetEvents, srvClosedCount_append]
    have h1 := srvClosedCount_onNetEvent self e
    have h2 := ih (self.onNetEvent e).1
    rw [List.filter_cons]
    split_ifs with hr
    · rw [if_pos hr] at h1
      simp only [List.length_cons]
      omega
    · rw [if_neg hr] at h1
      omega

/-- C22, as amended. For every client or server socket and every sequence of
`onNetEvent` invocations, the closed callback is invoked at most as many times
as there are invocations for which `WSAEnumNetworkEvents` reports `FD_CLOSE`:
at most once per such notification, and so at most once when the platform
reports `FD_CLOSE` at most once. -/
theorem C22_closed_callback_bound :
    (∀ (P : Type) (recv : P → Int → RecvResult × P) (attempt : AddrInfo → AsyncAttempt)
        (self : SocketObj) (p : P) (enums : List (Except OsErr WSANETWORKEVENTS)),
      closedCount (SocketObj.onNetEvents recv attempt self p enums).2.2.2 ≤
          (enums.filter reportsClose).length ∧
      ((enums.filter reportsClose).length ≤ 1 →
        closedCount (SocketObj.onNetEvents recv attempt self p enums).2.2.2 ≤ 1)) ∧
    (∀ (self : SrvSocketObj) (enums : List (Except OsErr WSANETWORKEVENTS)),
      srvClosedCount (self.onNetEvents enums).2.2 ≤ (enums.filter reportsClose).length ∧
      ((enums.filter reportsClose).length ≤ 1 →
        srvClosedCount (self.onNetEvents enums).2.2 ≤ 1)) :=
  ⟨fun _ recv attempt self p enums =>
      ⟨closedCount_onNetEvents recv attempt enums self p,
        fun h => le_trans (closedCount_onNetEvents recv attempt enums self p) h⟩,
    fun self enums =>
      ⟨srvClosedCount_onNetEvents enums self,
        fun h => le_trans (srvClosedCount_onNetEvents enums self) h⟩⟩

/-- The statement C22, as amended, at a connected socket that is notified of
data and then of the close of the connection: one closed callback. -/
theorem C22_closed_callback_bound_witness :
    ([eventsOk FD_READ, eventsOk FD_CLOSE].filter reportsClose).length ≤ 1 ∧
    closedCount (SocketObj.onNetEvents Wire.recv demoAsyncAttempt (SocketObj.connected 3 7)
      idleWire [eventsOk FD_READ, eventsOk FD_CLOSE]).2.2.2 ≤ 1 ∧
    (SocketObj.onNetEvents Wire.recv demoAsyncAttempt (SocketObj.connected 3 7)
      idleWire [eventsOk FD_READ, eventsOk FD_CLOSE]).2.2.2 = [.socketClosed 0] :=
  ⟨by decide,
    ((C22_closed_callback_bound.1 Wire Wire.recv demoAsyncAttempt (SocketObj.connected 3 7)
      idleWire [eventsOk FD_READ, eventsOk FD_CLOSE]).2 (by decide)),
    by decide⟩

/-- C22 as stated fails: a connected client socket, and a listening server
socket, that `onNetEvent` is invoked on twice, `WSAEnumNetworkEvents`
reporting `FD_CLOSE` both times, invoke the closed callback twice. -/
theorem C22_closed_callback_twice :
    ¬ (closedCount (SocketObj.onNetEvents Wire.recv demoAsyncAttempt (SocketObj.connected 3 7)
        idleWire [eventsOk FD_CLOSE, eventsOk FD_CLOSE]).2.2.2 ≤ 1) ∧
    (SocketObj.onNetEvents Wire.recv demoAsyncAttempt (SocketObj.connected 3 7)
      idleWire [eventsOk FD_CLOSE, eventsOk FD_CLOSE]).2.2.2 =
        [.socketClosed 0, .socketClosed 0] ∧
    ¬ (srvClosedCount (demoSrvSocket.onNetEvents [eventsOk FD_CLOSE, eventsOk FD_CLOSE]).2.2
        ≤ 1) := by
  decide

/-! ### Synchronous connect over the candidate list -/

theorem connectOnce_err (at_ : ConnectAttempt) (self : SocketObj) (a : AddrInfo) :
    (SocketObj.connectOnce at_ self a).1 = at_.err := by
  unfold SocketObj.connectOnce ConnectAttempt.err
  cases at_.socket <;> rfl

theorem doConnect_nil (attempt : AddrInfo → ConnectAttempt) (self : SocketObj) (a : AddrInfo) :
    SocketObj.doConnect attempt self a [] =
      ((SocketObj.connectOnce (attempt a) self a).1, (SocketObj.connectOnce (attempt a) self a).2.1,
        [], (SocketObj.connectOnce (attempt a) self a).2.2) := by
  unfold SocketObj.doConnect SocketObj.connectOnce
  cases (attempt a).socket <;> rfl

theorem doConnect_cons_ok (attempt : AddrInfo → ConnectAttempt) (self : SocketObj)
    (a b : AddrInfo) (rest : List AddrInfo) (h : (attempt a).err = CL_ERR_OK) :
    SocketObj.doConnect attempt self a (b :: rest) =
      (CL_ERR_OK, (SocketObj.connectOnce (attempt a) self a).2.1, b :: rest,
        (SocketObj.connectOnce (attempt a) self a).2.2) := by
  unfold ConnectAttempt.err at h
  unfold SocketObj.doConnect SocketObj.connectOnce
  cases hs : (attempt a).socket with
  | ok fd =>
    rw [hs] at h
    simp only at h
    dsimp only
    rw [if_neg (not_not.2 h), h]
  | error e =>
    rw [hs] at h
    exact absurd h e.2.ne'

theorem doConnect_cons_fail (attempt : AddrInfo → ConnectAttempt) (self : SocketObj)
    (a b : AddrInfo) (rest : List AddrInfo) (h : (attempt a).err ≠ CL_ERR_OK) :
    SocketObj.doConnect attempt self a (b :: rest) =
      ((SocketObj.doConnect attempt (SocketObj.connectOnce (attempt a) self a).2.1 b rest).1,
        (SocketObj.doConnect attempt (SocketObj.connectOnce (attempt a) self a).2.1 b rest).2.1,
        (SocketObj.doConnect attempt (SocketObj.connectOnce (attempt a) self a).2.1 b rest).2.2.1,
        (SocketObj.connectOnce (attempt a) self a).2.2 ++
          (SocketObj.doConnect attempt (SocketObj.connectOnce (attempt a) self a).2.1 b
            rest).2.2.2) := by
  unfold ConnectAttempt.err at h
  conv_lhs => unfold SocketObj.doConnect
  unfold SocketObj.connectOnce
  cases hs : (attempt a).socket with
  | ok fd =>
    rw [hs] at h
    simp only at h
    dsimp only
    rw [if_pos h]
  | error e =>
    dsimp only
    rw [if_pos e.2.ne']

theorem socketTargets_append (c1 c2 : List PlatformCall) :
    socketTargets (c1 ++ c2) = socketTargets c1 ++ socketTargets c2 := by
  induction c1 with
  | nil => rfl
  | cons c cs ih => cases c <;> simp [socketTargets, ih]

theorem closedBeforeEachSocket_append (c1 c2 : List PlatformCall) :
    ∀ s : List Nat, closedBeforeEachSocket s (c1 ++ c2) =
      (closedBeforeEachSocket s c1 && closedBeforeEachSocket (openDescriptors s c1) c2) := by
  induction c1 with
  | nil => intro s; simp [closedBeforeEachSocket, openDescriptors]
  | cons c cs ih =>
    intro s
    cases c with
    | socket a fd =>
      cases fd <;> simp [closedBeforeEachSocket, openDescriptors, ih, Bool.and_assoc]
    | accept a fd => cases fd <;> simp [closedBeforeEachSocket, openDescriptors, ih]
    | closesocket fd => cases fd <;> simp [closedBeforeEachSocket, openDescriptors, ih]
    | _ => simp [closedBeforeEachSocket, openDescriptors, ih]

theorem connectOnce_trace (at_ : ConnectAttempt) (self : SocketObj) (a : AddrInfo) :
    socketTargets (SocketObj.connectOnce at_ self a).2.2 = [a] ∧
    closedBeforeEachSocket self.m_socket.toList (SocketObj.connectOnce at_ self a).2.2 = true ∧
    openDescriptors self.m_socket.toList (SocketObj.connectOnce at_ self a).2.2 =
      (SocketObj.connectOnce at_ self a).2.1.m_socket.toList := by
  unfold SocketObj.connectOnce
  cases at_.socket with
  | ok fd =>
    cases hm : self.m_socket <;>
      simp [closeIfOpen, socketTargets, closedBeforeEachSocket, openDescriptors]
  | error e =>
    cases hm : self.m_socket <;>
      simp [closeIfOpen, socketTargets, closedBeforeEachSocket, openDescriptors]
theorem doConnect_trace (attempt : AddrInfo → ConnectAttempt) :
    ∀ (rest : List AddrInfo) (self : SocketObj) (a : AddrInfo),
      closedBeforeEachSocket self.m_socket.toList
        (SocketObj.doConnect attempt self a rest).2.2.2 = true := by
  intro rest
  induction rest with
  | nil =>
    intro self a
    rw [doConnect_nil]
    exact (connectOnce_trace (attempt a) self a).2.1
  | cons b rest ih =>
    intro self a
    obtain ⟨_, h2, h3⟩ := connectOnce_trace (attempt a) self a
    by_cases h : (attempt a).err = CL_ERR_OK
    · rw [doConnect_cons_ok attempt self a b rest h]
      exact h2
    · rw [doConnect_cons_fail attempt self a b rest h]
      dsimp only
      rw [closedBeforeEachSocket_append, h2, h3, ih]
      rfl

theorem doConnect_success (attempt : AddrInfo → ConnectAttempt) (b : AddrInfo)
    (post : List AddrInfo) (hb : (attempt b).err = CL_ERR_OK) :
    ∀ (pre : List AddrInfo) (self : SocketObj) (a : AddrInfo) (rest : List AddrInfo),
      a :: rest = pre ++ b :: post → (∀ c ∈ pre, (attempt c).err ≠ CL_ERR_OK) →
      (SocketObj.doConnect attempt self a rest).1 = CL_ERR_OK ∧
      socketTargets (SocketObj.doConnect attempt self a rest).2.2.2 = pre ++ [b] ∧
      (SocketObj.doConnect attempt self a rest).2.2.1 = post ∧
      ∃ fd, (attempt b).socket = .ok fd ∧
        (SocketObj.doConnect attempt self a rest).2.1.m_socket = some fd := by
  have hfd : ∀ s : SocketObj, ∃ fd, (attempt b).socket = .ok fd ∧
      (SocketObj.connectOnce (attempt b) s b).2.1.m_socket = some fd := by
    intro s
    unfold ConnectAttempt.err at hb
    unfold SocketObj.connectOnce
    cases hs : (attempt b).socket with
    | ok fd => exact ⟨fd, rfl, rfl⟩
    | error e =>
      rw [hs] at hb
      exact absurd hb e.2.ne'
  intro pre
  induction pre with
  | nil =>
    intro self a rest heq _
    simp only [List.nil_append, List.cons.injEq] at heq
    obtain ⟨h1, h2⟩ := heq
    subst h1 h2
    cases rest with
    | nil =>
      rw [doConnect_nil]
      exact ⟨(connectOnce_err _ _ _).trans hb, (connectOnce_trace _ _ _).1, rfl, hfd self⟩
    | cons c rest =>
      rw [doConnect_cons_ok attempt self a c rest hb]
      exact ⟨rfl, (connectOnce_trace _ _ _).1, rfl, hfd self⟩
  | cons c pre ih =>
    intro self a rest heq hpre
    simp only [List.cons_append, List.cons.injEq] at heq
    obtain ⟨h1, h2⟩ := heq
    subst h1
    have hc : (attempt a).err ≠ CL_ERR_OK := hpre a (List.mem_cons_self _ _)
    cases rest with
    | nil =>
      exfalso
      cases pre <;> simp at h2
    | cons a2 rest2 =>
      obtain ⟨i1, i2, i3, i4⟩ := ih (SocketObj.connectOnce (attempt a) self a).2.1 a2 rest2 h2
        (fun x hx => hpre x (List.mem_cons_of_mem _ hx))
      rw [doConnect_cons_fail attempt self a a2 rest2 hc]
      refine ⟨i1, ?_, i3, i4⟩
      dsimp only
      rw [socketTargets_append, (connectOnce_trace _ _ _).1, i2]
      rfl

theorem doConnect_failure (attempt : AddrInfo → ConnectAttempt) :
    ∀ (rest : List AddrInfo) (self : SocketObj) (a : AddrInfo),
      (∀ c ∈ a :: rest, (attempt c).err ≠ CL_ERR_OK) →
      (∀ l, (a :: rest).getLast? = some l →
        (SocketObj.doConnect attempt self a rest).1 = (attempt l).err) ∧
      (SocketObj.doConnect attempt self a rest).1 ≠ CL_ERR_OK ∧
      socketTargets (SocketObj.doConnect attempt self a rest).2.2.2 = a :: rest ∧
      (SocketObj.doConnect attempt self a rest).2.2.1 = [] := by
  intro rest
  induction rest with
  | nil =>
    intro self a hall
    have ha := hall a (List.mem_cons_self _ _)
    rw [doConnect_nil]
    refine ⟨fun l hl => ?_, ?_, (connectOnce_trace _ _ _).1, rfl⟩
    · simp only [List.getLast?_singleton, Option.some.injEq] at hl
      subst hl
      exact connectOnce_err _ _ _
    · show (SocketObj.connectOnce (attempt a) self a).1 ≠ CL_ERR_OK
      rw [connectOnce_err]
      exact ha
  | cons b rest ih =>
    intro self a hall
    have ha := hall a (List.mem_cons_self _ _)
    obtain ⟨i1, i2, i3, i4⟩ := ih (SocketObj.connectOnce (attempt a) self a).2.1 b
      (fun x hx => hall x (List.mem_cons_of_mem _ hx))
    rw [doConnect_cons_fail attempt self a b rest ha]
    refine ⟨fun l hl => i1 l ?_, i2, ?_, i4⟩
    · rw [List.getLast?_cons_cons] at hl
      exact hl
    · dsimp only
      rw [socketTargets_append, (connectOnce_trace _ _ _).1, i3]
      rfl

theorem exists_first {α : Type} (P : α → Prop) [DecidablePred P] :
    ∀ l : List α, (∃ x ∈ l, P x) →
      ∃ pre b post, l = pre ++ b :: post ∧ (∀ c ∈ pre, ¬ P c) ∧ P b := by
  intro l
  induction l with
  | nil =>
    intro h
    obtain ⟨x, hx, _⟩ := h
    cases hx
  | cons a rest ih =>
    intro h
    by_cases ha : P a
    · exact ⟨[], a, rest, rfl, fun c hc => absurd hc (List.not_mem_nil c), ha⟩
    · have h2 : ∃ x ∈ rest, P x := by
        obtain ⟨x, hx, hp⟩ := h
        rcases List.mem_cons.1 hx with h1 | h1
        · subst h1
          exact absurd hp ha
        · exact ⟨x, h1, hp⟩
      obtain ⟨pre, b, post, e1, e2, e3⟩ := ih h2
      refine ⟨a :: pre, b, post, by rw [e1]; rfl, fun c hc => ?_, e3⟩
      rcases List.mem_cons.1 hc with h1 | h1
      · subst h1
        exact ha
      · exact e2 c h1
/-- C23 (synchronous connect over the candidate list). Let `doConnect` run on
the candidates `a :: rest`, the error of the attempt on `c` being
`(attempt c).err` (`CL_ERR_OK` when `socket` and `connect` both succeed).
If `b` is the first candidate that succeeds, `doConnect` returns `CL_ERR_OK`,
has called `socket` once for each candidate up to `b`, in list order, and for
no candidate after it, keeps the descriptor of `b` and leaves the list pointer
right after `b`. If no candidate succeeds it has called `socket` once for
each candidate, in list order, and returns the error of the last one. So it
returns `CL_ERR_OK` exactly when some candidate succeeds. Whenever it calls
`socket`, no descriptor is open: the descriptor of a failed attempt is closed
before the next attempt. When `construct` fails, every descriptor it opened is
closed and the object holds none. -/
theorem C23_sync_connect (attempt : AddrInfo → ConnectAttempt) (self : SocketObj)
    (a : AddrInfo) (rest : List AddrInfo) :
    (∀ pre b post, a :: rest = pre ++ b :: post →
      (∀ c ∈ pre, (attempt c).err ≠ CL_ERR_OK) → (attempt b).err = CL_ERR_OK →
        (SocketObj.doConnect attempt self a rest).1 = CL_ERR_OK ∧
        socketTargets (SocketObj.doConnect attempt self a rest).2.2.2 = pre ++ [b] ∧
        (SocketObj.doConnect attempt self a rest).2.2.1 = post ∧
        ∃ fd, (attempt b).socket = .ok fd ∧
          (SocketObj.doConnect attempt self a rest).2.1.m_socket = some fd) ∧
    ((∀ c ∈ a :: rest, (attempt c).err ≠ CL_ERR_OK) →
      (∀ l, (a :: rest).getLast? = some l →
        (SocketObj.doConnect attempt self a rest).1 = (attempt l).err) ∧
      (SocketObj.doConnect attempt self a rest).1 ≠ CL_ERR_OK ∧
      socketTargets (SocketObj.doConnect attempt self a rest).2.2.2 = a :: rest ∧
      (SocketObj.doConnect attempt self a rest).2.2.1 = []) ∧
    ((SocketObj.doConnect attempt self a rest).1 = CL_ERR_OK ↔
      ∃ c ∈ a :: rest, (attempt c).err = CL_ERR_OK) ∧
    closedBeforeEachSocket self.m_socket.toList
      (SocketObj.doConnect attempt self a rest).2.2.2 = true ∧
    (∀ env : CreateEnv, ((SocketObj.new false none).construct env).1 ≠ CL_ERR_OK →
      openDescriptors [] ((SocketObj.new false none).construct env).2.2 = [] ∧
      ((SocketObj.new false none).construct env).2.1.m_socket = none) := by
  refine ⟨fun pre b post heq hpre hb => doConnect_success attempt b post hb pre self a rest heq hpre,
    fun hall => doConnect_failure attempt rest self a hall, ⟨fun hok => ?_, fun hex => ?_⟩,
    doConnect_trace attempt rest self a, fun env hne => ?_⟩
  · by_contra hno
    have hall : ∀ c ∈ a :: rest, (attempt c).err ≠ CL_ERR_OK :=
      fun c hc he => hno ⟨c, hc, he⟩
    exact (doConnect_failure attempt rest self a hall).2.1 hok
  · obtain ⟨pre, b, post, e1, e2, e3⟩ :=
      exists_first (fun c => (attempt c).err = CL_ERR_OK) (a :: rest) hex
    exact (doConnect_success attempt b post e3 pre self a rest e1 e2).1
  · obtain ⟨h1, h2⟩ := construct_open env
    rw [h1, h2 hne]
    exact ⟨rfl, rfl⟩

/-- The statement C23 at the candidates 1, 2, 3 of which the first refuses the
connection and the second accepts it: `doConnect` returns `CL_ERR_OK`, has
tried 1 and 2 and not 3, has closed the descriptor 11 of the failed attempt
before the second `socket` call, and keeps the descriptor 12. -/
theorem C23_sync_connect_witness :
    (⟨1, 16⟩ : AddrInfo) :: [⟨2, 16⟩, ⟨3, 16⟩] = [⟨1, 16⟩] ++ ⟨2, 16⟩ :: [⟨3, 16⟩] ∧
    (∀ c ∈ [(⟨1, 16⟩ : AddrInfo)], (demoConnectAttempt c).err ≠ CL_ERR_OK) ∧
    (demoConnectAttempt ⟨2, 16⟩).err = CL_ERR_OK ∧
    (SocketObj.doConnect demoConnectAttempt (SocketObj.new false none) ⟨1, 16⟩
      [⟨2, 16⟩, ⟨3, 16⟩]).1 = CL_ERR_OK ∧
    socketTargets (SocketObj.doConnect demoConnectAttempt (SocketObj.new false none) ⟨1, 16⟩
      [⟨2, 16⟩, ⟨3, 16⟩]).2.2.2 = [⟨1, 16⟩] ++ [⟨2, 16⟩] ∧
    (SocketObj.doConnect demoConnectAttempt (SocketObj.new false none) ⟨1, 16⟩
      [⟨2, 16⟩, ⟨3, 16⟩]).2.2.2 =
        [.socket ⟨1, 16⟩ (some 11), .connect (some 11) ⟨1, 16⟩, .closesocket (some 11),
          .socket ⟨2, 16⟩ (some 12), .connect (some 12) ⟨2, 16⟩] :=
  ⟨rfl, by decide, by decide,
    (((C23_sync_connect demoConnectAttempt (SocketObj.new false none) ⟨1, 16⟩
      [⟨2, 16⟩, ⟨3, 16⟩]).1) [⟨1, 16⟩] ⟨2, 16⟩ [⟨3, 16⟩] rfl (by decide) (by decide)).1,
    (((C23_sync_connect demoConnectAttempt (SocketObj.new false none) ⟨1, 16⟩
      [⟨2, 16⟩, ⟨3, 16⟩]).1) [⟨1, 16⟩] ⟨2, 16⟩ [⟨3, 16⟩] rfl (by decide) (by decide)).2.1,
    by decide⟩

/-! ### The timeout budget of the pool's wait for shutdown -/

theorem waitForShutdownTimeouts_length (env : WaitEnv) :
    ∀ (ts : List Nat) (i timeOutInterval : Nat),
      (waitForShutdownTimeouts env ts i timeOutInterval).length = ts.length
  | [], _, _ => rfl
  | _ :: ts, i, timeOutInterval => by
    simp only [waitForShutdownTimeouts, List.length_cons]
    rw [waitForShutdownTimeouts_length env ts]

/-- The loop of `NetThreadPool::waitForShutdown` keeps exactly the workers
whose wait, with the timeout listed by `waitForShutdownTimeouts`, fails, and
answers whether all of them succeed. -/
theorem waitForShutdownLoop_timeouts (env : WaitEnv) :
    ∀ (ts : List Nat) (i timeOutInterval : Nat),
      waitForShutdownLoop env ts i timeOutInterval =
        ((((ts.zip (waitForShutdownTimeouts env ts i timeOutInterval)).filter
            (fun p => !env.wait p.1 p.2)).map Prod.fst),
          (ts.zip (waitForShutdownTimeouts env ts i timeOutInterval)).all
            (fun p => env.wait p.1 p.2))
  | [], _, _ => rfl
  | t :: ts, i, timeOutInterval => by
    simp only [waitForShutdownLoop, waitForShutdownTimeouts, List.zip_cons_cons,
      List.all_cons]
    rw [waitForShutdownLoop_timeouts env ts]
    cases h : env.wait t timeOutInterval <;> simp [List.filter_cons, h]

/-- The step of the timeout in `NetThreadPool::waitForShutdown`: without
wrap-around of the tick counter, the timeout for the next wait is the timeout
of this wait less the time elapsed since the START of the call. -/
theorem waitForShutdownTimeouts_cons (env : WaitEnv) (t : Nat) (ts : List Nat)
    (i timeOutInterval : Nat) (h0 : env.startTick ≤ env.tickAfter i)
    (h1 : env.tickAfter i < 2 ^ 32) :
    waitForShutdownTimeouts env (t :: ts) i timeOutInterval =
      timeOutInterval :: waitForShutdownTimeouts env ts (i + 1)
        (timeOutInterval - (env.tickAfter i - env.startTick)) := by
  have e : (env.tickAfter i % 2 ^ 32 + 2 ^ 32 - env.startTick % 2 ^ 32) % 2 ^ 32 =
      env.tickAfter i - env.startTick := by
    have h2 : env.startTick < 2 ^ 32 := lt_of_le_of_lt h0 h1
    rw [Nat.mod_eq_of_lt h1, Nat.mod_eq_of_lt h2]
    have : env.tickAfter i + 2 ^ 32 - env.startTick =
        (env.tickAfter i - env.startTick) + 2 ^ 32 := by omega
    rw [this, Nat.add_mod_right]
    exact Nat.mod_eq_of_lt (by omega)
  simp only [waitForShutdownTimeouts]
  rw [e]
  by_cases hlt : env.tickAfter i - env.startTick < timeOutInterval
  · rw [if_pos hlt]
  · rw [if_neg hlt]
    have : timeOutInterval - (env.tickAfter i - env.startTick) = 0 := by omega
    rw [this]

/-- With three shutting-down workers and tick readings `t0 ≤ t1 ≤ t2` that do
not wrap, the three timeouts are `milliseconds`, `milliseconds - (t1 - t0)`
and `milliseconds - (t1 - t0) - (t2 - t0)` (each floored at 0): the first two
are the budgets of the specification, the third has the time `t1 - t0`
taken off twice. -/
theorem waitForShutdownTimeouts_three (env : WaitEnv) (a b c milliseconds : Nat)
    (h0 : env.startTick ≤ env.tickAfter 0) (h1 : env.tickAfter 0 ≤ env.tickAfter 1)
    (h2 : env.tickAfter 1 < 2 ^ 32) :
    waitForShutdownTimeouts env [a, b, c] 0 milliseconds =
      [milliseconds,
        specBudget milliseconds env.startTick (env.tickAfter 0),
        specBudget milliseconds env.startTick (env.tickAfter 1) -
          (env.tickAfter 0 - env.startTick)] := by
  rw [waitForShutdownTimeouts_cons env a [b, c] 0 milliseconds h0 (by omega),
    waitForShutdownTimeouts_cons env b [c] 1 _ (by omega) h2]
  simp only [waitForShutdownTimeouts, specBudget]
  congr 2
  congr 1
  omega

/-- C24 (pool shutdown timeout budget), evaluation of the code at the failing
input: three shutting-down workers, `milliseconds = 10000` and the tick
readings `t0 = 0`, `t1 = 1000`, `t2 = 2000`. The timeouts handed to the three
waits are 10000, 9000 and 7000, while the budget of the specification for the
wait after the reading `t2` is `max(0, 10000 - (2000 - 0)) = 8000`; the worker
visited third, which completes shutdown within 7500 ms, is therefore reported
as not shut down and `waitForShutdown` returns `false`. -/
theorem C24_budget_elapsed_counted_twice :
    waitForShutdownTimeouts demoWaitEnv demoShuttingDownPool.m_shuttingDownThreads.reverse 0 10000
      = [10000, 9000, 7000] ∧
    specBudget 10000 demoWaitEnv.startTick (demoWaitEnv.tickAfter 0) = 9000 ∧
    specBudget 10000 demoWaitEnv.startTick (demoWaitEnv.tickAfter 1) = 8000 ∧
    demoWaitEnv.wait 3 (specBudget 10000 demoWaitEnv.startTick (demoWaitEnv.tickAfter 1)) = true ∧
    demoShuttingDownPool.waitForShutdown 10000 demoWaitEnv =
      (false, { emptyPool with m_shuttingDownThreads := [3] }) := by
  refine ⟨by decide, by decide, by decide, by decide, by decide⟩

/-! ### The bookkeeping of the pool over runs of calls -/

theorem place_lists (p : NetThreadPool) (netObj : Nat) (create : Except OsErr Nat) :
    (p.place netObj create).2.1.m_shuttingDownThreads = p.m_shuttingDownThreads ∧
    ∀ u ∈ (p.place netObj create).2.1.m_threads, u ∈ p.m_threads ∨ create = .ok u := by
  unfold NetThreadPool.place
  cases hfind : p.m_threads.reverse.find? (fun t => decide (p.getCount t < NET_OBJ_MAX_COUNT)) with
  | some t =>
    refine ⟨rfl, fun u hu => Or.inl ?_⟩
    exact hu
  | none =>
    cases create with
    | ok t =>
      refine ⟨rfl, fun u hu => ?_⟩
      have hu2 : u ∈ p.m_threads ++ [t] := hu
      rw [List.mem_append, List.mem_singleton] at hu2
      rcases hu2 with h | h
      · exact Or.inl h
      · exact Or.inr (by rw [h])
    | error e => exact ⟨rfl, fun u hu => Or.inl hu⟩

theorem addNetObj_disjoint (p : NetThreadPool) (netObj : Nat) (env : PoolEnv)
    (hdis : ∀ t ∈ p.m_threads, t ∉ p.m_shuttingDownThreads)
    (henv : env.fresh (p.cleanupShuttingDownThreads env.isShutdown) = true) :
    ∀ t ∈ (p.addNetObj netObj env).2.1.m_threads,
      t ∉ (p.addNetObj netObj env).2.1.m_shuttingDownThreads := by
  intro t ht
  unfold NetThreadPool.addNetObj at ht ⊢
  obtain ⟨h1, h2⟩ := place_lists (p.cleanupShuttingDownThreads env.isShutdown) netObj env.create
  rw [h1]
  rcases h2 t ht with h | h
  · intro hmem
    exact hdis t h (List.mem_of_mem_filter hmem)
  · unfold PoolEnv.fresh at henv
    rw [h] at henv
    simp only [decide_eq_true_eq] at henv
    exact henv.2

theorem removeNetObj_disjoint (p : NetThreadPool) (netObj : Nat) (f : Nat → Bool)
    (hwf : p.wellFormed) (hdis : ∀ t ∈ p.m_threads, t ∉ p.m_shuttingDownThreads) :
    ∀ t ∈ (p.removeNetObj netObj f).1.m_threads,
      t ∉ (p.removeNetObj netObj f).1.m_shuttingDownThreads := by
  have hwf1 := cleanup_wellFormed p f hwf
  have hdis1 : ∀ t ∈ (p.cleanupShuttingDownThreads f).m_threads,
      t ∉ (p.cleanupShuttingDownThreads f).m_shuttingDownThreads :=
    fun t ht hmem => hdis t ht (List.mem_of_mem_filter hmem)
  unfold NetThreadPool.removeNetObj
  generalize p.cleanupShuttingDownThreads f = q at hwf1 hdis1
  cases hreg : mapFind q.m_objToThreadMap netObj with
  | none =>
    rw [displace_unknown q netObj hreg]
    exact hdis1
  | some t =>
    obtain ⟨_, _, _, _, _, hz, hnz⟩ := displace_known q netObj t hwf1 hreg
    by_cases h0 : (q.displace netObj).1.getCount t = 0
    · obtain ⟨e1, e2, _⟩ := hz h0
      rw [e1, e2]
      intro u hu hmem
      rw [List.mem_append, List.mem_singleton] at hmem
      rcases hmem with h | h
      · exact hdis1 u (List.mem_of_mem_erase hu) h
      · rw [h] at hu
        exact (List.Nodup.not_mem_erase hwf1.1) hu
    · obtain ⟨e1, e2, _⟩ := hnz h0
      rw [e1, e2]
      exact hdis1

theorem addNetObj_wellFormed_cleaned (p : NetThreadPool) (netObj : Nat) (env : PoolEnv)
    (h : p.wellFormed) (hfresh : netObj ∉ mapKeys p.m_objToThreadMap)
    (henv : env.fresh (p.cleanupShuttingDownThreads env.isShutdown) = true) :
    (p.addNetObj netObj env).2.1.wellFormed := by
  have hnew : ∀ t, env.create = .ok t →
      t ∉ (p.cleanupShuttingDownThreads env.isShutdown).m_threads := by
    intro t ht
    unfold PoolEnv.fresh at henv
    rw [ht] at henv
    simp only [decide_eq_true_eq] at henv
    exact henv.1
  exact (place_wellFormed (p.cleanupShuttingDownThreads env.isShutdown) netObj env.create
    (cleanup_wellFormed p _ h) hfresh hnew).1

theorem runPoolCalls_invariant :
    ∀ (calls : List PoolCall) (p : NetThreadPool), p.wellFormed →
      (∀ t ∈ p.m_threads, t ∉ p.m_shuttingDownThreads) →
      p.poolCallsAdmissible calls = true →
      (p.runPoolCalls calls).wellFormed ∧
      ∀ t ∈ (p.runPoolCalls calls).m_threads, t ∉ (p.runPoolCalls calls).m_shuttingDownThreads
  | [], p, hwf, hdis, _ => ⟨hwf, hdis⟩
  | c :: rest, p, hwf, hdis, hadm => by
    simp only [NetThreadPool.poolCallsAdmissible, Bool.and_eq_true] at hadm
    obtain ⟨hc, hrest⟩ := hadm
    simp only [NetThreadPool.runPoolCalls]
    cases c with
    | add netObj env =>
      simp only [PoolCall.admissible, Bool.and_eq_true, decide_eq_true_eq] at hc
      exact runPoolCalls_invariant rest _
        (addNetObj_wellFormed_cleaned p netObj env hwf hc.1 hc.2)
        (addNetObj_disjoint p netObj env hdis hc.2) hrest
    | remove netObj f =>
      exact runPoolCalls_invariant rest _ (removeNetObj_wellFormed p netObj f hwf).1
        (removeNetObj_disjoint p netObj f hwf hdis) hrest

theorem emptyPool_wellFormed : emptyPool.wellFormed := by
  refine ⟨List.nodup_nil, List.nodup_nil, ?_, ?_⟩
  · intro e he
    cases he
  · intro t ht
    cases ht

theorem owner_unique (m : List (Nat × Nat)) (hnd : (mapKeys m).Nodup) (o t : Nat)
    (h : mapFind m o = some t) : ∀ u, (o, u) ∈ m ↔ u = t := by
  intro u
  constructor
  · intro hu
    have := mapFind_of_mem_nodup m (o, u) hnd hu
    rw [h] at this
    exact (Option.some.inj this).symm
  · intro hu
    rw [hu]
    exact mapFind_mem m o t h

/-- C25 (pool bookkeeping invariant). Let `calls` be any sequence of
`addNetObj` and `removeNetObj` calls made from the empty pool, each
`addNetObj` with an object the index does not hold at that moment (and each
new worker at an address of no worker the pool still holds). In the state
reached: every active worker has a count between 1 and `NET_OBJ_MAX_COUNT`
that equals the number of index entries that map to it; every index entry
maps to an active worker; no active worker is in the shutting-down list; each
object of the index has exactly one owner, an active worker; and the count
that a following `removeNetObj` decrements is at least 1, so that the
decrement of the unsigned count does not go below zero. -/
theorem C25_pool_bookkeeping (calls : List PoolCall)
    (hadm : emptyPool.poolCallsAdmissible calls = true) :
    (∀ t ∈ (emptyPool.runPoolCalls calls).m_threads,
      1 ≤ (emptyPool.runPoolCalls calls).getCount t ∧
      (emptyPool.runPoolCalls calls).getCount t ≤ NET_OBJ_MAX_COUNT ∧
      (emptyPool.runPoolCalls calls).getCount t = (emptyPool.runPoolCalls calls).owned t) ∧
    (∀ e ∈ (emptyPool.runPoolCalls calls).m_objToThreadMap,
      e.2 ∈ (emptyPool.runPoolCalls calls).m_threads) ∧
    (∀ t ∈ (emptyPool.runPoolCalls calls).m_threads,
      t ∉ (emptyPool.runPoolCalls calls).m_shuttingDownThreads) ∧
    (∀ o ∈ mapKeys (emptyPool.runPoolCalls calls).m_objToThreadMap,
      ∃ t, t ∈ (emptyPool.runPoolCalls calls).m_threads ∧
        ∀ u, (o, u) ∈ (emptyPool.runPoolCalls calls).m_objToThreadMap ↔ u = t) ∧
    (∀ (netObj : Nat) (isShutdown : Nat → Bool) (t : Nat),
      mapFind (emptyPool.runPoolCalls calls).m_objToThreadMap netObj = some t →
        1 ≤ (emptyPool.runPoolCalls calls).getCount t ∧
        ((emptyPool.runPoolCalls calls).removeNetObj netObj isShutdown).1.getCount t + 1 =
          (emptyPool.runPoolCalls calls).getCount t) := by
  obtain ⟨hwf, hdis⟩ := runPoolCalls_invariant calls emptyPool emptyPool_wellFormed
    (fun t ht => by cases ht) hadm
  generalize emptyPool.runPoolCalls calls = P at hwf hdis
  refine ⟨fun t ht => ?_, hwf.2.2.1, hdis, fun o ho => ?_, fun netObj f t hreg => ?_⟩
  · obtain ⟨h1, h2, h3⟩ := hwf.2.2.2 t ht
    exact ⟨h2, h3, h1⟩
  · cases hfind : mapFind P.m_objToThreadMap o with
    | none => exact absurd ho ((mapFind_eq_none _ _).1 hfind)
    | some t =>
      exact ⟨t, hwf.2.2.1 (o, t) (mapFind_mem _ _ _ hfind),
        owner_unique _ hwf.2.1 o t hfind⟩
  · obtain ⟨_, h1, h2, _⟩ :=
      displace_known (P.cleanupShuttingDownThreads f) netObj t (cleanup_wellFormed P f hwf) hreg
    exact ⟨h1, h2⟩

/-- The statement C25 at a run in which two objects are added, both are
removed, a third is added on a new worker at the address of the discarded one,
and an unknown object is removed: the calls are admissible, the active list is
`[500]` with count 1, and the invariant holds. -/
theorem C25_pool_bookkeeping_witness :
    emptyPool.poolCallsAdmissible demoPoolCalls = true ∧
    (emptyPool.runPoolCalls demoPoolCalls).m_threads = [500] ∧
    (emptyPool.runPoolCalls demoPoolCalls).m_objToThreadMap = [(1002, 500)] ∧
    (∀ t ∈ (emptyPool.runPoolCalls demoPoolCalls).m_threads,
      1 ≤ (emptyPool.runPoolCalls demoPoolCalls).getCount t ∧
      (emptyPool.runPoolCalls demoPoolCalls).getCount t ≤ NET_OBJ_MAX_COUNT ∧
      (emptyPool.runPoolCalls demoPoolCalls).getCount t =
        (emptyPool.runPoolCalls demoPoolCalls).owned t) :=
  ⟨by decide, by decide, by decide, (C25_pool_bookkeeping demoPoolCalls (by decide)).1⟩

/-! ### The dispatch sweep of a worker -/

theorem mem_sweepLoop (env : SweepEnv) :
    ∀ (n idx i : Nat), i ∈ NetThreadObj.sweepLoop env n idx ↔
      (idx ≤ i ∧ i < idx + n ∧ env.signalled i = true ∧
        ∀ j, idx ≤ j → j ≤ i → env.startShutdown j = false)
  | 0, idx, i => by
    simp only [NetThreadObj.sweepLoop, List.not_mem_nil, false_iff]
    rintro ⟨h1, h2, _⟩
    omega
  | n + 1, idx, i => by
    unfold NetThreadObj.sweepLoop
    by_cases hs : env.startShutdown idx = true
    · rw [if_pos hs]
      simp only [List.not_mem_nil, false_iff]
      rintro ⟨h1, _, _, h4⟩
      have := h4 idx (le_refl _) h1
      rw [hs] at this
      cases this
    · rw [if_neg hs, List.mem_append, mem_sweepLoop env n (idx + 1) i]
      have hs2 : env.startShutdown idx = false := by simpa using hs
      constructor
      · rintro (h | ⟨h1, h2, h3, h4⟩)
        · by_cases hg : env.signalled idx = true
          · rw [if_pos hg, List.mem_singleton] at h
            subst h
            refine ⟨le_refl _, by omega, hg, fun j hj1 hj2 => ?_⟩
            have : j = i := by omega
            rw [this]
            exact hs2
          · rw [if_neg hg] at h
            cases h
        · refine ⟨by omega, by omega, h3, fun j hj1 hj2 => ?_⟩
          by_cases hj : j = idx
          · rw [hj]
            exact hs2
          · exact h4 j (by omega) hj2
      · rintro ⟨h1, h2, h3, h4⟩
        by_cases hi : i = idx
        · left
          subst hi
          rw [if_pos h3]
          exact List.mem_singleton_self _
        · right
          exact ⟨by omega, by omega, h3, fun j hj1 hj2 => h4 j (by omega) hj2⟩

theorem sweepLoop_pairwise (env : SweepEnv) :
    ∀ (n idx : Nat), (NetThreadObj.sweepLoop env n idx).Pairwise (fun a b => a < b)
  | 0, _ => List.Pairwise.nil
  | n + 1, idx => by
    unfold NetThreadObj.sweepLoop
    by_cases hs : env.startShutdown idx = true
    · rw [if_pos hs]
      exact List.Pairwise.nil
    · rw [if_neg hs]
      by_cases hg : env.signalled idx = true
      · rw [if_pos hg]
        refine List.Pairwise.cons (fun b hb => ?_) (sweepLoop_pairwise env n (idx + 1))
        have := ((mem_sweepLoop env n (idx + 1) b).1 hb).1
        omega
      · rw [if_neg hg]
        exact sweepLoop_pairwise env n (idx + 1)

/-- C26 (worker dispatch sweep). Let the wait-many of a worker answer with the
index `k ≥ 1`, below the size of the handle list, let start-shutdown not be
signalled when the sweep starts and let the probe of the handle `k` find it
signalled, as the wait-many reported. Then the first call of `onNetEvent` is
on the object at index `k`. For any answers, the calls are in strictly
ascending index order, hence at most one for each index; `onNetEvent` is
called at index `i` exactly when `i` is from `k` to the end of the list, the
handle at `i` is signalled when it is probed and start-shutdown was not
observed at any index from `k` to `i`; there is no call at an index below `k`
or at the reserved index 0; and once start-shutdown is observed at the index
`s`, there is no call at `s` or after it. -/
theorem C26_dispatch_sweep (self : NetThreadObj) (env : SweepEnv) (k : Nat)
    (hk : 1 ≤ k) (hsize : k < self.m_netEvents.length)
    (hrun : env.startShutdown k = false) (hsig : env.signalled k = true) :
    (self.sweep env k).head? = some k ∧
    (self.sweep env k).Pairwise (fun a b => a < b) ∧
    (∀ i, i ∈ self.sweep env k ↔
      (k ≤ i ∧ i < self.m_netEvents.length ∧ env.signalled i = true ∧
        ∀ j, k ≤ j → j ≤ i → env.startShutdown j = false)) ∧
    0 ∉ self.sweep env k ∧
    (∀ i, i < k → i ∉ self.sweep env k) ∧
    (∀ s, k ≤ s → env.startShutdown s = true → ∀ i ∈ self.sweep env k, i < s) := by
  have hmem : ∀ i, i ∈ self.sweep env k ↔
      (k ≤ i ∧ i < self.m_netEvents.length ∧ env.signalled i = true ∧
        ∀ j, k ≤ j → j ≤ i → env.startShutdown j = false) := by
    intro i
    unfold NetThreadObj.sweep
    rw [mem_sweepLoop]
    constructor
    · rintro ⟨h1, h2, h3, h4⟩
      exact ⟨h1, by omega, h3, h4⟩
    · rintro ⟨h1, h2, h3, h4⟩
      exact ⟨h1, by omega, h3, h4⟩
  refine ⟨?_, sweepLoop_pairwise env _ k, hmem, ?_, ?_, ?_⟩
  · unfold NetThreadObj.sweep
    obtain ⟨n, hn⟩ : ∃ n, self.m_netEvents.length - k = n + 1 :=
      ⟨self.m_netEvents.length - k - 1, by omega⟩
    rw [hn]
    unfold NetThreadObj.sweepLoop
    rw [if_neg (by rw [hrun]; exact Bool.false_ne_true), if_pos hsig]
    rfl
  · intro h0
    have := ((hmem 0).1 h0).1
    omega
  · intro i hi hin
    have := ((hmem i).1 hin).1
    omega
  · intro s hks hs i hi
    obtain ⟨h1, _, _, h4⟩ := (hmem i).1 hi
    by_contra hlt
    have := h4 s hks (by omega)
    rw [hs] at this
    cases this

/-- The statement C26 at a worker with three objects, the wait-many answer 1
and the handles at the indices 1 and 3 signalled: `onNetEvent` is called at
the indices 1 and 3, in this order. -/
theorem C26_dispatch_sweep_witness :
    1 ≤ 1 ∧ 1 < demoWorker.m_netEvents.length ∧ demoSweepEnv.startShutdown 1 = false ∧
    demoSweepEnv.signalled 1 = true ∧ demoWorker.sweep demoSweepEnv 1 = [1, 3] ∧
    (demoWorker.sweep demoSweepEnv 1).head? = some 1 :=
  ⟨by decide, by decide, by decide, by decide, by decide,
    (C26_dispatch_sweep demoWorker demoSweepEnv 1 (by decide) (by decide) (by decide)
      (by decide)).1⟩

/-! ### The arrays of a worker under change requests -/

theorem indexOf_map_some (o : Nat) :
    ∀ cur : List Nat, List.indexOf (some o) (cur.map some) = List.indexOf o cur
  | [] => rfl
  | a :: cur => by
    simp only [List.map_cons, List.indexOf_cons]
    rw [indexOf_map_some o cur]
    by_cases h : a = o
    · subst h
      simp
    · have h2 : ¬ (some a = some o) := fun e => h (Option.some.inj e)
      simp [h, h2]

theorem eraseIdx_map {α β : Type} (f : α → β) :
    ∀ (l : List α) (i : Nat), (l.map f).eraseIdx i = (l.eraseIdx i).map f
  | [], _ => rfl
  | _ :: _, 0 => rfl
  | a :: l, i + 1 => by
    simp only [List.map_cons, List.eraseIdx_cons_succ]
    rw [eraseIdx_map f l i]

theorem eraseIdx_indexOf (o : Nat) :
    ∀ cur : List Nat, cur.eraseIdx (List.indexOf o cur) = cur.erase o
  | [] => rfl
  | a :: cur => by
    by_cases h : a = o
    · subst h
      simp
    · rw [List.indexOf_cons_ne _ h, List.eraseIdx_cons_succ, eraseIdx_indexOf o cur,
        List.erase_cons_tail]
      simpa using h

theorem applyChange_add (netEvent : Nat → Nat) (s : NetThreadObj) (h o : Nat) (cur : List Nat)
    (h1 : s.m_netObjs = none :: cur.map some) (h2 : s.m_netEvents = h :: cur.map netEvent) :
    ∃ s2, s.applyChange netEvent ⟨true, some o⟩ = some s2 ∧
      s2.m_netObjs = none :: (cur ++ [o]).map some ∧
      s2.m_netEvents = h :: (cur ++ [o]).map netEvent := by
  refine ⟨_, rfl, ?_, ?_⟩
  · show s.m_netObjs ++ [some o] = _
    rw [h1]
    simp
  · show s.m_netEvents ++ [netEvent o] = _
    rw [h2]
    simp

theorem applyChange_remove (netEvent : Nat → Nat) (s : NetThreadObj) (h o : Nat)
    (cur : List Nat)
    (h1 : s.m_netObjs = none :: cur.map some) (h2 : s.m_netEvents = h :: cur.map netEvent) :
    ∃ s2, s.applyChange netEvent ⟨false, some o⟩ = some s2 ∧
      s2.m_netObjs = none :: (cur.erase o).map some ∧
      s2.m_netEvents = h :: (cur.erase o).map netEvent ∧
      (o ∉ cur → s2 = s) := by
  have hidx : List.indexOf (some o) s.m_netObjs = List.indexOf o cur + 1 := by
    rw [h1, List.indexOf_cons, indexOf_map_some]
    simp
  have hlen1 : s.m_netObjs.length = cur.length + 1 := by rw [h1]; simp
  have hlen2 : s.m_netEvents.length = cur.length + 1 := by rw [h2]; simp
  unfold NetThreadObj.applyChange
  simp only [Bool.false_eq_true, if_false]
  rw [hidx, hlen1, hlen2]
  by_cases hmem : o ∈ cur
  · have hlt : List.indexOf o cur + 1 < cur.length + 1 := by
      have := List.indexOf_lt_length.2 hmem
      omega
    rw [if_pos hlt, if_pos hlt]
    refine ⟨_, rfl, ?_, ?_, fun hn => absurd hmem hn⟩
    · show s.m_netObjs.eraseIdx (List.indexOf o cur + 1) = _
      rw [h1, List.eraseIdx_cons_succ, eraseIdx_map, eraseIdx_indexOf]
    · show s.m_netEvents.eraseIdx (List.indexOf o cur + 1) = _
      rw [h2, List.eraseIdx_cons_succ, eraseIdx_map, eraseIdx_indexOf]
  · have hge : ¬ List.indexOf o cur + 1 < cur.length + 1 := by
      have := List.indexOf_eq_length.2 hmem
      omega
    rw [if_neg hge, List.erase_of_not_mem hmem]
    exact ⟨s, rfl, h1, h2, fun _ => rfl⟩

theorem admissibleRequests_append :
    ∀ (pre post : List ChangeRequest) (cur : List Nat),
      admissibleRequests cur (pre ++ post) = true → admissibleRequests cur pre = true
  | [], _, _, _ => rfl
  | r :: pre, post, cur, h => by
    obtain ⟨add, netObj⟩ := r
    cases netObj with
    | none => simp [admissibleRequests] at h
    | some o =>
      cases add with
      | true =>
        simp only [List.cons_append, admissibleRequests, if_true, Bool.and_eq_true] at h ⊢
        exact ⟨h.1, admissibleRequests_append pre post _ h.2⟩
      | false =>
        simp only [List.cons_append, admissibleRequests, Bool.false_eq_true, if_false] at h ⊢
        exact admissibleRequests_append pre post _ h

theorem drainLoop_aligned (netEvent : Nat → Nat) (h : Nat) :
    ∀ (reqs : List ChangeRequest) (s : NetThreadObj) (cur : List Nat),
      s.m_netObjs = none :: cur.map some → s.m_netEvents = h :: cur.map netEvent →
      cur.Nodup → cur.length ≤ NET_OBJ_MAX_COUNT → admissibleRequests cur reqs = true →
      ∃ s2, NetThreadObj.drainLoop netEvent s reqs = some s2 ∧
        s2.m_netObjs = none :: (onWorkerAfter cur reqs).map some ∧
        s2.m_netEvents = h :: (onWorkerAfter cur reqs).map netEvent ∧
        (onWorkerAfter cur reqs).Nodup ∧ (onWorkerAfter cur reqs).length ≤ NET_OBJ_MAX_COUNT
  | [], s, cur, h1, h2, hnd, hlen, _ => ⟨s, rfl, h1, h2, hnd, hlen⟩
  | r :: reqs, s, cur, h1, h2, hnd, hlen, hadm => by
    obtain ⟨add, netObj⟩ := r
    cases netObj with
    | none => simp [admissibleRequests] at hadm
    | some o =>
      cases add with
      | true =>
        simp only [admissibleRequests, if_true, Bool.and_eq_true, decide_eq_true_eq] at hadm
        obtain ⟨⟨hnot, hlt⟩, hrest⟩ := hadm
        obtain ⟨s1, e1, a1, a2⟩ := applyChange_add netEvent s h o cur h1 h2
        have hnd1 : (cur ++ [o]).Nodup := by
          rw [List.nodup_append]
          exact ⟨hnd, List.nodup_singleton o, fun a ha hb => hnot (by
            rw [List.mem_singleton] at hb
            rw [← hb]
            exact ha)⟩
        have hlen1 : (cur ++ [o]).length ≤ NET_OBJ_MAX_COUNT := by
          rw [List.length_append, List.length_singleton]
          exact hlt
        obtain ⟨s2, e2, r⟩ := drainLoop_aligned netEvent h reqs s1 _ a1 a2 hnd1 hlen1 hrest
        refine ⟨s2, ?_, ?_⟩
        · simp only [NetThreadObj.drainLoop]
          rw [e1]
          exact e2
        · simpa only [onWorkerAfter, if_true] using r
      | false =>
        simp only [admissibleRequests, Bool.false_eq_true, if_false] at hadm
        obtain ⟨s1, e1, a1, a2, _⟩ := applyChange_remove netEvent s h o cur h1 h2
        have hlen1 : (cur.erase o).length ≤ NET_OBJ_MAX_COUNT :=
          le_trans (List.length_erase_le o cur) hlen
        obtain ⟨s2, e2, r⟩ :=
          drainLoop_aligned netEvent h reqs s1 _ a1 a2 (hnd.erase o) hlen1 hadm
        refine ⟨s2, ?_, ?_⟩
        · simp only [NetThreadObj.drainLoop]
          rw [e1]
          exact e2
        · simpa only [onWorkerAfter, Bool.false_eq_true, if_false] using r

/-- Two drains in a row handle the requests of both queues in order. -/
theorem drainLoop_append (netEvent : Nat → Nat) :
    ∀ (a b : List ChangeRequest) (s : NetThreadObj),
      NetThreadObj.drainLoop netEvent s (a ++ b) =
        (NetThreadObj.drainLoop netEvent s a).bind
          (fun s1 => NetThreadObj.drainLoop netEvent s1 b)
  | [], _, _ => rfl
  | r :: a, b, s => by
    simp only [List.cons_append, NetThreadObj.drainLoop]
    cases s.applyChange netEvent r with
    | none => rfl
    | some s1 => exact drainLoop_append netEvent a b s1

theorem construct_ok (env : WorkerEnv) (hc : (NetThreadObj.new.construct env).1 = CL_ERR_OK) :
    ∃ h, env.interruptEvent = .ok h ∧
      (NetThreadObj.new.construct env).2.m_netObjs = [none] ∧
      (NetThreadObj.new.construct env).2.m_netEvents = [h] := by
  unfold NetThreadObj.construct at hc ⊢
  cases h1 : env.interruptEvent with
  | error e =>
    rw [h1] at hc
    exact absurd hc (ne_of_gt e.property)
  | ok h =>
    rw [h1] at hc
    refine ⟨h, rfl, ?_⟩
    cases h2 : env.startShutdownEvent with
    | error e => exact ⟨rfl, rfl⟩
    | ok a =>
      cases h3 : env.isShutdownEvent with
      | error e => exact ⟨rfl, rfl⟩
      | ok b => exact ⟨rfl, rfl⟩

/-- C27 (worker array well-formedness). Let a worker be constructed, and let
`pre ++ post` be a sequence of change requests that the pool can enqueue on it
(no null object, an object is added only when it is not on the worker, at most
`NET_OBJ_MAX_COUNT` objects are on it at any point). When the worker drains a
queue that holds the first part `pre`, the drain completes and afterwards: the
object list and the handle list have equal length; entry 0 is the interrupt
handle paired with the null object; the entries from 1 on are the objects
added and not removed, in the order they were added, each paired with its own
wait handle; the handle list holds at most `WSA_MAXIMUM_WAIT_EVENTS` entries;
and a following remove request erases the pair of the requested object and no
other pair, and changes nothing when the object is not on the worker. -/
theorem C27_worker_arrays (netEvent : Nat → Nat) (env : WorkerEnv)
    (pre post : List ChangeRequest)
    (hc : (NetThreadObj.new.construct env).1 = CL_ERR_OK)
    (hadm : admissibleRequests [] (pre ++ post) = true) :
    ∃ s h, env.interruptEvent = .ok h ∧
      NetThreadObj.drain netEvent
        { (NetThreadObj.new.construct env).2 with m_changeRequests := pre } = some s ∧
      s.m_changeRequests = [] ∧
      s.m_netObjs.length = s.m_netEvents.length ∧
      s.m_netEvents.head? = some h ∧ s.m_netObjs.head? = some none ∧
      s.m_netObjs = none :: (onWorkerAfter [] pre).map some ∧
      s.m_netEvents = h :: (onWorkerAfter [] pre).map netEvent ∧
      (∀ i, 1 ≤ i → i < s.m_netObjs.length →
        ∃ o, s.m_netObjs[i]? = some (some o) ∧ s.m_netEvents[i]? = some (netEvent o)) ∧
      s.m_netEvents.length ≤ WSA_MAXIMUM_WAIT_EVENTS ∧
      (onWorkerAfter [] pre).Nodup ∧
      (∀ o, ∃ s2, s.applyChange netEvent ⟨false, some o⟩ = some s2 ∧
        s2.m_netObjs = none :: ((onWorkerAfter [] pre).erase o).map some ∧
        s2.m_netEvents = h :: ((onWorkerAfter [] pre).erase o).map netEvent ∧
        (some o ∉ s.m_netObjs → s2 = s) ∧ some o ∉ s2.m_netObjs) := by
  obtain ⟨h, hi, c1, c2⟩ := construct_ok env hc
  have hpre := admissibleRequests_append pre post [] hadm
  obtain ⟨s1, e1, a1, a2, hnd, hlen⟩ := drainLoop_aligned netEvent h pre
    { (NetThreadObj.new.construct env).2 with m_changeRequests := pre } []
    c1 c2 List.nodup_nil (Nat.zero_le _) hpre
  generalize onWorkerAfter [] pre = cur at a1 a2 hnd hlen
  refine ⟨{ s1 with m_changeRequests := [] }, h, hi, ?_, rfl, ?_, ?_, ?_, a1, a2, ?_, ?_, hnd, ?_⟩
  · unfold NetThreadObj.drain
    rw [e1]
    rfl
  · show s1.m_netObjs.length = s1.m_netEvents.length
    rw [a1, a2]
    simp
  · show s1.m_netEvents.head? = some h
    rw [a2]
    rfl
  · show s1.m_netObjs.head? = some none
    rw [a1]
    rfl
  · intro i hi1 hi2
    have hi3 : i < s1.m_netObjs.length := hi2
    rw [a1] at hi3
    simp only [List.length_cons, List.length_map] at hi3
    obtain ⟨j, rfl⟩ : ∃ j, i = j + 1 := ⟨i - 1, by omega⟩
    have hj : j < cur.length := by omega
    refine ⟨cur.get ⟨j, hj⟩, ?_, ?_⟩
    · show s1.m_netObjs[j + 1]? = _
      rw [a1, List.getElem?_cons_succ, List.getElem?_map, List.getElem?_eq_getElem hj]
      rfl
    · show s1.m_netEvents[j + 1]? = _
      rw [a2, List.getElem?_cons_succ, List.getElem?_map, List.getElem?_eq_getElem hj]
      rfl
  · show s1.m_netEvents.length ≤ 64
    rw [a2]
    simp only [List.length_cons, List.length_map]
    have : cur.length ≤ 63 := hlen
    omega
  · intro o
    obtain ⟨s2, e2, b1, b2, b3⟩ :=
      applyChange_remove netEvent { s1 with m_changeRequests := [] } h o cur a1 a2
    refine ⟨s2, e2, b1, b2, fun hn => b3 (fun hm => hn ?_), ?_⟩
    · show some o ∈ s1.m_netObjs
      rw [a1]
      exact List.mem_cons_of_mem _ (List.mem_map_of_mem some hm)
    · rw [b1]
      intro hm
      rcases List.mem_cons.1 hm with hm | hm
      · cases hm
      · obtain ⟨a, ha, hao⟩ := List.mem_map.1 hm
        have : a = o := Option.some.inj hao
        rw [this] at ha
        exact (List.Nodup.not_mem_erase hnd) ha

/-- The statement C27 at a worker whose queue holds add 1, add 2, remove 1 out
of the requests add 1, add 2, remove 1, remove 5, add 3: after the drain the
object 2 is behind the interrupt event, paired with its handle 1002. -/
theorem C27_worker_arrays_witness :
    (NetThreadObj.new.construct demoWorkerEnv).1 = CL_ERR_OK ∧
    admissibleRequests [] (demoRequests.take 3 ++ demoRequests.drop 3) = true ∧
    NetThreadObj.drain demoNetEvent
      { (NetThreadObj.new.construct demoWorkerEnv).2 with
          m_changeRequests := demoRequests.take 3 } =
      some { m_netEvents := [100, 1002], m_netObjs := [none, some 2], m_changeRequests := [],
             m_startShutdownEvent := some 101, m_isShutdownEvent := some 102 } ∧
    ∃ s h, demoWorkerEnv.interruptEvent = .ok h ∧
      NetThreadObj.drain demoNetEvent
        { (NetThreadObj.new.construct demoWorkerEnv).2 with
            m_changeRequests := demoRequests.take 3 } = some s ∧
      s.m_changeRequests = [] ∧
      s.m_netObjs.length = s.m_netEvents.length :=
  ⟨by decide, by decide, by decide,
    (C27_worker_arrays demoNetEvent demoWorkerEnv (demoRequests.take 3) (demoRequests.drop 3)
      (by decide) (by decide)).imp
      (fun _ hs => hs.imp (fun _ hh => ⟨hh.1, hh.2.1, hh.2.2.1, hh.2.2.2.1⟩))⟩

/-! ### The teardown window -/

theorem finishCreateSocketObj_flag (lib : Lib) (addr : Nat) (sktObj : SocketObj)
    (penv : PoolEnv) (resolver : ResolverEnv) (calls : List PlatformCall) :
    (finishCreateSocketObj lib addr sktObj penv resolver calls).lib.s_uninitializing =
      lib.s_uninitializing := by
  unfold finishCreateSocketObj
  dsimp only
  split <;> rfl

theorem finishCreateSrvSocketObj_flag (lib : Lib) (addr : Nat) (srvSktObj : SrvSocketObj)
    (penv : PoolEnv) (calls : List PlatformCall) :
    (finishCreateSrvSocketObj lib addr srvSktObj penv calls).lib.s_uninitializing =
      lib.s_uninitializing := by
  unfold finishCreateSrvSocketObj
  dsimp only
  split <;> rfl

theorem shared_keeps_flag (lib : Lib) (c : ApiCall) (hs : c.isShared = true) :
    (c.run lib).lib.s_uninitializing = lib.s_uninitializing := by
  cases c with
  | startup e => cases hs
  | cleanup env => cases hs
  | createSrvSocket args env penv =>
    simp only [ApiCall.run, CLCreateSrvSocket]
    split
    · rfl
    · split
      · rfl
      · split
        · exact finishCreateSrvSocketObj_flag _ _ _ _ _
        · rfl
  | acceptCon srvSkt args aenv env penv =>
    simp only [ApiCall.run, CLAcceptCon]
    split
    · rfl
    · split
      · rfl
      · split
        · rfl
        · split
          · split
            · exact finishCreateSocketObj_flag _ _ _ _ _ _
            · rfl
          · rfl
  | deleteSrvSocket srvSkt isShutdown =>
    simp only [ApiCall.run, CLDeleteSrvSocket]
    split
    · rfl
    · split <;> rfl
  | createSocket args env penv =>
    simp only [ApiCall.run, CLCreateSocket]
    split
    · rfl
    · split
      · rfl
      · split
        · exact finishCreateSocketObj_flag _ _ _ _ _ _
        · rfl
  | createSocketAsync args env penv =>
    simp only [ApiCall.run, CLCreateSocketAsync]
    split
    · rfl
    · split
      · rfl
      · split
        · exact finishCreateSocketObj_flag _ _ _ _ _ _
        · rfl
  | sendData skt buf len env =>
    simp only [ApiCall.run, CLSendData]
    split
    · rfl
    · split
      · rfl
      · split
        · rfl
        · split
          · rfl
          · split
            · rfl
            · split <;> rfl
  | deleteSocket skt isShutdown resolver =>
    simp only [ApiCall.run, CLDeleteSocket]
    split
    · rfl
    · split <;> rfl

theorem shared_early (lib : Lib) (c : ApiCall) (hs : c.isShared = true)
    (hcount : lib.s_startupCount ≤ 0) :
    c.run lib =
      ApiResult.early lib (if c.isDelete = true then CL_ERR_OK else CL_ERR_NOT_INITIALIZED) := by
  cases c with
  | startup e => cases hs
  | cleanup env => cases hs
  | createSrvSocket args env penv => simp [ApiCall.run, CLCreateSrvSocket, hcount, ApiCall.isDelete]
  | acceptCon srvSkt args aenv env penv => simp [ApiCall.run, CLAcceptCon, hcount, ApiCall.isDelete]
  | deleteSrvSocket srvSkt isShutdown => simp [ApiCall.run, CLDeleteSrvSocket, hcount, ApiCall.isDelete]
  | createSocket args env penv => simp [ApiCall.run, CLCreateSocket, hcount, ApiCall.isDelete]
  | createSocketAsync args env penv =>
    simp [ApiCall.run, CLCreateSocketAsync, hcount, ApiCall.isDelete]
  | sendData skt buf len env => simp [ApiCall.run, CLSendData, hcount, ApiCall.isDelete]
  | deleteSocket skt isShutdown resolver => simp [ApiCall.run, CLDeleteSocket, hcount, ApiCall.isDelete]

theorem CLStartup_flag (lib : Lib) (e : Int) :
    (CLStartup lib e).lib.s_uninitializing = lib.s_uninitializing := by
  unfold CLStartup
  dsimp only
  split
  · split <;> rfl
  · rfl

theorem beforeWait_flag (lib : Lib) (env : CleanupEnv) (hflag : lib.s_uninitializing = false) :
    ((CLCleanup.beforeWait lib env).lib.s_uninitializing = true ↔
      (CLCleanup.beforeWait lib env).lib.s_startupCount = 0) ∧
    ((CLCleanup.beforeWait lib env).lib.s_uninitializing = true →
      (CLCleanup.beforeWait lib env).lib.s_srvSocketRegistry.m_hndToSktObjMap = [] ∧
      (CLCleanup.beforeWait lib env).lib.s_socketRegistry.m_hndToSktObjMap = []) := by
  unfold CLCleanup.beforeWait
  dsimp only
  by_cases h : wrapInt32 (lib.s_startupCount - 1) = 0
  · rw [if_pos h]
    exact ⟨⟨fun _ => h, fun _ => rfl⟩, fun _ => ⟨rfl, rfl⟩⟩
  · rw [if_neg h]
    refine ⟨⟨fun hf => ?_, fun hc => absurd hc h⟩, fun hf => ?_⟩
    · have : lib.s_uninitializing = true := hf
      rw [hflag] at this
      cases this
    · have : lib.s_uninitializing = true := hf
      rw [hflag] at this
      cases this

/-- The barrier as an invariant of the steps: while `s_uninitializing` is set,
the start count is 0 and both registries are empty. -/
theorem runLifecycle_barrier :
    ∀ (steps : List LifecycleStep) (lib0 lib : Lib),
      (lib0.s_uninitializing = true → lib0.s_startupCount = 0 ∧
        lib0.s_srvSocketRegistry.m_hndToSktObjMap = [] ∧
        lib0.s_socketRegistry.m_hndToSktObjMap = []) →
      runLifecycle lib0 steps = some lib →
      (lib.s_uninitializing = true → lib.s_startupCount = 0 ∧
        lib.s_srvSocketRegistry.m_hndToSktObjMap = [] ∧
        lib.s_socketRegistry.m_hndToSktObjMap = [])
  | [], lib0, lib, h0, hrun => by
    have : lib0 = lib := Option.some.inj hrun
    rw [← this]
    exact h0
  | s :: rest, lib0, lib, h0, hrun => by
    unfold runLifecycle at hrun
    by_cases hen : s.enabled lib0 = true
    · rw [if_pos hen] at hrun
      refine runLifecycle_barrier rest (s.run lib0) lib ?_ hrun
      cases s with
      | startup e =>
        intro hf
        have hf0 : lib0.s_uninitializing = true := by
          rw [← CLStartup_flag lib0 e]
          exact hf
        simp [LifecycleStep.enabled, hf0] at hen
      | cleanupBegin env =>
        have hf0 : lib0.s_uninitializing = false := by
          simpa [LifecycleStep.enabled] using hen
        intro hf
        obtain ⟨a, b⟩ := beforeWait_flag lib0 env hf0
        exact ⟨a.1 hf, b hf⟩
      | cleanupEnd env =>
        intro hf
        cases hf
      | shared c =>
        have hs : c.isShared = true := hen
        intro hf
        have hf0 : lib0.s_uninitializing = true := by
          rw [← shared_keeps_flag lib0 c hs]
          exact hf
        obtain ⟨c0, r1, r2⟩ := h0 hf0
        have : (c.run lib0).lib = lib0 := by
          rw [shared_early lib0 c hs (le_of_eq c0)]
          rfl
        show (c.run lib0).lib.s_startupCount = 0 ∧
          (c.run lib0).lib.s_srvSocketRegistry.m_hndToSktObjMap = [] ∧
          (c.run lib0).lib.s_socketRegistry.m_hndToSktObjMap = []
        rw [this]
        exact ⟨c0, r1, r2⟩
    · rw [if_neg hen] at hrun
      cases hrun

/-- C28 (uninitializing barrier). Let `lib` be a state reached from the initial
state by steps of the lifecycle: `CLStartup`, `CLCleanup` in its two phases
(before and after the wait for the pool), and calls of the shared kind in
between. If `s_uninitializing` is set in `lib`, the start count is 0 and both
registries are empty, and every call of the shared kind made in `lib` returns
`CL_ERR_NOT_INITIALIZED` (the two delete calls return nothing), makes no
platform call and no call on a worker, invokes no callback and leaves the
library as it is. The flag is not set when `CLStartup` has returned, when the
first phase of `CLCleanup` has returned with a count other than 0 (the call
then returns), and when the second phase has returned. -/
theorem C28_uninitializing_barrier (steps : List LifecycleStep) (lib : Lib)
    (hrun : runLifecycle Lib.initial steps = some lib) :
    (lib.s_uninitializing = true →
      lib.s_startupCount = 0 ∧ lib.s_srvSocketRegistry.m_hndToSktObjMap = [] ∧
      lib.s_socketRegistry.m_hndToSktObjMap = []) ∧
    (lib.s_uninitializing = true → ∀ c : ApiCall, c.isShared = true →
      c.run lib =
        ApiResult.early lib
          (if c.isDelete = true then CL_ERR_OK else CL_ERR_NOT_INITIALIZED) ∧
      (c.run lib).lib = lib ∧ (c.run lib).calls = [] ∧ (c.run lib).requests = [] ∧
      (c.run lib).callbacks = []) ∧
    (∀ e, (LifecycleStep.startup e).enabled lib = true →
      (CLStartup lib e).lib.s_uninitializing = false) ∧
    (∀ env, (LifecycleStep.cleanupBegin env).enabled lib = true →
      (CLCleanup.beforeWait lib env).lib.s_startupCount ≠ 0 →
      (CLCleanup.beforeWait lib env).lib.s_uninitializing = false) ∧
    (∀ env, (CLCleanup.afterWait lib env).lib.s_uninitializing = false) := by
  have hinv := runLifecycle_barrier steps Lib.initial lib (fun h => by cases h) hrun
  refine ⟨hinv, fun hf c hs => ?_, fun e hen => ?_, fun env hen hc => ?_, fun env => rfl⟩
  · have he := shared_early lib c hs (le_of_eq (hinv hf).1)
    rw [he]
    exact ⟨rfl, rfl, rfl, rfl, rfl⟩
  · rw [CLStartup_flag]
    simpa [LifecycleStep.enabled] using hen
  · have hf0 : lib.s_uninitializing = false := by
      simpa [LifecycleStep.enabled] using hen
    obtain ⟨a, _⟩ := beforeWait_flag lib env hf0
    cases hflag : (CLCleanup.beforeWait lib env).lib.s_uninitializing with
    | false => rfl
    | true => exact absurd (a.1 hflag) hc

/-- The statement C28 in the teardown window that follows `CLStartup`, the
creation of a client socket and the first phase of `CLCleanup`: the flag is
set, the count is 0, the registries are empty and `CLSendData` on the handle
of the socket returns `CL_ERR_NOT_INITIALIZED`. -/
theorem C28_uninitializing_barrier_witness :
    runLifecycle Lib.initial demoTeardown = some demoTeardownLib ∧
    demoTeardownLib.s_uninitializing = true ∧
    (demoTeardownLib.s_uninitializing = true →
      demoTeardownLib.s_startupCount = 0 ∧
      demoTeardownLib.s_srvSocketRegistry.m_hndToSktObjMap = [] ∧
      demoTeardownLib.s_socketRegistry.m_hndToSktObjMap = []) ∧
    (ApiCall.sendData 1000 (some hello) 5 SendEnv.peerClosesAfterPrefix).run demoTeardownLib =
      ApiResult.early demoTeardownLib CL_ERR_NOT_INITIALIZED :=
  ⟨by decide, by decide,
    (C28_uninitializing_barrier demoTeardown demoTeardownLib (by decide)).1,
    ((C28_uninitializing_barrier demoTeardown demoTeardownLib (by decide)).2.1 (by decide)
      (ApiCall.sendData 1000 (some hello) 5 SendEnv.peerClosesAfterPrefix) rfl).1⟩

/-! ### The bounds of the receive buffer -/

theorem ntohs_take (a : List Byte) : ntohs (a.take 2) = ntohs a := by
  match a with
  | [] => rfl
  | [_] => rfl
  | _ :: _ :: _ => rfl

theorem ntohs_congr (a b : List Byte) (h : a.take 2 = b.take 2) : ntohs a = ntohs b := by
  rw [← ntohs_take a, ← ntohs_take b, h]

theorem ntohs_range (a : List Byte) : 0 ≤ ntohs a ∧ ntohs a ≤ 65535 := by
  unfold ntohs
  have h0 := (a.getD 0 0).isLt
  have h1 := (a.getD 1 0).isLt
  constructor
  · exact Int.natCast_nonneg _
  · have : (a.getD 0 0).val * 256 + (a.getD 1 0).val ≤ 65535 := by omega
    exact_mod_cast this

theorem writeAt_length (v : List Byte) (off : Nat) (bs : List Byte)
    (h : off + bs.length ≤ v.length) : (writeAt v off bs).length = v.length := by
  unfold writeAt
  simp only [List.length_append, List.length_take, List.length_drop]
  omega

theorem writeAt_take (v : List Byte) (off : Nat) (bs : List Byte) (h2 : 2 ≤ off)
    (h : off ≤ v.length) : (writeAt v off bs).take 2 = v.take 2 := by
  unfold writeAt
  rw [List.append_assoc, List.take_append_of_le_length (by simp; omega), List.take_take]
  congr 1
  omega

theorem recvInto_script (s : SocketObj) (p : RecvScript) (h0 : 0 ≤ s.m_DataRecvLen)
    (h1 : s.m_DataRecvLen < s.m_DataRecvBuf.length) :
    (SocketObj.recvInto RecvScript.recv s p).2.requested =
      p.requested ++ [(s.m_DataRecvBuf.length : Int) - s.m_DataRecvLen] ∧
    (SocketObj.recvInto RecvScript.recv s p).1.m_DataRecvBuf.length = s.m_DataRecvBuf.length ∧
    s.m_DataRecvLen ≤ (SocketObj.recvInto RecvScript.recv s p).1.m_DataRecvLen ∧
    (SocketObj.recvInto RecvScript.recv s p).1.m_DataRecvLen ≤ s.m_DataRecvBuf.length ∧
    (2 ≤ s.m_DataRecvLen →
      (SocketObj.recvInto RecvScript.recv s p).1.m_DataRecvBuf.take 2 =
        s.m_DataRecvBuf.take 2) ∧
    (SocketObj.recvInto RecvScript.recv s p).1.m_socket = s.m_socket := by
  unfold SocketObj.recvInto RecvScript.recv
  cases hq : p.outcomes with
  | nil => exact ⟨rfl, rfl, le_refl _, le_of_lt h1, fun _ => rfl, rfl⟩
  | cons o rest =>
    cases o with
    | error e => exact ⟨rfl, rfl, le_refl _, le_of_lt h1, fun _ => rfl, rfl⟩
    | bytes bs =>
      dsimp only
      have hlen : (bs.take ((s.m_DataRecvBuf.length : Int) - s.m_DataRecvLen).toNat).length ≤
          ((s.m_DataRecvBuf.length : Int) - s.m_DataRecvLen).toNat := by
        rw [List.length_take]
        exact Nat.min_le_left _ _
      generalize bs.take ((s.m_DataRecvBuf.length : Int) - s.m_DataRecvLen).toNat = cut at hlen
      have hfit : s.m_DataRecvLen.toNat + cut.length ≤ s.m_DataRecvBuf.length := by omega
      refine ⟨rfl, writeAt_length _ _ _ hfit, by omega, by omega, fun h2 => ?_, rfl⟩
      exact writeAt_take _ _ _ (by omega) (by omega)

theorem onFdReadPayload_script (s1 : SocketObj) (p1 : RecvScript)
    (h0 : 0 ≤ s1.m_DataRecvLen) (h1 : s1.m_DataRecvLen ≤ s1.m_DataRecvBuf.length)
    (h2 : s1.m_DataRecvBuf.length ≤ 65537)
    (h3 : 2 < s1.m_DataRecvLen → s1.m_DataRecvLen < 2 + ntohs s1.m_DataRecvBuf) :
    (SocketObj.onFdReadPayload RecvScript.recv s1 p1).1.recvBounds ∧
    (SocketObj.onFdReadPayload RecvScript.recv s1 p1).1.m_socket = s1.m_socket ∧
    (∃ new, (SocketObj.onFdReadPayload RecvScript.recv s1 p1).2.1.requested =
        p1.requested ++ new ∧
      ((s1.m_DataRecvLen < 2 ∧ new = []) ∨
        (s1.m_DataRecvLen = 2 ∧ ntohs s1.m_DataRecvBuf = 0 ∧ new = []) ∨
        (2 ≤ s1.m_DataRecvLen ∧ 1 ≤ ntohs s1.m_DataRecvBuf ∧
          new = [ntohs s1.m_DataRecvBuf + 2 - s1.m_DataRecvLen]))) ∧
    (SocketObj.onFdReadPayload RecvScript.recv s1 p1).2.2.length ≤ 1 ∧
    (∀ cb ∈ (SocketObj.onFdReadPayload RecvScript.recv s1 p1).2.2,
      ∃ buf len, cb = .dataRecv buf len ∧ 1 ≤ len ∧ len ≤ 65535 ∧ (buf.length : Int) = len) := by
  obtain ⟨hr0, hr1⟩ := ntohs_range s1.m_DataRecvBuf
  unfold SocketObj.onFdReadPayload
  by_cases hge : s1.m_DataRecvLen ≥ PREFIX_LEN
  · have hge2 : 2 ≤ s1.m_DataRecvLen := hge
    rw [if_pos hge]
    dsimp only
    by_cases hp : ntohs s1.m_DataRecvBuf > 0
    · rw [if_pos hp]
      have hlenN : (PREFIX_LEN + ntohs s1.m_DataRecvBuf).toNat =
          2 + (ntohs s1.m_DataRecvBuf).toNat := by
        show (2 + ntohs s1.m_DataRecvBuf).toNat = _
        omega
      have hbl : (resize s1.m_DataRecvBuf (PREFIX_LEN + ntohs s1.m_DataRecvBuf).toNat).length
          = 2 + (ntohs s1.m_DataRecvBuf).toNat := by
        rw [resize_length, hlenN]
      have hlt : s1.m_DataRecvLen < 2 + ntohs s1.m_DataRecvBuf := by
        by_cases h : 2 < s1.m_DataRecvLen
        · exact h3 h
        · omega
      obtain ⟨a1, a2, a3, a4, a5, a6⟩ := recvInto_script
        { s1 with m_DataRecvBuf :=
            resize s1.m_DataRecvBuf (PREFIX_LEN + ntohs s1.m_DataRecvBuf).toNat } p1 h0
        (by
          show s1.m_DataRecvLen < ((resize s1.m_DataRecvBuf
            (PREFIX_LEN + ntohs s1.m_DataRecvBuf).toNat).length : Int)
          rw [hbl]
          omega)
      have a5b := a5 hge2
      cases hrec : SocketObj.recvInto RecvScript.recv
        { s1 with m_DataRecvBuf :=
            resize s1.m_DataRecvBuf (PREFIX_LEN + ntohs s1.m_DataRecvBuf).toNat } p1 with
      | mk s2 p2 =>
        rw [hrec] at a1 a2 a3 a4 a5b a6
        simp only at a1 a2 a3 a4 a5b a6
        rw [hbl] at a2 a4
        have hreq : ((resize s1.m_DataRecvBuf
            (PREFIX_LEN + ntohs s1.m_DataRecvBuf).toNat).length : Int) - s1.m_DataRecvLen =
            ntohs s1.m_DataRecvBuf + 2 - s1.m_DataRecvLen := by
          rw [hbl]
          omega
        rw [hreq] at a1
        have hnt : ntohs s2.m_DataRecvBuf = ntohs s1.m_DataRecvBuf := by
          apply ntohs_congr
          rw [a5b]
          exact take_resize _ _ _ (by omega) (by omega)
        dsimp only
        by_cases hfull : s2.m_DataRecvLen = PREFIX_LEN + ntohs s1.m_DataRecvBuf
        · rw [if_pos hfull, if_pos hp]
          refine ⟨⟨le_refl _, le_refl _, by simp, fun h => by simp at h⟩, a6,
            ⟨_, a1, Or.inr (Or.inr ⟨hge2, by omega, rfl⟩)⟩, le_refl _, fun cb hcb => ?_⟩
          rw [List.mem_singleton] at hcb
          refine ⟨_, _, hcb, by omega, hr1, ?_⟩
          rw [List.length_drop, a2]
          show ((2 + (ntohs s1.m_DataRecvBuf).toNat - (2 : Int).toNat : Nat) : Int) = _
          have : (2 : Int).toNat = 2 := rfl
          rw [this]
          omega
        · rw [if_neg hfull]
          have hfull2 : ¬ s2.m_DataRecvLen = 2 + ntohs s1.m_DataRecvBuf := hfull
          have b3 : s1.m_DataRecvLen ≤ s2.m_DataRecvLen := a3
          have g1 : 0 ≤ s2.m_DataRecvLen := by omega
          have g2 : s2.m_DataRecvLen ≤ (s2.m_DataRecvBuf.length : Int) := by
            rw [a2]
            exact a4
          have g3 : s2.m_DataRecvBuf.length ≤ 65537 := by
            rw [a2]
            omega
          have g4 : 2 ≤ s2.m_DataRecvLen → s2.m_DataRecvLen < 2 + ntohs s2.m_DataRecvBuf := by
            intro _
            rw [hnt]
            omega
          refine ⟨⟨g1, g2, g3, g4⟩, a6,
            ⟨_, a1, Or.inr (Or.inr ⟨hge2, by omega, rfl⟩)⟩, Nat.zero_le _,
            fun cb hcb => by cases hcb⟩
    · rw [if_neg hp]
      have hz : ntohs s1.m_DataRecvBuf = 0 := by omega
      have hlen2 : s1.m_DataRecvLen = 2 := by
        by_cases h : 2 < s1.m_DataRecvLen
        · have := h3 h
          omega
        · omega
      have hfull : s1.m_DataRecvLen = PREFIX_LEN + ntohs s1.m_DataRecvBuf := by
        rw [hz, hlen2]
        rfl
      dsimp only
      rw [if_pos hfull, if_neg hp]
      refine ⟨⟨le_refl _, le_refl _, by simp, fun h => by simp at h⟩, rfl,
        ⟨[], (List.append_nil _).symm, Or.inr (Or.inl ⟨hlen2, hz, rfl⟩)⟩, Nat.zero_le _,
        fun cb hcb => by cases hcb⟩
  · rw [if_neg hge]
    have hlt : s1.m_DataRecvLen < 2 := by
      have : ¬ (2 ≤ s1.m_DataRecvLen) := hge
      omega
    have g4 : 2 ≤ s1.m_DataRecvLen → s1.m_DataRecvLen < 2 + ntohs s1.m_DataRecvBuf := by
      intro h
      omega
    exact ⟨⟨h0, h1, h2, g4⟩, rfl,
      ⟨[], (List.append_nil _).symm, Or.inl ⟨hlt, rfl⟩⟩, Nat.zero_le _,
      fun cb hcb => by cases hcb⟩

theorem onFdRead_script (s : SocketObj) (p : RecvScript) (hb : s.recvBounds) :
    (s.onFdRead RecvScript.recv p).1.recvBounds ∧
    (s.onFdRead RecvScript.recv p).1.m_socket = s.m_socket ∧
    (∃ new, (s.onFdRead RecvScript.recv p).2.1.requested = p.requested ++ new ∧
      s.recvSizes new ∧ new.length ≤ 2 ∧ ∀ x ∈ new, 1 ≤ x) ∧
    (s.onFdRead RecvScript.recv p).2.2.length ≤ 1 ∧
    (∀ cb ∈ (s.onFdRead RecvScript.recv p).2.2,
      ∃ buf len, cb = .dataRecv buf len ∧ 1 ≤ len ∧ len ≤ 65535 ∧ (buf.length : Int) = len) := by
  obtain ⟨h0, h1, h2, h3⟩ := hb
  unfold SocketObj.onFdRead
  by_cases hs : s.m_socket = none
  · rw [if_pos hs]
    exact ⟨⟨h0, h1, h2, h3⟩, rfl,
      ⟨[], (List.append_nil _).symm, Or.inl ⟨hs, rfl⟩, Nat.zero_le _,
        fun x hx => by cases hx⟩,
      Nat.zero_le _, fun cb hcb => by cases hcb⟩
  · rw [if_neg hs]
    by_cases hlt : s.m_DataRecvLen < PREFIX_LEN
    · have hlt2 : s.m_DataRecvLen < 2 := hlt
      rw [if_pos hlt]
      have hbl : (resize s.m_DataRecvBuf PREFIX_LEN.toNat).length = 2 := resize_length _ _
      obtain ⟨a1, a2, a3, a4, _, a6⟩ := recvInto_script
        { s with m_DataRecvBuf := resize s.m_DataRecvBuf PREFIX_LEN.toNat } p h0
        (by
          show s.m_DataRecvLen < ((resize s.m_DataRecvBuf PREFIX_LEN.toNat).length : Int)
          rw [hbl]
          exact hlt2)
      cases hrec : SocketObj.recvInto RecvScript.recv
        { s with m_DataRecvBuf := resize s.m_DataRecvBuf PREFIX_LEN.toNat } p with
      | mk s1 p1 =>
        rw [hrec] at a1 a2 a3 a4 a6
        simp only at a1 a2 a3 a4 a6
        rw [hbl] at a2 a4
        have b3 : s.m_DataRecvLen ≤ s1.m_DataRecvLen := a3
        have b4 : s1.m_DataRecvLen ≤ 2 := a4
        have b1 : p1.requested = p.requested ++ [2 - s.m_DataRecvLen] := by
          rw [a1]
          show p.requested ++
            [((resize s.m_DataRecvBuf PREFIX_LEN.toNat).length : Int) - s.m_DataRecvLen] = _
          rw [hbl]
          rfl
        have c1 : s1.m_DataRecvLen ≤ (s1.m_DataRecvBuf.length : Int) := by
          rw [a2]
          exact b4
        obtain ⟨r1, r2, ⟨new2, r3, r4⟩, r5, r6⟩ := onFdReadPayload_script s1 p1
          (by omega) c1 (by rw [a2]; decide) (fun h => by omega)
        dsimp only
        refine ⟨r1, r2.trans a6, ⟨(2 - s.m_DataRecvLen) :: new2, ?_, ?_, ?_, ?_⟩, r5, r6⟩
        · rw [r3, b1, List.append_assoc]
          rfl
        · rcases r4 with ⟨_, e⟩ | ⟨_, _, e⟩ | ⟨c2, c3, e⟩
          · rw [e]
            exact Or.inr (Or.inl ⟨hs, hlt2, Or.inl rfl⟩)
          · rw [e]
            exact Or.inr (Or.inl ⟨hs, hlt2, Or.inl rfl⟩)
          · have hr := (ntohs_range s1.m_DataRecvBuf).2
            have e2 : s1.m_DataRecvLen = 2 := by omega
            rw [e, e2]
            exact Or.inr (Or.inl ⟨hs, hlt2, Or.inr ⟨_, c3, hr, rfl⟩⟩)
        · rcases r4 with ⟨_, e⟩ | ⟨_, _, e⟩ | ⟨_, _, e⟩ <;> rw [e] <;> simp
        · intro x hx
          rcases List.mem_cons.1 hx with hx | hx
          · rw [hx]
            omega
          · rcases r4 with ⟨_, e⟩ | ⟨_, _, e⟩ | ⟨c2, c3, e⟩
            · rw [e] at hx
              cases hx
            · rw [e] at hx
              cases hx
            · rw [e, List.mem_singleton] at hx
              rw [hx]
              omega
    · rw [if_neg hlt]
      have hge : 2 ≤ s.m_DataRecvLen := by
        have : ¬ s.m_DataRecvLen < 2 := hlt
        omega
      obtain ⟨r1, r2, ⟨new2, r3, r4⟩, r5, r6⟩ := onFdReadPayload_script s p h0 h1 h2
        (fun _ => h3 hge)
      have h3b := h3 hge
      dsimp only
      refine ⟨r1, r2, ⟨new2, r3, ?_, ?_, ?_⟩, r5, r6⟩
      · rcases r4 with ⟨c, _⟩ | ⟨_, c, _⟩ | ⟨_, _, e⟩
        · omega
        · omega
        · exact Or.inr (Or.inr ⟨hs, hge, e⟩)
      · rcases r4 with ⟨_, e⟩ | ⟨_, _, e⟩ | ⟨_, _, e⟩ <;> rw [e] <;> simp
      · intro x hx
        rcases r4 with ⟨_, e⟩ | ⟨_, _, e⟩ | ⟨_, _, e⟩
        · rw [e] at hx
          cases hx
        · rw [e] at hx
          cases hx
        · rw [e, List.mem_singleton] at hx
          rw [hx]
          omega

theorem onFdReads_bounds :
    ∀ (k : Nat) (s : SocketObj) (p : RecvScript), s.recvBounds →
      (SocketObj.onFdReads k s p).1.recvBounds
  | 0, _, _, h => h
  | k + 1, s, p, h => by
    simp only [SocketObj.onFdReads]
    exact onFdReads_bounds k _ _ (onFdRead_script s p h).1

theorem onFdRead_zero_prefix (fd ev : Nat) (rest : List RecvResult) :
    (SocketObj.connected fd ev).onFdRead RecvScript.recv ⟨.bytes [0, 0] :: rest, []⟩ =
      (SocketObj.connected fd ev, ⟨rest, [2]⟩, []) := by
  simp [SocketObj.onFdRead, SocketObj.connected, SocketObj.recvInto, RecvScript.recv,
    SocketObj.onFdReadPayload, resize, writeAt, ntohs]

/-- C29 (receive-buffer bounds). Let a socket object start within the bounds
(filled length from 0 to the buffer length, buffer length at most 65537, as
after construction) and let `onFdRead` be invoked again and again, every
`recv` answering with an error or with any number of bytes from 0 up to the
size requested. Before and after each invocation the bounds hold. In each
invocation the sizes requested from `recv`, each at the offset of the filled
length, are: in the prefix stage the 1 or 2 bytes the prefix lacks, in a buffer
of length 2; in the payload stage the `prefixValue + 2 - filled` bytes the
frame lacks, in a buffer of length `prefixValue + 2`; they are strictly
positive and at most two. Each invocation invokes at most one callback, a
data-received callback whose length is between 1 and 65535 and is the number
of bytes passed. A frame whose prefix is 0 is consumed without a callback. -/
theorem C29_recv_buffer_bounds (s0 : SocketObj) (p0 : RecvScript) (k : Nat)
    (h : s0.recvBounds) :
    (SocketObj.onFdReads k s0 p0).1.recvBounds ∧
    ((SocketObj.onFdReads k s0 p0).1.onFdRead RecvScript.recv
      (SocketObj.onFdReads k s0 p0).2.1).1.recvBounds ∧
    (∃ new,
      ((SocketObj.onFdReads k s0 p0).1.onFdRead RecvScript.recv
        (SocketObj.onFdReads k s0 p0).2.1).2.1.requested =
          (SocketObj.onFdReads k s0 p0).2.1.requested ++ new ∧
      (SocketObj.onFdReads k s0 p0).1.recvSizes new ∧ new.length ≤ 2 ∧ ∀ x ∈ new, 1 ≤ x) ∧
    ((SocketObj.onFdReads k s0 p0).1.onFdRead RecvScript.recv
      (SocketObj.onFdReads k s0 p0).2.1).2.2.length ≤ 1 ∧
    (∀ cb ∈ ((SocketObj.onFdReads k s0 p0).1.onFdRead RecvScript.recv
        (SocketObj.onFdReads k s0 p0).2.1).2.2,
      ∃ buf len, cb = .dataRecv buf len ∧ 1 ≤ len ∧ len ≤ 65535 ∧ (buf.length : Int) = len) ∧
    (∀ (fd ev : Nat) (rest : List RecvResult),
      (SocketObj.connected fd ev).onFdRead RecvScript.recv ⟨.bytes [0, 0] :: rest, []⟩ =
        (SocketObj.connected fd ev, ⟨rest, [2]⟩, [])) := by
  have hk := onFdReads_bounds k s0 p0 h
  obtain ⟨a, _, b, c, d⟩ := onFdRead_script _ (SocketObj.onFdReads k s0 p0).2.1 hk
  exact ⟨hk, a, b, c, d, onFdRead_zero_prefix⟩

/-- The statement C29 at a connected socket and the outcomes: one prefix byte,
the second prefix byte (the prefix announces 2 bytes), an error, three bytes
where two are asked for. The three invocations request 2, then 1 and 2, then
2 bytes, and the third delivers the two payload bytes. -/
theorem C29_recv_buffer_bounds_witness :
    (SocketObj.connected 3 7).recvBounds ∧
    (SocketObj.onFdReads 3 (SocketObj.connected 3 7) ⟨demoOutcomes, []⟩).2.1.requested =
      [2, 1, 2, 2] ∧
    (SocketObj.onFdReads 3 (SocketObj.connected 3 7) ⟨demoOutcomes, []⟩).2.2 =
      [[], [], [.dataRecv [7, 8] 2]] ∧
    ((SocketObj.onFdReads 2 (SocketObj.connected 3 7) ⟨demoOutcomes, []⟩).1.onFdRead
      RecvScript.recv
      (SocketObj.onFdReads 2 (SocketObj.connected 3 7) ⟨demoOutcomes, []⟩).2.1).2.2.length ≤ 1 :=
  ⟨⟨by decide, by decide, by decide, fun h => absurd h (by decide)⟩, by decide, by decide,
    (C29_recv_buffer_bounds (SocketObj.connected 3 7) ⟨demoOutcomes, []⟩ 2
      ⟨by decide, by decide, by decide, fun h => absurd h (by decide)⟩).2.2.2.1⟩

/-! ### The start count -/

theorem finishCreateSocketObj_count (lib : Lib) (addr : Nat) (sktObj : SocketObj)
    (penv : PoolEnv) (resolver : ResolverEnv) (calls : List PlatformCall) :
    (finishCreateSocketObj lib addr sktObj penv resolver calls).lib.s_startupCount =
      lib.s_startupCount := by
  unfold finishCreateSocketObj
  dsimp only
  split <;> rfl

theorem finishCreateSrvSocketObj_count (lib : Lib) (addr : Nat) (srvSktObj : SrvSocketObj)
    (penv : PoolEnv) (calls : List PlatformCall) :
    (finishCreateSrvSocketObj lib addr srvSktObj penv calls).lib.s_startupCount =
      lib.s_startupCount := by
  unfold finishCreateSrvSocketObj
  dsimp only
  split <;> rfl

theorem shared_keeps_count (lib : Lib) (c : ApiCall) (hs : c.isShared = true) :
    (c.run lib).lib.s_startupCount = lib.s_startupCount := by
  cases c with
  | startup e => cases hs
  | cleanup env => cases hs
  | createSrvSocket args env penv =>
    simp only [ApiCall.run, CLCreateSrvSocket]
    split
    · rfl
    · split
      · rfl
      · split
        · exact finishCreateSrvSocketObj_count _ _ _ _ _
        · rfl
  | acceptCon srvSkt args aenv env penv =>
    simp only [ApiCall.run, CLAcceptCon]
    split
    · rfl
    · split
      · rfl
      · split
        · rfl
        · split
          · split
            · exact finishCreateSocketObj_count _ _ _ _ _ _
            · rfl
          · rfl
  | deleteSrvSocket srvSkt isShutdown =>
    simp only [ApiCall.run, CLDeleteSrvSocket]
    split
    · rfl
    · split <;> rfl
  | createSocket args env penv =>
    simp only [ApiCall.run, CLCreateSocket]
    split
    · rfl
    · split
      · rfl
      · split
        · exact finishCreateSocketObj_count _ _ _ _ _ _
        · rfl
  | createSocketAsync args env penv =>
    simp only [ApiCall.run, CLCreateSocketAsync]
    split
    · rfl
    · split
      · rfl
      · split
        · exact finishCreateSocketObj_count _ _ _ _ _ _
        · rfl
  | sendData skt buf len env =>
    simp only [ApiCall.run, CLSendData]
    split
    · rfl
    · split
      · rfl
      · split
        · rfl
        · split
          · rfl
          · split
            · rfl
            · split <;> rfl
  | deleteSocket skt isShutdown resolver =>
    simp only [ApiCall.run, CLDeleteSocket]
    split
    · rfl
    · split <;> rfl

theorem CLCleanup_count (lib : Lib) (env : CleanupEnv) :
    (CLCleanup lib env).lib.s_startupCount = wrapInt32 (lib.s_startupCount - 1) := by
  have hb : (CLCleanup.beforeWait lib env).lib.s_startupCount =
      wrapInt32 (lib.s_startupCount - 1) := by
    unfold CLCleanup.beforeWait
    dsimp only
    split <;> rfl
  unfold CLCleanup
  dsimp only
  split
  · exact hb
  · exact hb

theorem CLStartup_count (lib : Lib) (e : Int) (h0 : 0 ≤ lib.s_startupCount)
    (h1 : lib.s_startupCount < INT_MAX) :
    ((CLStartup lib e).ret = CL_ERR_OK →
      (CLStartup lib e).lib.s_startupCount = lib.s_startupCount + 1) ∧
    ((CLStartup lib e).ret ≠ CL_ERR_OK →
      (CLStartup lib e).lib.s_startupCount = lib.s_startupCount) := by
  have h1b : lib.s_startupCount < 2147483647 := h1
  have hw : wrapInt32 (lib.s_startupCount + 1) = lib.s_startupCount + 1 :=
    wrapInt32_of_range _ (by omega) (by omega)
  have hw2 : wrapInt32 (lib.s_startupCount + 1 - 1) = lib.s_startupCount := by
    have : lib.s_startupCount + 1 - 1 = lib.s_startupCount := by omega
    rw [this]
    exact wrapInt32_of_range _ (by omega) (by omega)
  unfold CLStartup
  dsimp only
  rw [hw]
  by_cases h1 : lib.s_startupCount + 1 = 1
  · rw [if_pos h1]
    by_cases h2 : e ≠ 0
    · rw [if_pos h2]
      refine ⟨fun h => absurd h h2, fun _ => ?_⟩
      exact hw2
    · rw [if_neg h2]
      exact ⟨fun _ => rfl, fun h => absurd rfl h⟩
  · rw [if_neg h1]
    exact ⟨fun _ => rfl, fun h => absurd rfl h⟩

/-- Along a run of matched calls that is short enough for the 32-bit count not
to overflow, the start count is the number `b` of successful `CLStartup` calls
not yet matched by a `CLCleanup`. -/
theorem runCalls_matched :
    ∀ (calls : List ApiCall) (lib : Lib) (b : Nat), lib.s_startupCount = b →
      (b : Int) + calls.length ≤ INT_MAX →
      cleanupsMatched lib b calls = true →
      0 ≤ (runCalls lib calls).s_startupCount ∧
      (runCalls lib calls).s_startupCount ≤ (b : Int) + calls.length
  | [], lib, b, h, _, _ => by
    show 0 ≤ lib.s_startupCount ∧ lib.s_startupCount ≤ (b : Int) + (([] : List ApiCall).length : Int)
    rw [h]
    simp
  | c :: cs, lib, b, h, hlen, hm => by
    have hlen2 : (b : Int) + ((cs.length + 1 : Nat) : Int) ≤ 2147483647 := hlen
    unfold cleanupsMatched at hm
    simp only [runCalls, List.length_cons]
    by_cases hc : c.isCleanup = true
    · rw [if_pos hc] at hm
      simp only [Bool.and_eq_true, decide_eq_true_eq] at hm
      have hb1 := hm.1
      have hstep : (c.run lib).lib.s_startupCount = ((b - 1 : Nat) : Int) := by
        cases c with
        | cleanup env =>
          show (CLCleanup lib env).lib.s_startupCount = _
          rw [CLCleanup_count, h, wrapInt32_of_range _ (by omega) (by omega)]
          omega
        | _ => cases hc
      obtain ⟨r1, r2⟩ := runCalls_matched cs _ (b - 1) hstep
        (by show ((b - 1 : Nat) : Int) + (cs.length : Int) ≤ 2147483647; omega) hm.2
      exact ⟨r1, by push_cast at r2 ⊢; omega⟩
    · rw [if_neg hc] at hm
      by_cases hs : (c.isStartup && decide ((c.run lib).ret = CL_ERR_OK)) = true
      · rw [if_pos hs] at hm
        simp only [Bool.and_eq_true, decide_eq_true_eq] at hs
        have hstep : (c.run lib).lib.s_startupCount = ((b + 1 : Nat) : Int) := by
          cases c with
          | startup e =>
            show (CLStartup lib e).lib.s_startupCount = _
            rw [(CLStartup_count lib e (by rw [h]; omega)
              (by show lib.s_startupCount < 2147483647; rw [h]; omega)).1 hs.2, h]
            rfl
          | _ => cases hs.1
        obtain ⟨r1, r2⟩ := runCalls_matched cs _ (b + 1) hstep
          (by show ((b + 1 : Nat) : Int) + (cs.length : Int) ≤ 2147483647; omega) hm
        exact ⟨r1, by push_cast at r2 ⊢; omega⟩
      · rw [if_neg hs] at hm
        have hstep : (c.run lib).lib.s_startupCount = (b : Int) := by
          by_cases hst : c.isStartup = true
          · cases c with
            | startup e =>
              have hne : (CLStartup lib e).ret ≠ CL_ERR_OK := by
                intro he
                apply hs
                simp only [Bool.and_eq_true, decide_eq_true_eq]
                exact ⟨rfl, he⟩
              show (CLStartup lib e).lib.s_startupCount = _
              rw [(CLStartup_count lib e (by rw [h]; omega)
                (by show lib.s_startupCount < 2147483647; rw [h]; omega)).2 hne, h]
            | _ => cases hst
          · have hsh : c.isShared = true := by
              simp [ApiCall.isShared, hc, hst]
            rw [shared_keeps_count lib c hsh, h]
        obtain ⟨r1, r2⟩ := runCalls_matched cs _ b hstep
          (by show (b : Int) + (cs.length : Int) ≤ 2147483647; omega) hm
        exact ⟨r1, by push_cast at r2 ⊢; omega⟩

theorem cleanupsMatched_append :
    ∀ (pre post : List ApiCall) (lib : Lib) (b : Nat),
      cleanupsMatched lib b (pre ++ post) = true → cleanupsMatched lib b pre = true
  | [], _, _, _, _ => rfl
  | c :: pre, post, lib, b, h => by
    simp only [List.cons_append] at h
    unfold cleanupsMatched at h ⊢
    by_cases hc : c.isCleanup = true
    · rw [if_pos hc] at h ⊢
      simp only [Bool.and_eq_true] at h ⊢
      exact ⟨h.1, cleanupsMatched_append pre post _ _ h.2⟩
    · rw [if_neg hc] at h ⊢
      by_cases hs : (c.isStartup && decide ((c.run lib).ret = CL_ERR_OK)) = true
      · rw [if_pos hs] at h ⊢
        exact cleanupsMatched_append pre post _ _ h
      · rw [if_neg hs] at h ⊢
        exact cleanupsMatched_append pre post _ _ h

/-- C30, counterexample: a `CLCleanup` that no `CLStartup` precedes takes the
start count from 0 to -1. The `CLStartup` that follows returns `CL_ERR_OK`
without starting Winsock and leaves the count at 0, so that `CLCreateSocket`
still answers `CL_ERR_NOT_INITIALIZED`. -/
theorem C30_unmatched_cleanup_negative :
    (runCalls Lib.initial demoUnmatchedCleanup).s_startupCount = -1 ∧
    (CLStartup (runCalls Lib.initial demoUnmatchedCleanup) 0).ret = CL_ERR_OK ∧
    (CLStartup (runCalls Lib.initial demoUnmatchedCleanup) 0).lib.s_startupCount = 0 ∧
    (CLStartup (runCalls Lib.initial demoUnmatchedCleanup) 0).calls = [] ∧
    (CLCreateSocket (CLStartup (runCalls Lib.initial demoUnmatchedCleanup) 0).lib
      demoSocketArgs (demoCreateEnv 1000 3 7) (demoPoolEnv 500)).ret =
        CL_ERR_NOT_INITIALIZED := by
  refine ⟨by decide, by decide, by decide, by decide, by decide⟩

/-- C30, amended (start count under matched calls). Let `calls` be any sequence
of fewer than `INT_MAX` calls of the public interface from the initial state
in which every `CLCleanup` has a matching earlier `CLStartup` that returned
`CL_ERR_OK`. Then the start count is at least 0 after the sequence and after
each of its beginnings, and after a further `CLStartup` that returns
`CL_ERR_OK` the start count is at least 1, so that the test
`s_startupCount <= 0` of the other functions fails: `CLSendData` with a null
buffer answers `CL_ERR_ILLEGAL_ARG`, not `CL_ERR_NOT_INITIALIZED`. (With
`INT_MAX` unmatched successful `CLStartup` calls the 32-bit count overflows at
the next one.) -/
theorem C30_start_count_matched (calls : List ApiCall)
    (hlen : (calls.length : Int) < INT_MAX)
    (hm : cleanupsMatched Lib.initial 0 calls = true) :
    0 ≤ (runCalls Lib.initial calls).s_startupCount ∧
    (∀ n, 0 ≤ (runCalls Lib.initial (calls.take n)).s_startupCount) ∧
    (∀ e, (CLStartup (runCalls Lib.initial calls) e).ret = CL_ERR_OK →
      1 ≤ (CLStartup (runCalls Lib.initial calls) e).lib.s_startupCount ∧
      ¬ (CLStartup (runCalls Lib.initial calls) e).lib.s_startupCount ≤ 0 ∧
      ∀ skt len env,
        (CLSendData (CLStartup (runCalls Lib.initial calls) e).lib skt none len env).ret =
          CL_ERR_ILLEGAL_ARG) := by
  have hlen2 : (calls.length : Int) < 2147483647 := hlen
  obtain ⟨h0, hle⟩ := runCalls_matched calls Lib.initial 0 rfl
    (by show ((0 : Nat) : Int) + (calls.length : Int) ≤ 2147483647; omega) hm
  refine ⟨h0, fun n => ?_, fun e he => ?_⟩
  · have hsplit : calls.take n ++ calls.drop n = calls := List.take_append_drop n calls
    have hl : (calls.take n).length ≤ calls.length := by
      rw [List.length_take]
      exact Nat.min_le_right _ _
    rw [← hsplit] at hm
    exact (runCalls_matched _ Lib.initial 0 rfl
      (by show ((0 : Nat) : Int) + ((calls.take n).length : Int) ≤ 2147483647; omega)
      (cleanupsMatched_append _ _ _ _ hm)).1
  · have hc := (CLStartup_count (runCalls Lib.initial calls) e h0
      (by show (runCalls Lib.initial calls).s_startupCount < 2147483647; omega)).1 he
    have h1 : 1 ≤ (CLStartup (runCalls Lib.initial calls) e).lib.s_startupCount := by
      rw [hc]
      omega
    have h2 : ¬ (CLStartup (runCalls Lib.initial calls) e).lib.s_startupCount ≤ 0 := by
      omega
    refine ⟨h1, h2, fun skt len env => ?_⟩
    unfold CLSendData
    rw [if_neg h2]
    rfl

/-- The amended statement C30 at a failed `CLStartup`, a successful one and a
`CLCleanup`: the calls are matched, the count is 0 afterwards and 1 after the
second call. -/
theorem C30_start_count_matched_witness :
    (demoMatchedCalls.length : Int) < INT_MAX ∧
    cleanupsMatched Lib.initial 0 demoMatchedCalls = true ∧
    (runCalls Lib.initial (demoMatchedCalls.take 2)).s_startupCount = 1 ∧
    (runCalls Lib.initial demoMatchedCalls).s_startupCount = 0 ∧
    0 ≤ (runCalls Lib.initial demoMatchedCalls).s_startupCount :=
  ⟨by decide, by decide, by decide, by decide,
    (C30_start_count_matched demoMatchedCalls (by decide) (by decide)).1⟩

/-! ### Descriptors along a run of calls -/

theorem early_descriptors (lib : Lib) (ret : Int) (s : List Nat) (hs : s.Perm lib.descriptors) :
    (openDescriptors s (ApiResult.early lib ret).calls).Perm (ApiResult.early lib ret).lib.descriptors :=
  hs

end Comlib
